import Mathlib

/-!
# ELF debug-info acquisition (coregrind/m_debuginfo/readelf.c)

A shallow embedding of the ELF reader of `readelf.c` and the properties of it
that the specification states.

Conventions of the embedding.

* Machine integers are natural numbers; every C operation that can wrap is
  written with an explicit reduction modulo the width of its C type.  The fields
  of the ELF structures, of the mappings and of the DebugInfo hold values of
  their C types, and are compared as such.
* The compile-time parameters of the build (`VG_WORDSIZE`, `VG_ELF_CLASS`, the
  `VGP_*` platform, ...) are the fields of `Target`.
* An object image (`DiImage`) is a size, its bytes, and the structures that
  `ML_(img_get)` copies out of it at a given offset.
* A function of the source that can stop at a failed `vg_assert`, or inside the
  image layer at a read outside the image, returns `Res.crash` there.  A
  `goto out` with `res == False` is `Res.fail`, which carries the diagnostic and
  the `DebugInfo` as it is left.
* Messages and tracing (`VG_(message)`, `TRACE_SYMTAB`) do not change the state
  and are left out; the diagnostic of `ML_(symerr)` is kept in `Res.fail`.
* Strings (`HChar*`) are lists of bytes without the terminating NUL.
-/

namespace Readelf

/-! ## Build parameters and machine arithmetic -/

/-- The `VGP_*` platform the reader is compiled for. -/
inductive Platform where
  | x86_linux
  | amd64_linux
  | arm_linux
  | s390x_linux
  | mips32_linux
  | mips64_linux
  | ppc32_linux
  | ppc64_linux
  deriving DecidableEq, Repr

/-- Compile-time parameters of the build: they come from headers that are not
part of `readelf.c` (`pub_core_machine.h`, `priv_storage.h`, `vki-*.h`). -/
structure Target where
  /-- The platform, `VGP_*`. -/
  plat : Platform
  /-- Whether `VGPV_arm_linux_android` or `VGPV_x86_linux_android` is defined. -/
  android : Bool
  /-- The word size in bytes, `VG_WORDSIZE`: 4 or 8. -/
  wordsize : Nat
  /-- The ELF class of the target, `VG_ELF_CLASS`. -/
  elf_class : Nat
  /-- The ELF data encoding of the target, `VG_ELF_DATA2XXX`. -/
  elf_data : Nat
  /-- The ELF machine of the target, `VG_ELF_MACHINE`. -/
  elf_machine : Nat
  /-- The page size, `VKI_PAGE_SIZE`. -/
  page_size : Nat
  /-- The number of `.eh_frame` slots, `N_EHFRAME_SECTS`. -/
  n_ehframe_sects : Nat
  deriving Repr

/-- Number of bits of a machine word (`UWord`, `Addr`, `SizeT`, `Word`). -/
def Target.wbits (t : Target) : Nat := 8 * t.wordsize

/-- Two to the word width. -/
def Target.wmod (t : Target) : Nat := 2 ^ t.wbits

/-- Addition of two words, as the C `+` on `UWord` computes it. -/
def addW (t : Target) (a b : Nat) : Nat := (a + b) % t.wmod

/-- Subtraction of two words, as the C `-` on `UWord` computes it. -/
def subW (t : Target) (a b : Nat) : Nat := (a + (t.wmod - b % t.wmod)) % t.wmod

/-- Multiplication of two words. -/
def mulW (t : Target) (a b : Nat) : Nat := (a * b) % t.wmod

/-- Unary minus on a word. -/
def negW (t : Target) (a : Nat) : Nat := (t.wmod - a % t.wmod) % t.wmod

/-- Whether a word, read as the signed type `Word`, is negative. -/
def isNegW (t : Target) (a : Nat) : Bool := decide (t.wmod / 2 ≤ a % t.wmod)

/-- Two to the 64: the width of `DiOffT` and `ULong`. -/
def mod64 : Nat := 2 ^ 64

/-- Addition of two image offsets (`DiOffT` is a 64-bit unsigned type). -/
def add64 (a b : Nat) : Nat := (a + b) % mod64

/-- Conversion of a signed word (`Word`, `OffT`) to the 64-bit unsigned type
`DiOffT`: the value is sign-extended when the word is narrower. -/
def sext64 (t : Target) (a : Nat) : Nat :=
  if isNegW t a then (a % t.wmod + (mod64 - t.wmod)) % mod64 else a % t.wmod

/-- The invalid image offset, `DiOffT_INVALID`. -/
def DiOffT_INVALID : Nat := 0xFFFFFFFFFFFFFFFF

/-- The helper `INDEX_BIS`: `base + idx * scale` on `DiOffT`. -/
def INDEX_BIS (base idx scale : Nat) : Nat := (base + idx * scale) % mod64

/-! ## Constants of the ELF format (from the system header `elf.h`) -/

def EI_MAG0 : Nat := 0
def EI_MAG1 : Nat := 1
def EI_MAG2 : Nat := 2
def EI_MAG3 : Nat := 3
def EI_CLASS : Nat := 4
def EI_DATA : Nat := 5
def EI_VERSION : Nat := 6
def EV_CURRENT : Nat := 1
def ET_REL : Nat := 1
def ET_EXEC : Nat := 2
def ET_DYN : Nat := 3
def SHN_UNDEF : Nat := 0
def PT_LOAD : Nat := 1
def PT_DYNAMIC : Nat := 2
def PF_X : Nat := 1
def PF_W : Nat := 2
def PF_R : Nat := 4
def DT_NULL : Nat := 0
def DT_STRTAB : Nat := 5
def DT_SONAME : Nat := 14
def SHT_NOBITS : Nat := 8
def STB_LOCAL : Nat := 0
def STB_GLOBAL : Nat := 1
def STB_WEAK : Nat := 2
def STT_NOTYPE : Nat := 0
def STT_OBJECT : Nat := 1
def STT_FUNC : Nat := 2
def STT_GNU_IFUNC : Nat := 10

/-- The binding of a symbol, `ELFXX_ST_BIND`. -/
def ELFXX_ST_BIND (info : Nat) : Nat := (info % 256) / 16

/-- The type of a symbol, `ELFXX_ST_TYPE`. -/
def ELFXX_ST_TYPE (info : Nat) : Nat := info % 16

/-! ## ELF structures -/

/-- The ELF header, `ElfXX_Ehdr` (the fields the reader uses). -/
structure ElfXX_Ehdr where
  e_ident : Nat → Nat
  e_type : Nat
  e_machine : Nat
  e_version : Nat
  e_phoff : Nat
  e_shoff : Nat
  e_phentsize : Nat
  e_phnum : Nat
  e_shentsize : Nat
  e_shnum : Nat
  e_shstrndx : Nat

/-- A program header, `ElfXX_Phdr`. -/
structure ElfXX_Phdr where
  p_type : Nat
  p_flags : Nat
  p_offset : Nat
  p_vaddr : Nat
  p_filesz : Nat
  p_memsz : Nat
  p_align : Nat
  deriving DecidableEq, Repr

/-- A section header, `ElfXX_Shdr`. -/
structure ElfXX_Shdr where
  sh_name : Nat
  sh_type : Nat
  sh_addr : Nat
  sh_offset : Nat
  sh_size : Nat
  sh_addralign : Nat
  deriving DecidableEq, Repr

/-- An entry of the dynamic section, `ElfXX_Dyn`; `d_un` is the union of
`d_val` and `d_ptr`. -/
structure ElfXX_Dyn where
  d_tag : Nat
  d_un : Nat
  deriving DecidableEq, Repr

/-- A symbol-table entry, `ElfXX_Sym`. -/
structure ElfXX_Sym where
  st_name : Nat
  st_info : Nat
  st_shndx : Nat
  st_value : Nat
  st_size : Nat
  deriving DecidableEq, Repr

/-- The header of a note, `ElfXX_Nhdr`; its three fields are 32-bit words. -/
structure ElfXX_Nhdr where
  n_namesz : Nat
  n_descsz : Nat
  n_type : Nat
  deriving DecidableEq, Repr

/-- Size of `ElfXX_Ehdr` in bytes. -/
def sizeof_Ehdr (t : Target) : Nat := if t.wordsize = 4 then 52 else 64

/-- Size of `ElfXX_Phdr` in bytes. -/
def sizeof_Phdr (t : Target) : Nat := if t.wordsize = 4 then 32 else 56

/-- Size of `ElfXX_Shdr` in bytes. -/
def sizeof_Shdr (t : Target) : Nat := if t.wordsize = 4 then 40 else 64

/-- Size of `ElfXX_Dyn` in bytes. -/
def sizeof_Dyn (t : Target) : Nat := if t.wordsize = 4 then 8 else 16

/-- Size of `ElfXX_Sym` in bytes. -/
def sizeof_Sym (t : Target) : Nat := if t.wordsize = 4 then 16 else 24

/-- Size of `ElfXX_Nhdr` in bytes. -/
def sizeof_Nhdr : Nat := 12

/-! ## The image layer -/

/-- Modelled from the spec: the image abstraction `DiImage` of `priv_image.h`,
which is not part of `readelf.c`.  An image is a byte source of a given size;
`byte off` is the byte at offset `off`, and `ehdr off`, `phdr off`, ... are the
structures that `ML_(img_get)` copies out of the bytes starting at `off`;
`uint off` is the result of `ML_(img_get_UInt)`, and `crc32` the result of
`ML_(img_calc_gnu_debuglink_crc32)`. -/
structure DiImage where
  size : Nat
  byte : Nat → Nat
  ehdr : Nat → ElfXX_Ehdr
  phdr : Nat → ElfXX_Phdr
  shdr : Nat → ElfXX_Shdr
  dyn : Nat → ElfXX_Dyn
  sym : Nat → ElfXX_Sym
  ulong : Nat → Nat
  nhdr : Nat → ElfXX_Nhdr := fun _ => ⟨0, 0, 0⟩
  uint : Nat → Nat := fun _ => 0
  crc32 : Nat := 0

/-- Modelled from the spec: `ML_(img_valid)`, true iff `[off, off+len)` lies
wholly inside the image. -/
def img_valid (img : DiImage) (off len : Nat) : Bool := decide (off + len ≤ img.size)

/-- Modelled from the spec: `ML_(img_size)`. -/
def img_size (img : DiImage) : Nat := img.size

/-- Modelled from the spec: `ML_(img_get)` of an `ElfXX_Ehdr`.  Its precondition
is `img_valid`; the image layer does not return from a read outside the image,
which is the result `none`. -/
def img_get_Ehdr (t : Target) (img : DiImage) (off : Nat) : Option ElfXX_Ehdr :=
  if img_valid img off (sizeof_Ehdr t) then some (img.ehdr off) else none

/-- Modelled from the spec: `ML_(img_get)` of an `ElfXX_Phdr`. -/
def img_get_Phdr (t : Target) (img : DiImage) (off : Nat) : Option ElfXX_Phdr :=
  if img_valid img off (sizeof_Phdr t) then some (img.phdr off) else none

/-- Modelled from the spec: `ML_(img_get)` of an `ElfXX_Shdr`. -/
def img_get_Shdr (t : Target) (img : DiImage) (off : Nat) : Option ElfXX_Shdr :=
  if img_valid img off (sizeof_Shdr t) then some (img.shdr off) else none

/-- Modelled from the spec: `ML_(img_get)` of an `ElfXX_Dyn`. -/
def img_get_Dyn (t : Target) (img : DiImage) (off : Nat) : Option ElfXX_Dyn :=
  if img_valid img off (sizeof_Dyn t) then some (img.dyn off) else none

/-- Modelled from the spec: `ML_(img_get_UChar)`. -/
def img_get_UChar (img : DiImage) (off : Nat) : Option Nat :=
  if img_valid img off 1 then some (img.byte off % 256) else none

/-- The bytes of a NUL-terminated string that starts at `off`, read with at most
`fuel` byte reads; `none` when the image ends before a NUL is found. -/
def img_strdup_aux (img : DiImage) : Nat → Nat → Option (List Nat)
  | 0, _ => none
  | fuel + 1, off =>
    match img_get_UChar img off with
    | none => none
    | some c =>
      if c = 0 then some []
      else (img_strdup_aux img fuel (off + 1)).map (fun s => c :: s)

/-- Modelled from the spec: `ML_(img_strdup)`, which reads the NUL-terminated
bytes starting at `off`.  Where no NUL-terminated string lies inside the image
at `off` the result is `none`: the image layer does not return, and no caller
tests the result. -/
def img_strdup (img : DiImage) (off : Nat) : Option (List Nat) :=
  img_strdup_aux img (img.size - off) off

/-- The bytes of a C string literal. -/
def cstr (s : String) : List Nat := s.toList.map Char.toNat

/-! ## The ELF identifier -/

/-- The C conversion of a truth value to `Int`. -/
def b2i (b : Bool) : Nat := if b then 1 else 0

/-- The function `ML_(is_elf_object_file)` (readelf.c:112).  The pointer `image`
is viewed through `ElfXX_Ehdr*`, so it is given as the header `ehdr`. -/
def is_elf_object_file (t : Target) (ehdr : ElfXX_Ehdr) (n_image : Nat) (rel_ok : Bool) : Bool :=
  let ok : Nat := 1
  if n_image < sizeof_Ehdr t then false
  else
    let ok := Nat.land ok (b2i (ehdr.e_ident EI_MAG0 == 0x7F
                && ehdr.e_ident EI_MAG1 == 'E'.toNat
                && ehdr.e_ident EI_MAG2 == 'L'.toNat
                && ehdr.e_ident EI_MAG3 == 'F'.toNat))
    let ok := Nat.land ok (b2i (ehdr.e_ident EI_CLASS == t.elf_class
                && ehdr.e_ident EI_DATA == t.elf_data
                && ehdr.e_ident EI_VERSION == EV_CURRENT))
    let ok := Nat.land ok (b2i (ehdr.e_type == ET_EXEC || ehdr.e_type == ET_DYN
                || (rel_ok && ehdr.e_type == ET_REL)))
    let ok := Nat.land ok (b2i (ehdr.e_machine == t.elf_machine))
    let ok := Nat.land ok (b2i (ehdr.e_version == EV_CURRENT))
    let ok := Nat.land ok (b2i (ehdr.e_shstrndx != SHN_UNDEF))
    let ok := Nat.land ok (b2i (ehdr.e_shoff != 0 && ehdr.e_shnum != 0))
    let ok := Nat.land ok (b2i ((ehdr.e_phoff != 0 && ehdr.e_phnum != 0)
                || ehdr.e_type == ET_REL))
    ok != 0

/-- The function `is_elf_object_file_by_DiImage` (readelf.c:142).  The result is
`none` when the assertion `sizeof(ElfXX_Ehdr) <= 512` fails. -/
def is_elf_object_file_by_DiImage (t : Target) (img : DiImage) (rel_ok : Bool) : Option Bool :=
  if ¬ (sizeof_Ehdr t ≤ 512) then none
  else if !img_valid img 0 (sizeof_Ehdr t) then some false
  else
    match img_get_Ehdr t img 0 with
    | none => none
    | some ehdr => some (is_elf_object_file t ehdr (sizeof_Ehdr t) rel_ok)

/-! ## The DebugInfo -/

/-- One entry of the mapping inventory `di->fsm.maps`, a
`struct _DebugInfoMapping`. -/
structure DebugInfoMapping where
  avma : Nat
  size : Nat
  foff : Nat
  rx : Bool
  rw : Bool
  deriving DecidableEq, Repr

/-- The fields `di->S_present`, `di->S_svma`, `di->S_avma`, `di->S_size`,
`di->S_bias`, `di->S_debug_svma` and `di->S_debug_bias` that a `DebugInfo`
holds for each section `S` of text, data, sdata, rodata, bss and sbss. -/
structure SecRec where
  present : Bool
  svma : Nat
  avma : Nat
  size : Nat
  bias : Nat
  debug_svma : Nat
  debug_bias : Nat
  deriving DecidableEq, Repr

/-- The fields `di->S_present`, `di->S_avma` and `di->S_size` that a `DebugInfo`
holds for each section `S` of got, gotplt, plt and opd. -/
structure SecAddr where
  present : Bool
  avma : Nat
  size : Nat
  deriving DecidableEq, Repr

/-- The part of `struct _DebugInfo` that the reader consults and writes.  The
pointers `symtab`, `loctab`, `cfsi`, `cfsi_exprs` and `strchunks` are only tested
against NULL here: `has_symtab` etc. say whether they are non-NULL. -/
structure DebugInfo where
  filename : Option (List Nat)
  maps : List DebugInfoMapping
  have_rx_map : Bool
  have_rw_map : Bool
  have_dinfo : Bool
  has_symtab : Bool
  has_loctab : Bool
  has_cfsi : Bool
  has_cfsi_exprs : Bool
  has_strchunks : Bool
  soname : Option (List Nat)
  text : SecRec
  data : SecRec
  sdata : SecRec
  rodata : SecRec
  bss : SecRec
  sbss : SecRec
  got : SecAddr
  gotplt : SecAddr
  plt : SecAddr
  opd : SecAddr
  n_ehframe : Nat
  ehframe_avma : Nat → Nat
  ehframe_size : Nat → Nat

/-- Outcome of a part of the reader. -/
inductive Res (α : Type) where
  /-- An assertion failed, or the image layer stopped at a read outside the
  image: the function does not return.  Also the outcome of a read beyond the end
  of a string in memory, for which the source defines no result. -/
  | crash : Res α
  /-- The function returns False (`goto out` with `res == False`) after the
  diagnostic `err`, leaving the DebugInfo `di`. -/
  | fail (err : String) (di : DebugInfo) : Res α
  /-- The part ran to its end. -/
  | ok (a : α) : Res α

/-- Sequencing of two parts of the reader. -/
def Res.bind {α β : Type} (r : Res α) (f : α → Res β) : Res β :=
  match r with
  | Res.crash => Res.crash
  | Res.fail e d => Res.fail e d
  | Res.ok a => f a

/-- A C loop `for (i = i0; i < i0 + n; i++) body`, whose body can fail or stop
the function. -/
def forRes {σ : Type} (body : σ → Nat → Res σ) : Nat → Nat → σ → Res σ
  | 0, _, s => Res.ok s
  | n + 1, i, s => (body s i).bind (forRes body n (i + 1))

/-! ## Program headers -/

/-- The local type `RangeAndBias` of `ML_(read_elf_debug_info)`. -/
structure RangeAndBias where
  svma_base : Nat
  svma_limit : Nat
  bias : Nat
  exec : Bool
  deriving DecidableEq, Repr

/-- The function `file_offset_from_svma` (readelf.c:1335), as a loop over the
`n` entries that remain from entry `i` on.  The result is `none` when a read of
a program header stops the image layer, and else the pair of `*ok` and the
returned offset. -/
def file_offset_from_svma_loop (t : Target) (svma : Nat) (img : DiImage)
    (phdr_ioff phdr_ent_szB : Nat) : Nat → Nat → Option (Bool × Nat)
  | 0, _ => some (false, 0)
  | n + 1, i =>
    match img_get_Phdr t img (INDEX_BIS phdr_ioff i phdr_ent_szB) with
    | none => none
    | some seg =>
      if seg.p_type ≠ PT_LOAD then
        file_offset_from_svma_loop t svma img phdr_ioff phdr_ent_szB n (i + 1)
      else if svma ≥ Nat.land seg.p_vaddr (negW t seg.p_align)
              ∧ addW t svma 1 ≤ addW t seg.p_vaddr seg.p_filesz then
        some (true, addW t (subW t svma seg.p_vaddr) seg.p_offset)
      else
        file_offset_from_svma_loop t svma img phdr_ioff phdr_ent_szB n (i + 1)

/-- The function `file_offset_from_svma` (readelf.c:1335). -/
def file_offset_from_svma (t : Target) (svma : Nat) (img : DiImage)
    (phdr_ioff phdr_nent phdr_ent_szB : Nat) : Option (Bool × Nat) :=
  file_offset_from_svma_loop t svma img phdr_ioff phdr_ent_szB phdr_nent 0

/-- Whether the mapping `map` holds the file range of the PT_LOAD entry `a_phdr`:
the test of readelf.c:1626-1630. -/
def map_holds (t : Target) (a_phdr : ElfXX_Phdr) (map : DebugInfoMapping) : Bool :=
  (map.rx || map.rw)
  && decide (a_phdr.p_offset ≥ map.foff)
  && decide (a_phdr.p_offset < addW t map.foff map.size)
  && decide (addW t a_phdr.p_offset a_phdr.p_filesz ≤ addW t map.foff map.size)

/-- The test `map->rw && (p_flags & (PF_R|PF_W)) == (PF_R|PF_W)` of
readelf.c:1636. -/
def acquired_rw (a_phdr : ElfXX_Phdr) (map : DebugInfoMapping) : Bool :=
  map.rw && (Nat.land a_phdr.p_flags (Nat.lor PF_R PF_W) == Nat.lor PF_R PF_W)

/-- The test `map->rx && (p_flags & (PF_R|PF_X)) == (PF_R|PF_X)` of
readelf.c:1644. -/
def acquired_rx (a_phdr : ElfXX_Phdr) (map : DebugInfoMapping) : Bool :=
  map.rx && (Nat.land a_phdr.p_flags (Nat.lor PF_R PF_X) == Nat.lor PF_R PF_X)

/-- The `item` built at readelf.c:1631-1635 for a PT_LOAD entry and a mapping. -/
def load_item (t : Target) (a_phdr : ElfXX_Phdr) (map : DebugInfoMapping) (exec : Bool) :
    RangeAndBias :=
  { svma_base := a_phdr.p_vaddr
    svma_limit := addW t a_phdr.p_vaddr a_phdr.p_memsz
    bias := subW t (addW t (subW t map.avma map.foff) a_phdr.p_offset) a_phdr.p_vaddr
    exec := exec }

/-- One iteration of the loop over the mappings (readelf.c:1624-1653); the state
is `svma_ranges` and the flag `loaded`. -/
def load_map_step (t : Target) (a_phdr : ElfXX_Phdr) (acc : List RangeAndBias × Bool)
    (map : DebugInfoMapping) : List RangeAndBias × Bool :=
  if map_holds t a_phdr map then
    let acc1 := if acquired_rw a_phdr map
                then (acc.1 ++ [load_item t a_phdr map false], true) else acc
    let acc2 := if acquired_rx a_phdr map
                then (acc1.1 ++ [load_item t a_phdr map true], true) else acc1
    acc2
  else acc

/-- The variables of `ML_(read_elf_debug_info)` that locate the header tables of
the main image. -/
structure MainHdrs where
  ehdr_mioff : Nat
  phdr_mioff : Nat
  phdr_mnent : Nat
  phdr_ment_szB : Nat
  shdr_mioff : Nat
  shdr_mnent : Nat
  shdr_ment_szB : Nat
  shdr_strtab_mioff : Nat
  deriving DecidableEq, Repr

/-- The `j`-th dynamic entry of the segment described by the program header `a`:
what `ML_(img_get)` copies out at readelf.c:1678. -/
def dyn_entry (t : Target) (mimg : DiImage) (hd : MainHdrs) (a : ElfXX_Phdr) (j : Nat) :
    ElfXX_Dyn :=
  mimg.dyn (INDEX_BIS (add64 hd.ehdr_mioff a.p_offset) j (sizeof_Dyn t))

/-- What one iteration of the walk over a dynamic segment does. -/
inductive DynStep where
  /-- The entry is DT_NULL: the walk ends (`break`). -/
  | done
  /-- The walk goes on to the next entry with these `stroff` and
  `strtab_mioff`. -/
  | next (stroff strtab_mioff : Nat)
  /-- The read of the entry, or of a program header in `file_offset_from_svma`,
  stops the function. -/
  | crash
  /-- The function fails with "Invalid DT_STRTAB offset". -/
  | fail

/-- One iteration of the walk over a dynamic segment (readelf.c:1677-1709), at
entry `j` with the current `stroff` and `strtab_mioff`: the entry is read, and
the switch on its tag records DT_SONAME and DT_STRTAB. -/
def dyn_step (t : Target) (mimg : DiImage) (hd : MainHdrs) (a : ElfXX_Phdr)
    (j stroff strtab_mioff : Nat) : DynStep :=
  if img_valid mimg (INDEX_BIS (add64 hd.ehdr_mioff a.p_offset) j (sizeof_Dyn t))
      (sizeof_Dyn t) then
    if (dyn_entry t mimg hd a j).d_tag = DT_NULL then DynStep.done
    else if (dyn_entry t mimg hd a j).d_tag = DT_SONAME then
      DynStep.next (dyn_entry t mimg hd a j).d_un strtab_mioff
    else if (dyn_entry t mimg hd a j).d_tag = DT_STRTAB then
      match file_offset_from_svma t (dyn_entry t mimg hd a j).d_un mimg
              hd.phdr_mioff hd.phdr_mnent hd.phdr_ment_szB with
      | none => DynStep.crash
      | some (ok2, offset) =>
        if ok2 && strtab_mioff == DiOffT_INVALID then
          if !img_valid mimg (sext64 t offset) 1 then DynStep.fail
          else DynStep.next stroff (add64 hd.ehdr_mioff (sext64 t offset))
        else DynStep.next stroff strtab_mioff
    else DynStep.next stroff strtab_mioff
  else DynStep.crash

/-- The walk over the entries of a PT_DYNAMIC segment (readelf.c:1676-1710),
from entry `j` on, with the current `stroff` and `strtab_mioff`.  The walk ends
at DT_NULL, or stops the function at the first entry that is not inside the
image; `fuel` bounds the number of entries visited. -/
def dyn_walk (t : Target) (mimg : DiImage) (di : DebugInfo) (h : MainHdrs)
    (a_phdr : ElfXX_Phdr) : Nat → Nat → Nat → Nat → Res (Nat × Nat)
  | 0, _, _, _ => Res.crash
  | fuel + 1, j, stroff, strtab_mioff =>
    match dyn_step t mimg h a_phdr j stroff strtab_mioff with
    | DynStep.done => Res.ok (stroff, strtab_mioff)
    | DynStep.next s1 s2 => dyn_walk t mimg di h a_phdr fuel (j + 1) s1 s2
    | DynStep.crash => Res.crash
    | DynStep.fail => Res.fail "Invalid DT_STRTAB offset" di

/-- The state of the loop over the program headers: the DebugInfo (of which the
loop writes `soname`), `prev_svma` and `svma_ranges`. -/
structure PhdrScan where
  di : DebugInfo
  prev_svma : Nat
  svma_ranges : List RangeAndBias

/-- The PT_LOAD part of one iteration of the loop over the program headers
(readelf.c:1607-1667). -/
def phdr_load (t : Target) (a_phdr : ElfXX_Phdr) (st : PhdrScan) : Res PhdrScan :=
  if a_phdr.p_type = PT_LOAD then
    if a_phdr.p_vaddr < st.prev_svma then
      Res.fail "ELF Program Headers are not in ascending order" st.di
    else
      if a_phdr.p_memsz > 0 then
        let r := st.di.maps.foldl (load_map_step t a_phdr) (st.svma_ranges, false)
        if !r.2 then
          Res.fail "ELF section outside all mapped regions" { st.di with soname := none }
        else Res.ok { st with prev_svma := a_phdr.p_vaddr, svma_ranges := r.1 }
      else Res.ok { st with prev_svma := a_phdr.p_vaddr }
  else Res.ok st

/-- The PT_DYNAMIC part of one iteration of the loop over the program headers
(readelf.c:1673-1716).  An image of `size` bytes holds fewer than `size + 1`
dynamic entries, which bounds the walk. -/
def phdr_dynamic (t : Target) (mimg : DiImage) (h : MainHdrs) (a_phdr : ElfXX_Phdr)
    (st : PhdrScan) : Res PhdrScan :=
  if a_phdr.p_type = PT_DYNAMIC ∧ st.di.soname = none then
    (dyn_walk t mimg st.di h a_phdr (mimg.size + 1) 0 (negW t 1) DiOffT_INVALID).bind
      fun r =>
        if r.1 ≠ negW t 1 ∧ r.2 ≠ DiOffT_INVALID then
          match img_strdup mimg (add64 r.2 (sext64 t r.1)) with
          | none => Res.crash
          | some s => Res.ok { st with di := { st.di with soname := some s } }
        else Res.ok st
  else Res.ok st

/-- One iteration of the loop over the program headers (readelf.c:1596-1717). -/
def phdr_step (t : Target) (mimg : DiImage) (h : MainHdrs) (st : PhdrScan) (i : Nat) :
    Res PhdrScan :=
  match img_get_Phdr t mimg (INDEX_BIS h.phdr_mioff i h.phdr_ment_szB) with
  | none => Res.crash
  | some a_phdr => (phdr_load t a_phdr st).bind (phdr_dynamic t mimg h a_phdr)

/-- The loop over the program headers (readelf.c:1592-1720). -/
def scan_program_headers (t : Target) (mimg : DiImage) (h : MainHdrs) (di : DebugInfo) :
    Res PhdrScan :=
  forRes (phdr_step t mimg h) h.phdr_mnent 0
    { di := di, prev_svma := 0, svma_ranges := [] }


/-! ## Section headers -/

/-- Modelled from the spec: `VG_(log2)` of `pub_core_libcbase.h`, which returns
the exponent when its argument is a power of two and -1 otherwise. -/
def VG_log2 (x : Nat) : Int :=
  match (List.range 32).find? (fun i => 2 ^ i == x) with
  | some i => (i : Int)
  | none => -1

/-- The loop that sets `inrx` and `inrw` (readelf.c:1780-1793), over the load
ranges that remain, with the current values of the two pointers. -/
def find_inrx_inrw (svma : Nat) :
    List RangeAndBias → Option RangeAndBias → Option RangeAndBias →
      Option RangeAndBias × Option RangeAndBias
  | [], inrx, inrw => (inrx, inrw)
  | rng :: rest, inrx, inrw =>
    if svma ≥ rng.svma_base ∧ svma < rng.svma_limit then
      let p : Option RangeAndBias × Option RangeAndBias :=
        if inrx.isNone && rng.exec then (some rng, inrw)
        else if inrw.isNone && !rng.exec then (inrx, some rng)
        else (inrx, inrw)
      if p.1.isSome && p.2.isSome then p
      else find_inrx_inrw svma rest p.1 p.2
    else find_inrx_inrw svma rest inrx inrw

/-- The state of the loop over the section headers: the DebugInfo and the locals
`dynbss_present` and `sdynbss_present`. -/
structure ShdrScan where
  di : DebugInfo
  dynbss_present : Bool
  sdynbss_present : Bool

/-- The macro `BAD` (readelf.c:1822): a diagnostic, `di->soname = NULL`, and
`goto out`. -/
def BAD {α : Type} (secname : String) (di : DebugInfo) : Res α :=
  Res.fail ("Can't make sense of " ++ secname ++ " section mapping") { di with soname := none }

/-- The seven assignments made when a section of text, data, sdata, rodata, bss
or sbss is acquired from the load range `rng` (e.g. readelf.c:1839-1845). -/
def acquire (t : Target) (svma size : Nat) (rng : RangeAndBias) : SecRec :=
  { present := true
    svma := svma
    avma := addW t svma rng.bias
    size := size
    bias := rng.bias
    debug_svma := svma
    debug_bias := rng.bias }

/-- The three assignments made when a section of got, gotplt, plt or opd is
acquired from the load range `rng` (e.g. readelf.c:2067-2069). -/
def acquire_addr (t : Target) (svma size : Nat) (rng : RangeAndBias) : SecAddr :=
  { present := true, avma := addW t svma rng.bias, size := size }

/-- The properties of one section header that the classification uses. -/
structure SecHdr where
  name : List Nat
  svma : Nat
  size : Nat
  inrx : Option RangeAndBias
  inrw : Option RangeAndBias

/-- The block for `.text` (readelf.c:1837-1856). -/
def sec_text (t : Target) (s : SecHdr) (st : ShdrScan) : Res ShdrScan :=
  if s.name = cstr ".text" then
    match s.inrx with
    | some inrx =>
      if !st.di.text.present then
        Res.ok { st with di := { st.di with text := acquire t s.svma s.size inrx } }
      else BAD ".text" st.di
    | none => BAD ".text" st.di
  else Res.ok st

/-- The block for `.data` (readelf.c:1859-1878). -/
def sec_data (t : Target) (s : SecHdr) (st : ShdrScan) : Res ShdrScan :=
  if s.name = cstr ".data" then
    match s.inrw with
    | some inrw =>
      if !st.di.data.present then
        Res.ok { st with di := { st.di with data := acquire t s.svma s.size inrw } }
      else BAD ".data" st.di
    | none => BAD ".data" st.di
  else Res.ok st

/-- The block for `.sdata` (readelf.c:1881-1900). -/
def sec_sdata (t : Target) (s : SecHdr) (st : ShdrScan) : Res ShdrScan :=
  if s.name = cstr ".sdata" then
    match s.inrw with
    | some inrw =>
      if !st.di.sdata.present then
        Res.ok { st with di := { st.di with sdata := acquire t s.svma s.size inrw } }
      else BAD ".sdata" st.di
    | none => BAD ".sdata" st.di
  else Res.ok st

/-- The block for `.rodata` (readelf.c:1903-1923). -/
def sec_rodata (t : Target) (s : SecHdr) (st : ShdrScan) : Res ShdrScan :=
  if s.name = cstr ".rodata" then
    match s.inrx with
    | some inrx =>
      if !st.di.rodata.present then
        Res.ok { st with di := { st.di with rodata := acquire t s.svma s.size inrx } }
      else BAD ".rodata" st.di
    | none => BAD ".rodata" st.di
  else Res.ok st

/-- The block for `.dynbss` (readelf.c:1925-1943). -/
def sec_dynbss (t : Target) (s : SecHdr) (st : ShdrScan) : Res ShdrScan :=
  if s.name = cstr ".dynbss" then
    match s.inrw with
    | some inrw =>
      if !st.di.bss.present then
        Res.ok { st with
          dynbss_present := true
          di := { st.di with bss := acquire t s.svma s.size inrw } }
      else Res.ok st
    | none => Res.ok st
  else Res.ok st

/-- The record of a section that is treated as absent, with the debug fields
cleared too (readelf.c:1981-1987). -/
def SecRec.cleared : SecRec :=
  { present := false, svma := 0, avma := 0, size := 0, bias := 0,
    debug_svma := 0, debug_bias := 0 }

/-- The block for `.bss` (readelf.c:1946-2008). -/
def sec_bss (t : Target) (s : SecHdr) (st : ShdrScan) : Res ShdrScan :=
  if s.name = cstr ".bss" then
    if s.inrw.isSome && st.dynbss_present then
      if !st.di.bss.present then Res.crash
      else if addW t st.di.bss.svma st.di.bss.size ≠ s.svma then Res.crash
      else
        Res.ok { st with
          dynbss_present := false
          di := { st.di with bss := { st.di.bss with size := addW t st.di.bss.size s.size } } }
    else
      match s.inrw with
      | some inrw =>
        if !st.di.bss.present then
          Res.ok { st with di := { st.di with bss := acquire t s.svma s.size inrw } }
        else BAD ".bss" st.di
      | none =>
        if s.inrx.isSome && !st.di.bss.present then
          Res.ok { st with di := { st.di with bss := SecRec.cleared } }
        else if s.inrx.isNone && !st.di.bss.present then
          Res.ok { st with
            di := { st.di with
              bss := { st.di.bss with present := false, svma := 0, avma := 0, size := 0,
                                      bias := 0 } } }
        else BAD ".bss" st.di
  else Res.ok st

/-- The block for `.sdynbss` (readelf.c:2010-2028). -/
def sec_sdynbss (t : Target) (s : SecHdr) (st : ShdrScan) : Res ShdrScan :=
  if s.name = cstr ".sdynbss" then
    match s.inrw with
    | some inrw =>
      if !st.di.sbss.present then
        Res.ok { st with
          sdynbss_present := true
          di := { st.di with sbss := acquire t s.svma s.size inrw } }
      else Res.ok st
    | none => Res.ok st
  else Res.ok st

/-- The block for `.sbss` (readelf.c:2031-2062). -/
def sec_sbss (t : Target) (s : SecHdr) (st : ShdrScan) : Res ShdrScan :=
  if s.name = cstr ".sbss" then
    if s.inrw.isSome && st.sdynbss_present then
      if !st.di.sbss.present then Res.crash
      else if addW t st.di.sbss.svma st.di.sbss.size ≠ s.svma then Res.crash
      else
        Res.ok { st with
          sdynbss_present := false
          di := { st.di with
            sbss := { st.di.sbss with size := addW t st.di.sbss.size s.size } } }
    else
      match s.inrw with
      | some inrw =>
        if !st.di.sbss.present then
          Res.ok { st with di := { st.di with sbss := acquire t s.svma s.size inrw } }
        else BAD ".sbss" st.di
      | none => BAD ".sbss" st.di
  else Res.ok st

/-- The block for `.got` (readelf.c:2065-2074). -/
def sec_got (t : Target) (s : SecHdr) (st : ShdrScan) : Res ShdrScan :=
  if s.name = cstr ".got" then
    match s.inrw with
    | some inrw =>
      if !st.di.got.present then
        Res.ok { st with di := { st.di with got := acquire_addr t s.svma s.size inrw } }
      else BAD ".got" st.di
    | none => BAD ".got" st.di
  else Res.ok st

/-- The block for `.got.plt` (readelf.c:2077-2086). -/
def sec_gotplt (t : Target) (s : SecHdr) (st : ShdrScan) : Res ShdrScan :=
  if s.name = cstr ".got.plt" then
    match s.inrw with
    | some inrw =>
      if !st.di.gotplt.present then
        Res.ok { st with di := { st.di with gotplt := acquire_addr t s.svma s.size inrw } }
      else if s.size ≠ 0 then BAD ".got.plt" st.di
      else Res.ok st
    | none =>
      if s.size ≠ 0 then BAD ".got.plt" st.di
      else Res.ok st
  else Res.ok st

/-- The block for `.plt` (readelf.c:2089-2137), which depends on the platform. -/
def sec_plt (t : Target) (s : SecHdr) (st : ShdrScan) : Res ShdrScan :=
  if s.name = cstr ".plt" then
    match t.plat with
    | Platform.ppc32_linux =>
      match s.inrw with
      | some inrw =>
        if !st.di.plt.present then
          Res.ok { st with di := { st.di with plt := acquire_addr t s.svma s.size inrw } }
        else BAD ".plt" st.di
      | none => BAD ".plt" st.di
    | Platform.ppc64_linux =>
      match s.inrw with
      | some inrw =>
        if !st.di.plt.present then
          Res.ok { st with di := { st.di with plt := acquire_addr t s.svma s.size inrw } }
        else BAD ".plt" st.di
      | none =>
        if s.inrx.isNone && decide (s.size > 0) && !st.di.plt.present then
          Res.ok { st with
            di := { st.di with plt := { present := true, avma := 0, size := 0 } } }
        else BAD ".plt" st.di
    | _ =>
      match s.inrx with
      | some inrx =>
        if !st.di.plt.present then
          Res.ok { st with di := { st.di with plt := acquire_addr t s.svma s.size inrx } }
        else BAD ".plt" st.di
      | none => BAD ".plt" st.di
  else Res.ok st

/-- The block for `.opd` (readelf.c:2140-2149). -/
def sec_opd (t : Target) (s : SecHdr) (st : ShdrScan) : Res ShdrScan :=
  if s.name = cstr ".opd" then
    match s.inrw with
    | some inrw =>
      if !st.di.opd.present then
        Res.ok { st with di := { st.di with opd := acquire_addr t s.svma s.size inrw } }
      else BAD ".opd" st.di
    | none => BAD ".opd" st.di
  else Res.ok st

/-- The assignments that record one `.eh_frame` section from the load range
`rng` (readelf.c:2157-2161). -/
def record_ehframe (t : Target) (s : SecHdr) (rng : RangeAndBias) (di : DebugInfo) :
    DebugInfo :=
  { di with
    ehframe_avma := Function.update di.ehframe_avma di.n_ehframe (addW t s.svma rng.bias)
    ehframe_size := Function.update di.ehframe_size di.n_ehframe s.size
    n_ehframe := di.n_ehframe + 1 }

/-- The block for `.eh_frame` (readelf.c:2155-2172). -/
def sec_ehframe (t : Target) (s : SecHdr) (st : ShdrScan) : Res ShdrScan :=
  if s.name = cstr ".eh_frame" then
    match s.inrx, s.inrw with
    | some inrx, _ =>
      if st.di.n_ehframe < t.n_ehframe_sects then
        Res.ok { st with di := record_ehframe t s inrx st.di }
      else BAD ".eh_frame" st.di
    | none, some inrw =>
      if st.di.n_ehframe < t.n_ehframe_sects then
        Res.ok { st with di := record_ehframe t s inrw st.di }
      else BAD ".eh_frame" st.di
    | none, none => BAD ".eh_frame" st.di
  else Res.ok st

/-- The classification of one section of non-zero size (readelf.c:1833-2172):
the blocks run one after the other. -/
def classify_section (t : Target) (s : SecHdr) (st : ShdrScan) : Res ShdrScan :=
  (sec_text t s st).bind fun st =>
  (sec_data t s st).bind fun st =>
  (sec_sdata t s st).bind fun st =>
  (sec_rodata t s st).bind fun st =>
  (sec_dynbss t s st).bind fun st =>
  (sec_bss t s st).bind fun st =>
  (sec_sdynbss t s st).bind fun st =>
  (sec_sbss t s st).bind fun st =>
  (sec_got t s st).bind fun st =>
  (sec_gotplt t s st).bind fun st =>
  (sec_plt t s st).bind fun st =>
  (sec_opd t s st).bind fun st =>
  sec_ehframe t s st

/-- The checks made on a section header before it is classified
(readelf.c:1800-1820), and then its classification. -/
def check_and_classify (t : Target) (mimg : DiImage) (a_shdr : ElfXX_Shdr) (s : SecHdr)
    (st : ShdrScan) : Res ShdrScan :=
  let foff := a_shdr.sh_offset
  let alyn := a_shdr.sh_addralign % 2 ^ 32
  let bits := !(a_shdr.sh_type == SHT_NOBITS)
  if sext64 t foff ≥ img_size mimg
      ∨ addW t foff (if bits then s.size else 0) > img_size mimg then
    Res.fail "ELF Section extends beyond image end" st.di
  else if alyn > 0 ∧ VG_log2 alyn = -1 then
    Res.fail "ELF Section contains invalid .sh_addralign value" st.di
  else if s.size = 0 then Res.ok st
  else classify_section t s st

/-- One iteration of the first loop over the section headers
(readelf.c:1765-2178). -/
def shdr_step (t : Target) (mimg : DiImage) (h : MainHdrs) (svma_ranges : List RangeAndBias)
    (st : ShdrScan) (i : Nat) : Res ShdrScan :=
  match img_get_Shdr t mimg (INDEX_BIS h.shdr_mioff i h.shdr_ment_szB) with
  | none => Res.crash
  | some a_shdr =>
    match img_strdup mimg (add64 h.shdr_strtab_mioff a_shdr.sh_name) with
    | none => Res.crash
    | some name =>
      let p := find_inrx_inrw a_shdr.sh_addr svma_ranges none none
      check_and_classify t mimg a_shdr
        { name := name, svma := a_shdr.sh_addr, size := a_shdr.sh_size,
          inrx := p.1, inrw := p.2 } st

/-- The first loop over the section headers (readelf.c:1765-2178). -/
def scan_section_headers (t : Target) (mimg : DiImage) (h : MainHdrs)
    (svma_ranges : List RangeAndBias) (di : DebugInfo) : Res ShdrScan :=
  forRes (shdr_step t mimg h svma_ranges) h.shdr_mnent 0
    { di := di, dynbss_present := false, sdynbss_present := false }

/-! ## The entry of the reader and its first part -/

/-- The assertions at the entry of `ML_(read_elf_debug_info)`
(readelf.c:1443-1473); `di` itself is non-NULL. -/
def entry_asserts (t : Target) (di : DebugInfo) : Bool :=
  di.have_rx_map && di.have_rw_map && !di.have_dinfo && di.filename.isSome
  && !di.has_symtab && !di.has_loctab && !di.has_cfsi && !di.has_cfsi_exprs
  && !di.has_strchunks && di.soname.isNone
  && di.maps.all (fun map => (!map.rx && !map.rw) || Nat.land map.avma (t.page_size - 1) == 0)
  && di.maps.any (fun map => (map.rx || map.rw) && map.rx && decide (map.size > 0))
  && di.maps.any (fun map => (map.rx || map.rw) && map.rw && decide (map.size > 0))

/-- The part of `ML_(read_elf_debug_info)` that locates and checks the header
tables of the main image (readelf.c:1505-1577). -/
def locate_headers (t : Target) (mimg : DiImage) (di : DebugInfo) : Res MainHdrs :=
  match is_elf_object_file_by_DiImage t mimg false with
  | none => Res.crash
  | some false => Res.fail "Invalid ELF Header" di
  | some true =>
    let ehdr_mioff := 0
    match img_get_Ehdr t mimg ehdr_mioff with
    | none => Res.crash
    | some ehdr_m =>
      let phdr_mioff := add64 ehdr_mioff ehdr_m.e_phoff
      let phdr_mnent := ehdr_m.e_phnum
      let phdr_ment_szB := ehdr_m.e_phentsize
      let shdr_mioff := add64 ehdr_mioff ehdr_m.e_shoff
      let shdr_mnent := ehdr_m.e_shnum
      let shdr_ment_szB := ehdr_m.e_shentsize
      if phdr_mnent = 0 ∨ !img_valid mimg phdr_mioff (mulW t phdr_mnent phdr_ment_szB) then
        Res.fail "Missing or invalid ELF Program Header Table" di
      else if shdr_mnent = 0
          ∨ !img_valid mimg shdr_mioff (mulW t shdr_mnent shdr_ment_szB) then
        Res.fail "Missing or invalid ELF Section Header Table" di
      else if ehdr_m.e_shstrndx = SHN_UNDEF then Res.crash
      else
        match img_get_Shdr t mimg (INDEX_BIS shdr_mioff ehdr_m.e_shstrndx shdr_ment_szB) with
        | none => Res.crash
        | some a_shdr =>
          let shdr_strtab_mioff := add64 ehdr_mioff a_shdr.sh_offset
          if !img_valid mimg shdr_strtab_mioff 1 then
            Res.fail "Invalid ELF Section Header String Table" di
          else
            Res.ok { ehdr_mioff := ehdr_mioff, phdr_mioff := phdr_mioff,
                     phdr_mnent := phdr_mnent, phdr_ment_szB := phdr_ment_szB,
                     shdr_mioff := shdr_mioff, shdr_mnent := shdr_mnent,
                     shdr_ment_szB := shdr_ment_szB,
                     shdr_strtab_mioff := shdr_strtab_mioff }

/-- What the first part of `ML_(read_elf_debug_info)` hands to the rest of the
function: the DebugInfo, the header tables and the load ranges. -/
structure Discovered where
  di : DebugInfo
  hdrs : MainHdrs
  svma_ranges : List RangeAndBias

/-- The fake soname `"NONE"` (readelf.c:1728). -/
def soname_NONE : List Nat := cstr "NONE"

/-- The first part of `ML_(read_elf_debug_info)` (readelf.c:1443-2178): from the
entry assertions to the end of the first loop over the section headers.  The
argument `mimg` is the result of `ML_(img_from_local_file)(di->fsm.filename)`.

* `Res.fail err di` : the function returns False, leaving `di` (the block at
  `out:` releases the images and the ranges and does not write the DebugInfo).
* `Res.ok d` : the function goes on, with the state `d`, to find the debug-info
  sections and to read the symbols. -/
def read_elf_debug_info_sections (t : Target) (mimg : Option DiImage) (di : DebugInfo) :
    Res Discovered :=
  if !entry_asserts t di then Res.crash
  else
    match mimg with
    | none => Res.fail "connection to image failed" di
    | some mimg =>
      (locate_headers t mimg di).bind fun h =>
      (scan_program_headers t mimg h di).bind fun ps =>
        let di1 : DebugInfo :=
          if ps.di.soname = none then { ps.di with soname := some soname_NONE } else ps.di
        if ps.svma_ranges.length = 0 then Res.crash
        else
          (scan_section_headers t mimg h ps.svma_ranges di1).bind fun ss =>
            Res.ok { di := ss.di, hdrs := h, svma_ranges := ps.svma_ranges }


/-! ## The per-symbol filter -/

/-- A slice of an image, `DiSlice`: an image, an offset in it and a size. -/
structure DiSlice where
  img : Option DiImage
  ioff : Nat
  szB : Nat

/-- The invalid slice, `DiSlice_INVALID`. -/
def DiSlice_INVALID : DiSlice := { img := none, ioff := DiOffT_INVALID, szB := 0 }

/-- Modelled from the spec: `ML_(find_rx_mapping)` of `storage.c`, which is not
part of `readelf.c`: the first mapping of the inventory that is `rx` and covers
`[lo, hi)`, if there is one.  The comment at readelf.c:646 records that it
asserts when the range wraps around, which is the result `none`. -/
def find_rx_mapping (di : DebugInfo) (lo hi : Nat) : Option (Option DebugInfoMapping) :=
  if hi < lo then none
  else some (di.maps.find? fun map =>
    map.rx && decide (map.avma ≤ lo) && decide (hi ≤ map.avma + map.size))

/-- The outputs of `get_elf_symbol_info`. -/
structure SymInfo where
  sym_name_out_ioff : Nat
  sym_avma_out : Nat
  sym_size_out : Nat
  sym_tocptr_out : Nat
  from_opd_out : Bool
  is_text_out : Bool
  is_ifunc : Bool
  deriving DecidableEq, Repr

/-- The symbol size restricted to a signed 32-bit int (readelf.c:265-270). -/
def clamp_size (t : Target) (st_size : Nat) : Nat :=
  let size_tmp := if isNegW t st_size then 1 else st_size % t.wmod
  let max_Int := 2 ^ 31 - 1
  if size_tmp > max_Int then max_Int else size_tmp

/-- The test `S_present && S_size > 0 && svma >= S_svma && svma < S_svma + S_size`
of readelf.c:322-362, for the svma `svma0` chosen for the section. -/
def svma_in_sec (t : Target) (s : SecRec) (svma0 sym_svma : Nat) : Bool :=
  s.present && decide (s.size > 0) && decide (sym_svma ≥ svma0)
  && decide (sym_svma < addW t svma0 s.size)

/-- The choice of the section a symbol is biased by (readelf.c:291-367): the
pair of `*is_text_out` and the bias that is added to the address. -/
def choose_bias (t : Target) (di : DebugInfo) (symtab_in_debug : Bool) (sym_svma : Nat) :
    Bool × Nat :=
  let sv (s : SecRec) : Nat := if symtab_in_debug then s.debug_svma else s.svma
  let bi (s : SecRec) : Nat := if symtab_in_debug then s.debug_bias else s.bias
  if svma_in_sec t di.text (sv di.text) sym_svma then (true, bi di.text)
  else if svma_in_sec t di.data (sv di.data) sym_svma then (false, bi di.data)
  else if svma_in_sec t di.sdata (sv di.sdata) sym_svma then (false, bi di.sdata)
  else if svma_in_sec t di.rodata (sv di.rodata) sym_svma then (false, bi di.rodata)
  else if svma_in_sec t di.bss (sv di.bss) sym_svma then (false, bi di.bss)
  else if svma_in_sec t di.sbss (sv di.sbss) sym_svma then (false, bi di.sbss)
  else (true, bi di.text)

/-- The test `present && size > 0 && avma >= S_avma && avma < S_avma + S_size`
used for got, plt and opd (readelf.c:451, 463, 488). -/
def avma_in_addr (t : Target) (s : SecAddr) (avma : Nat) : Bool :=
  s.present && decide (s.size > 0) && decide (avma ≥ s.avma)
  && decide (avma < addW t s.avma s.size)

/-- The tests `in_text`, `in_data`, ... of readelf.c:600-634: whether some part
of `[avma, avma + size)` falls within the section. -/
def overlaps_sec (t : Target) (s : SecRec) (avma size : Nat) : Bool :=
  s.present && decide (s.size > 0)
  && !(decide (addW t avma size ≤ s.avma) || decide (avma ≥ addW t s.avma s.size))

/-- The dereference of an `.opd` entry on ppc64-linux (readelf.c:501-575), for a
symbol whose address `avma` lies in `.opd`.  The result is `none` when the
function stops, `some none` when it returns False, and else the new address and
the TOC pointer. -/
def opd_deref (t : Target) (di : DebugInfo) (escn_opd : DiSlice) (opd_bias avma : Nat) :
    Option (Option (Nat × Nat)) :=
  if Nat.land avma 7 ≠ 0 then some none
  else
    let offset_in_opd := subW t avma di.opd.avma % 2 ^ 32
    if offset_in_opd ≥ 2 ^ 31 ∨ offset_in_opd ≥ di.opd.size then some none
    else
      match escn_opd.img with
      | none => none
      | some img =>
        let off := add64 escn_opd.ioff offset_in_opd
        if !img_valid img off 16 then some none
        else
          some (some ((add64 (img.ulong off) (sext64 t opd_bias)) % t.wmod,
                      (add64 (img.ulong (off + 8)) (sext64 t opd_bias)) % t.wmod))

/-- The last part of `get_elf_symbol_info` (readelf.c:597-683): the check that
some part of the symbol falls within the mapped range, and on ppc64-linux the
final assertion that the symbol does not overlap `.opd`.  The argument `out`
holds the outputs as the first part of the function has set them. -/
def sym_range_check (t : Target) (di : DebugInfo) (out : SymInfo) :
    Option (Option SymInfo) :=
  let ppc64 : Bool := decide (t.plat = Platform.ppc64_linux)
  let avma := out.sym_avma_out
  let size := out.sym_size_out
  let in_text := overlaps_sec t di.text avma size
  let in_data := overlaps_sec t di.data avma size
  let in_sdata := overlaps_sec t di.sdata avma size
  let in_rodata := overlaps_sec t di.rodata avma size
  let in_bss := overlaps_sec t di.bss avma size
  let in_sbss := overlaps_sec t di.sbss avma size
  let acquire_it : Option (Option SymInfo) :=
    if ppc64 && di.opd.present && decide (di.opd.size > 0)
        && !(decide (addW t avma size ≤ di.opd.avma)
             || decide (avma ≥ addW t di.opd.avma di.opd.size)) then none
    else some (some out)
  if out.is_text_out then
    if !di.have_rx_map then none
    else
      match find_rx_mapping di avma (addW t avma size) with
      | none => none
      | some in_rx =>
        if in_text && in_rx.isNone then none
        else if in_rx.isNone then some none
        else acquire_it
  else
    if !(in_data || in_sdata || in_rodata || in_bss || in_sbss) then some none
    else acquire_it

/-- The function `get_elf_symbol_info` (readelf.c:224).  The result is `none`
when an assertion fails or a read stops the image layer, `some none` when the
function returns False, and `some (some out)` when it returns True with the
outputs `out`. -/
def get_elf_symbol_info (t : Target) (di : DebugInfo) (sym : ElfXX_Sym) (sym_name_ioff : Nat)
    (escn_strtab : DiSlice) (sym_svma : Nat) (symtab_in_debug : Bool) (escn_opd : DiSlice)
    (opd_bias : Nat) : Option (Option SymInfo) :=
  let ppc64 : Bool := decide (t.plat = Platform.ppc64_linux)
  let size0 := clamp_size t sym.st_size
  let bnd := ELFXX_ST_BIND sym.st_info
  let typ := ELFXX_ST_TYPE sym.st_info
  let plaus0 : Bool :=
    (bnd == STB_GLOBAL || bnd == STB_LOCAL || bnd == STB_WEAK)
    && (typ == STT_FUNC || typ == STT_OBJECT || typ == STT_GNU_IFUNC)
  let cb := choose_bias t di symtab_in_debug sym_svma
  let is_text := cb.1
  let avma0 := addW t sym_svma cb.2
  let is_ifunc : Bool := is_text && typ == STT_GNU_IFUNC
  let plaus : Bool :=
    plaus0 || (ppc64 && is_text && typ == STT_NOTYPE && decide (size0 > 0)
               && avma_in_addr t di.opd avma0)
  if !plaus then some none
  else
    -- ignore if nameless
    let nameless : Option Bool :=
      if sym_name_ioff = DiOffT_INVALID then some true
      else
        match escn_strtab.img with
        | none => none
        | some simg => (img_get_UChar simg sym_name_ioff).map (fun c => c == 0)
    match nameless with
    | none => none
    | some true => some none
    | some false =>
      -- ignore if zero-sized, except on Android
      if size0 = 0 ∧ !t.android then some none
      else
        let size := if size0 = 0 then 2048 else size0
        if sym.st_value % 2 ^ 32 = 0 then some none
        else if avma_in_addr t di.got avma0 then some none
        else if avma_in_addr t di.plt avma0 then some none
        else
          -- the .opd hack
          let opd : Option (Option (Nat × Nat × Bool)) :=
            if avma_in_addr t di.opd avma0 then
              if !ppc64 then some none
              else (opd_deref t di escn_opd opd_bias avma0).map
                     (fun r => r.map (fun p => (p.1, p.2, true)))
            else some (some (avma0, 0, false))
          match opd with
          | none => none
          | some none => some none
          | some (some (avma, tocptr, is_in_opd)) =>
            -- the leading dot, on ppc64-linux
            let dot : Option Bool :=
              if ppc64 && decide (di.opd.size > 0) && !is_in_opd
                  && decide (sym_name_ioff ≠ DiOffT_INVALID) then
                match escn_strtab.img with
                | none => none
                | some simg => (img_get_UChar simg sym_name_ioff).map (fun c => c == '.'.toNat)
              else some false
            match dot with
            | none => none
            | some dot =>
              sym_range_check t di
                { sym_name_out_ioff := if dot then add64 sym_name_ioff 1 else sym_name_ioff
                  sym_avma_out := avma, sym_size_out := size,
                  sym_tocptr_out := tocptr, from_opd_out := is_in_opd,
                  is_text_out := is_text, is_ifunc := is_ifunc }

/-! ## Properties and invariants

The properties that the specification states, in its words, and the invariants
of the loops that the proofs use. -/

/-- The section fields of `d` are those of `di`: the present flags, svma, avma,
size, bias, debug_svma and debug_bias of text, data, sdata, rodata, bss and
sbss, the fields of got, gotplt, plt and opd, `n_ehframe` and the ehframe
arrays. -/
def sections_unchanged (di d : DebugInfo) : Prop :=
  d.text = di.text ∧ d.data = di.data ∧ d.sdata = di.sdata ∧ d.rodata = di.rodata
  ∧ d.bss = di.bss ∧ d.sbss = di.sbss
  ∧ d.got = di.got ∧ d.gotplt = di.gotplt ∧ d.plt = di.plt ∧ d.opd = di.opd
  ∧ d.n_ehframe = di.n_ehframe ∧ d.ehframe_avma = di.ehframe_avma
  ∧ d.ehframe_size = di.ehframe_size

/-- The DebugInfo `d` is `di` up to the field `soname`. -/
def same_but_soname (di d : DebugInfo) : Prop := ∃ s, d = { di with soname := s }

/-- No two load ranges of the list overlap in SVMA. -/
def ranges_disjoint (l : List RangeAndBias) : Prop :=
  l.Pairwise fun a b => a.svma_limit ≤ b.svma_base ∨ b.svma_limit ≤ a.svma_base

/-- The property of the load ranges that the loop over the program headers
maintains: every range comes from a PT_LOAD entry before entry `k`, has a base
that is at most `prev_svma`, and the bases are in ascending order. -/
def ranges_inv (t : Target) (mimg : DiImage) (hd : MainHdrs) (k : Nat) (st : PhdrScan) :
    Prop :=
  (∀ r ∈ st.svma_ranges, ∃ i a, i < k
      ∧ img_get_Phdr t mimg (INDEX_BIS hd.phdr_mioff i hd.phdr_ment_szB) = some a
      ∧ a.p_type = PT_LOAD ∧ 0 < a.p_memsz
      ∧ r.svma_base = a.p_vaddr ∧ r.svma_limit = addW t a.p_vaddr a.p_memsz)
  ∧ (∀ r ∈ st.svma_ranges, r.svma_base ≤ st.prev_svma)
  ∧ List.Pairwise (fun a b : RangeAndBias => a.svma_base ≤ b.svma_base) st.svma_ranges

/-- The matching of the specification: the file-offset window `[foff, foff+size)`
of the mapping wholly contains `[p_offset, p_offset+p_filesz)`. -/
def file_window_contains (a : ElfXX_Phdr) (map : DebugInfoMapping) : Prop :=
  map.foff ≤ a.p_offset ∧ a.p_offset + a.p_filesz ≤ map.foff + map.size

/-- The DebugInfo with which the first loop over the section headers starts: the
one the scan of the program headers left, with the fake soname "NONE" if no
soname was found (readelf.c:1726-1729). -/
def with_soname_default (di : DebugInfo) : DebugInfo :=
  if di.soname = none then { di with soname := some soname_NONE } else di

/-- The first load range of the list that contains `svma` and has the given
`exec` flag, in the words of the specification. -/
def first_range (ranges : List RangeAndBias) (svma : Nat) (exec : Bool) :
    Option RangeAndBias :=
  ranges.find? fun r =>
    decide (r.svma_base ≤ svma) && decide (svma < r.svma_limit) && (r.exec == exec)

/-- What the specification states of a section record that is present:
`avma = svma + bias`, where `bias` is the bias of the first load range that
contains `svma` with the given `exec` flag, and `debug_svma = svma`,
`debug_bias = bias`. -/
def sec_ok (t : Target) (ranges : List RangeAndBias) (exec : Bool) (s : SecRec) : Prop :=
  s.present = true →
    s.avma = addW t s.svma s.bias
    ∧ (∃ r, first_range ranges s.svma exec = some r ∧ s.bias = r.bias)
    ∧ s.debug_svma = s.svma ∧ s.debug_bias = s.bias

/-- The six section records of a DebugInfo satisfy `sec_ok`: text and rodata for
exec=true, data, sdata, bss and sbss for exec=false. -/
def sections_ok (t : Target) (ranges : List RangeAndBias) (di : DebugInfo) : Prop :=
  sec_ok t ranges true di.text ∧ sec_ok t ranges false di.data
  ∧ sec_ok t ranges false di.sdata ∧ sec_ok t ranges true di.rodata
  ∧ sec_ok t ranges false di.bss ∧ sec_ok t ranges false di.sbss

/-- None of the six sections text, data, sdata, rodata, bss, sbss is recorded as
present. -/
def no_section_present (di : DebugInfo) : Prop :=
  di.text.present = false ∧ di.data.present = false ∧ di.sdata.present = false
  ∧ di.rodata.present = false ∧ di.bss.present = false ∧ di.sbss.present = false

/-- The `i`-th program header of the main image. -/
def phdr_entry (mimg : DiImage) (hd : MainHdrs) (i : Nat) : ElfXX_Phdr :=
  mimg.phdr (INDEX_BIS hd.phdr_mioff i hd.phdr_ment_szB)

/-- The walk over the dynamic segment of the program header `a` does not give
both pieces of the soname: when it ends, `stroff` is still -1 or `strtab_mioff`
is still `DiOffT_INVALID`. -/
def no_soname_pieces (t : Target) (mimg : DiImage) (hd : MainHdrs) (a : ElfXX_Phdr) : Prop :=
  ∀ (di1 : DebugInfo) (r : Nat × Nat),
    dyn_walk t mimg di1 hd a (mimg.size + 1) 0 (negW t 1) DiOffT_INVALID = Res.ok r →
      r.1 = negW t 1 ∨ r.2 = DiOffT_INVALID

/-- The state of the soname after the first `k` program headers: either it is
still NULL and no PT_DYNAMIC entry so far gave both pieces, or it is the string
found through the first PT_DYNAMIC entry that gave both pieces. -/
def soname_inv (t : Target) (mimg : DiImage) (hd : MainHdrs) (k : Nat)
    (soname : Option (List Nat)) : Prop :=
  (soname = none
    ∧ ∀ i, i < k → (phdr_entry mimg hd i).p_type = PT_DYNAMIC →
        no_soname_pieces t mimg hd (phdr_entry mimg hd i))
  ∨ ∃ k0, k0 < k ∧ (phdr_entry mimg hd k0).p_type = PT_DYNAMIC
      ∧ (∀ i, i < k0 → (phdr_entry mimg hd i).p_type = PT_DYNAMIC →
          no_soname_pieces t mimg hd (phdr_entry mimg hd i))
      ∧ ∃ di1 stroff strtab_mioff str,
          dyn_walk t mimg di1 hd (phdr_entry mimg hd k0) (mimg.size + 1) 0 (negW t 1)
              DiOffT_INVALID = Res.ok (stroff, strtab_mioff)
          ∧ stroff ≠ negW t 1 ∧ strtab_mioff ≠ DiOffT_INVALID
          ∧ img_strdup mimg (add64 strtab_mioff (sext64 t stroff)) = some str
          ∧ soname = some str

/-- The range `[avma, avma+size)` lies within the AVMA range of a section that is
present, in the words of the specification. -/
def within_sec (s : SecRec) (avma size : Nat) : Prop :=
  s.present = true ∧ s.avma ≤ avma ∧ avma + size ≤ s.avma + s.size

/-- The range `[lo, hi)` is covered by an rx mapping of the inventory. -/
def covered_by_rx (di : DebugInfo) (lo hi : Nat) : Prop :=
  ∃ map ∈ di.maps, map.rx = true ∧ map.avma ≤ lo ∧ hi ≤ map.avma + map.size

/-- What the specification states of an accepted symbol: `0 < avma`, the range
`[avma, avma+size)` lies within one of the six recognised sections, and for a
text symbol that range is covered by an rx mapping. -/
def accepted_as_specified (di : DebugInfo) (out : SymInfo) : Prop :=
  0 < out.sym_avma_out
  ∧ (within_sec di.text out.sym_avma_out out.sym_size_out
      ∨ within_sec di.data out.sym_avma_out out.sym_size_out
      ∨ within_sec di.sdata out.sym_avma_out out.sym_size_out
      ∨ within_sec di.rodata out.sym_avma_out out.sym_size_out
      ∨ within_sec di.bss out.sym_avma_out out.sym_size_out
      ∨ within_sec di.sbss out.sym_avma_out out.sym_size_out)
  ∧ (out.is_text_out = true →
      covered_by_rx di out.sym_avma_out (out.sym_avma_out + out.sym_size_out))

/-! ## Concrete inputs

The images below are written for an amd64-linux build.  Each is given by its size
and by what lies at the offsets the reader visits. -/

/-- An amd64-linux build. -/
def amd64 : Target :=
  { plat := Platform.amd64_linux, android := false, wordsize := 8, elf_class := 2,
    elf_data := 1, elf_machine := 62, page_size := 4096, n_ehframe_sects := 2 }

/-- The bytes of a C string literal followed by its terminating NUL. -/
def cstr0 (s : String) : List Nat := cstr s ++ [0]

/-- An image of `size` bytes with the ELF header `eh` at offset 0, the program
headers `phs` in a table at offset 64, the section headers `shs` in a table at
offset 0x2100, the bytes `strs` at offset 0x2040, and the dynamic entries `dyns`
in a table at offset 0x2400. -/
def mkImage (size : Nat) (eh : ElfXX_Ehdr) (phs : List ElfXX_Phdr) (shs : List ElfXX_Shdr)
    (strs : List Nat) (dyns : List ElfXX_Dyn) : DiImage :=
  { size := size
    byte := fun off => if 0x2040 ≤ off then strs.getD (off - 0x2040) 0 else 0
    ehdr := fun _ => eh
    phdr := fun off => phs.getD ((off - 64) / 56) ⟨0, 0, 0, 0, 0, 0, 0⟩
    shdr := fun off => shs.getD ((off - 0x2100) / 64) ⟨0, 0, 0, 0, 0, 0⟩
    dyn := fun off => dyns.getD ((off - 0x2400) / 16) ⟨0, 0⟩
    sym := fun _ => ⟨0, 0, 0, 0, 0⟩
    ulong := fun _ => 0 }

/-- The `e_ident` bytes of a 64-bit little-endian ELF file. -/
def ident64 (i : Nat) : Nat :=
  [0x7F, 'E'.toNat, 'L'.toNat, 'F'.toNat, 2, 1, 1].getD i 0

/-- The ELF header of a shared object for amd64 with `phnum` program headers at
offset 64 and `shnum` section headers at offset 0x2100, of which the last one is
the section-name string table. -/
def mkEhdr (phnum shnum : Nat) : ElfXX_Ehdr :=
  { e_ident := ident64, e_type := ET_DYN, e_machine := 62, e_version := 1,
    e_phoff := 64, e_shoff := 0x2100, e_phentsize := 56, e_phnum := phnum,
    e_shentsize := 64, e_shnum := shnum, e_shstrndx := shnum - 1 }

/-- The PT_LOAD entry of scenario 1 with flags R|X: offset 0, vaddr 0, filesz
0x1500. -/
def ph_rx : ElfXX_Phdr :=
  { p_type := PT_LOAD, p_flags := 5, p_offset := 0, p_vaddr := 0, p_filesz := 0x1500,
    p_memsz := 0x1500, p_align := 0x1000 }

/-- The PT_LOAD entry of scenario 1 with flags R|W: offset 0x2000, vaddr 0x2000,
filesz 0x40. -/
def ph_rw : ElfXX_Phdr :=
  { p_type := PT_LOAD, p_flags := 6, p_offset := 0x2000, p_vaddr := 0x2000, p_filesz := 0x40,
    p_memsz := 0x40, p_align := 0x1000 }

/-- The section names of the scenario images: the bytes at offset 0x2040. -/
def scen_strs : List Nat :=
  [0] ++ cstr0 ".text" ++ cstr0 ".data" ++ cstr0 ".shstrtab" ++ cstr0 ".bss"
    ++ cstr0 "libfoo.so.1"

/-- The null section header. -/
def sh_null : ElfXX_Shdr :=
  { sh_name := 0, sh_type := 0, sh_addr := 0, sh_offset := 0, sh_size := 0, sh_addralign := 0 }

/-- The section `.text` of scenario 1: SVMA 0x1000, size 0x500. -/
def sh_text : ElfXX_Shdr :=
  { sh_name := 1, sh_type := 1, sh_addr := 0x1000, sh_offset := 0x1000, sh_size := 0x500,
    sh_addralign := 16 }

/-- The section `.data` of scenario 1: SVMA 0x2000, size 0x40. -/
def sh_data : ElfXX_Shdr :=
  { sh_name := 7, sh_type := 1, sh_addr := 0x2000, sh_offset := 0x2000, sh_size := 0x40,
    sh_addralign := 8 }

/-- The section-name string table, which is not loaded. -/
def sh_shstrtab : ElfXX_Shdr :=
  { sh_name := 13, sh_type := 3, sh_addr := 0x8000, sh_offset := 0x2040, sh_size := 40,
    sh_addralign := 1 }

/-- The image of scenario 1. -/
def scen1_img : DiImage :=
  mkImage 0x3000 (mkEhdr 2 4) [ph_rx, ph_rw] [sh_null, sh_text, sh_data, sh_shstrtab]
    scen_strs []

/-- A DebugInfo on which nothing has been read yet, with the mapping inventory
`maps`. -/
def fresh_di (maps : List DebugInfoMapping) : DebugInfo :=
  { filename := some (cstr "/tmp/obj/libmain.so"), maps := maps,
    have_rx_map := true, have_rw_map := true, have_dinfo := false,
    has_symtab := false, has_loctab := false, has_cfsi := false, has_cfsi_exprs := false,
    has_strchunks := false, soname := none,
    text := SecRec.cleared, data := SecRec.cleared, sdata := SecRec.cleared,
    rodata := SecRec.cleared, bss := SecRec.cleared, sbss := SecRec.cleared,
    got := ⟨false, 0, 0⟩, gotplt := ⟨false, 0, 0⟩, plt := ⟨false, 0, 0⟩, opd := ⟨false, 0, 0⟩,
    n_ehframe := 0, ehframe_avma := fun _ => 0, ehframe_size := fun _ => 0 }

/-- The rx mapping of scenario 1, at AVMA 0x401000: its file-offset window must
hold the segment at file offset 0, so it starts at file offset 0. -/
def map_rx : DebugInfoMapping :=
  { avma := 0x401000, size := 0x2000, foff := 0, rx := true, rw := false }

/-- The rw mapping of scenario 1, at AVMA 0x602000, from file offset 0x2000. -/
def map_rw : DebugInfoMapping :=
  { avma := 0x602000, size := 0x1000, foff := 0x2000, rx := false, rw := true }

/-- The DebugInfo of scenario 1 on entry. -/
def scen1_di : DebugInfo := fresh_di [map_rx, map_rw]

/-- The image of scenario 1 with an `sh_addralign` of 3 on `.text`. -/
def badalign_img : DiImage :=
  mkImage 0x3000 (mkEhdr 2 4) [ph_rx, ph_rw]
    [sh_null, { sh_text with sh_addralign := 3 }, sh_data, sh_shstrtab] scen_strs []

/-- The image of scenario 1 with `.data` at an SVMA that no PT_LOAD entry
covers. -/
def baddata_img : DiImage :=
  mkImage 0x3000 (mkEhdr 2 4) [ph_rx, ph_rw]
    [sh_null, sh_text, { sh_data with sh_addr := 0x5000 }, sh_shstrtab] scen_strs []

/-- The rw mapping of scenario 1 moved to file offset 0x5000, so that it does not
hold the segment at file offset 0x2000. -/
def map_rw_far : DebugInfoMapping :=
  { avma := 0x602000, size := 0x1000, foff := 0x5000, rx := false, rw := true }

/-- The header tables of the images built by `mkImage` and `mkEhdr`, as
`locate_headers` finds them. -/
def scen_hdrs (phnum shnum : Nat) : MainHdrs :=
  { ehdr_mioff := 0, phdr_mioff := 64, phdr_mnent := phnum, phdr_ment_szB := 56,
    shdr_mioff := 0x2100, shdr_mnent := shnum, shdr_ment_szB := 64,
    shdr_strtab_mioff := 0x2040 }

/-- An image with a single PT_LOAD entry, of flags R|W|X. -/
def rwx_img : DiImage :=
  mkImage 0x3000 (mkEhdr 1 3) [{ ph_rx with p_flags := 7 }]
    [sh_null, sh_text, sh_shstrtab] scen_strs []

/-- A mapping that is both rx and rw, from file offset 0. -/
def map_rwx : DebugInfoMapping :=
  { avma := 0x401000, size := 0x2000, foff := 0, rx := true, rw := true }

/-- A PT_LOAD entry of flags R only, inside the file window of `map_rx`. -/
def ph_ro : ElfXX_Phdr :=
  { p_type := PT_LOAD, p_flags := 4, p_offset := 0x1800, p_vaddr := 0x1800, p_filesz := 0x100,
    p_memsz := 0x100, p_align := 0x1000 }

/-- The image of scenario 1 with a read-only PT_LOAD entry between the two
others. -/
def ro_img : DiImage :=
  mkImage 0x3000 (mkEhdr 3 4) [ph_rx, ph_ro, ph_rw] [sh_null, sh_text, sh_data, sh_shstrtab]
    scen_strs []

/-- A section `.bss` of non-zero size at an SVMA that no PT_LOAD entry covers. -/
def sh_bss_unmapped : ElfXX_Shdr :=
  { sh_name := 23, sh_type := SHT_NOBITS, sh_addr := 0x9000, sh_offset := 0x2040,
    sh_size := 0x100, sh_addralign := 8 }

/-- The image of scenario 1 with the section `sh_bss_unmapped` added. -/
def bss_unmapped_img : DiImage :=
  mkImage 0x3000 (mkEhdr 2 5) [ph_rx, ph_rw]
    [sh_null, sh_text, sh_data, sh_bss_unmapped, sh_shstrtab] scen_strs []

/-- The PT_LOAD entry of flags R|W of scenario 2: the one of scenario 1, made
long enough to hold the dynamic string table. -/
def ph_rw2 : ElfXX_Phdr :=
  { ph_rw with p_filesz := 0x100, p_memsz := 0x100 }

/-- A PT_DYNAMIC entry whose dynamic entries start at file offset `off`. -/
def ph_dyn (off : Nat) : ElfXX_Phdr :=
  { p_type := PT_DYNAMIC, p_flags := 6, p_offset := off, p_vaddr := 0x2400, p_filesz := 0x30,
    p_memsz := 0x30, p_align := 8 }

/-- The dynamic entries of scenario 2: DT_SONAME with the string-table offset 7,
DT_STRTAB with the SVMA 0x2055, DT_NULL.  The SVMA 0x2055 is at file offset
0x2055, and the bytes "libfoo.so.1" are at file offset 0x2055 + 7. -/
def scen2_dyns : List ElfXX_Dyn :=
  [⟨DT_SONAME, 7⟩, ⟨DT_STRTAB, 0x2055⟩, ⟨DT_NULL, 0⟩]

/-- The image of scenario 2. -/
def scen2_img : DiImage :=
  mkImage 0x3000 (mkEhdr 3 4) [ph_rx, ph_rw2, ph_dyn 0x2400]
    [sh_null, sh_text, sh_data, sh_shstrtab] scen_strs scen2_dyns

/-- The image of scenario 2 with one more PT_DYNAMIC entry, placed first, whose
dynamic entries are a lone DT_NULL. -/
def two_dyn_img : DiImage :=
  mkImage 0x3000 (mkEhdr 4 4) [ph_rx, ph_rw2, ph_dyn 0x2420, ph_dyn 0x2400]
    [sh_null, sh_text, sh_data, sh_shstrtab] scen_strs scen2_dyns

/-- The DebugInfo that the first part of the reader leaves on scenario 1. -/
def scen1_after : DebugInfo :=
  match read_elf_debug_info_sections amd64 (some scen1_img) scen1_di with
  | Res.ok d => d.di
  | _ => scen1_di

/-- A global function symbol of size 16 whose address 0x1800 lies after the end
of `.text` (SVMA 0x1000 to 0x1500) and before `.data`. -/
def sym_after_text : ElfXX_Sym :=
  { st_name := 1, st_info := 0x12, st_shndx := 1, st_value := 0x1800, st_size := 16 }

/-- A global object symbol of size 8 at the address 0x2010, inside `.data`. -/
def sym_in_data : ElfXX_Sym :=
  { st_name := 7, st_info := 0x11, st_shndx := 2, st_value := 0x2010, st_size := 8 }

/-- The section-name string table of scenario 1, used as the string table that
holds the names of the symbols. -/
def scen1_strtab : DiSlice := { img := some scen1_img, ioff := 0x2040, szB := 40 }

/-- The records of the DebugInfo that the first loop over the section headers
writes: one for each section it recognises, `.dynbss` and `.bss` sharing the bss
record, `.sdynbss` and `.sbss` the sbss record. -/
inductive SecTag where
  | text
  | data
  | sdata
  | rodata
  | bss
  | sbss
  | got
  | gotplt
  | plt
  | opd
  | ehframe
  deriving DecidableEq, Repr

/-- The record that the block for a section of the given name writes. -/
def sec_tag (name : List Nat) : Option SecTag :=
  if name = cstr ".text" then some SecTag.text
  else if name = cstr ".data" then some SecTag.data
  else if name = cstr ".sdata" then some SecTag.sdata
  else if name = cstr ".rodata" then some SecTag.rodata
  else if name = cstr ".dynbss" then some SecTag.bss
  else if name = cstr ".bss" then some SecTag.bss
  else if name = cstr ".sdynbss" then some SecTag.sbss
  else if name = cstr ".sbss" then some SecTag.sbss
  else if name = cstr ".got" then some SecTag.got
  else if name = cstr ".got.plt" then some SecTag.gotplt
  else if name = cstr ".plt" then some SecTag.plt
  else if name = cstr ".opd" then some SecTag.opd
  else if name = cstr ".eh_frame" then some SecTag.ehframe
  else none

/-- The state `st1` of the first loop over the section headers is the state `st`
but for the record `tag` (and for nothing when `tag` is `none`): the fields of
the DebugInfo that are not section records are those of `st`, and so is every
section record other than `tag`, with the local `dynbss_present` counted with
the bss record and `sdynbss_present` with the sbss record. -/
def same_except (tag : Option SecTag) (st st1 : ShdrScan) : Prop :=
  st1.di.filename = st.di.filename ∧ st1.di.maps = st.di.maps
  ∧ st1.di.have_rx_map = st.di.have_rx_map ∧ st1.di.have_rw_map = st.di.have_rw_map
  ∧ st1.di.have_dinfo = st.di.have_dinfo ∧ st1.di.has_symtab = st.di.has_symtab
  ∧ st1.di.has_loctab = st.di.has_loctab ∧ st1.di.has_cfsi = st.di.has_cfsi
  ∧ st1.di.has_cfsi_exprs = st.di.has_cfsi_exprs
  ∧ st1.di.has_strchunks = st.di.has_strchunks
  ∧ st1.di.soname = st.di.soname
  ∧ (tag ≠ some SecTag.text → st1.di.text = st.di.text)
  ∧ (tag ≠ some SecTag.data → st1.di.data = st.di.data)
  ∧ (tag ≠ some SecTag.sdata → st1.di.sdata = st.di.sdata)
  ∧ (tag ≠ some SecTag.rodata → st1.di.rodata = st.di.rodata)
  ∧ (tag ≠ some SecTag.bss →
      st1.di.bss = st.di.bss ∧ st1.dynbss_present = st.dynbss_present)
  ∧ (tag ≠ some SecTag.sbss →
      st1.di.sbss = st.di.sbss ∧ st1.sdynbss_present = st.sdynbss_present)
  ∧ (tag ≠ some SecTag.got → st1.di.got = st.di.got)
  ∧ (tag ≠ some SecTag.gotplt → st1.di.gotplt = st.di.gotplt)
  ∧ (tag ≠ some SecTag.plt → st1.di.plt = st.di.plt)
  ∧ (tag ≠ some SecTag.opd → st1.di.opd = st.di.opd)
  ∧ (tag ≠ some SecTag.ehframe →
      st1.di.n_ehframe = st.di.n_ehframe ∧ st1.di.ehframe_avma = st.di.ehframe_avma
      ∧ st1.di.ehframe_size = st.di.ehframe_size)

/-- The names of the sections whose block can end the read through `BAD`. -/
def bad_names : List String :=
  [".text", ".data", ".sdata", ".rodata", ".bss", ".sbss", ".got", ".got.plt", ".plt",
   ".opd", ".eh_frame"]

/-- What a block of the classification leaves when it does not run to its end
with `Res.ok`: an assertion failed, or the read ended through `BAD` for one of
the names of `bad_names`. -/
def bad_or_crash (st : ShdrScan) (r : Res ShdrScan) : Prop :=
  r = Res.crash ∨ ∃ n ∈ bad_names, r = BAD n st.di

/-- The condition of the check at readelf.c:1802 on a section header of the
image `mimg`: `foff >= img_size || foff + (bits ? size : 0) > img_size`, where
`foff` has the signed type `OffT` and the sum is a `UWord`. -/
def beyond_image_end (t : Target) (mimg : DiImage) (a_shdr : ElfXX_Shdr) : Prop :=
  sext64 t a_shdr.sh_offset ≥ img_size mimg
  ∨ addW t a_shdr.sh_offset (if a_shdr.sh_type = SHT_NOBITS then 0 else a_shdr.sh_size)
      > img_size mimg

instance (t : Target) (mimg : DiImage) (a_shdr : ElfXX_Shdr) :
    Decidable (beyond_image_end t mimg a_shdr) := by
  delta beyond_image_end
  infer_instance

/-- The condition of the specification for a section that extends beyond the end
of the image: `foff + (nobits ? 0 : size) > image.size()`. -/
def beyond_image_end_spec (mimg : DiImage) (a_shdr : ElfXX_Shdr) : Prop :=
  a_shdr.sh_offset + (if a_shdr.sh_type = SHT_NOBITS then 0 else a_shdr.sh_size) > mimg.size

instance (mimg : DiImage) (a_shdr : ElfXX_Shdr) :
    Decidable (beyond_image_end_spec mimg a_shdr) := by
  delta beyond_image_end_spec
  infer_instance

/-- The number `x` is a power of two. -/
def is_power_of_two (x : Nat) : Prop := ∃ k, x = 2 ^ k

/-- The state in which the first loop over the section headers starts on the
DebugInfo `di`. -/
def shdr_scan_init (di : DebugInfo) : ShdrScan :=
  { di := di, dynbss_present := false, sdynbss_present := false }

/-- The load ranges of scenario 1. -/
def scen1_ranges : List RangeAndBias :=
  [⟨0, 0x1500, 0x401000, true⟩, ⟨0x2000, 0x2040, 0x600000, false⟩]

/-- A `.bss` section of type SHT_NOBITS whose file offset is the size of the
image: it holds no byte of the file. -/
def sh_bss_at_end : ElfXX_Shdr := { sh_bss_unmapped with sh_offset := 0x3000 }

/-- The image of scenario 1 with the section `sh_bss_at_end` added. -/
def nobits_at_end_img : DiImage :=
  mkImage 0x3000 (mkEhdr 2 5) [ph_rx, ph_rw]
    [sh_null, sh_text, sh_data, sh_bss_at_end, sh_shstrtab] scen_strs []

/-- The section `.text` of scenario 1 with an `sh_addralign` of 3 and at a file
offset from which it extends beyond the end of the image. -/
def sh_text_bad : ElfXX_Shdr := { sh_text with sh_addralign := 3, sh_offset := 0x2F00 }

/-- The image of scenario 1 with the section `sh_text_bad` for `.text`. -/
def badalign_beyond_img : DiImage :=
  mkImage 0x3000 (mkEhdr 2 4) [ph_rx, ph_rw] [sh_null, sh_text_bad, sh_data, sh_shstrtab]
    scen_strs []

/-- The null section header with a file offset after the end of the image. -/
def sh_null_beyond : ElfXX_Shdr := { sh_null with sh_offset := 0x4000 }

/-- The image of scenario 1 with the null section header `sh_null_beyond`. -/
def empty_beyond_img : DiImage :=
  mkImage 0x3000 (mkEhdr 2 4) [ph_rx, ph_rw] [sh_null_beyond, sh_text, sh_data, sh_shstrtab]
    scen_strs []

/-- The null section header with an `sh_addralign` of 3. -/
def sh_null_align3 : ElfXX_Shdr := { sh_null with sh_addralign := 3 }

/-- The image of scenario 1 with the null section header `sh_null_align3`. -/
def empty_badalign_img : DiImage :=
  mkImage 0x3000 (mkEhdr 2 4) [ph_rx, ph_rw] [sh_null_align3, sh_text, sh_data, sh_shstrtab]
    scen_strs []

/-- The condition of the check at readelf.c:1809 on a section header:
`alyn > 0 && -1 == VG_(log2)(alyn)`, where `alyn` is the `sh_addralign` of the
header converted to `UInt`. -/
def bad_addralign (a_shdr : ElfXX_Shdr) : Prop :=
  a_shdr.sh_addralign % 2 ^ 32 > 0 ∧ VG_log2 (a_shdr.sh_addralign % 2 ^ 32) = -1

instance (a_shdr : ElfXX_Shdr) : Decidable (bad_addralign a_shdr) := by
  delta bad_addralign
  infer_instance

/-- The section `.text` of scenario 1 with an `sh_addralign` of 2^32 + 1. -/
def sh_text_wide : ElfXX_Shdr := { sh_text with sh_addralign := 2 ^ 32 + 1 }

/-- The image of scenario 1 with the section `sh_text_wide` for `.text`. -/
def wide_align_img : DiImage :=
  mkImage 0x3000 (mkEhdr 2 4) [ph_rx, ph_rw] [sh_null, sh_text_wide, sh_data, sh_shstrtab]
    scen_strs []

/-- The name of the section that is merged into the bss record (`small` false)
or the sbss record (`small` true) when it comes first: `.dynbss` or
`.sdynbss`. -/
def dyn_name (small : Bool) : List Nat := if small then cstr ".sdynbss" else cstr ".dynbss"

/-- The name of the section of the bss record or of the sbss record: `.bss` or
`.sbss`. -/
def bss_name (small : Bool) : List Nat := if small then cstr ".sbss" else cstr ".bss"

/-- The bss record or the sbss record of a DebugInfo. -/
def bss_rec (small : Bool) (di : DebugInfo) : SecRec := if small then di.sbss else di.bss

/-- The local `dynbss_present` or `sdynbss_present` of the first loop over the
section headers. -/
def dyn_flag (small : Bool) (st : ShdrScan) : Bool :=
  if small then st.sdynbss_present else st.dynbss_present

/-- The record that the specification states for a `.dynbss` section `a1` in
the load range `r` followed by an abutting `.bss` section `a2`: the SVMA, the
AVMA and the bias of the first, and the sum of the two sizes. -/
def merged_bss (t : Target) (a1 a2 : ElfXX_Shdr) (r : RangeAndBias) : SecRec :=
  { present := true, svma := a1.sh_addr, avma := addW t a1.sh_addr r.bias,
    size := addW t a1.sh_size a2.sh_size, bias := r.bias,
    debug_svma := a1.sh_addr, debug_bias := r.bias }

/-- The state of the bss record (or of the sbss record) before the section
header `k`, when the `.dynbss` section `a1` is the header `i` and the `.bss`
section `a2` the header `j`. -/
def merge_inv (small : Bool) (t : Target) (i j : Nat) (a1 a2 : ElfXX_Shdr) (r : RangeAndBias)
    (k : Nat) (st : ShdrScan) : Prop :=
  (k ≤ i → (bss_rec small st.di).present = false ∧ dyn_flag small st = false)
  ∧ (i < k → k ≤ j →
      bss_rec small st.di = acquire t a1.sh_addr a1.sh_size r ∧ dyn_flag small st = true)
  ∧ (j < k → bss_rec small st.di = merged_bss t a1 a2 r)

/-- A `.dynbss` section of 0x20 bytes at the SVMA 0x2040. -/
def sh_dynbss : ElfXX_Shdr :=
  { sh_name := 40, sh_type := SHT_NOBITS, sh_addr := 0x2040, sh_offset := 0x2040,
    sh_size := 0x20, sh_addralign := 8 }

/-- A `.bss` section of 0x60 bytes at the SVMA 0x2060, where `sh_dynbss` ends. -/
def sh_bss_abut : ElfXX_Shdr :=
  { sh_name := 23, sh_type := SHT_NOBITS, sh_addr := 0x2060, sh_offset := 0x2040,
    sh_size := 0x60, sh_addralign := 8 }

/-- The section names of the scenario images followed by `.dynbss`. -/
def merge_strs : List Nat := scen_strs ++ cstr0 ".dynbss"

/-- The section-name string table of `merge_img`. -/
def sh_shstrtab_merge : ElfXX_Shdr := { sh_shstrtab with sh_size := 48 }

/-- The image of scenario 1 with the PT_LOAD entry `ph_rw2`, which reaches the
SVMA 0x2100, and the sections `.dynbss` and `.bss` after `.data`. -/
def merge_img : DiImage :=
  mkImage 0x3000 (mkEhdr 2 6) [ph_rx, ph_rw2]
    [sh_null, sh_text, sh_data, sh_dynbss, sh_bss_abut, sh_shstrtab_merge] merge_strs []

/-- The load ranges of `merge_img`. -/
def merge_ranges : List RangeAndBias :=
  [⟨0, 0x1500, 0x401000, true⟩, ⟨0x2000, 0x2100, 0x600000, false⟩]

/-- The state in which the first loop over the section headers ends on
`merge_img`. -/
def merge_after : ShdrScan :=
  { di := { with_soname_default scen1_di with
              text := acquire amd64 0x1000 0x500 ⟨0, 0x1500, 0x401000, true⟩
              data := acquire amd64 0x2000 0x40 ⟨0x2000, 0x2100, 0x600000, false⟩
              bss := merged_bss amd64 sh_dynbss sh_bss_abut ⟨0x2000, 0x2100, 0x600000, false⟩ },
    dynbss_present := false, sdynbss_present := false }

/-- The first byte of the name of a symbol can be read: the name is absent
(`DiOffT_INVALID`), or the string table has an image and the offset of the name
lies inside it. -/
def name_readable (escn_strtab : DiSlice) (sym_name_ioff : Nat) : Prop :=
  sym_name_ioff = DiOffT_INVALID
  ∨ ∃ simg, escn_strtab.img = some simg ∧ img_valid simg sym_name_ioff 1 = true

/-- A global function symbol of size 0 at the address 0x1010, inside `.text`. -/
def sym_size0 : ElfXX_Sym :=
  { st_name := 1, st_info := 0x12, st_shndx := 1, st_value := 0x1010, st_size := 0 }

/-- A ppc64-linux build (big-endian, ELF machine EM_PPC64). -/
def ppc64 : Target :=
  { plat := Platform.ppc64_linux, android := false, wordsize := 8, elf_class := 2,
    elf_data := 2, elf_machine := 21, page_size := 4096, n_ehframe_sects := 2 }

/-- The `e_ident` bytes of a 64-bit big-endian ELF file. -/
def ident64be (i : Nat) : Nat :=
  [0x7F, 'E'.toNat, 'L'.toNat, 'F'.toNat, 2, 2, 1].getD i 0

/-- The section names of `ppc64_img`: the bytes at offset 0x2800. -/
def ppc64_shstrs : List Nat :=
  [0] ++ cstr0 ".text" ++ cstr0 ".data" ++ cstr0 ".opd" ++ cstr0 ".symtab" ++ cstr0 ".strtab"
    ++ cstr0 ".shstrtab"

/-- The symbol names of `ppc64_img`: the bytes at offset 0x2900, which are a NUL,
"work" at offset 1, ".work" at offset 6 and "edge" at offset 12. -/
def ppc64_strs : List Nat := [0] ++ cstr0 "work" ++ cstr0 ".work" ++ cstr0 "edge"

/-- The section headers of `ppc64_img`: `.text` at the SVMA 0x1000, `.data` at
0x2000, `.opd` at 0x2040 with two function descriptors of 24 bytes, a symbol
table of three entries at the file offset 0x2500, and the two string tables. -/
def ppc64_shdrs : List ElfXX_Shdr :=
  [sh_null, sh_text, sh_data,
   { sh_name := 13, sh_type := 1, sh_addr := 0x2040, sh_offset := 0x2040, sh_size := 0x30,
     sh_addralign := 8 },
   { sh_name := 18, sh_type := 2, sh_addr := 0, sh_offset := 0x2500, sh_size := 72,
     sh_addralign := 8 },
   { sh_name := 26, sh_type := 3, sh_addr := 0, sh_offset := 0x2900, sh_size := 17,
     sh_addralign := 1 },
   { sh_name := 34, sh_type := 3, sh_addr := 0, sh_offset := 0x2800, sh_size := 44,
     sh_addralign := 1 }]

/-- The symbol `work` of scenario 5 as the symbol table states it: a function of
size 24 whose address 0x2040 is the one of its descriptor, the first entry of
`.opd`. -/
def sym_work_opd : ElfXX_Sym :=
  { st_name := 1, st_info := 0x12, st_shndx := 3, st_value := 0x2040, st_size := 24 }

/-- The symbol `.work` of scenario 5: a function of size 128 at the address
0x1100 of `.text`, the entry point that the descriptor of `work` holds. -/
def sym_work_dot : ElfXX_Sym :=
  { st_name := 6, st_info := 0x12, st_shndx := 1, st_value := 0x1100, st_size := 128 }

/-- The symbol entries of `ppc64_img`, from the file offset 0x2500: the null
entry, `work` and `.work`, and then the same three with `.work` before `work`. -/
def ppc64_syms : List ElfXX_Sym :=
  [⟨0, 0, 0, 0, 0⟩, sym_work_opd, sym_work_dot, ⟨0, 0, 0, 0, 0⟩, sym_work_dot, sym_work_opd]

/-- The 64-bit words of the section `.opd` of `ppc64_img`, from the file offset
0x2040: the descriptor of `work` (entry point 0x1100, TOC pointer 0xA000, a
third word), and a second descriptor. -/
def ppc64_opd_words : List Nat := [0x1100, 0xA000, 0, 0x1200, 0xA000, 0]

/-- A shared object for ppc64-linux with the sections of `ppc64_shdrs`. -/
def ppc64_img : DiImage :=
  { size := 0x3000
    byte := fun off =>
      if 0x2900 ≤ off then ppc64_strs.getD (off - 0x2900) 0
      else if 0x2800 ≤ off then ppc64_shstrs.getD (off - 0x2800) 0 else 0
    ehdr := fun _ =>
      { e_ident := ident64be, e_type := ET_DYN, e_machine := 21, e_version := 1,
        e_phoff := 64, e_shoff := 0x2100, e_phentsize := 56, e_phnum := 2,
        e_shentsize := 64, e_shnum := 7, e_shstrndx := 6 }
    phdr := fun off => [ph_rx, ph_rw2].getD ((off - 64) / 56) ⟨0, 0, 0, 0, 0, 0, 0⟩
    shdr := fun off => ppc64_shdrs.getD ((off - 0x2100) / 64) ⟨0, 0, 0, 0, 0, 0⟩
    dyn := fun _ => ⟨0, 0⟩
    sym := fun off => ppc64_syms.getD ((off - 0x2500) / 24) ⟨0, 0, 0, 0, 0⟩
    ulong := fun off => ppc64_opd_words.getD ((off - 0x2040) / 8) 0 }

/-- The DebugInfo of `ppc64_img` on entry: the object is mapped with the same
bias 0x10000000 for its two segments. -/
def ppc64_di : DebugInfo :=
  fresh_di [{ avma := 0x10000000, size := 0x2000, foff := 0, rx := true, rw := false },
            { avma := 0x10002000, size := 0x1000, foff := 0x2000, rx := false, rw := true }]

/-- The DebugInfo that the first part of the reader leaves on `ppc64_img`. -/
def ppc64_after : DebugInfo :=
  match read_elf_debug_info_sections ppc64 (some ppc64_img) ppc64_di with
  | Res.ok d => d.di
  | _ => ppc64_di

/-- The string table `.strtab` of `ppc64_img`. -/
def ppc64_strtab : DiSlice := { img := some ppc64_img, ioff := 0x2900, szB := 17 }

/-- The section `.opd` of `ppc64_img`. -/
def ppc64_opd : DiSlice := { img := some ppc64_img, ioff := 0x2040, szB := 0x30 }

/-- An object symbol `edge` of size 16 at the address 0x2038: it starts in the
last 8 bytes of `.data` and ends 8 bytes into `.opd`. -/
def sym_edge : ElfXX_Sym :=
  { st_name := 12, st_info := 0x11, st_shndx := 2, st_value := 0x2038, st_size := 16 }

/-- The outputs that `get_elf_symbol_info` has set for the symbol `sym_edge` of
`ppc64_img` when it reaches the final range check: the name at the offset
0x290C, the address 0x10002038, the size 16, a data symbol. -/
def out_edge : SymInfo :=
  { sym_name_out_ioff := 0x290C, sym_avma_out := 0x10002038, sym_size_out := 16,
    sym_tocptr_out := 0, from_opd_out := false, is_text_out := false, is_ifunc := false }

/-- The range `[avma, avma + size)` does not overlap the section `.opd` of the
DebugInfo: the condition of the assertion at readelf.c:677. -/
def clear_of_opd (t : Target) (di : DebugInfo) (avma size : Nat) : Prop :=
  addW t avma size ≤ di.opd.avma ∨ avma ≥ addW t di.opd.avma di.opd.size

instance (t : Target) (di : DebugInfo) (avma size : Nat) :
    Decidable (clear_of_opd t di avma size) := by
  delta clear_of_opd
  infer_instance

/-! ## The symbol tables -/

/-- Modelled from the spec: `ML_(img_get)` of an `ElfXX_Sym`. -/
def img_get_Sym (t : Target) (img : DiImage) (off : Nat) : Option ElfXX_Sym :=
  if img_valid img off (sizeof_Sym t) then some (img.sym off) else none

/-- A C loop `for (i = i0; i < i0 + n; i++) body` whose body can stop the
function, which is the result `none`. -/
def forOpt {σ : Type} (body : σ → Nat → Option σ) : Nat → Nat → σ → Option σ
  | 0, _, s => some s
  | n + 1, i, s =>
    match body s i with
    | none => none
    | some s1 => forOpt body n (i + 1) s1

/-- A canonical symbol, `DiSym` of `priv_storage.h`, with the fields that the
readers of this file set; `pri_name` is the string that `ML_(addStr)` stores. -/
structure DiSym where
  addr : Nat
  tocptr : Nat
  pri_name : List Nat
  size : Nat
  isText : Bool
  isIFunc : Bool
  deriving DecidableEq, Repr

/-- The bound `(Word)(escn_symtab->szB/sizeof(ElfXX_Sym))` of the loops over a
symbol table, or 0 when it is negative as a `Word`: the loops run for the
indices `i` with `1 <= i` that are less than it. -/
def symtab_count (t : Target) (escn_symtab : DiSlice) : Nat :=
  let n := (escn_symtab.szB / sizeof_Sym t) % t.wmod
  if isNegW t n then 0 else n

/-- The start of an iteration of the loops over a symbol table (readelf.c:714-736
and 846-867): the read of entry `i` and the call of `get_elf_symbol_info`.  The
result is `none` when the function stops, `some none` when the entry is
rejected, and else the outputs of `get_elf_symbol_info`. -/
def symtab_entry_info (t : Target) (di : DebugInfo) (tabimg : DiImage)
    (escn_symtab escn_strtab escn_opd : DiSlice) (symtab_in_debug : Bool) (i : Nat) :
    Option (Option SymInfo) :=
  match img_get_Sym t tabimg (add64 escn_symtab.ioff (mulW t i (sizeof_Sym t))) with
  | none => none
  | some sym =>
    let sym_name := add64 escn_strtab.ioff sym.st_name
    let sym_svma := sym.st_value
    get_elf_symbol_info t di sym sym_name escn_strtab sym_svma symtab_in_debug escn_opd
      di.text.bias

/-- One iteration of the loop of `read_elf_symtab__normal` (readelf.c:713-766).
The result is `none` when the function stops, `some none` when no symbol is
added, and `some (some s)` when `ML_(addSym)` is called with `s`. -/
def symtab_entry__normal (t : Target) (di : DebugInfo) (tabimg strimg : DiImage)
    (escn_symtab escn_strtab escn_opd : DiSlice) (symtab_in_debug : Bool) (i : Nat) :
    Option (Option DiSym) :=
  match symtab_entry_info t di tabimg escn_symtab escn_strtab escn_opd symtab_in_debug i with
  | none => none
  | some none => some none
  | some (some out) =>
    match img_strdup strimg out.sym_name_out_ioff with
    | none => none
    | some cstr =>
      if out.sym_tocptr_out ≠ 0 then none
      else
        some (some { addr := out.sym_avma_out, tocptr := out.sym_tocptr_out, pri_name := cstr,
                     size := out.sym_size_out, isText := out.is_text_out,
                     isIFunc := out.is_ifunc })

/-- The function `read_elf_symtab__normal` (readelf.c:690).  The result is `none`
when the function stops, and else the symbols with which it calls `ML_(addSym)`,
in the order of the calls.  The assertion on the length of `tab_name` holds for
the two names the function is called with. -/
def read_elf_symtab__normal (t : Target) (di : DebugInfo)
    (escn_symtab escn_strtab escn_opd : DiSlice) (symtab_in_debug : Bool) :
    Option (List DiSym) :=
  match escn_strtab.img, escn_symtab.img with
  | some strimg, some tabimg =>
    forOpt
      (fun syms i =>
        match symtab_entry__normal t di tabimg strimg escn_symtab escn_strtab escn_opd
                symtab_in_debug i with
        | none => none
        | some none => some syms
        | some (some s) => some (syms ++ [s]))
      (symtab_count t escn_symtab - 1) 1 []
  | _, _ => some []

/-- The C comparison of two strings, `strcmp`, as -1, 0 or 1. -/
def strcmp_bytes : List Nat → List Nat → Int
  | [], [] => 0
  | [], _ :: _ => -1
  | _ :: _, [] => 1
  | a :: s1, b :: s2 => if a < b then -1 else if a > b then 1 else strcmp_bytes s1 s2

/-- Modelled from the spec: `ML_(img_strcmp)` of `priv_image.h`, which is not
part of `readelf.c`: the comparison of the NUL-terminated strings at the offsets
`off1` and `off2` of the image.  As for `img_strdup`, the result is `none` when
one of the two is not terminated inside the image. -/
def img_strcmp (img : DiImage) (off1 off2 : Nat) : Option Int :=
  match img_strdup img off1, img_strdup img off2 with
  | some s1, some s2 => some (strcmp_bytes s1 s2)
  | _, _ => none

/-- A pending symbol of the reader for ppc64-linux, `TempSym`; `addr` and `name`
are the fields of its key.  The field `img` of the key is the image of the
string table for every key, and is left out. -/
structure TempSym where
  addr : Nat
  name : Nat
  tocptr : Nat
  size : Nat
  from_opd : Bool
  is_text : Bool
  is_ifunc : Bool
  deriving DecidableEq, Repr

/-- The function `cmp_TempSymKey` (readelf.c:795), for the key `(addr, name)` and
the names in the image `simg`; the two assertions on `img` hold, since the reader
gives every key the image of the string table, which is not NULL.  The result is
`none` when an assertion fails or the comparison of the names stops. -/
def cmp_TempSymKey (simg : DiImage) (addr name : Nat) (elem2 : TempSym) : Option Int :=
  if addr < elem2.addr then some (-1)
  else if addr > elem2.addr then some 1
  else if name = DiOffT_INVALID then none
  else if elem2.name = DiOffT_INVALID then none
  else img_strcmp simg name elem2.name

/-- Modelled from the spec: `VG_(OSetGen_Lookup)` of `pub_core_oset.h`, on an
ordered set that is kept as the list of its elements in ascending order.  The
result is the position of the element that compares equal to the key, and
`some none` when there is none; the key is compared with the elements from the
least one on, and the result is `none` when a comparison stops the function. -/
def oset_lookup (simg : DiImage) (addr name : Nat) : List TempSym → Option (Option Nat)
  | [] => some none
  | e :: rest =>
    match cmp_TempSymKey simg addr name e with
    | none => none
    | some c =>
      if c = 0 then some (some 0)
      else (oset_lookup simg addr name rest).map (fun r => r.map (fun k => k + 1))

/-- Modelled from the spec: `VG_(OSetGen_Insert)` of `pub_core_oset.h`: the new
element is placed before the first element that its key is less than. -/
def oset_insert (simg : DiImage) (elem : TempSym) : List TempSym → Option (List TempSym)
  | [] => some [elem]
  | e :: rest =>
    match cmp_TempSymKey simg elem.addr elem.name e with
    | none => none
    | some c =>
      if c < 0 then some (elem :: e :: rest)
      else (oset_insert simg elem rest).map (fun l => e :: l)

/-- The pending symbol that is made of the outputs of `get_elf_symbol_info`
(readelf.c:873-875 and 930-936). -/
def TempSym.ofInfo (out : SymInfo) : TempSym :=
  { addr := out.sym_avma_out, name := out.sym_name_out_ioff, tocptr := out.sym_tocptr_out,
    size := out.sym_size_out, from_opd := out.from_opd_out, is_text := out.is_text_out,
    is_ifunc := out.is_ifunc }

/-- What the loop of `read_elf_symtab__ppc64_linux` does with an accepted entry
(readelf.c:871-953): the lookup of its key in the set, and then the merge into
the element found or the insertion of a new element.  The result is `none` when
the function stops. -/
def ppc64_merge (simg : DiImage) (oset : List TempSym) (out : SymInfo) :
    Option (List TempSym) :=
  match oset_lookup simg out.sym_avma_out out.sym_name_out_ioff oset with
  | none => none
  | some (some k) =>
    match oset.get? k with
    | none => none
    | some prev =>
      if prev.from_opd && !out.from_opd_out && (prev.size == 24 || prev.size == 16)
          && out.sym_size_out != prev.size then
        some (oset.set k { prev with size := out.sym_size_out })
      else if !prev.from_opd && out.from_opd_out
          && (out.sym_size_out == 24 || out.sym_size_out == 16) then
        if prev.tocptr ≠ 0 then none
        else some (oset.set k { prev with tocptr := out.sym_tocptr_out })
      else some oset
  | some none => oset_insert simg (TempSym.ofInfo out) oset

/-- One iteration of the first loop of `read_elf_symtab__ppc64_linux`
(readelf.c:846-955). -/
def symtab_entry__ppc64 (t : Target) (di : DebugInfo) (tabimg strimg : DiImage)
    (escn_symtab escn_strtab escn_opd : DiSlice) (symtab_in_debug : Bool)
    (oset : List TempSym) (i : Nat) : Option (List TempSym) :=
  match symtab_entry_info t di tabimg escn_symtab escn_strtab escn_opd symtab_in_debug i with
  | none => none
  | some none => some oset
  | some (some out) => ppc64_merge strimg oset out

/-- The second loop of `read_elf_symtab__ppc64_linux` (readelf.c:960-994): the
symbols with which `ML_(addSym)` is called, for the elements of the set in
ascending order. -/
def oset_emit (strimg : DiImage) : List TempSym → Option (List DiSym)
  | [] => some []
  | elem :: rest =>
    match img_strdup strimg elem.name with
    | none => none
    | some cstr =>
      (oset_emit strimg rest).map fun l =>
        { addr := elem.addr, tocptr := elem.tocptr, pri_name := cstr, size := elem.size,
          isText := elem.is_text, isIFunc := elem.is_ifunc } :: l

/-- The function `read_elf_symtab__ppc64_linux` (readelf.c:809).  The result is
`none` when the function stops, and else the symbols with which it calls
`ML_(addSym)`, in the order of the calls. -/
def read_elf_symtab__ppc64_linux (t : Target) (di : DebugInfo)
    (escn_symtab escn_strtab escn_opd : DiSlice) (symtab_in_debug : Bool) :
    Option (List DiSym) :=
  match escn_strtab.img, escn_symtab.img with
  | some strimg, some tabimg =>
    match forOpt
        (symtab_entry__ppc64 t di tabimg strimg escn_symtab escn_strtab escn_opd
          symtab_in_debug)
        (symtab_count t escn_symtab - 1) 1 [] with
    | none => none
    | some oset => oset_emit strimg oset
  | _, _ => some []

/-- The choice of the reader of the symbol tables (readelf.c:2731-2735). -/
def read_elf_symtab (t : Target) (di : DebugInfo)
    (escn_symtab escn_strtab escn_opd : DiSlice) (symtab_in_debug : Bool) :
    Option (List DiSym) :=
  if t.plat = Platform.ppc64_linux then
    read_elf_symtab__ppc64_linux t di escn_symtab escn_strtab escn_opd symtab_in_debug
  else read_elf_symtab__normal t di escn_symtab escn_strtab escn_opd symtab_in_debug

/-- The symbol table of `ppc64_img` with `work` before `.work`. -/
def ppc64_symtab : DiSlice := { img := some ppc64_img, ioff := 0x2500, szB := 72 }

/-- The symbol table of `ppc64_img` with `.work` before `work`. -/
def ppc64_symtab_rev : DiSlice := { img := some ppc64_img, ioff := 0x2500 + 72, szB := 72 }

/-- The symbol that scenario 5 expects: the address 0x10001100, the TOC pointer
0x1000A000 and the size 128. -/
def sym_work_merged : DiSym :=
  { addr := 0x10001100, tocptr := 0x1000A000, pri_name := cstr "work", size := 128,
    isText := true, isIFunc := false }

/-- A global function symbol of size 16 at the address 0x1010 of `.text`, whose
name is at the offset 1 of the string table. -/
def sym_f : ElfXX_Sym :=
  { st_name := 1, st_info := 0x12, st_shndx := 1, st_value := 0x1010, st_size := 16 }

/-- A global function symbol of size 16 at the address 0x1020 of `.text`, with
`st_name = 0`. -/
def sym_noname : ElfXX_Sym :=
  { st_name := 0, st_info := 0x12, st_shndx := 1, st_value := 0x1020, st_size := 16 }

/-- The image of scenario 1 with four symbol entries at the file offset 0x2500:
the null entry, `sym_f`, `sym_noname` and `sym_in_data`. -/
def symtab_img : DiImage :=
  { scen1_img with
    sym := fun off =>
      [⟨0, 0, 0, 0, 0⟩, sym_f, sym_noname, sym_in_data].getD ((off - 0x2500) / 24)
        ⟨0, 0, 0, 0, 0⟩ }

/-- The symbol table of `symtab_img`. -/
def symtab_tab : DiSlice := { img := some symtab_img, ioff := 0x2500, szB := 96 }

/-- The bytes of `symtab_img` from the offset 0x2040 as a string table: its
first byte is NUL. -/
def symtab_str : DiSlice := { img := some symtab_img, ioff := 0x2040, szB := 40 }

/-- The bytes of `symtab_img` from the offset 0x2041 as a string table: its
first byte is the dot of ".text". -/
def symtab_str_nonul : DiSlice := { img := some symtab_img, ioff := 0x2041, szB := 39 }

/-- The entry `i` of the symbol table `escn_symtab`, as the loops read it. -/
def symtab_sym (t : Target) (tabimg : DiImage) (escn_symtab : DiSlice) (i : Nat) :
    Option ElfXX_Sym :=
  img_get_Sym t tabimg (add64 escn_symtab.ioff (mulW t i (sizeof_Sym t)))

/-- The pending symbol `e` has the key `(X, N)`: the address `X`, and a name that
is the string `N` of the image `simg`. -/
def has_key (simg : DiImage) (X : Nat) (N : List Nat) (e : TempSym) : Bool :=
  decide (e.addr = X) && decide (img_strdup simg e.name = some N)

/-- The outputs `o` of `get_elf_symbol_info` have the key `(X, N)`. -/
def info_has_key (simg : DiImage) (X : Nat) (N : List Nat) (o : SymInfo) : Prop :=
  o.sym_avma_out = X ∧ img_strdup simg o.sym_name_out_ioff = some N

/-- The canonical symbol `s` has the key `(X, N)`. -/
def sym_has_key (X : Nat) (N : List Nat) (s : DiSym) : Bool :=
  decide (s.addr = X) && decide (s.pri_name = N)

/-- The pending symbol `prev` after the merge of an accepted entry of the same
key with outputs `out` (readelf.c:884-909). -/
def merge_elem (prev : TempSym) (out : SymInfo) : TempSym :=
  if prev.from_opd && !out.from_opd_out && (prev.size == 24 || prev.size == 16)
      && out.sym_size_out != prev.size then
    { prev with size := out.sym_size_out }
  else if !prev.from_opd && out.from_opd_out
      && (out.sym_size_out == 24 || out.sym_size_out == 16) then
    { prev with tocptr := out.sym_tocptr_out }
  else prev

/-- The pending symbols of the key `(X, N)` before the entry `k` of the symbol
table, when the entry `i` is the `.opd`-redirect entry with outputs `oi` and the
entry `j` the other entry with outputs `oj`: none before both, the one that has
been read between the two, and after both a single one with the TOC pointer of
`oi` and the size of `oj`. -/
def opd_merge_inv (simg : DiImage) (X : Nat) (N : List Nat) (i j : Nat) (oi oj : SymInfo)
    (k : Nat) (oset : List TempSym) : Prop :=
  (k ≤ i → k ≤ j → oset.filter (has_key simg X N) = [])
  ∧ (i < k → k ≤ j → oset.filter (has_key simg X N) = [TempSym.ofInfo oi])
  ∧ (j < k → k ≤ i → oset.filter (has_key simg X N) = [TempSym.ofInfo oj])
  ∧ (i < k → j < k →
      ∃ e, oset.filter (has_key simg X N) = [e] ∧ e.tocptr = oi.sym_tocptr_out
        ∧ e.size = oj.sym_size_out)

/-! ## The build-id and the companion files -/

def PT_NOTE : Nat := 4
def SHT_NOTE : Nat := 7
def NT_GNU_BUILD_ID : Nat := 3

/-- Modelled from the spec: `ML_(img_get)` of an `ElfXX_Nhdr`. -/
def img_get_Nhdr (img : DiImage) (off : Nat) : Option ElfXX_Nhdr :=
  if img_valid img off sizeof_Nhdr then some (img.nhdr off) else none

/-- Modelled from the spec: `ML_(img_get_UInt)`. -/
def img_get_UInt (img : DiImage) (off : Nat) : Option Nat :=
  if img_valid img off 4 then some (img.uint off % 2 ^ 32) else none

/-- Modelled from the spec: `ML_(img_strlen)`, the length of the NUL-terminated
string at `off`; as for `img_strdup`, the result is `none` when the string is
not terminated inside the image. -/
def img_strlen (img : DiImage) (off : Nat) : Option Nat :=
  (img_strdup img off).map List.length

/-- Modelled from the spec: `ML_(img_strcmp_c)`, the comparison of the
NUL-terminated string at `off` with a C string; as for `img_strdup`, the result
is `none` when the string is not terminated inside the image. -/
def img_strcmp_c (img : DiImage) (off : Nat) (str2 : List Nat) : Option Int :=
  (img_strdup img off).map fun s1 => strcmp_bytes s1 str2

/-- Modelled from the spec: `ML_(img_calc_gnu_debuglink_crc32)`. -/
def img_calc_gnu_debuglink_crc32 (img : DiImage) : Nat := img.crc32 % 2 ^ 32

/-- The expression `(n + 3) & ~3` on a 32-bit word (readelf.c:1033). -/
def roundup4 (n : Nat) : Nat := (n + 3) % 2 ^ 32 / 4 * 4

/-- A hexadecimal digit in lower case, as `%x` prints it. -/
def hex_digit (d : Nat) : Nat := if d < 10 then '0'.toNat + d else 'a'.toNat + (d - 10)

/-- What `VG_(sprintf)` writes for `"%02x"` and a byte. -/
def hex2 (b : Nat) : List Nat := [hex_digit (b % 256 / 16), hex_digit (b % 16)]

/-- The loop that writes the bytes of a note descriptor in hexadecimal
(readelf.c:1039-1043), for the `n` bytes that remain from byte `j` on. -/
def desc_hex (img : DiImage) (desc_ioff : Nat) : Nat → Nat → Option (List Nat)
  | 0, _ => some []
  | n + 1, j =>
    match img_get_UChar img (add64 desc_ioff j) with
    | none => none
    | some desc_j => (desc_hex img desc_ioff n (j + 1)).map fun s => hex2 desc_j ++ s

/-- The loop over the notes of a segment or of a section (readelf.c:1029-1049),
from the offset `note_ioff` up to `limit`, with the current `buildid`.  The
result is `none` when a read stops the function or the loop does not end; `fuel`
bounds the number of notes visited. -/
def note_walk (t : Target) (img : DiImage) (limit : Nat) :
    Nat → Nat → Option (List Nat) → Option (Option (List Nat))
  | 0, _, _ => none
  | fuel + 1, note_ioff, buildid =>
    if note_ioff < limit then
      match img_get_Nhdr img note_ioff with
      | none => none
      | some note =>
        let name_ioff := addW t note_ioff sizeof_Nhdr
        let desc_ioff := add64 name_ioff (roundup4 note.n_namesz)
        match img_strcmp_c img name_ioff (cstr "GNU") with
        | none => none
        | some c =>
          let found : Option (Option (List Nat)) :=
            if c = 0 ∧ note.n_type = NT_GNU_BUILD_ID then
              (desc_hex img desc_ioff note.n_descsz 0).map some
            else some buildid
          match found with
          | none => none
          | some buildid1 =>
            note_walk t img limit fuel
              (addW t (addW t (addW t note_ioff sizeof_Nhdr) (roundup4 note.n_namesz))
                (roundup4 note.n_descsz))
              buildid1
    else some buildid

/-- The function `find_buildid` (readelf.c:1011).  The result is `none` when
the function does not return, `some none` when it returns NULL, and else the
build-id in hexadecimal.  A walk over the notes that visits more notes than the
image has bytes visits some offset twice and so does not end, which bounds the
walks. -/
def find_buildid (t : Target) (img : DiImage) (rel_ok search_shdrs : Bool) :
    Option (Option (List Nat)) :=
  match is_elf_object_file_by_DiImage t img rel_ok with
  | none => none
  | some false => some none
  | some true =>
    match img_get_Ehdr t img 0 with
    | none => none
    | some ehdr =>
      match forOpt
          (fun buildid i =>
            match img_get_Phdr t img (addW t ehdr.e_phoff (mulW t i ehdr.e_phentsize)) with
            | none => none
            | some phdr =>
              if phdr.p_type = PT_NOTE then
                note_walk t img (addW t phdr.p_offset phdr.p_filesz) (img.size + 1)
                  phdr.p_offset buildid
              else some buildid)
          ehdr.e_phnum 0 none with
      | none => none
      | some buildid =>
        if buildid.isSome ∨ (!rel_ok ∧ !search_shdrs) then some buildid
        else
          forOpt
            (fun buildid i =>
              match img_get_Shdr t img (addW t ehdr.e_shoff (mulW t i ehdr.e_shentsize)) with
              | none => none
              | some shdr =>
                if shdr.sh_type = SHT_NOTE then
                  note_walk t img (addW t shdr.sh_offset shdr.sh_size) (img.size + 1)
                    shdr.sh_offset buildid
                else some buildid)
            ehdr.e_shnum 0 buildid

/-- What lies outside the reader and decides which companion files it finds: the
files that `ML_(img_from_local_file)` can connect to, the files that
`ML_(img_from_di_server)` can connect to on a server, and the options
`--extra-debuginfo-path`, `--debuginfo-server` and
`--allow-mismatched-debuginfo`. -/
structure Env where
  img_from_local_file : List Nat → Option DiImage
  img_from_di_server : List Nat → List Nat → Option DiImage
  clo_extra_debuginfo_path : Option (List Nat)
  clo_debuginfo_server : Option (List Nat)
  clo_allow_mismatched_debuginfo : Bool

/-- The function `open_debug_file` (readelf.c:1110).  The result is `none` when
the function does not return, `some none` when it returns NULL, and else the
image. -/
def open_debug_file (env : Env) (t : Target) (name : List Nat) (buildid : Option (List Nat))
    (crc : Nat) (rel_ok : Bool) (serverAddr : Option (List Nat)) : Option (Option DiImage) :=
  let dimg :=
    match serverAddr with
    | some addr => env.img_from_di_server name addr
    | none => env.img_from_local_file name
  match dimg with
  | none => some none
  | some dimg =>
    match buildid with
    | some buildid =>
      match find_buildid t dimg rel_ok true with
      | none => none
      | some none => some none
      | some (some debug_buildid) =>
        if buildid ≠ debug_buildid then some none else some (some dimg)
    | none =>
      let calccrc := img_calc_gnu_debuglink_crc32 dimg
      if calccrc ≠ crc then some none else some (some dimg)

/-- The directory of a path: the path cut at its last `/` (readelf.c:1192-1196),
or the whole path when it has no `/`. -/
def objdir_of (objpath : List Nat) : List Nat :=
  match objpath.reverse.dropWhile (fun c => c != '/'.toNat) with
  | [] => objpath
  | _ :: rest => rest.reverse

/-- The part of a name after its last `/` (readelf.c:1226-1229), or the whole
name when it has no `/`. -/
def basename_of (name : List Nat) : List Nat :=
  (name.reverse.takeWhile (fun c => c != '/'.toNat)).reverse

/-- The size of the block that `find_debug_file` allocates for the name built
from the build-id: `VG_(strlen)(buildid) + 33` (readelf.c:1178-1179). -/
def buildid_debugpath_size (buildid : List Nat) : Nat := buildid.length + 33

/-- The characters that `VG_(sprintf)` writes for the format
`"/usr/lib/debug/.build-id/%c%c/%s.debug"` and the arguments `b0`, `b1` and the
string `rest` (readelf.c:1181-1182); a NUL follows them. -/
def buildid_format (b0 b1 : Nat) (rest : List Nat) : List Nat :=
  cstr "/usr/lib/debug/.build-id/" ++ [b0, b1] ++ cstr "/" ++ rest ++ cstr ".debug"

/-- The path that `VG_(sprintf)` builds from
`"/usr/lib/debug/.build-id/%c%c/%s.debug"`, `buildid[0]`, `buildid[1]` and
`buildid + 2` (readelf.c:1181).  The string `buildid` is held in a block of
`strlen(buildid) + 1` bytes (readelf.c:1036, 1076, 2617).  For a build-id of fewer
than two characters `buildid + 2` lies beyond the NUL that ends the string, and
for the empty build-id `buildid[1]` does too: the source does not say what is
read there, and the result is `none`. -/
def buildid_path (buildid : List Nat) : Option (List Nat) :=
  match buildid with
  | b0 :: b1 :: rest => some (buildid_format b0 b1 rest)
  | _ => none

/-- The step `if (dimg != NULL) goto dimg_ok;` after an attempt: the image that
the attempt `r` found, or else the result of the attempts that follow. -/
def or_next (r : Option (Option DiImage)) (next : Option (Option DiImage)) :
    Option (Option DiImage) :=
  match r with
  | none => none
  | some (some dimg) => some (some dimg)
  | some none => next

/-- The attempts of `find_debug_file` for a debuglink name (readelf.c:1191-1238),
in their order. -/
def find_by_debuglink (env : Env) (t : Target) (objpath debugname : List Nat) (crc : Nat)
    (rel_ok : Bool) : Option (Option DiImage) :=
  let objdir := objdir_of objpath
  or_next (open_debug_file env t (objdir ++ cstr "/" ++ debugname) none crc rel_ok none) <|
  or_next (open_debug_file env t (objdir ++ cstr "/.debug/" ++ debugname) none crc rel_ok
            none) <|
  or_next (open_debug_file env t (cstr "/usr/lib/debug" ++ objdir ++ cstr "/" ++ debugname)
            none crc rel_ok none) <|
  or_next
    (match env.clo_extra_debuginfo_path with
     | some extrapath =>
       open_debug_file env t (extrapath ++ objdir ++ cstr "/" ++ debugname) none crc rel_ok
         none
     | none => some none) <|
    match env.clo_debuginfo_server with
    | some serverpath =>
      open_debug_file env t (basename_of debugname) none crc rel_ok (some serverpath)
    | none => some none

/-- The function `find_debug_file` (readelf.c:1167).  The result is `none` when
the function does not return or reads beyond the string `buildid` to build the
first name, `some none` when it returns NULL, and else the image found. -/
def find_debug_file (env : Env) (t : Target) (objpath : List Nat)
    (buildid debugname : Option (List Nat)) (crc : Nat) (rel_ok : Bool) :
    Option (Option DiImage) :=
  let by_buildid : Option (Option DiImage) :=
    match buildid with
    | some b =>
      match buildid_path b with
      | some debugpath => open_debug_file env t debugpath (some b) 0 rel_ok none
      | none => none
    | none => some none
  or_next by_buildid <|
    match debugname with
    | some debugname =>
      if !rel_ok then find_by_debuglink env t objpath debugname crc rel_ok else some none
    | none => some none

/-- The function `find_debug_file_ad_hoc` (readelf.c:1257). -/
def find_debug_file_ad_hoc (env : Env) (objpath : List Nat) : Option DiImage :=
  let by_path : Option DiImage :=
    match env.clo_extra_debuginfo_path with
    | some extrapath => env.img_from_local_file (extrapath ++ cstr "/" ++ objpath)
    | none => none
  match by_path with
  | some dimg => some dimg
  | none =>
    match env.clo_debuginfo_server with
    | some serverpath => env.img_from_di_server (basename_of objpath) serverpath
    | none => none

/-! ## The debug-info sections and the end of the reader -/

/-- The local slices `strtab_escn`, `symtab_escn`, ... of
`ML_(read_elf_debug_info)` (readelf.c:2205-2227), but for the array
`ehframe_escn`. -/
inductive Slot where
  | strtab
  | symtab
  | dynstr
  | dynsym
  | debuglink
  | debugaltlink
  | stab
  | stabstr
  | debug_line
  | debug_info
  | debug_types
  | debug_abbv
  | debug_str
  | debug_ranges
  | debug_loc
  | debug_frame
  | debug_line_alt
  | debug_info_alt
  | debug_abbv_alt
  | debug_str_alt
  | dwarf1d
  | dwarf1l
  | opd
  deriving DecidableEq, Repr

/-- The values of the local slices, of the array `ehframe_escn` and of
`ehframe_mix`.  The flag `symtab_in_dimg` records that `symtab_escn` has been
set from the debug image: it stands for the comparison of pointers
`symtab_escn.img == dimg` when there is a debug image. -/
structure Escns where
  sli : Slot → DiSlice
  ehframe : Nat → DiSlice
  ehframe_mix : Nat
  symtab_in_dimg : Bool

/-- The slices as they are initialised (readelf.c:2205-2236). -/
def Escns.init : Escns :=
  { sli := fun _ => DiSlice_INVALID, ehframe := fun _ => DiSlice_INVALID, ehframe_mix := 0,
    symtab_in_dimg := false }

/-- Modelled from the spec: `ML_(sli_is_valid)` of `priv_image.h`: a slice is
either the invalid one or refers to an image. -/
def sli_is_valid (sli : DiSlice) : Bool := sli.img.isSome

/-- The search of the macros `FINDX` and `FIND` (readelf.c:2254-2281, 2545-2579)
for the section `sec_name` at the section header `i` of the image `img`: the
header is read and its name compared.  The result is `Res.ok none` when the name
differs, and else the slice of the section, after the assertion on its offset
and the check that it lies inside the image. -/
def find_section (t : Target) (img : DiImage) (shdr_ioff shdr_ent_szB shdr_strtab_ioff : Nat)
    (di : DebugInfo) (i : Nat) (sec_name : String) : Res (Option DiSlice) :=
  match img_get_Shdr t img (INDEX_BIS shdr_ioff i shdr_ent_szB) with
  | none => Res.crash
  | some a_shdr =>
    match img_strcmp_c img (add64 shdr_strtab_ioff a_shdr.sh_name) (cstr sec_name) with
    | none => Res.crash
    | some c =>
      if c ≠ 0 then Res.ok none
      else
        let nobits := a_shdr.sh_type == SHT_NOBITS
        if a_shdr.sh_offset = DiOffT_INVALID then Res.crash
        else if add64 a_shdr.sh_offset (if nobits then 0 else a_shdr.sh_size) > img_size img then
          Res.fail "   section beyond image end?!" di
        else Res.ok (some { img := some img, ioff := a_shdr.sh_offset, szB := a_shdr.sh_size })

/-- The names that the second loop over the section headers of the main image
looks for with `FIND`, and their slices, in the order of readelf.c:2288-2311. -/
def main_finds : List (String × Slot) :=
  [(".dynsym", Slot.dynsym), (".dynstr", Slot.dynstr), (".symtab", Slot.symtab),
   (".strtab", Slot.strtab), (".gnu_debuglink", Slot.debuglink),
   (".gnu_debugaltlink", Slot.debugaltlink), (".stab", Slot.stab),
   (".stabstr", Slot.stabstr), (".debug_line", Slot.debug_line),
   (".debug_info", Slot.debug_info), (".debug_types", Slot.debug_types),
   (".debug_abbrev", Slot.debug_abbv), (".debug_str", Slot.debug_str),
   (".debug_ranges", Slot.debug_ranges), (".debug_loc", Slot.debug_loc),
   (".debug_frame", Slot.debug_frame), (".debug", Slot.dwarf1d), (".line", Slot.dwarf1l),
   (".opd", Slot.opd)]

/-- A sequence of steps over the elements of a list, each of which can fail or
stop the function. -/
def foldRes {α σ : Type} (step : σ → α → Res σ) : List α → σ → Res σ
  | [], s => Res.ok s
  | a :: rest, s => (step s a).bind (foldRes step rest)

/-- One `FIND` of the second loop over the section headers of the main image. -/
def main_find (t : Target) (mimg : DiImage) (h : MainHdrs) (di : DebugInfo) (i : Nat)
    (st : Escns) (f : String × Slot) : Res Escns :=
  (find_section t mimg h.shdr_mioff h.shdr_ment_szB h.shdr_strtab_mioff di i f.1).bind
    fun r =>
      match r with
      | none => Res.ok st
      | some sli => Res.ok { st with sli := Function.update st.sli f.2 sli }

/-- The `FINDX` of `.eh_frame` in the second loop over the section headers of
the main image (readelf.c:2313-2316): the slice is written to
`ehframe_escn[ehframe_mix]`, whatever `ehframe_mix` is, and then `ehframe_mix`
is incremented and asserted to be at most `N_EHFRAME_SECTS`. -/
def main_find_ehframe (t : Target) (mimg : DiImage) (h : MainHdrs) (di : DebugInfo) (i : Nat)
    (st : Escns) : Res Escns :=
  (find_section t mimg h.shdr_mioff h.shdr_ment_szB h.shdr_strtab_mioff di i ".eh_frame").bind
    fun r =>
      match r with
      | none => Res.ok st
      | some sli =>
        if (st.ehframe_mix + 1) % 2 ^ 32 ≤ t.n_ehframe_sects then
          Res.ok { st with ehframe := Function.update st.ehframe st.ehframe_mix sli
                           ehframe_mix := (st.ehframe_mix + 1) % 2 ^ 32 }
        else Res.crash

/-- One iteration of the second loop over the section headers of the main image
(readelf.c:2252-2330). -/
def second_pass_step (t : Target) (mimg : DiImage) (h : MainHdrs) (di : DebugInfo)
    (st : Escns) (i : Nat) : Res Escns :=
  (foldRes (main_find t mimg h di i) main_finds st).bind (main_find_ehframe t mimg h di i)

/-- The second loop over the section headers of the main image
(readelf.c:2252-2330); the number of iterations is `ehdr_m.e_shnum`, which
`shdr_mnent` holds. -/
def second_pass (t : Target) (mimg : DiImage) (h : MainHdrs) (di : DebugInfo) : Res Escns :=
  forRes (second_pass_step t mimg h di) h.shdr_mnent 0 Escns.init

/-- The locals `rx_dsvma_limit`, `rx_dbias`, `rw_dsvma_limit` and `rw_dbias`
(readelf.c:2416-2419). -/
structure DebugBias where
  rx_dsvma_limit : Nat
  rx_dbias : Nat
  rw_dsvma_limit : Nat
  rw_dbias : Nat
  deriving DecidableEq, Repr

/-- The test of readelf.c:2470-2473 on a PT_LOAD entry of the debug image and a
mapping. -/
def debug_map_holds (t : Target) (a_phdr : ElfXX_Phdr) (map : DebugInfoMapping) : Bool :=
  decide (a_phdr.p_offset ≥ map.foff)
  && decide (a_phdr.p_offset < addW t map.foff map.size)
  && decide (addW t a_phdr.p_offset a_phdr.p_filesz < addW t map.foff map.size)

/-- The loop over the mappings for a PT_LOAD entry of the debug image
(readelf.c:2468-2486), which ends at the first mapping that holds the entry. -/
def debug_load (t : Target) (a_phdr : ElfXX_Phdr) (b : DebugBias) :
    List DebugInfoMapping → DebugBias
  | [] => b
  | map :: rest =>
    if debug_map_holds t a_phdr map then
      let dbias := subW t (addW t (subW t map.avma map.foff) a_phdr.p_offset) a_phdr.p_vaddr
      let b1 :=
        if map.rx && b.rx_dsvma_limit == 0 then
          { b with rx_dsvma_limit := addW t a_phdr.p_vaddr a_phdr.p_memsz, rx_dbias := dbias }
        else b
      if map.rw && b1.rw_dsvma_limit == 0 then
        { b1 with rw_dsvma_limit := addW t a_phdr.p_vaddr a_phdr.p_memsz, rw_dbias := dbias }
      else b1
    else debug_load t a_phdr b rest

/-- The header tables of a debug image or of an alternate debug image. -/
structure AuxHdrs where
  shdr_ioff : Nat
  shdr_nent : Nat
  shdr_ent_szB : Nat
  shdr_strtab_ioff : Nat
  deriving DecidableEq, Repr

/-- The first `FIND` of the loop over the section headers of the debug image
(readelf.c:2501-2530), for the section record `r` of the name `sec_name` and the
bias `dbias` of its segment. -/
def debug_sec (t : Target) (dimg : DiImage) (h : AuxHdrs) (i : Nat) (sec_name : String)
    (dbias : Nat) (r : SecRec) : Res SecRec :=
  match img_get_Shdr t dimg (INDEX_BIS h.shdr_ioff i h.shdr_ent_szB) with
  | none => Res.crash
  | some a_shdr =>
    if !r.present then Res.ok r
    else
      match img_strcmp_c dimg (add64 h.shdr_strtab_ioff a_shdr.sh_name) (cstr sec_name) with
      | none => Res.crash
      | some c =>
        if c ≠ 0 then Res.ok r
        else if r.size ≠ a_shdr.sh_size then Res.crash
        else if addW t (addW t r.avma a_shdr.sh_addr) dbias = 0 then Res.crash
        else
          Res.ok { r with debug_svma := a_shdr.sh_addr
                          debug_bias := subW t (addW t r.bias r.svma) a_shdr.sh_addr }

/-- The six `FIND`s of readelf.c:2533-2538 at the section header `i` of the
debug image. -/
def debug_secs (t : Target) (dimg : DiImage) (h : AuxHdrs) (b : DebugBias) (i : Nat)
    (di : DebugInfo) : Res DebugInfo :=
  (debug_sec t dimg h i ".text" b.rx_dbias di.text).bind fun r =>
  let di := { di with text := r }
  (debug_sec t dimg h i ".data" b.rw_dbias di.data).bind fun r =>
  let di := { di with data := r }
  (debug_sec t dimg h i ".sdata" b.rw_dbias di.sdata).bind fun r =>
  let di := { di with sdata := r }
  (debug_sec t dimg h i ".rodata" b.rw_dbias di.rodata).bind fun r =>
  let di := { di with rodata := r }
  (debug_sec t dimg h i ".bss" b.rw_dbias di.bss).bind fun r =>
  let di := { di with bss := r }
  (debug_sec t dimg h i ".sbss" b.rw_dbias di.sbss).bind fun r =>
  Res.ok { di with sbss := r }

/-- The locals `need_symtab`, `need_stabs`, `need_dwarf2` and `need_dwarf1`
(readelf.c:2490-2493). -/
inductive Need where
  | symtab
  | stabs
  | dwarf2
  | dwarf1
  deriving DecidableEq, Repr

/-- The value of a `need_*` local for the slices found in the main image. -/
def Need.holds (st : Escns) : Need → Bool
  | Need.symtab => (st.sli Slot.symtab).img.isNone
  | Need.stabs => (st.sli Slot.stab).img.isNone
  | Need.dwarf2 => (st.sli Slot.debug_info).img.isNone
  | Need.dwarf1 => (st.sli Slot.dwarf1d).img.isNone

/-- The names that the loop over the section headers of the debug image looks
for with the second `FIND`, with their conditions and their slices, in the order
of readelf.c:2582-2600. -/
def debug_finds : List (Need × String × Slot) :=
  [(Need.symtab, ".symtab", Slot.symtab), (Need.symtab, ".strtab", Slot.strtab),
   (Need.stabs, ".stab", Slot.stab), (Need.stabs, ".stabstr", Slot.stabstr),
   (Need.dwarf2, ".debug_line", Slot.debug_line),
   (Need.dwarf2, ".debug_info", Slot.debug_info),
   (Need.dwarf2, ".debug_types", Slot.debug_types),
   (Need.dwarf2, ".debug_abbrev", Slot.debug_abbv),
   (Need.dwarf2, ".debug_str", Slot.debug_str),
   (Need.dwarf2, ".debug_ranges", Slot.debug_ranges),
   (Need.dwarf2, ".debug_loc", Slot.debug_loc),
   (Need.dwarf2, ".debug_frame", Slot.debug_frame),
   (Need.dwarf2, ".gnu_debugaltlink", Slot.debugaltlink),
   (Need.dwarf1, ".debug", Slot.dwarf1d), (Need.dwarf1, ".line", Slot.dwarf1l)]

/-- The second `FIND` of the loop over the section headers of the debug image
(readelf.c:2545-2579), and with `check_end` false the `FIND` of the loop over
the section headers of the alternate debug image (readelf.c:2684-2708), which
does not check the end of the image.  The diagnostic `dup` is the one for a
slice that is set already. -/
def aux_find (t : Target) (img : DiImage) (h : AuxHdrs) (di : DebugInfo) (i : Nat)
    (cond check_end : Bool) (dup : String) (sec_name : String) (cur : DiSlice) :
    Res (Option DiSlice) :=
  match img_get_Shdr t img (INDEX_BIS h.shdr_ioff i h.shdr_ent_szB) with
  | none => Res.crash
  | some a_shdr =>
    if !cond then Res.ok none
    else
      match img_strcmp_c img (add64 h.shdr_strtab_ioff a_shdr.sh_name) (cstr sec_name) with
      | none => Res.crash
      | some c =>
        if c ≠ 0 then Res.ok none
        else if cur.img.isSome then Res.fail dup di
        else
          let nobits := a_shdr.sh_type == SHT_NOBITS
          if a_shdr.sh_offset = DiOffT_INVALID then Res.crash
          else if check_end
              && decide (add64 a_shdr.sh_offset (if nobits then 0 else a_shdr.sh_size)
                          > img_size img) then
            Res.fail "   section beyond image end?!" di
          else
            Res.ok (some { img := some img, ioff := a_shdr.sh_offset, szB := a_shdr.sh_size })

/-- The DebugInfo and the slices: the state of the loops over the section headers
of the debug image and of the alternate debug image. -/
structure AuxScan where
  di : DebugInfo
  escns : Escns

/-- One second `FIND` of the loop over the section headers of the debug image. -/
def debug_find (t : Target) (dimg : DiImage) (h : AuxHdrs) (needs : Need → Bool) (i : Nat)
    (st : AuxScan) (f : Need × String × Slot) : Res AuxScan :=
  (aux_find t dimg h st.di i (needs f.1) true
      "   debuginfo section duplicates a section in the main ELF file" f.2.1
      (st.escns.sli f.2.2)).bind
    fun r =>
      match r with
      | none => Res.ok st
      | some sli =>
        Res.ok { st with
          escns := { st.escns with
            sli := Function.update st.escns.sli f.2.2 sli
            symtab_in_dimg := st.escns.symtab_in_dimg || decide (f.2.2 = Slot.symtab) } }

/-- One iteration of the loop over the section headers of the debug image
(readelf.c:2496-2603). -/
def debug_step (t : Target) (dimg : DiImage) (h : AuxHdrs) (b : DebugBias)
    (needs : Need → Bool) (st : AuxScan) (i : Nat) : Res AuxScan :=
  (debug_secs t dimg h b i st.di).bind fun di =>
    foldRes (debug_find t dimg h needs i) debug_finds { st with di := di }

/-- The loop over the program headers of the debug image (readelf.c:2462-2488).
The result is `none` when a read stops the function. -/
def debug_phdrs (t : Target) (dimg : DiImage) (ehdr_dimg : ElfXX_Ehdr) (di : DebugInfo) :
    Option DebugBias :=
  forOpt
    (fun b i =>
      match img_get_Phdr t dimg (INDEX_BIS ehdr_dimg.e_phoff i ehdr_dimg.e_phentsize) with
      | none => none
      | some a_phdr =>
        if a_phdr.p_type = PT_LOAD then some (debug_load t a_phdr b di.maps) else some b)
    ehdr_dimg.e_phnum 0 ⟨0, 0, 0, 0⟩

/-- What the reader takes from a debug image that it has found
(readelf.c:2398-2604). -/
def read_debug_image (t : Target) (dimg : DiImage) (st : AuxScan) : Res AuxScan :=
  match is_elf_object_file_by_DiImage t dimg false with
  | none => Res.crash
  | some false => Res.ok st
  | some true =>
    match img_get_Ehdr t dimg 0 with
    | none => Res.crash
    | some ehdr_dimg =>
      let phdr_dioff := ehdr_dimg.e_phoff
      let phdr_dnent := ehdr_dimg.e_phnum
      let phdr_dent_szB := ehdr_dimg.e_phentsize
      let shdr_dioff := ehdr_dimg.e_shoff
      let shdr_dnent := ehdr_dimg.e_shnum
      let shdr_dent_szB := ehdr_dimg.e_shentsize
      if phdr_dnent = 0 ∨ !img_valid dimg phdr_dioff (mulW t phdr_dnent phdr_dent_szB) then
        Res.fail "Missing or invalid ELF Program Header Table (debuginfo file)" st.di
      else if shdr_dnent = 0
          ∨ !img_valid dimg shdr_dioff (mulW t shdr_dnent shdr_dent_szB) then
        Res.fail "Missing or invalid ELF Section Header Table (debuginfo file)" st.di
      else if ehdr_dimg.e_shstrndx = SHN_UNDEF then Res.crash
      else
        match img_get_Shdr t dimg (INDEX_BIS shdr_dioff ehdr_dimg.e_shstrndx shdr_dent_szB) with
        | none => Res.crash
        | some a_shdr =>
          let shdr_strtab_dioff := a_shdr.sh_offset
          if !img_valid dimg shdr_strtab_dioff 1 then
            Res.fail "Invalid ELF Section Header String Table (debuginfo file)" st.di
          else
            match debug_phdrs t dimg ehdr_dimg st.di with
            | none => Res.crash
            | some b =>
              forRes
                (debug_step t dimg
                  { shdr_ioff := shdr_dioff, shdr_nent := shdr_dnent,
                    shdr_ent_szB := shdr_dent_szB, shdr_strtab_ioff := shdr_strtab_dioff }
                  b (fun n => Need.holds st.escns n))
                ehdr_dimg.e_shnum 0 st

/-- The names that the loop over the section headers of the alternate debug
image looks for, and their slices (readelf.c:2711-2714). -/
def alt_finds : List (String × Slot) :=
  [(".debug_line", Slot.debug_line_alt), (".debug_info", Slot.debug_info_alt),
   (".debug_abbrev", Slot.debug_abbv_alt), (".debug_str", Slot.debug_str_alt)]

/-- One `FIND` of the loop over the section headers of the alternate debug
image. -/
def alt_find (t : Target) (aimg : DiImage) (h : AuxHdrs) (i : Nat) (st : AuxScan)
    (f : String × Slot) : Res AuxScan :=
  (aux_find t aimg h st.di i true false
      "   alternate debuginfo section duplicates a section in the main ELF file" f.1
      (st.escns.sli f.2)).bind
    fun r =>
      match r with
      | none => Res.ok st
      | some sli =>
        Res.ok { st with escns := { st.escns with sli := Function.update st.escns.sli f.2 sli } }

/-- What the reader takes from an alternate debug image that it has found
(readelf.c:2638-2718). -/
def read_alt_image (t : Target) (aimg : DiImage) (st : AuxScan) : Res AuxScan :=
  match is_elf_object_file_by_DiImage t aimg true with
  | none => Res.crash
  | some false => Res.ok st
  | some true =>
    match img_get_Ehdr t aimg 0 with
    | none => Res.crash
    | some ehdr_aimg =>
      let shdr_aioff := ehdr_aimg.e_shoff
      let shdr_anent := ehdr_aimg.e_shnum
      let shdr_aent_szB := ehdr_aimg.e_shentsize
      if shdr_anent = 0 ∨ !img_valid aimg shdr_aioff (mulW t shdr_anent shdr_aent_szB) then
        Res.fail "Missing or invalid ELF Section Header Table (alternate debuginfo file)"
          st.di
      else if ehdr_aimg.e_shstrndx = SHN_UNDEF then Res.crash
      else
        match img_get_Shdr t aimg (INDEX_BIS shdr_aioff ehdr_aimg.e_shstrndx shdr_aent_szB) with
        | none => Res.crash
        | some a_shdr =>
          let shdr_strtab_aioff := a_shdr.sh_offset
          if !img_valid aimg shdr_strtab_aioff 1 then
            Res.fail "Invalid ELF Section Header String Table (alternate debuginfo file)"
              st.di
          else
            forRes
              (fun st i =>
                foldRes
                  (alt_find t aimg
                    { shdr_ioff := shdr_aioff, shdr_nent := shdr_anent,
                      shdr_ent_szB := shdr_aent_szB, shdr_strtab_ioff := shdr_strtab_aioff }
                    i)
                  alt_finds st)
              ehdr_aimg.e_shnum 0 st

/-- Modelled from the spec: the macro `VG_ROUNDUP(p, 4)` of `pub_tool_basics.h`,
which pads to a multiple of 4 in word arithmetic, and its conversion to `UInt`
(readelf.c:2349-2351). -/
def crc_offset_of (t : Target) (len : Nat) : Nat :=
  (len + 1 + 3) % t.wmod / 4 * 4 % 2 ^ 32

/-- The search for a debug image (readelf.c:2338-2393).  The result is `none`
when the function does not return or `find_debug_file` reads beyond the build-id,
and else the value of `dimg`. -/
def find_debug_image (env : Env) (t : Target) (mimg : DiImage) (di : DebugInfo)
    (escns : Escns) : Option (Option DiImage) :=
  let filename := di.filename.getD []
  match find_buildid t mimg false false with
  | none => none
  | some buildid =>
    let debuglink_escn := escns.sli Slot.debuglink
    let found : Option (Option DiImage) :=
      match debuglink_escn.img with
      | some limg =>
        match img_strlen limg debuglink_escn.ioff with
        | none => none
        | some len =>
          let crc_offset := crc_offset_of t len
          if ¬ (addW t crc_offset 4 ≤ debuglink_escn.szB) then none
          else
            match img_get_UInt limg (add64 debuglink_escn.ioff crc_offset) with
            | none => none
            | some crc =>
              match img_strdup limg debuglink_escn.ioff with
              | none => none
              | some debuglink_str_m =>
                find_debug_file env t filename buildid (some debuglink_str_m) crc false
      | none =>
        if buildid.isSome then find_debug_file env t filename buildid none 0 false
        else some none
    match found with
    | none => none
    | some (some dimg) => some (some dimg)
    | some none =>
      if env.clo_allow_mismatched_debuginfo then some (find_debug_file_ad_hoc env filename)
      else some none

/-- The hexadecimal build-id that follows the name in `.gnu_debugaltlink`, and
the search for the alternate debug image (readelf.c:2611-2633).  The name is
measured from the offset 0 of the image, not from the offset of the section.
The result is `none` when the function does not return or `find_debug_file`
reads beyond the build-id, and else the value of `aimg`. -/
def find_alt_image (env : Env) (t : Target) (di : DebugInfo) (escns : Escns) :
    Option (Option DiImage) :=
  let debugaltlink_escn := escns.sli Slot.debugaltlink
  match debugaltlink_escn.img with
  | none => some none
  | some limg =>
    match img_strlen limg 0 with
    | none => none
    | some len =>
      let buildid_offset := (len + 1) % 2 ^ 32
      if ¬ (buildid_offset < debugaltlink_escn.szB) then none
      else
        match desc_hex limg (add64 debugaltlink_escn.ioff buildid_offset)
                (debugaltlink_escn.szB - buildid_offset) 0 with
        | none => none
        | some altbuildid =>
          find_debug_file env t (di.filename.getD []) (some altbuildid) none 0 true

/-- The assertions before the call-frame information of each `.eh_frame` section
is read (readelf.c:2748-2753). -/
def callframe_asserts (t : Target) (di : DebugInfo) (escns : Escns) : Bool :=
  decide (di.n_ehframe ≤ t.n_ehframe_sects)
  && (List.range di.n_ehframe).all fun i =>
       sli_is_valid (escns.ehframe i) && decide ((escns.ehframe i).szB = di.ehframe_size i)

/-- What `ML_(read_elf_debug_info)` has done when it returns True: the
DebugInfo, the slices and the images it has found, and the symbols with which
`ML_(addSym)` has been called, for the symbol table and then for the dynamic
symbol table. -/
structure ReadOutcome where
  di : DebugInfo
  escns : Escns
  dimg : Option DiImage
  aimg : Option DiImage
  syms : List DiSym

/-- The part of `ML_(read_elf_debug_info)` from the search for the debug image
to the symbol tables (readelf.c:2332-2743), after the second loop over the
section headers has found the slices `escns` of the main image. -/
def read_companions_and_symbols (env : Env) (t : Target) (mimg : DiImage) (di : DebugInfo)
    (escns : Escns) : Res ReadOutcome :=
  match find_debug_image env t mimg di escns with
  | none => Res.crash
  | some dimg =>
    (match dimg with
     | some d => read_debug_image t d { di := di, escns := escns }
     | none => Res.ok { di := di, escns := escns }).bind fun st1 =>
    match find_alt_image env t st1.di st1.escns with
    | none => Res.crash
    | some aimg =>
      (match aimg with
       | some a => read_alt_image t a st1
       | none => Res.ok st1).bind fun st2 =>
      let di := st2.di
      let escns := st2.escns
      if (escns.sli Slot.dynsym).szB % sizeof_Sym t ≠ 0 then Res.crash
      else if (escns.sli Slot.symtab).szB % sizeof_Sym t ≠ 0 then Res.crash
      else
        let symtab_in_debug : Bool :=
          match dimg with
          | some _ => escns.symtab_in_dimg
          | none => (escns.sli Slot.symtab).img.isNone
        match read_elf_symtab t di (escns.sli Slot.symtab) (escns.sli Slot.strtab)
                (escns.sli Slot.opd) symtab_in_debug with
        | none => Res.crash
        | some syms1 =>
          match read_elf_symtab t di (escns.sli Slot.dynsym) (escns.sli Slot.dynstr)
                  (escns.sli Slot.opd) false with
          | none => Res.crash
          | some syms2 =>
            Res.ok { di := di, escns := escns, dimg := dimg, aimg := aimg,
                     syms := syms1 ++ syms2 }

/-- The function `ML_(read_elf_debug_info)` (readelf.c:1391).

* `Res.crash` : the function does not return, or `find_debug_file` reads beyond
  a build-id of fewer than two characters.
* `Res.fail err di` : the function returns False, leaving `di`.
* `Res.ok r` : the function returns True.

The readers of the call-frame information and of the DWARF debug information
(`ML_(read_callframe_info_dwarf3)`, `ML_(read_debuginfo_dwarf3)`,
`ML_(new_dwarf3_reader)`) are not part of `readelf.c`; they are called after the
assertions `callframe_asserts`, with the slices of `r.escns`, and fill tables of
the DebugInfo that this embedding does not hold. -/
def read_elf_debug_info (env : Env) (t : Target) (di : DebugInfo) : Res ReadOutcome :=
  let mimg := di.filename.bind env.img_from_local_file
  (read_elf_debug_info_sections t mimg di).bind fun d =>
    match mimg with
    | none => Res.crash
    | some mimg =>
      (second_pass t mimg d.hdrs d.di).bind fun escns =>
      (read_companions_and_symbols env t mimg d.di escns).bind fun r =>
        if !callframe_asserts t r.di r.escns then Res.crash
        else Res.ok r

/-- A `.eh_frame` section of size 0 at the SVMA 0x800. -/
def sh_ehframe_empty : ElfXX_Shdr :=
  { sh_name := 40, sh_type := 1, sh_addr := 0x800, sh_offset := 0x800, sh_size := 0,
    sh_addralign := 8 }

/-- A `.eh_frame` section of 0x100 bytes at the SVMA 0x800. -/
def sh_ehframe : ElfXX_Shdr :=
  { sh_name := 40, sh_type := 1, sh_addr := 0x800, sh_offset := 0x800, sh_size := 0x100,
    sh_addralign := 8 }

/-- The section names of the scenario images followed by `.eh_frame`. -/
def ehframe_strs : List Nat := scen_strs ++ cstr0 ".eh_frame"

/-- The section-name string table of `ehframe_img`. -/
def sh_shstrtab_ehframe : ElfXX_Shdr := { sh_shstrtab with sh_size := 50 }

/-- The image of scenario 1 with two sections named `.eh_frame` after `.data`:
one of size 0, and then one of 0x100 bytes. -/
def ehframe_img : DiImage :=
  mkImage 0x3000 (mkEhdr 2 6) [ph_rx, ph_rw]
    [sh_null, sh_text, sh_data, sh_ehframe_empty, sh_ehframe, sh_shstrtab_ehframe]
    ehframe_strs []

/-- An environment in which the file of `fresh_di` is the image `img`, no other
file exists and no option is given. -/
def env_of (img : DiImage) : Env :=
  { img_from_local_file := fun name =>
      if name = cstr "/tmp/obj/libmain.so" then some img else none
    img_from_di_server := fun _ _ => none
    clo_extra_debuginfo_path := none
    clo_debuginfo_server := none
    clo_allow_mismatched_debuginfo := false }

/-- The dynamic entries of scenario 2 with a DT_SONAME of 0x27, the offset of a
NUL byte in the string table at 0x2040. -/
def empty_soname_dyns : List ElfXX_Dyn :=
  [⟨DT_SONAME, 0x27⟩, ⟨DT_STRTAB, 0x2040⟩, ⟨DT_NULL, 0⟩]

/-- The image of scenario 2 with the dynamic entries `empty_soname_dyns`: its
soname is the empty string. -/
def empty_soname_img : DiImage :=
  mkImage 0x3000 (mkEhdr 3 4) [ph_rx, ph_rw2, ph_dyn 0x2400]
    [sh_null, sh_text, sh_data, sh_shstrtab] scen_strs empty_soname_dyns

/-- A local symbol of the type STT_SECTION at the address 0x1010, inside `.text`
of scenario 1. -/
def sym_section : ElfXX_Sym :=
  { st_name := 1, st_info := 0x03, st_shndx := 1, st_value := 0x1010, st_size := 16 }

/-- The six sections in the order in which the specification lists them, each
with the value of `is_text` that it gives to a symbol. -/
def bias_sections (di : DebugInfo) : List (Bool × SecRec) :=
  [(true, di.text), (false, di.data), (false, di.sdata), (false, di.rodata),
   (false, di.bss), (false, di.sbss)]

/-- In the words of the specification: the section `S` is present, has a size
greater than 0 and its range `[S.svma, S.svma + S.size)` contains `sym_svma`,
with `S.debug_svma` instead of `S.svma` when the symbol table is in the debug
file. -/
def sec_contains (t : Target) (symtab_in_debug : Bool) (sym_svma : Nat) (s : SecRec) : Bool :=
  s.present && decide (0 < s.size)
  && decide ((if symtab_in_debug then s.debug_svma else s.svma) ≤ sym_svma)
  && decide (sym_svma < addW t (if symtab_in_debug then s.debug_svma else s.svma) s.size)

/-- In the words of the specification: `is_text` and the bias of the first of
the six sections that contains the symbol, and those of text if none does. -/
def bias_of_first_section (t : Target) (di : DebugInfo) (symtab_in_debug : Bool)
    (sym_svma : Nat) : Bool × Nat :=
  match (bias_sections di).find? (fun p => sec_contains t symtab_in_debug sym_svma p.2) with
  | some p => (p.1, if symtab_in_debug then p.2.debug_bias else p.2.bias)
  | none => (true, if symtab_in_debug then di.text.debug_bias else di.text.bias)

/-- In the words of the specification: the segment contains the address,
`(p_vaddr & -p_align) <= svma < p_vaddr + p_filesz`. -/
def seg_contains (t : Target) (seg : ElfXX_Phdr) (svma : Nat) : Prop :=
  Nat.land seg.p_vaddr (negW t seg.p_align) ≤ svma ∧ svma < seg.p_vaddr + seg.p_filesz

instance (t : Target) (seg : ElfXX_Phdr) (svma : Nat) : Decidable (seg_contains t seg svma) := by
  delta seg_contains; infer_instance

/-- The test that `file_offset_from_svma` makes of a program header
(readelf.c:1347-1350): the entry is a PT_LOAD, `svma >= (p_vaddr & -p_align)` and
`svma + 1 <= p_vaddr + p_filesz`, with both sums computed on words. -/
def seg_matches (t : Target) (seg : ElfXX_Phdr) (svma : Nat) : Prop :=
  seg.p_type = PT_LOAD
  ∧ svma ≥ Nat.land seg.p_vaddr (negW t seg.p_align)
  ∧ addW t svma 1 ≤ addW t seg.p_vaddr seg.p_filesz

instance (t : Target) (seg : ElfXX_Phdr) (svma : Nat) : Decidable (seg_matches t seg svma) := by
  delta seg_matches; infer_instance

/-- In the words of the specification: the flags of a segment contain both `f1`
and `f2`. -/
def has_flags (p_flags f1 f2 : Nat) : Prop :=
  Nat.land p_flags f1 ≠ 0 ∧ Nat.land p_flags f2 ≠ 0

instance (p_flags f1 f2 : Nat) : Decidable (has_flags p_flags f1 f2) := by
  delta has_flags; infer_instance

/-- In the words of the specification: the load ranges emitted for a PT_LOAD
entry and a mapping that holds its file range.  Each has
`svma_base = p_vaddr`, `svma_limit = p_vaddr + p_memsz` and
`bias = map.avma - map.foff + p_offset - p_vaddr`; one with exec=false is
emitted if the mapping is rw and the flags contain PF_R and PF_W, and one with
exec=true if the mapping is rx and the flags contain PF_R and PF_X. -/
def emitted_ranges (t : Target) (a : ElfXX_Phdr) (map : DebugInfoMapping) :
    List RangeAndBias :=
  (if map.rw = true ∧ has_flags a.p_flags PF_R PF_W then
    [{ svma_base := a.p_vaddr, svma_limit := addW t a.p_vaddr a.p_memsz,
       bias := subW t (addW t (subW t map.avma map.foff) a.p_offset) a.p_vaddr,
       exec := false }]
   else [])
  ++ (if map.rx = true ∧ has_flags a.p_flags PF_R PF_X then
    [{ svma_base := a.p_vaddr, svma_limit := addW t a.p_vaddr a.p_memsz,
       bias := subW t (addW t (subW t map.avma map.foff) a.p_offset) a.p_vaddr,
       exec := true }]
   else [])

/-- A PT_LOAD entry of flags R|W with no bytes in the file, at the file offset
0x3000: the end of the file-offset window of `map_rw`. -/
def ph_bss_at_end : ElfXX_Phdr :=
  { p_type := PT_LOAD, p_flags := 6, p_offset := 0x3000, p_vaddr := 0x3000, p_filesz := 0,
    p_memsz := 0x40, p_align := 0x1000 }

/-- An rw mapping at AVMA 0x704000 whose file-offset window starts at 0x3000. -/
def map_rw_next : DebugInfoMapping :=
  { avma := 0x704000, size := 0x1000, foff := 0x3000, rx := false, rw := true }

/-- The image of scenario 1 with the PT_LOAD entry `ph_bss_at_end` after the two
others. -/
def bss_at_end_img : DiImage :=
  mkImage 0x3000 (mkEhdr 3 4) [ph_rx, ph_rw, ph_bss_at_end]
    [sh_null, sh_text, sh_data, sh_shstrtab] scen_strs []

/-- An environment in which the local files are those of the list `files`, each
given by its name and its image, and no server and no option is given. -/
def env_files (files : List (List Nat × DiImage)) : Env :=
  { img_from_local_file := fun name => (files.find? fun p => p.1 == name).map Prod.snd
    img_from_di_server := fun _ _ => none
    clo_extra_debuginfo_path := none
    clo_debuginfo_server := none
    clo_allow_mismatched_debuginfo := false }

/-- A PT_NOTE entry for a note of 20 bytes at the file offset 0x2800. -/
def ph_note : ElfXX_Phdr :=
  { p_type := PT_NOTE, p_flags := 4, p_offset := 0x2800, p_vaddr := 0x2800, p_filesz := 0x14,
    p_memsz := 0x14, p_align := 4 }

/-- An image as `mkImage` builds it, of 0x3000 bytes, that starts with the bytes
of `e_ident`, holds the bytes `extra` at the offset 0x2700, and at the offset
0x2800 a note of the name "GNU" and the type NT_GNU_BUILD_ID with the descriptor
`desc`. -/
def mkNoteImage (eh : ElfXX_Ehdr) (phs : List ElfXX_Phdr) (shs : List ElfXX_Shdr)
    (strs extra desc : List Nat) : DiImage :=
  { mkImage 0x3000 eh phs shs strs [] with
    byte := fun off =>
      if 0x2810 ≤ off then desc.getD (off - 0x2810) 0
      else if 0x280C ≤ off then (cstr0 "GNU").getD (off - 0x280C) 0
      else if 0x2700 ≤ off then extra.getD (off - 0x2700) 0
      else if 0x2040 ≤ off then strs.getD (off - 0x2040) 0
      else eh.e_ident off
    nhdr := fun off =>
      if off = 0x2800 then ⟨4, desc.length, NT_GNU_BUILD_ID⟩ else ⟨0, 0, 0⟩ }

/-- The section names of the images with companions: those of the scenario
images, and then `.symtab` at the offset 40, `.strtab` at 48,
`.gnu_debugaltlink` at 56, `.debug_info` at 74 and `.gnu_debuglink` at 86. -/
def comp_strs : List Nat :=
  scen_strs ++ cstr0 ".symtab" ++ cstr0 ".strtab" ++ cstr0 ".gnu_debugaltlink"
    ++ cstr0 ".debug_info" ++ cstr0 ".gnu_debuglink"

/-- A section `.symtab` of four entries at the file offset 0x2500. -/
def sh_symtab : ElfXX_Shdr :=
  { sh_name := 40, sh_type := 2, sh_addr := 0, sh_offset := 0x2500, sh_size := 96,
    sh_addralign := 8 }

/-- A section `.strtab` at the file offset 0x2040. -/
def sh_strtab : ElfXX_Shdr :=
  { sh_name := 48, sh_type := 3, sh_addr := 0, sh_offset := 0x2040, sh_size := 101,
    sh_addralign := 1 }

/-- The section-name string table of the images with companions. -/
def sh_shstrtab_comp : ElfXX_Shdr := { sh_shstrtab with sh_size := 101 }

/-- A debug file with the build-id `desc` that holds a section `.symtab`. -/
def debug_img (desc : List Nat) : DiImage :=
  mkNoteImage (mkEhdr 3 3) [ph_rx, ph_rw, ph_note] [sh_null, sh_symtab, sh_shstrtab_comp]
    comp_strs [] desc

/-- The name under which a debug file with the build-id "aabbcc" is looked
for. -/
def path_aabbcc : List Nat := cstr "/usr/lib/debug/.build-id/aa/bbcc.debug"

/-- The image that `open_debug_file` opens for a candidate (readelf.c:1113-1115):
on the server `serverAddr` when one is given, and else in the local
filesystem. -/
def opened_image (env : Env) (name : List Nat) (serverAddr : Option (List Nat)) :
    Option DiImage :=
  match serverAddr with
  | some addr => env.img_from_di_server name addr
  | none => env.img_from_local_file name

/-- A candidate of the search for a debug file: the name under which it is
looked for, the build-id by which it is validated (or else it is validated by
the CRC `crc`), and the server on which it is looked for (or else it is a local
file). -/
structure Candidate where
  name : List Nat
  buildid : Option (List Nat)
  crc : Nat
  server : Option (List Nat)
  deriving DecidableEq, Repr

/-- In the words of the specification: the candidates of `find_debug_file`, in
their order.  (1) if `buildid` is non-NULL,
"/usr/lib/debug/.build-id/" + buildid[0..2) + "/" + buildid[2..] + ".debug",
validated by build-id; then, if `debugname` is non-NULL and `rel_ok` is false,
validated by CRC: (2) objdir/debugname, (3) objdir/.debug/debugname,
(4) /usr/lib/debug + objdir + / + debugname, (5) extrapath + objdir + / +
debugname if extrapath is set, (6) the basename of debugname on the server if a
server is set. -/
def candidates (env : Env) (objpath : List Nat) (buildid debugname : Option (List Nat))
    (crc : Nat) (rel_ok : Bool) : List Candidate :=
  (match buildid with
   | some b =>
     [{ name := cstr "/usr/lib/debug/.build-id/" ++ b.take 2 ++ cstr "/" ++ b.drop 2
                  ++ cstr ".debug",
        buildid := some b, crc := 0, server := none }]
   | none => [])
  ++ (match debugname with
      | some debugname =>
        if rel_ok = false then
          [{ name := objdir_of objpath ++ cstr "/" ++ debugname,
             buildid := none, crc := crc, server := none },
           { name := objdir_of objpath ++ cstr "/.debug/" ++ debugname,
             buildid := none, crc := crc, server := none },
           { name := cstr "/usr/lib/debug" ++ objdir_of objpath ++ cstr "/" ++ debugname,
             buildid := none, crc := crc, server := none }]
          ++ (match env.clo_extra_debuginfo_path with
              | some extrapath =>
                [{ name := extrapath ++ objdir_of objpath ++ cstr "/" ++ debugname,
                   buildid := none, crc := crc, server := none }]
              | none => [])
          ++ (match env.clo_debuginfo_server with
              | some serverpath =>
                [{ name := basename_of debugname, buildid := none, crc := crc,
                   server := some serverpath }]
              | none => [])
        else []
      | none => [])

/-- In the words of the specification: the first candidate of the list that
`open_debug_file` accepts, or NULL if it accepts none.  The result is `none` when
`open_debug_file` does not return for a candidate that is tried. -/
def first_accepted (env : Env) (t : Target) (rel_ok : Bool) :
    List Candidate → Option (Option DiImage)
  | [] => some none
  | c :: rest =>
    match open_debug_file env t c.name c.buildid c.crc rel_ok c.server with
    | none => none
    | some (some dimg) => some (some dimg)
    | some none => first_accepted env t rel_ok rest

/-- A debug file whose CRC-32 is 0x1234. -/
def foo_debug_img : DiImage := { scen1_img with crc32 := 0x1234 }

/-- An environment whose only local file is `/tmp/obj/foo.debug`, the image
`foo_debug_img`. -/
def env_foo_debug : Env := env_files [(cstr "/tmp/obj/foo.debug", foo_debug_img)]

/-- The build-id that `ML_(read_elf_debug_info)` takes from the slice of
`.gnu_debugaltlink` and passes to `find_debug_file` (readelf.c:2612-2626): the
bytes of the section from its offset `buildid_offset` on, in hexadecimal, where
`buildid_offset` is one more than the length of the string at the offset 0 of
the image.  The result is `none` when the function does not return. -/
def alt_buildid (debugaltlink_escn : DiSlice) : Option (List Nat) :=
  match debugaltlink_escn.img with
  | none => none
  | some limg =>
    match img_strlen limg 0 with
    | none => none
    | some len =>
      let buildid_offset := (len + 1) % 2 ^ 32
      if ¬ (buildid_offset < debugaltlink_escn.szB) then none
      else
        desc_hex limg (add64 debugaltlink_escn.ioff buildid_offset)
          (debugaltlink_escn.szB - buildid_offset) 0

/-- In the words of the specification: the payload of `.gnu_debugaltlink` is a
NUL-terminated path `p` followed by the bytes of a build-id, and the build-id
string is the hexadecimal encoding of the bytes of the section from the section
offset `strlen(p) + 1` to the end of the section. -/
def alt_buildid_spec (debugaltlink_escn : DiSlice) : Option (List Nat) :=
  match debugaltlink_escn.img with
  | none => none
  | some limg =>
    match img_strlen limg debugaltlink_escn.ioff with
    | none => none
    | some len =>
      desc_hex limg (add64 debugaltlink_escn.ioff (len + 1))
        (debugaltlink_escn.szB - (len + 1)) 0

/-- A section `.gnu_debugaltlink` of 13 bytes at the file offset 0x2700. -/
def sh_altlink : ElfXX_Shdr :=
  { sh_name := 56, sh_type := 1, sh_addr := 0, sh_offset := 0x2700, sh_size := 13,
    sh_addralign := 1 }

/-- The image of scenario 1 with a section `.gnu_debugaltlink` whose payload is
the path "alt.debug", a NUL and the three bytes aa bb cc of a build-id. -/
def altlink_img : DiImage :=
  mkNoteImage (mkEhdr 2 5) [ph_rx, ph_rw]
    [sh_null, sh_text, sh_data, sh_altlink, sh_shstrtab_comp] comp_strs
    (cstr0 "alt.debug" ++ [0xaa, 0xbb, 0xcc]) []

/-- The slice of the section `.gnu_debugaltlink` of `altlink_img`. -/
def altlink_escn : DiSlice := { img := some altlink_img, ioff := 0x2700, szB := 13 }

/-- An environment with the object `altlink_img` and, under the name of the
build-id "aabbcc", a debug file with that build-id. -/
def env_altlink : Env :=
  env_files [(cstr "/tmp/obj/libmain.so", altlink_img),
             (path_aabbcc, debug_img [0xaa, 0xbb, 0xcc])]

/-- The image of scenario 1 with the build-id "aabbcc" and the sections `.symtab`
and `.strtab`. -/
def main_symtab_img : DiImage :=
  mkNoteImage (mkEhdr 3 6) [ph_rx, ph_rw, ph_note]
    [sh_null, sh_text, sh_data, sh_symtab, sh_strtab, sh_shstrtab_comp] comp_strs []
    [0xaa, 0xbb, 0xcc]

/-- An environment with the object `main_symtab_img` and its debug file, found by
the build-id "aabbcc", which holds a section `.symtab` too. -/
def env_symtab_both : Env :=
  env_files [(cstr "/tmp/obj/libmain.so", main_symtab_img),
             (path_aabbcc, debug_img [0xaa, 0xbb, 0xcc])]

/-- The image `main_symtab_img` with a build-id note whose descriptor is empty
(`n_descsz` is 0). -/
def empty_buildid_img : DiImage :=
  mkNoteImage (mkEhdr 3 6) [ph_rx, ph_rw, ph_note]
    [sh_null, sh_text, sh_data, sh_symtab, sh_strtab, sh_shstrtab_comp] comp_strs [] []

/-- The image of scenario 1 with the build-id "aabbcc" and a section `.strtab`,
and no section `.symtab`. -/
def main_strtab_img : DiImage :=
  mkNoteImage (mkEhdr 3 5) [ph_rx, ph_rw, ph_note]
    [sh_null, sh_text, sh_data, sh_strtab, sh_shstrtab_comp] comp_strs [] [0xaa, 0xbb, 0xcc]

/-- A debug file with the build-id "aabbcc" that holds a section `.strtab`. -/
def debug_strtab_img : DiImage :=
  mkNoteImage (mkEhdr 3 3) [ph_rx, ph_rw, ph_note] [sh_null, sh_strtab, sh_shstrtab_comp]
    comp_strs [] [0xaa, 0xbb, 0xcc]

/-- An environment with the object `main_strtab_img` and its debug file
`debug_strtab_img`. -/
def env_strtab_both : Env :=
  env_files [(cstr "/tmp/obj/libmain.so", main_strtab_img), (path_aabbcc, debug_strtab_img)]

/-- The slices that the second loop over the section headers finds in
`main_strtab_img`: the one of `.strtab`. -/
def strtab_only_escns : Escns :=
  { Escns.init with
    sli := Function.update Escns.init.sli Slot.strtab
             { img := some main_strtab_img, ioff := 0x2040, szB := 101 } }

/-- The header tables of the debug files built by `mkNoteImage` with three
section headers. -/
def debug_hdrs : AuxHdrs :=
  { shdr_ioff := 0x2100, shdr_nent := 3, shdr_ent_szB := 64, shdr_strtab_ioff := 0x2040 }

/-- In the words of the specification: the invariant of a slice.  Either its
three fields are the invalid values (no image, the invalid offset, the size 0),
or `ioff + szB` is at most the size of its image. -/
def slice_in_image (sli : DiSlice) : Bool :=
  match sli.img with
  | none => decide (sli.ioff = DiOffT_INVALID) && decide (sli.szB = 0)
  | some img => decide (sli.ioff + sli.szB ≤ img.size)

/-- The section header `i` of an image, as the loops over the section headers
take it (readelf.c:2252-2258, 2496-2505): the header at the offset
`INDEX_BIS(e_shoff, i, e_shentsize)`, for an index below the `e_shnum` of the ELF
header at the offset 0.  There is none for another index, or when the header
does not lie in the image. -/
def section_header_of (t : Target) (img : DiImage) (i : Nat) : Option ElfXX_Shdr :=
  match img_get_Ehdr t img 0 with
  | none => none
  | some ehdr =>
    if i < ehdr.e_shnum then img_get_Shdr t img (INDEX_BIS ehdr.e_shoff i ehdr.e_shentsize)
    else none

/-- The table of `nent` entries of `ent_szB` bytes at the offset `shdr_ioff` is
the section header table of the image: the header that the reader takes at an
index below `nent` is the section header of that index. -/
def shdr_table_of (t : Target) (img : DiImage) (shdr_ioff nent ent_szB : Nat) : Prop :=
  ∀ (i : Nat) (a : ElfXX_Shdr), i < nent →
    img_get_Shdr t img (INDEX_BIS shdr_ioff i ent_szB) = some a →
    section_header_of t img i = some a

/-- What the macros `FINDX` and `FIND` of the main image and of the debug image
establish of a slice: it is the invalid slice, or it is the slice of an image
and of the section header `a` at an index `i` of the section header table of
that image, with an offset that is not the invalid one, and
`sh_offset + (nobits ? 0 : sh_size)`, computed on 64 bits, is at most the size of
the image. -/
def slice_checked (t : Target) (sli : DiSlice) : Prop :=
  sli = DiSlice_INVALID
  ∨ ∃ (img : DiImage) (i : Nat) (a : ElfXX_Shdr),
      section_header_of t img i = some a
      ∧ sli = { img := some img, ioff := a.sh_offset, szB := a.sh_size }
      ∧ a.sh_offset ≠ DiOffT_INVALID
      ∧ add64 a.sh_offset (if a.sh_type = SHT_NOBITS then 0 else a.sh_size) ≤ img.size

/-- The slices that are set from the alternate debug image. -/
def Slot.is_alt : Slot → Bool
  | Slot.debug_line_alt => true
  | Slot.debug_info_alt => true
  | Slot.debug_abbv_alt => true
  | Slot.debug_str_alt => true
  | _ => false

/-- Every slice that is set from the main image or from the debug image,
and every slice of the array `ehframe_escn`, satisfies `slice_checked`. -/
def slices_checked (t : Target) (e : Escns) : Prop :=
  (∀ s : Slot, s.is_alt = false → slice_checked t (e.sli s))
  ∧ ∀ i : Nat, slice_checked t (e.ehframe i)

/-- A section `.debug_info` of the type SHT_NOBITS, of 0x1000 bytes, at the file
offset 0x2f00 of an image of 0x3000 bytes. -/
def sh_debug_info_nobits : ElfXX_Shdr :=
  { sh_name := 74, sh_type := SHT_NOBITS, sh_addr := 0, sh_offset := 0x2f00, sh_size := 0x1000,
    sh_addralign := 1 }

/-- The image of scenario 1 with the section `sh_debug_info_nobits`. -/
def nobits_info_img : DiImage :=
  mkNoteImage (mkEhdr 2 5) [ph_rx, ph_rw]
    [sh_null, sh_text, sh_data, sh_debug_info_nobits, sh_shstrtab_comp] comp_strs [] []

/-- In the words of the specification: `bias + svma = debug_bias + debug_svma`,
modulo the word size. -/
def debug_eq (t : Target) (s : SecRec) : Prop :=
  addW t s.bias s.svma = addW t s.debug_bias s.debug_svma

instance (t : Target) (s : SecRec) : Decidable (debug_eq t s) := by
  delta debug_eq; infer_instance

/-- The six sections for which the reader keeps an SVMA and a bias as seen in the
debug file, each with its name. -/
def six_sections : List (String × (DebugInfo → SecRec)) :=
  [(".text", fun di => di.text), (".data", fun di => di.data), (".sdata", fun di => di.sdata),
   (".rodata", fun di => di.rodata), (".bss", fun di => di.bss), (".sbss", fun di => di.sbss)]

/-- The section header `i` of the image has the name `sec_name`: the comparison
`0 == ML_(img_strcmp_c)(img, shdr_strtab_ioff + a_shdr.sh_name, sec_name)` of the
macros `FIND`. -/
def sec_named (img : DiImage) (h : AuxHdrs) (i : Nat) (sec_name : String) : Prop :=
  img_strcmp_c img
    (add64 h.shdr_strtab_ioff (img.shdr (INDEX_BIS h.shdr_ioff i h.shdr_ent_szB)).sh_name)
    (cstr sec_name) = some 0

instance (img : DiImage) (h : AuxHdrs) (i : Nat) (sec_name : String) :
    Decidable (sec_named img h i sec_name) := by
  delta sec_named; infer_instance

/-- The header tables of a debug image as `ML_(read_elf_debug_info)` locates them
(readelf.c:2401-2460): the section header table of the ELF header at the offset
0, and the string table of the section `e_shstrndx`. -/
def aux_hdrs_of (t : Target) (dimg : DiImage) : Option AuxHdrs :=
  match img_get_Ehdr t dimg 0 with
  | none => none
  | some ehdr_dimg =>
    match img_get_Shdr t dimg
        (INDEX_BIS ehdr_dimg.e_shoff ehdr_dimg.e_shstrndx ehdr_dimg.e_shentsize) with
    | none => none
    | some a_shdr =>
      some { shdr_ioff := ehdr_dimg.e_shoff, shdr_nent := ehdr_dimg.e_shnum,
             shdr_ent_szB := ehdr_dimg.e_shentsize, shdr_strtab_ioff := a_shdr.sh_offset }

/-- What the first `FIND` of the debug image does to a section record at the
section header `i`: it writes `debug_svma` and `debug_bias` when the record is
present and the header has the name of the section, and nothing else. -/
def debug_sec_rel (t : Target) (dimg : DiImage) (h : AuxHdrs) (i : Nat) (sec_name : String)
    (r r1 : SecRec) : Prop :=
  { r1 with debug_svma := r.debug_svma, debug_bias := r.debug_bias } = r
  ∧ ((r.present = true ∧ sec_named dimg h i sec_name) →
      r1.debug_svma = (dimg.shdr (INDEX_BIS h.shdr_ioff i h.shdr_ent_szB)).sh_addr
      ∧ debug_eq t r1)
  ∧ (¬ (r.present = true ∧ sec_named dimg h i sec_name) → r1 = r)

/-- The state of a section record `r` after the first `k` section headers of the
debug image, for the record `r0` with which the loop started: only `debug_svma`
and `debug_bias` have been written; the equation of the specification has been
kept; and if the record is present, `debug_svma` is the `sh_addr` of the last
header so far that has the name of the section, and the equation holds. -/
def debug_sec_inv (t : Target) (dimg : DiImage) (h : AuxHdrs) (sec_name : String)
    (r0 : SecRec) (k : Nat) (r : SecRec) : Prop :=
  { r with debug_svma := r0.debug_svma, debug_bias := r0.debug_bias } = r0
  ∧ (debug_eq t r0 → debug_eq t r)
  ∧ (r0.present = true → ∀ i, i < k → sec_named dimg h i sec_name →
      (∀ j, i < j → j < k → ¬ sec_named dimg h j sec_name) →
      r.debug_svma = (dimg.shdr (INDEX_BIS h.shdr_ioff i h.shdr_ent_szB)).sh_addr
      ∧ debug_eq t r)

/-- A debug file with the build-id `aabbcc` that holds a section `.text` of the
size of the one of scenario 1, at the SVMA 0x5000. -/
def debug_text_img : DiImage :=
  mkNoteImage (mkEhdr 3 3) [ph_rx, ph_rw, ph_note]
    [sh_null, { sh_text with sh_addr := 0x5000 }, sh_shstrtab_comp] comp_strs []
    [0xaa, 0xbb, 0xcc]

/-- An environment with the object `main_symtab_img` and the debug file
`debug_text_img`. -/
def env_debug_text : Env :=
  env_files [(cstr "/tmp/obj/libmain.so", main_symtab_img), (path_aabbcc, debug_text_img)]

/-- In the words of the specification: a word read as a signed integer. -/
def signed_word (t : Target) (a : Nat) : Int :=
  if a % t.wmod < t.wmod / 2 then ((a % t.wmod : Nat) : Int)
  else ((a % t.wmod : Nat) : Int) - ((t.wmod : Nat) : Int)

/-- In the words of the specification: `st_size` clamped, which is 1 if
`st_size` read as a signed word is negative, `2^31 - 1` if it exceeds
`2^31 - 1`, and `st_size` otherwise. -/
def clamp_spec (t : Target) (st_size : Nat) : Int :=
  if signed_word t st_size < 0 then 1
  else if signed_word t st_size > 2 ^ 31 - 1 then 2 ^ 31 - 1
  else signed_word t st_size

/-- A global function symbol at the address 0x1010 of `.text` whose `st_size` is
-1 as a signed 64-bit word. -/
def sym_negsize : ElfXX_Sym :=
  { st_name := 1, st_info := 0x12, st_shndx := 1, st_value := 0x1010, st_size := 2 ^ 64 - 1 }

/-- The test `plausible` of `get_elf_symbol_info` (readelf.c:274-288 and
376-388): the binding and the type of the symbol are among those the reader
collects, or, on ppc64-linux, the symbol is a text symbol of the type STT_NOTYPE
and of a size greater than 0 whose address lies in `.opd`. -/
def sym_plaus (t : Target) (di : DebugInfo) (sym : ElfXX_Sym) (sym_svma : Nat)
    (symtab_in_debug : Bool) : Bool :=
  let bnd := ELFXX_ST_BIND sym.st_info
  let typ := ELFXX_ST_TYPE sym.st_info
  let cb := choose_bias t di symtab_in_debug sym_svma
  ((bnd == STB_GLOBAL || bnd == STB_LOCAL || bnd == STB_WEAK)
    && (typ == STT_FUNC || typ == STT_OBJECT || typ == STT_GNU_IFUNC))
  || (decide (t.plat = Platform.ppc64_linux) && cb.1 && typ == STT_NOTYPE
      && decide (clamp_size t sym.st_size > 0)
      && avma_in_addr t di.opd (addW t sym_svma cb.2))

/-- The symbol reaches the zero-value rule of `get_elf_symbol_info`: it is
plausible, it has a name, and the zero-size rule does not reject it. -/
def reaches_value_rule (t : Target) (di : DebugInfo) (sym : ElfXX_Sym) (sym_name_ioff : Nat)
    (escn_strtab : DiSlice) (sym_svma : Nat) (symtab_in_debug : Bool) : Prop :=
  sym_plaus t di sym sym_svma symtab_in_debug = true
  ∧ sym_name_ioff ≠ DiOffT_INVALID
  ∧ (∃ simg c, escn_strtab.img = some simg ∧ img_get_UChar simg sym_name_ioff = some c
      ∧ c ≠ 0)
  ∧ ¬ (clamp_size t sym.st_size = 0 ∧ (!t.android) = true)

/-- The image `ppc64_img` without its section `.opd`: the section header 3 is a
null header. -/
def ppc64_noopd_img : DiImage :=
  { ppc64_img with
    shdr := fun off =>
      (ppc64_shdrs.set 3 sh_null).getD ((off - 0x2100) / 64) ⟨0, 0, 0, 0, 0, 0⟩ }

/-- The DebugInfo that the first part of the reader leaves on `ppc64_noopd_img`. -/
def ppc64_noopd_after : DebugInfo :=
  match read_elf_debug_info_sections ppc64 (some ppc64_noopd_img) ppc64_di with
  | Res.ok d => d.di
  | _ => ppc64_di

/-- The address of a symbol after the bias of its section has been added
(readelf.c:291-367), which is the address before any dereference of `.opd`. -/
def biased_avma (t : Target) (di : DebugInfo) (symtab_in_debug : Bool) (sym_svma : Nat) : Nat :=
  addW t sym_svma (choose_bias t di symtab_in_debug sym_svma).2

/-- The symbol passes the filters that precede the handling of `.opd`: it
reaches the zero-value rule, that rule lets it through, and its address lies
neither in `.got` nor in `.plt`. -/
def passes_filters (t : Target) (di : DebugInfo) (sym : ElfXX_Sym) (sym_name_ioff : Nat)
    (escn_strtab : DiSlice) (sym_svma : Nat) (symtab_in_debug : Bool) : Prop :=
  reaches_value_rule t di sym sym_name_ioff escn_strtab sym_svma symtab_in_debug
  ∧ sym.st_value % 2 ^ 32 ≠ 0
  ∧ avma_in_addr t di.got (biased_avma t di symtab_in_debug sym_svma) = false
  ∧ avma_in_addr t di.plt (biased_avma t di symtab_in_debug sym_svma) = false

/-- The outputs of `get_elf_symbol_info` for a symbol taken from the `.opd`
entry whose two words are `w0` and `w1`, as they stand before the range
check. -/
def opd_outputs (t : Target) (di : DebugInfo) (sym : ElfXX_Sym) (sym_name_ioff : Nat)
    (sym_svma : Nat) (symtab_in_debug : Bool) (opd_bias w0 w1 : Nat) : SymInfo :=
  { sym_name_out_ioff := sym_name_ioff
    sym_avma_out := addW t w0 opd_bias
    sym_size_out := if clamp_size t sym.st_size = 0 then 2048 else clamp_size t sym.st_size
    sym_tocptr_out := addW t w1 opd_bias
    from_opd_out := true
    is_text_out := (choose_bias t di symtab_in_debug sym_svma).1
    is_ifunc := (choose_bias t di symtab_in_debug sym_svma).1
      && ELFXX_ST_TYPE sym.st_info == STT_GNU_IFUNC }

/-- The DebugInfo of `ppc64_img` with the section `.opd` moved by 4 bytes, to
an address that is not a multiple of 8. -/
def ppc64_opd4_after : DebugInfo := { ppc64_after with opd := ⟨true, 0x10002044, 0x30⟩ }

/-- The slice of the section `.opd` of `ppc64_opd4_after`. -/
def ppc64_opd4 : DiSlice := { img := some ppc64_img, ioff := 0x2044, szB := 0x30 }

/-- A function symbol of size 24 at the SVMA 0x204C, which is 8 bytes into the
section `.opd` of `ppc64_opd4_after`. -/
def sym_opd_pos8 : ElfXX_Sym :=
  { st_name := 1, st_info := 0x12, st_shndx := 3, st_value := 0x204C, st_size := 24 }

/-- The DebugInfo of `ppc64_img` with a section `.opd` of more than 4 GiB. -/
def ppc64_bigopd_after : DebugInfo :=
  { ppc64_after with opd := ⟨true, 0x10002040, 2 ^ 32 + 0x30⟩ }

/-- The image `ppc64_img` with a size of 8 GiB. -/
def ppc64_big_img : DiImage := { ppc64_img with size := 2 ^ 33 }

/-- The slice of the section `.opd` of `ppc64_bigopd_after`. -/
def ppc64_bigopd : DiSlice := { img := some ppc64_big_img, ioff := 0x2040, szB := 2 ^ 32 + 0x30 }

/-- A function symbol of size 24 at the SVMA `0x2040 + 2^32 + 24`, which is
`2^32 + 24` bytes into the section `.opd` of `ppc64_bigopd_after`. -/
def sym_opd_far : ElfXX_Sym :=
  { st_name := 1, st_info := 0x12, st_shndx := 3, st_value := 0x2040 + 2 ^ 32 + 24,
    st_size := 24 }

/-- The image `ppc64_img` with a symbol table of four entries at the file offset
0x2500: the null entry, `.work`, `work`, and `work` a second time. -/
def ppc64_dup_img : DiImage :=
  { ppc64_img with
    sym := fun off =>
      [⟨0, 0, 0, 0, 0⟩, sym_work_dot, sym_work_opd, sym_work_opd].getD ((off - 0x2500) / 24)
        ⟨0, 0, 0, 0, 0⟩ }

/-- The symbol table of `ppc64_dup_img`. -/
def ppc64_dup_symtab : DiSlice := { img := some ppc64_dup_img, ioff := 0x2500, szB := 96 }

/-- The symbol table of `ppc64_dup_img` without its last entry. -/
def ppc64_dup_symtab3 : DiSlice := { img := some ppc64_dup_img, ioff := 0x2500, szB := 72 }

/-- The pending symbol of the key (0x10001100, "work") after the entries `.work`
and `work`: it is not `from_opd`, it has the size 128 of `.work` and the TOC
pointer 0x1000A000 that it has taken from `work`. -/
def pending_work : TempSym :=
  { addr := 0x10001100, name := 0x2907, tocptr := 0x1000A000, size := 128, from_opd := false,
    is_text := true, is_ifunc := false }

/-- The outputs of `get_elf_symbol_info` for the symbol `work` of `ppc64_img`. -/
def out_work_opd : SymInfo :=
  { sym_name_out_ioff := 0x2901, sym_avma_out := 0x10001100, sym_size_out := 24,
    sym_tocptr_out := 0x1000A000, from_opd_out := true, is_text_out := true,
    is_ifunc := false }

/-- The image of scenario 1 with `e_shstrndx = 100`, an index beyond the four
entries of the section header table. -/
def shstrndx_img : DiImage :=
  mkImage 0x3000 { mkEhdr 2 4 with e_shstrndx := 100 } [ph_rx, ph_rw]
    [sh_null, sh_text, sh_data, sh_shstrtab] scen_strs []

/-- The image of scenario 1 cut to 0x2200 bytes, with a section header table of
four entries of the stated size 0 at the offset 0x21F8, 8 bytes before the end
of the image. -/
def shentsize_img : DiImage :=
  mkImage 0x2200 { mkEhdr 2 4 with e_shoff := 0x21F8, e_shentsize := 0 } [ph_rx, ph_rw]
    [sh_null, sh_text, sh_data, sh_shstrtab] scen_strs []

/-- The size of the buffer `debugpath` that `find_debug_file_ad_hoc` allocates
(readelf.c:1273-1277): `strlen(objdir) + 64`, plus the lengths of the options
`--extra-debuginfo-path` and `--debuginfo-server` that are set. -/
def ad_hoc_debugpath_size (env : Env) (objpath : List Nat) : Nat :=
  (objdir_of objpath).length + 64
  + (match env.clo_extra_debuginfo_path with
     | some extrapath => extrapath.length
     | none => 0)
  + (match env.clo_debuginfo_server with
     | some serverpath => serverpath.length
     | none => 0)

/-- The strings that `find_debug_file_ad_hoc` formats into `debugpath`, in the
order of the calls of `VG_(sprintf)` (readelf.c:1280 and 1298): `"%s/%s"` of
`extrapath` and `objpath` when the first option is set, and, when that file is
not found and the second option is set, `"%s on %s"` of the basename of
`objpath` and `serverpath`.  Each call also writes the NUL that ends the
string. -/
def ad_hoc_debugpath_strings (env : Env) (objpath : List Nat) : List (List Nat) :=
  let by_path : List (List Nat) × Bool :=
    match env.clo_extra_debuginfo_path with
    | some extrapath =>
      ([extrapath ++ cstr "/" ++ objpath],
        (env.img_from_local_file (extrapath ++ cstr "/" ++ objpath)).isSome)
    | none => ([], false)
  if by_path.2 then by_path.1
  else
    by_path.1 ++
      match env.clo_debuginfo_server with
      | some serverpath => [basename_of objpath ++ cstr " on " ++ serverpath]
      | none => []

/-- An object path whose directory is `/d` and whose file name has 70
characters. -/
def long_objpath : List Nat := cstr "/d/" ++ List.replicate 70 'a'.toNat

/-- An environment without files in which `--extra-debuginfo-path` is `/x`. -/
def env_extra : Env :=
  { img_from_local_file := fun _ => none
    img_from_di_server := fun _ _ => none
    clo_extra_debuginfo_path := some (cstr "/x")
    clo_debuginfo_server := none
    clo_allow_mismatched_debuginfo := false }

/-- An environment without files in which `--debuginfo-server` is `h`. -/
def env_server : Env :=
  { img_from_local_file := fun _ => none
    img_from_di_server := fun _ _ => none
    clo_extra_debuginfo_path := none
    clo_debuginfo_server := some (cstr "h")
    clo_allow_mismatched_debuginfo := false }

/-- The offset of the note that follows the note with the header `note` at the
offset `note_ioff` (readelf.c:1046-1048). -/
def note_next (t : Target) (note_ioff : Nat) (note : ElfXX_Nhdr) : Nat :=
  addW t (addW t (addW t note_ioff sizeof_Nhdr) (roundup4 note.n_namesz))
    (roundup4 note.n_descsz)

/-- The offsets at which the loop over the notes of a segment or of a section
(readelf.c:1029-1049) reads a note header, in the order of the reads, when no
read of a name or of a descriptor stops the function before.  The result is
`none` when the loop visits more than `fuel` notes. -/
def notes_visited (t : Target) (img : DiImage) (limit : Nat) : Nat → Nat → Option (List Nat)
  | 0, _ => none
  | fuel + 1, note_ioff =>
    if note_ioff < limit then
      match img_get_Nhdr img note_ioff with
      | none => some [note_ioff]
      | some note =>
        (notes_visited t img limit fuel (note_next t note_ioff note)).map
          (fun l => note_ioff :: l)
    else some []

/-- A segment of notes at the offset 0x1000 of `2^64 - 0x1004` bytes. -/
def wrap_phdr : ElfXX_Phdr :=
  { p_type := PT_NOTE, p_flags := 4, p_offset := 0x1000, p_vaddr := 0,
    p_filesz := 2 ^ 64 - 0x1004, p_memsz := 0, p_align := 4 }

/-- An image of `2^64 - 1` bytes with one program header, a segment of notes at
the offset 0x1000 of `2^64 - 0x1004` bytes.  At every offset that is 0x1000
modulo `2^33` lies the header of a note with a name of `2^32 - 4` bytes, a
descriptor of `2^32 - 8` bytes and the type 0; every other byte from the offset
0x1000 on is 0. -/
def wrap_img : DiImage :=
  { size := 2 ^ 64 - 1
    byte := fun off =>
      if off % 2 ^ 33 = 0x1000 then 0xFC
      else if off % 2 ^ 33 = 0x1004 then 0xF8
      else if 0x1000 < off % 2 ^ 33 ∧ off % 2 ^ 33 < 0x1008 then 0xFF
      else 0
    ehdr := fun _ => mkEhdr 1 2
    phdr := fun _ => wrap_phdr
    shdr := fun _ => ⟨0, 0, 0, 0, 0, 0⟩
    dyn := fun _ => ⟨0, 0⟩
    sym := fun _ => ⟨0, 0, 0, 0, 0⟩
    ulong := fun _ => 0
    nhdr := fun off =>
      if off % 2 ^ 33 = 0x1000 then ⟨2 ^ 32 - 4, 2 ^ 32 - 8, 0⟩ else ⟨0, 0, 0⟩ }

/-- In the words of the specification: `offs` are the offsets of the successive
notes of a segment that ends at `limit`, from the offset `off` on.  Each note has
its header and its name inside the image, and the next note is found at the step
`sizeof(Nhdr) + roundup4(n_namesz) + roundup4(n_descsz)` from it. -/
def notes_layout (t : Target) (img : DiImage) (limit : Nat) : Nat → List Nat → Prop
  | off, [] => ¬ off < limit
  | off, o :: rest =>
    o = off ∧ off < limit ∧ img_valid img off sizeof_Nhdr = true
    ∧ (img_strdup img (addW t off sizeof_Nhdr)).isSome = true
    ∧ notes_layout t img limit (note_next t off (img.nhdr off)) rest

/-- The predicate `notes_layout` can be decided. -/
def notes_layout_dec (t : Target) (img : DiImage) (limit : Nat) :
    ∀ (l : List Nat) (off : Nat), Decidable (notes_layout t img limit off l)
  | [], off => inferInstanceAs (Decidable (¬ off < limit))
  | o :: rest, off =>
    let _ := notes_layout_dec t img limit rest (note_next t off (img.nhdr off))
    inferInstanceAs (Decidable (o = off ∧ off < limit ∧ img_valid img off sizeof_Nhdr = true
      ∧ (img_strdup img (addW t off sizeof_Nhdr)).isSome = true
      ∧ notes_layout t img limit (note_next t off (img.nhdr off)) rest))

instance (t : Target) (img : DiImage) (limit off : Nat) (l : List Nat) :
    Decidable (notes_layout t img limit off l) :=
  notes_layout_dec t img limit l off

theorem b2i_land_one (a b : Bool) : Nat.land (b2i a) (b2i b) = b2i (a && b) := by
  cases a <;> cases b <;> decide

theorem b2i_ne_zero (a : Bool) : (b2i a != 0) = a := by
  cases a <;> decide

/-- C1: the ELF identifier accepts exactly the headers listed by the specification. -/
theorem C1_is_elf_object_file_iff (t : Target) (ehdr : ElfXX_Ehdr) (n_image : Nat)
    (rel_ok : Bool) (img : DiImage) :
    (is_elf_object_file t ehdr n_image rel_ok = true ↔
      (sizeof_Ehdr t ≤ n_image
       ∧ ehdr.e_ident EI_MAG0 = 0x7F ∧ ehdr.e_ident EI_MAG1 = 'E'.toNat
       ∧ ehdr.e_ident EI_MAG2 = 'L'.toNat ∧ ehdr.e_ident EI_MAG3 = 'F'.toNat
       ∧ ehdr.e_ident EI_CLASS = t.elf_class ∧ ehdr.e_ident EI_DATA = t.elf_data
       ∧ ehdr.e_ident EI_VERSION = EV_CURRENT
       ∧ ehdr.e_version = EV_CURRENT
       ∧ (ehdr.e_type = ET_EXEC ∨ ehdr.e_type = ET_DYN
            ∨ (rel_ok = true ∧ ehdr.e_type = ET_REL))
       ∧ ehdr.e_machine = t.elf_machine
       ∧ ehdr.e_shstrndx ≠ SHN_UNDEF
       ∧ ehdr.e_shoff ≠ 0 ∧ ehdr.e_shnum ≠ 0
       ∧ ((ehdr.e_phoff ≠ 0 ∧ ehdr.e_phnum ≠ 0) ∨ ehdr.e_type = ET_REL)))
    ∧ (n_image < sizeof_Ehdr t → is_elf_object_file t ehdr n_image rel_ok = false)
    ∧ (img.size < sizeof_Ehdr t → is_elf_object_file_by_DiImage t img rel_ok = some false)
    ∧ is_elf_object_file_by_DiImage t img rel_ok
        = some (decide (sizeof_Ehdr t ≤ img.size)
                && is_elf_object_file t (img.ehdr 0) (sizeof_Ehdr t) rel_ok) := by
  have h1 : (1 : Nat) = b2i true := rfl
  have hsz : sizeof_Ehdr t ≤ 512 := by unfold sizeof_Ehdr; split <;> omega
  refine ⟨?_, ?_, ?_, ?_⟩
  · unfold is_elf_object_file
    by_cases hn : n_image < sizeof_Ehdr t
    · simp only [hn, if_true]
      constructor
      · intro h; cases h
      · intro h; omega
    · simp only [hn, if_false, h1, b2i_land_one, b2i_ne_zero]
      simp only [Bool.true_and, Bool.and_eq_true, Bool.or_eq_true, beq_iff_eq, bne_iff_ne, ne_eq]
      have hle : sizeof_Ehdr t ≤ n_image := by omega
      tauto
  · intro hn
    unfold is_elf_object_file
    simp [hn]
  · intro hn
    unfold is_elf_object_file_by_DiImage img_valid
    have : ¬ (sizeof_Ehdr t ≤ img.size) := by omega
    simp [hsz, this]
  · unfold is_elf_object_file_by_DiImage img_get_Ehdr img_valid
    by_cases hv : sizeof_Ehdr t ≤ img.size
    · simp [hsz, hv]
    · simp [hsz, hv]

/-! ### Sequencing and loops -/

theorem Res.bind_ok_iff {α β : Type} (r : Res α) (f : α → Res β) (b : β) :
    r.bind f = Res.ok b ↔ ∃ a, r = Res.ok a ∧ f a = Res.ok b := by
  cases r <;> simp [Res.bind]

theorem Res.bind_fail_iff {α β : Type} (r : Res α) (f : α → Res β) (e : String)
    (d : DebugInfo) :
    r.bind f = Res.fail e d ↔ r = Res.fail e d ∨ ∃ a, r = Res.ok a ∧ f a = Res.fail e d := by
  cases r <;> simp [Res.bind]

theorem forRes_add {σ : Type} (body : σ → Nat → Res σ) (a b i : Nat) (s : σ) :
    forRes body (a + b) i s = (forRes body a i s).bind (forRes body b (i + a)) := by
  induction a generalizing i s with
  | zero => simp [forRes, Res.bind]
  | succ a ih =>
    have h : a + 1 + b = (a + b) + 1 := by omega
    rw [h]
    simp only [forRes]
    have h2 : i + (a + 1) = i + 1 + a := by omega
    rw [h2]
    cases hb : body s i with
    | crash => rfl
    | fail e d => rfl
    | ok s1 => exact ih (i + 1) s1

/-- An invariant of the body of a loop holds at the end of the loop. -/
theorem forRes_ok_inv {σ : Type} (body : σ → Nat → Res σ) (P : σ → Prop)
    (hstep : ∀ s i s1, P s → body s i = Res.ok s1 → P s1) :
    ∀ n i s s1, P s → forRes body n i s = Res.ok s1 → P s1 := by
  intro n
  induction n with
  | zero =>
    intro i s s1 hP h
    simp only [forRes, Res.ok.injEq] at h
    exact h ▸ hP
  | succ n ih =>
    intro i s s1 hP h
    simp only [forRes] at h
    obtain ⟨s2, h2, h3⟩ := (Res.bind_ok_iff _ _ _).1 h
    exact ih (i + 1) s2 s1 (hstep s i s2 hP h2) h3

/-- A loop fails exactly when its body fails at some iteration that the loop
reaches. -/
theorem forRes_fail_iff {σ : Type} (body : σ → Nat → Res σ) (e : String) (d : DebugInfo) :
    ∀ n i s, forRes body n i s = Res.fail e d ↔
      ∃ k s1, k < n ∧ forRes body k i s = Res.ok s1 ∧ body s1 (i + k) = Res.fail e d := by
  intro n
  induction n with
  | zero => intro i s; simp [forRes]
  | succ n ih =>
    intro i s
    simp only [forRes]
    rw [Res.bind_fail_iff]
    constructor
    · rintro (h | ⟨s2, h2, h3⟩)
      · exact ⟨0, s, by omega, by simp [forRes], by simpa using h⟩
      · obtain ⟨k, s1, hk, h4, h5⟩ := (ih (i + 1) s2).1 h3
        refine ⟨k + 1, s1, by omega, ?_, ?_⟩
        · simp only [forRes, h2, Res.bind]; exact h4
        · have : i + (k + 1) = i + 1 + k := by omega
          rw [this]; exact h5
    · rintro ⟨k, s1, hk, h4, h5⟩
      cases k with
      | zero =>
        simp only [forRes, Res.ok.injEq] at h4
        subst h4
        left; simpa using h5
      | succ k =>
        simp only [forRes] at h4
        obtain ⟨s2, h2, h3⟩ := (Res.bind_ok_iff _ _ _).1 h4
        right
        refine ⟨s2, h2, (ih (i + 1) s2).2 ⟨k, s1, by omega, h3, ?_⟩⟩
        have : i + 1 + k = i + (k + 1) := by omega
        rw [this]; exact h5

/-- A loop that reaches its end has reached every iteration before. -/
theorem forRes_ok_split {σ : Type} (body : σ → Nat → Res σ) (n i : Nat) (s s1 : σ)
    (h : forRes body n i s = Res.ok s1) (k : Nat) (hk : k ≤ n) :
    ∃ s2, forRes body k i s = Res.ok s2 ∧ forRes body (n - k) (i + k) s2 = Res.ok s1 := by
  have hn : n = k + (n - k) := by omega
  rw [hn, forRes_add] at h
  obtain ⟨s2, h2, h3⟩ := (Res.bind_ok_iff _ _ _).1 h
  exact ⟨s2, h2, h3⟩

/-! ### The bounds of the walks

The bounds that the embedding puts on the two walks that the source writes
without one (the walk over a dynamic segment and the read of a string) are never
the reason why a walk stops. -/

theorem sizeof_Dyn_pos (t : Target) : 0 < sizeof_Dyn t := by
  unfold sizeof_Dyn; split <;> omega

theorem dyn_step_invalid (t : Target) (mimg : DiImage) (hd : MainHdrs) (a : ElfXX_Phdr)
    (j so st : Nat)
    (h : img_valid mimg (INDEX_BIS (add64 hd.ehdr_mioff a.p_offset) j (sizeof_Dyn t))
          (sizeof_Dyn t) = false) :
    dyn_step t mimg hd a j so st = DynStep.crash := by
  unfold dyn_step
  rw [h]
  rfl

/-- With an image smaller than 2^64 bytes, a walk over a dynamic segment that is
given more fuel than there is room for entries behaves as the walk that is given
just that much. -/
theorem dyn_walk_fuel_mono (t : Target) (mimg : DiImage) (di : DebugInfo) (hd : MainHdrs)
    (a : ElfXX_Phdr) (hsize : mimg.size < 2 ^ 64) :
    ∀ n fuel j so st, n ≤ fuel →
      add64 hd.ehdr_mioff a.p_offset + j * sizeof_Dyn t < 2 ^ 64 →
      mimg.size < add64 hd.ehdr_mioff a.p_offset + (j + n) * sizeof_Dyn t →
      dyn_walk t mimg di hd a fuel j so st = dyn_walk t mimg di hd a n j so st := by
  intro n
  induction n with
  | zero =>
    intro fuel j so st _ hj hn
    cases fuel with
    | zero => rfl
    | succ f =>
      have hinv : img_valid mimg (INDEX_BIS (add64 hd.ehdr_mioff a.p_offset) j (sizeof_Dyn t))
          (sizeof_Dyn t) = false := by
        unfold img_valid INDEX_BIS mod64
        rw [Nat.mod_eq_of_lt hj]
        simp only [decide_eq_false_iff_not]
        simp only [Nat.add_zero] at hn
        omega
      simp only [dyn_walk, dyn_step_invalid _ _ _ _ _ _ _ hinv]
  | succ n ih =>
    intro fuel j so st hf hj hn
    cases fuel with
    | zero => omega
    | succ f =>
      simp only [dyn_walk]
      cases hs : dyn_step t mimg hd a j so st with
      | done => rfl
      | crash => rfl
      | fail => rfl
      | next s1 s2 =>
        dsimp only
        have hv : img_valid mimg (INDEX_BIS (add64 hd.ehdr_mioff a.p_offset) j (sizeof_Dyn t))
            (sizeof_Dyn t) = true := by
          by_contra hx
          have hx2 : img_valid mimg (INDEX_BIS (add64 hd.ehdr_mioff a.p_offset) j
              (sizeof_Dyn t)) (sizeof_Dyn t) = false := by simpa using hx
          rw [dyn_step_invalid _ _ _ _ _ _ _ hx2] at hs
          cases hs
        unfold img_valid INDEX_BIS mod64 at hv
        rw [Nat.mod_eq_of_lt hj] at hv
        simp only [decide_eq_true_eq] at hv
        apply ih f (j + 1) s1 s2 (by omega)
        · rw [Nat.add_mul]; omega
        · have e : j + 1 + n = j + (n + 1) := by omega
          rw [e]; exact hn

/-- The bound `mimg.size + 1` that `phdr_dynamic` gives to the walk over a dynamic
segment is never the reason why the walk stops: with any larger bound the walk
gives the same result. -/
theorem dyn_walk_fuel_irrelevant (t : Target) (mimg : DiImage) (di : DebugInfo)
    (hd : MainHdrs) (a : ElfXX_Phdr) (hsize : mimg.size < 2 ^ 64) (fuel so st : Nat)
    (hf : mimg.size + 1 ≤ fuel) :
    dyn_walk t mimg di hd a fuel 0 so st
      = dyn_walk t mimg di hd a (mimg.size + 1) 0 so st := by
  apply dyn_walk_fuel_mono t mimg di hd a hsize (mimg.size + 1) fuel 0 so st hf
  · have : add64 hd.ehdr_mioff a.p_offset < 2 ^ 64 := by
      unfold add64 mod64
      exact Nat.mod_lt _ (by norm_num)
    omega
  · have h1 := sizeof_Dyn_pos t
    have h2 : mimg.size + 1 ≤ (0 + (mimg.size + 1)) * sizeof_Dyn t := by
      rw [Nat.zero_add]
      exact Nat.le_mul_of_pos_right _ h1
    omega

/-- The bound of the read of a string is never the reason why the read stops:
with any larger bound the read gives the same result. -/
theorem img_strdup_fuel_irrelevant (img : DiImage) :
    ∀ n fuel off, n ≤ fuel → img.size ≤ off + n →
      img_strdup_aux img fuel off = img_strdup_aux img n off := by
  intro n
  induction n with
  | zero =>
    intro fuel off _ hn
    cases fuel with
    | zero => rfl
    | succ f =>
      have : img_get_UChar img off = none := by
        unfold img_get_UChar img_valid
        have : ¬ (off + 1 ≤ img.size) := by omega
        simp [this]
      simp only [img_strdup_aux, this]
  | succ n ih =>
    intro fuel off hf hn
    cases fuel with
    | zero => omega
    | succ f =>
      simp only [img_strdup_aux]
      cases img_get_UChar img off with
      | none => rfl
      | some c =>
        dsimp only
        split
        · rfl
        · rw [ih f (off + 1) (by omega) (by omega)]


/-! ### C2 -/

/-- C2 (evaluation at the failing input): on the image of scenario 1 with an
`sh_addralign` of 3 on `.text`, the reader returns False with the alignment
diagnostic and leaves `soname` set to "NONE"; called again with the DebugInfo it
left, the reader stops at its entry assertion. -/
theorem C2_soname_left_set_on_bad_alignment :
    ∃ d, read_elf_debug_info_sections amd64 (some badalign_img) scen1_di
          = Res.fail "ELF Section contains invalid .sh_addralign value" d
      ∧ d.soname = some soname_NONE
      ∧ read_elf_debug_info_sections amd64 (some badalign_img) d = Res.crash :=
  ⟨_, rfl, rfl, rfl⟩


/-! ### C3 -/

theorem same_but_soname_refl (di : DebugInfo) : same_but_soname di di :=
  ⟨di.soname, rfl⟩

theorem same_but_soname_set (di d : DebugInfo) (s : Option (List Nat))
    (h : same_but_soname di d) : same_but_soname di { d with soname := s } := by
  obtain ⟨s0, rfl⟩ := h
  exact ⟨s, rfl⟩

theorem same_but_soname_trans (a b c : DebugInfo) (h1 : same_but_soname a b)
    (h2 : same_but_soname b c) : same_but_soname a c := by
  obtain ⟨s1, rfl⟩ := h1
  obtain ⟨s2, rfl⟩ := h2
  exact ⟨s2, rfl⟩

theorem same_but_soname_sections (di d : DebugInfo) (h : same_but_soname di d) :
    sections_unchanged di d := by
  obtain ⟨s, rfl⟩ := h
  simp [sections_unchanged]

theorem same_but_soname_maps (di d : DebugInfo) (h : same_but_soname di d) :
    d.maps = di.maps := by
  obtain ⟨s, rfl⟩ := h
  rfl

/-- A failure of the walk over a dynamic segment leaves the DebugInfo as it
is. -/
theorem dyn_walk_fail (t : Target) (mimg : DiImage) (di : DebugInfo) (h : MainHdrs)
    (a : ElfXX_Phdr) (e : String) (d : DebugInfo) :
    ∀ fuel j stroff strtab,
      dyn_walk t mimg di h a fuel j stroff strtab = Res.fail e d →
        d = di ∧ e = "Invalid DT_STRTAB offset" := by
  intro fuel
  induction fuel with
  | zero => intro j stroff strtab hw; simp [dyn_walk] at hw
  | succ fuel ih =>
    intro j stroff strtab hw
    simp only [dyn_walk] at hw
    split at hw
    · cases hw
    · exact ih _ _ _ hw
    · cases hw
    · simp only [Res.fail.injEq] at hw
      exact ⟨hw.2.symm, hw.1.symm⟩

theorem phdr_load_ok (t : Target) (a : ElfXX_Phdr) (st st1 : PhdrScan)
    (h : phdr_load t a st = Res.ok st1) : st1.di = st.di := by
  unfold phdr_load at h
  split at h
  · split at h
    · cases h
    · split at h
      · dsimp only at h
        split at h
        · cases h
        · simp only [Res.ok.injEq] at h; rw [← h]
      · simp only [Res.ok.injEq] at h; rw [← h]
  · simp only [Res.ok.injEq] at h; rw [← h]

theorem phdr_load_fail (t : Target) (a : ElfXX_Phdr) (st : PhdrScan) (e : String)
    (d : DebugInfo) (h : phdr_load t a st = Res.fail e d) : same_but_soname st.di d := by
  unfold phdr_load at h
  split at h
  · split at h
    · simp only [Res.fail.injEq] at h
      rw [← h.2]; exact same_but_soname_refl _
    · split at h
      · dsimp only at h
        split at h
        · simp only [Res.fail.injEq] at h
          rw [← h.2]; exact ⟨none, rfl⟩
        · cases h
      · cases h
  · cases h

theorem phdr_dynamic_ok (t : Target) (mimg : DiImage) (hd : MainHdrs) (a : ElfXX_Phdr)
    (st st1 : PhdrScan) (h : phdr_dynamic t mimg hd a st = Res.ok st1) :
    same_but_soname st.di st1.di := by
  unfold phdr_dynamic at h
  split at h
  · obtain ⟨r, -, h2⟩ := (Res.bind_ok_iff _ _ _).1 h
    split at h2
    · split at h2
      · cases h2
      · simp only [Res.ok.injEq] at h2
        rw [← h2]; exact ⟨_, rfl⟩
    · simp only [Res.ok.injEq] at h2
      rw [← h2]; exact same_but_soname_refl _
  · simp only [Res.ok.injEq] at h
    rw [← h]; exact same_but_soname_refl _

theorem phdr_dynamic_fail (t : Target) (mimg : DiImage) (hd : MainHdrs) (a : ElfXX_Phdr)
    (st : PhdrScan) (e : String) (d : DebugInfo)
    (h : phdr_dynamic t mimg hd a st = Res.fail e d) : d = st.di := by
  unfold phdr_dynamic at h
  split at h
  · rcases (Res.bind_fail_iff _ _ _ _).1 h with h1 | ⟨r, -, h2⟩
    · exact (dyn_walk_fail _ _ _ _ _ _ _ _ _ _ _ h1).1
    · split at h2
      · split at h2 <;> cases h2
      · cases h2
  · cases h

theorem phdr_step_ok (t : Target) (mimg : DiImage) (hd : MainHdrs) (st st1 : PhdrScan)
    (i : Nat) (h : phdr_step t mimg hd st i = Res.ok st1) :
    same_but_soname st.di st1.di := by
  unfold phdr_step at h
  split at h
  · cases h
  · obtain ⟨st2, h2, h3⟩ := (Res.bind_ok_iff _ _ _).1 h
    have := phdr_dynamic_ok _ _ _ _ _ _ h3
    rw [phdr_load_ok _ _ _ _ h2] at this
    exact this

theorem phdr_step_fail (t : Target) (mimg : DiImage) (hd : MainHdrs) (st : PhdrScan)
    (i : Nat) (e : String) (d : DebugInfo)
    (h : phdr_step t mimg hd st i = Res.fail e d) : same_but_soname st.di d := by
  unfold phdr_step at h
  split at h
  · cases h
  · rcases (Res.bind_fail_iff _ _ _ _).1 h with h1 | ⟨st2, h2, h3⟩
    · exact phdr_load_fail _ _ _ _ _ h1
    · rw [phdr_dynamic_fail _ _ _ _ _ _ _ h3, phdr_load_ok _ _ _ _ h2]
      exact same_but_soname_refl _

/-- The loop over the program headers writes no field of the DebugInfo but
`soname`. -/
theorem scan_program_headers_ok (t : Target) (mimg : DiImage) (hd : MainHdrs)
    (di : DebugInfo) (ps : PhdrScan) (h : scan_program_headers t mimg hd di = Res.ok ps) :
    same_but_soname di ps.di := by
  unfold scan_program_headers at h
  exact forRes_ok_inv (phdr_step t mimg hd) (fun st => same_but_soname di st.di)
    (fun s i s1 hP hs => same_but_soname_trans _ _ _ hP (phdr_step_ok _ _ _ _ _ _ hs))
    _ _ _ _ (same_but_soname_refl di) h

theorem scan_program_headers_fail (t : Target) (mimg : DiImage) (hd : MainHdrs)
    (di : DebugInfo) (e : String) (d : DebugInfo)
    (h : scan_program_headers t mimg hd di = Res.fail e d) : same_but_soname di d := by
  unfold scan_program_headers at h
  obtain ⟨k, s1, -, h1, h2⟩ := (forRes_fail_iff _ _ _ _ _ _).1 h
  have hP : same_but_soname di s1.di :=
    forRes_ok_inv (phdr_step t mimg hd) (fun st => same_but_soname di st.di)
      (fun s i s1 hP hs => same_but_soname_trans _ _ _ hP (phdr_step_ok _ _ _ _ _ _ hs))
      _ _ _ _ (same_but_soname_refl di) h1
  exact same_but_soname_trans _ _ _ hP (phdr_step_fail _ _ _ _ _ _ _ h2)

theorem locate_headers_fail (t : Target) (mimg : DiImage) (di : DebugInfo) (e : String)
    (d : DebugInfo) (h : locate_headers t mimg di = Res.fail e d) : d = di := by
  unfold locate_headers at h
  split at h
  · cases h
  · simp only [Res.fail.injEq] at h; exact h.2.symm
  · dsimp only at h
    split at h
    · cases h
    · split at h
      · simp only [Res.fail.injEq] at h; exact h.2.symm
      · split at h
        · simp only [Res.fail.injEq] at h; exact h.2.symm
        · split at h
          · cases h
          · split at h
            · cases h
            · split at h
              · simp only [Res.fail.injEq] at h; exact h.2.symm
              · cases h

/-- C3 (counterexample): on the image of scenario 1 with `.data` outside every
load range, the reader returns False after it has recorded `.text`, so the
section fields are not those of the entry. -/
theorem C3_counterexample :
    ∃ d, read_elf_debug_info_sections amd64 (some baddata_img) scen1_di
          = Res.fail "Can't make sense of .data section mapping" d
      ∧ ¬ sections_unchanged scen1_di d := by
  refine ⟨_, rfl, ?_⟩
  intro h
  have h1 := h.1
  have h2 := congrArg SecRec.present h1
  revert h2
  decide

/-- C3 (amended): when the reader returns False, either the failure was raised
inside the loop over the section headers, or every section field has the value
it had on entry. -/
theorem C3_sections_unchanged_before_section_loop (t : Target) (mimg : Option DiImage)
    (di : DebugInfo) (e : String) (d : DebugInfo)
    (h : read_elf_debug_info_sections t mimg di = Res.fail e d) :
    sections_unchanged di d
    ∨ ∃ img hd ps, mimg = some img ∧ locate_headers t img di = Res.ok hd
        ∧ scan_program_headers t img hd di = Res.ok ps
        ∧ scan_section_headers t img hd ps.svma_ranges
            (if ps.di.soname = none then { ps.di with soname := some soname_NONE } else ps.di)
          = Res.fail e d := by
  unfold read_elf_debug_info_sections at h
  split at h
  · cases h
  · split at h
    · simp only [Res.fail.injEq] at h
      left; rw [← h.2]; exact same_but_soname_sections _ _ (same_but_soname_refl _)
    · rename_i img
      rcases (Res.bind_fail_iff _ _ _ _).1 h with h1 | ⟨hd, h1, h2⟩
      · left; rw [locate_headers_fail _ _ _ _ _ h1]
        exact same_but_soname_sections _ _ (same_but_soname_refl _)
      · rcases (Res.bind_fail_iff _ _ _ _).1 h2 with h3 | ⟨ps, h3, h4⟩
        · left
          exact same_but_soname_sections _ _ (scan_program_headers_fail _ _ _ _ _ _ h3)
        · right
          refine ⟨img, hd, ps, rfl, h1, h3, ?_⟩
          dsimp only at h4
          split at h4
          · cases h4
          · rcases (Res.bind_fail_iff _ _ _ _).1 h4 with h5 | ⟨ss, h5, h6⟩
            · exact h5
            · cases h6

/-- C3 (witness): with the rw mapping moved away from the data segment the reader
fails in the program-header scan, and the section fields are untouched. -/
theorem C3_witness :
    read_elf_debug_info_sections amd64 (some scen1_img) (fresh_di [map_rx, map_rw_far])
        = Res.fail "ELF section outside all mapped regions" (fresh_di [map_rx, map_rw_far])
    ∧ (sections_unchanged (fresh_di [map_rx, map_rw_far]) (fresh_di [map_rx, map_rw_far])
      ∨ ∃ img hd ps, some scen1_img = some img
          ∧ locate_headers amd64 img (fresh_di [map_rx, map_rw_far]) = Res.ok hd
          ∧ scan_program_headers amd64 img hd (fresh_di [map_rx, map_rw_far]) = Res.ok ps
          ∧ scan_section_headers amd64 img hd ps.svma_ranges
              (if ps.di.soname = none then { ps.di with soname := some soname_NONE }
               else ps.di)
            = Res.fail "ELF section outside all mapped regions"
                (fresh_di [map_rx, map_rw_far])) :=
  ⟨rfl, C3_sections_unchanged_before_section_loop amd64 (some scen1_img)
    (fresh_di [map_rx, map_rw_far]) "ELF section outside all mapped regions"
    (fresh_di [map_rx, map_rw_far]) rfl⟩


/-! ### C5 -/

/-- An invariant that depends on the loop index holds at the end of the loop. -/
theorem forRes_ok_inv_idx {σ : Type} (body : σ → Nat → Res σ) (P : Nat → σ → Prop) :
    ∀ n i s s1,
      (∀ j s s2, i ≤ j → j < i + n → P j s → body s j = Res.ok s2 → P (j + 1) s2) →
      P i s → forRes body n i s = Res.ok s1 → P (i + n) s1 := by
  intro n
  induction n with
  | zero =>
    intro i s s1 _ hP h
    simp only [forRes, Res.ok.injEq] at h
    exact h ▸ hP
  | succ n ih =>
    intro i s s1 hstep hP h
    simp only [forRes] at h
    obtain ⟨s2, h2, h3⟩ := (Res.bind_ok_iff _ _ _).1 h
    have hP2 : P (i + 1) s2 := hstep i s s2 (le_refl _) (by omega) hP h2
    have := ih (i + 1) s2 s1
      (fun j s s3 h1 h2 => hstep j s s3 (by omega) (by omega)) hP2 h3
    have e : i + 1 + n = i + (n + 1) := by omega
    rw [e] at this
    exact this

/-- What the loop over the mappings appends to `svma_ranges` for one PT_LOAD
entry, and when it sets `loaded`. -/
theorem load_fold_spec (t : Target) (a : ElfXX_Phdr) :
    ∀ (maps : List DebugInfoMapping) (acc : List RangeAndBias × Bool),
      ∃ new, (maps.foldl (load_map_step t a) acc).1 = acc.1 ++ new
        ∧ (∀ r ∈ new, ∃ map ∈ maps, map_holds t a map = true
            ∧ ((r = load_item t a map false ∧ acquired_rw a map = true)
               ∨ (r = load_item t a map true ∧ acquired_rx a map = true)))
        ∧ (maps.foldl (load_map_step t a) acc).2
            = (acc.2 || maps.any fun map =>
                map_holds t a map && (acquired_rw a map || acquired_rx a map)) := by
  intro maps
  induction maps with
  | nil => intro acc; exact ⟨[], by simp, by simp, by simp⟩
  | cons m ms ih =>
    intro acc
    simp only [List.foldl_cons]
    obtain ⟨new, h1, h2, h3⟩ := ih (load_map_step t a acc m)
    by_cases hh : map_holds t a m = true
    · by_cases hw : acquired_rw a m = true <;> by_cases hx : acquired_rx a m = true
      · have hs : load_map_step t a acc m
            = (acc.1 ++ [load_item t a m false] ++ [load_item t a m true], true) := by
          simp [load_map_step, hh, hw, hx]
        refine ⟨[load_item t a m false, load_item t a m true] ++ new, ?_, ?_, ?_⟩
        · rw [h1, hs]; simp
        · intro r hr
          simp only [List.cons_append, List.nil_append, List.mem_cons] at hr
          rcases hr with rfl | rfl | hr
          · exact ⟨m, List.mem_cons_self _ _, hh, Or.inl ⟨rfl, hw⟩⟩
          · exact ⟨m, List.mem_cons_self _ _, hh, Or.inr ⟨rfl, hx⟩⟩
          · obtain ⟨map, hm, hrest⟩ := h2 r hr
            exact ⟨map, List.mem_cons_of_mem _ hm, hrest⟩
        · rw [h3, hs]; simp [hh, hw]
      · have hs : load_map_step t a acc m = (acc.1 ++ [load_item t a m false], true) := by
          simp [load_map_step, hh, hw, hx]
        refine ⟨[load_item t a m false] ++ new, ?_, ?_, ?_⟩
        · rw [h1, hs]; simp
        · intro r hr
          simp only [List.cons_append, List.nil_append, List.mem_cons] at hr
          rcases hr with rfl | hr
          · exact ⟨m, List.mem_cons_self _ _, hh, Or.inl ⟨rfl, hw⟩⟩
          · obtain ⟨map, hm, hrest⟩ := h2 r hr
            exact ⟨map, List.mem_cons_of_mem _ hm, hrest⟩
        · rw [h3, hs]; simp [hh, hw]
      · have hs : load_map_step t a acc m = (acc.1 ++ [load_item t a m true], true) := by
          simp [load_map_step, hh, hw, hx]
        refine ⟨[load_item t a m true] ++ new, ?_, ?_, ?_⟩
        · rw [h1, hs]; simp
        · intro r hr
          simp only [List.cons_append, List.nil_append, List.mem_cons] at hr
          rcases hr with rfl | hr
          · exact ⟨m, List.mem_cons_self _ _, hh, Or.inr ⟨rfl, hx⟩⟩
          · obtain ⟨map, hm, hrest⟩ := h2 r hr
            exact ⟨map, List.mem_cons_of_mem _ hm, hrest⟩
        · rw [h3, hs]; simp [hh, hx]
      · have hs : load_map_step t a acc m = acc := by
          simp [load_map_step, hh, hw, hx]
        refine ⟨new, ?_, ?_, ?_⟩
        · rw [h1, hs]
        · intro r hr
          obtain ⟨map, hm, hrest⟩ := h2 r hr
          exact ⟨map, List.mem_cons_of_mem _ hm, hrest⟩
        · rw [h3, hs]; simp [hh, hw, hx]
    · have hs : load_map_step t a acc m = acc := by
        simp [load_map_step, hh]
      refine ⟨new, ?_, ?_, ?_⟩
      · rw [h1, hs]
      · intro r hr
        obtain ⟨map, hm, hrest⟩ := h2 r hr
        exact ⟨map, List.mem_cons_of_mem _ hm, hrest⟩
      · rw [h3, hs]; simp [hh]

/-- What a successful PT_LOAD part does to the state. -/
theorem phdr_load_ok_spec (t : Target) (a : ElfXX_Phdr) (st st1 : PhdrScan)
    (h : phdr_load t a st = Res.ok st1) :
    (a.p_type ≠ PT_LOAD ∧ st1 = st)
    ∨ (a.p_type = PT_LOAD ∧ st.prev_svma ≤ a.p_vaddr ∧ st1.prev_svma = a.p_vaddr
        ∧ ∃ new, st1.svma_ranges = st.svma_ranges ++ new
          ∧ (new ≠ [] → 0 < a.p_memsz)
          ∧ ∀ r ∈ new, ∃ map ∈ st.di.maps, map_holds t a map = true
              ∧ ((r = load_item t a map false ∧ acquired_rw a map = true)
                 ∨ (r = load_item t a map true ∧ acquired_rx a map = true))) := by
  unfold phdr_load at h
  split at h
  · rename_i hty
    right
    split at h
    · cases h
    · rename_i hlt
      split at h
      · rename_i hmem
        dsimp only at h
        split at h
        · cases h
        · simp only [Res.ok.injEq] at h
          obtain ⟨new, h1, h2, -⟩ := load_fold_spec t a st.di.maps (st.svma_ranges, false)
          refine ⟨hty, by omega, by rw [← h], new, by rw [← h]; exact h1, fun _ => hmem, h2⟩
      · simp only [Res.ok.injEq] at h
        exact ⟨hty, by omega, by rw [← h], [], by rw [← h]; simp, by simp, by simp⟩
  · rename_i hty
    simp only [Res.ok.injEq] at h
    exact Or.inl ⟨hty, h.symm⟩

/-- The PT_DYNAMIC part writes neither `prev_svma` nor `svma_ranges`. -/
theorem phdr_dynamic_ok_ranges (t : Target) (mimg : DiImage) (hd : MainHdrs)
    (a : ElfXX_Phdr) (st st1 : PhdrScan) (h : phdr_dynamic t mimg hd a st = Res.ok st1) :
    st1.prev_svma = st.prev_svma ∧ st1.svma_ranges = st.svma_ranges := by
  unfold phdr_dynamic at h
  split at h
  · obtain ⟨r, -, h2⟩ := (Res.bind_ok_iff _ _ _).1 h
    split at h2
    · split at h2
      · cases h2
      · simp only [Res.ok.injEq] at h2
        rw [← h2]; exact ⟨rfl, rfl⟩
    · simp only [Res.ok.injEq] at h2
      rw [← h2]; exact ⟨rfl, rfl⟩
  · simp only [Res.ok.injEq] at h
    rw [← h]; exact ⟨rfl, rfl⟩

theorem ranges_inv_step (t : Target) (mimg : DiImage) (hd : MainHdrs) (k : Nat)
    (st st1 : PhdrScan) (hinv : ranges_inv t mimg hd k st)
    (h : phdr_step t mimg hd st k = Res.ok st1) : ranges_inv t mimg hd (k + 1) st1 := by
  unfold phdr_step at h
  split at h
  · cases h
  · rename_i a ha
    obtain ⟨st2, h2, h3⟩ := (Res.bind_ok_iff _ _ _).1 h
    obtain ⟨hp, hr⟩ := phdr_dynamic_ok_ranges _ _ _ _ _ _ h3
    obtain ⟨i1, i2, i3⟩ := hinv
    unfold ranges_inv
    rw [hp, hr]
    rcases phdr_load_ok_spec _ _ _ _ h2 with ⟨-, rfl⟩ | ⟨hty, hle, hprev, new, hnew, hmem, hall⟩
    · refine ⟨?_, i2, i3⟩
      intro r hr
      obtain ⟨i, a1, hi, rest⟩ := i1 r hr
      exact ⟨i, a1, by omega, rest⟩
    · have hbase : ∀ r ∈ new, r.svma_base = a.p_vaddr
          ∧ r.svma_limit = addW t a.p_vaddr a.p_memsz := by
        intro r hr
        obtain ⟨map, -, -, h | h⟩ := hall r hr
        · rw [h.1]; exact ⟨rfl, rfl⟩
        · rw [h.1]; exact ⟨rfl, rfl⟩
      rw [hnew, hprev]
      refine ⟨?_, ?_, ?_⟩
      · intro r hr
        rcases List.mem_append.1 hr with hr | hr
        · obtain ⟨i, a1, hi, rest⟩ := i1 r hr
          exact ⟨i, a1, by omega, rest⟩
        · have hne : new ≠ [] := List.ne_nil_of_mem hr
          exact ⟨k, a, by omega, ha, hty, hmem hne, (hbase r hr).1, (hbase r hr).2⟩
      · intro r hr
        rcases List.mem_append.1 hr with hr | hr
        · exact le_trans (i2 r hr) hle
        · rw [(hbase r hr).1]
      · rw [List.pairwise_append]
        refine ⟨i3, ?_, ?_⟩
        · rw [List.pairwise_iff_forall_sublist]
          intro x y hxy
          have hx : x ∈ new := hxy.subset (List.mem_cons_self _ _)
          have hy : y ∈ new := hxy.subset (List.mem_cons_of_mem _ (List.mem_cons_self _ _))
          rw [(hbase x hx).1, (hbase y hy).1]
        · intro x hx y hy
          rw [(hbase y hy).1]
          exact le_trans (i2 x hx) hle

/-- C5 (counterexample): a PT_LOAD entry of flags R|W|X that lies in a mapping
which is both rx and rw yields two load ranges with the same bounds, which
overlap. -/
theorem C5_counterexample :
    ∃ d, read_elf_debug_info_sections amd64 (some rwx_img) (fresh_di [map_rwx]) = Res.ok d
      ∧ ¬ ranges_disjoint d.svma_ranges := by
  refine ⟨_, rfl, ?_⟩
  unfold ranges_disjoint
  decide

/-- C5 (amended): after a successful scan of the program headers, every load
range comes from a PT_LOAD entry with `p_memsz > 0`, with `svma_base = p_vaddr`
and `svma_limit = p_vaddr + p_memsz`, so that `svma_limit > svma_base` when that
sum does not wrap; and the ranges are in ascending order of `svma_base`. -/
theorem C5_load_ranges_ascending (t : Target) (mimg : DiImage) (hd : MainHdrs)
    (di : DebugInfo) (ps : PhdrScan)
    (h : scan_program_headers t mimg hd di = Res.ok ps) :
    (∀ r ∈ ps.svma_ranges, ∃ i a, i < hd.phdr_mnent
        ∧ img_get_Phdr t mimg (INDEX_BIS hd.phdr_mioff i hd.phdr_ment_szB) = some a
        ∧ a.p_type = PT_LOAD ∧ 0 < a.p_memsz
        ∧ r.svma_base = a.p_vaddr ∧ r.svma_limit = addW t a.p_vaddr a.p_memsz
        ∧ (a.p_vaddr + a.p_memsz < t.wmod → r.svma_base < r.svma_limit))
    ∧ List.Pairwise (fun a b : RangeAndBias => a.svma_base ≤ b.svma_base) ps.svma_ranges := by
  unfold scan_program_headers at h
  have hinv := forRes_ok_inv_idx (phdr_step t mimg hd) (ranges_inv t mimg hd)
    hd.phdr_mnent 0 _ ps
    (fun j s s2 _ _ hP hs => ranges_inv_step t mimg hd j s s2 hP hs)
    (by simp [ranges_inv]) h
  obtain ⟨i1, -, i3⟩ := hinv
  refine ⟨?_, i3⟩
  intro r hr
  obtain ⟨i, a, hi, ha, hty, hmem, hb, hl⟩ := i1 r hr
  refine ⟨i, a, by omega, ha, hty, hmem, hb, hl, ?_⟩
  intro hw
  rw [hb, hl]
  unfold addW
  rw [Nat.mod_eq_of_lt hw]
  omega

/-- C5 (witness): the scan of the program headers of scenario 1. -/
theorem C5_witness :
    ∃ ps, scan_program_headers amd64 scen1_img (scen_hdrs 2 4) scen1_di = Res.ok ps
      ∧ ((∀ r ∈ ps.svma_ranges, ∃ i a, i < (scen_hdrs 2 4).phdr_mnent
            ∧ img_get_Phdr amd64 scen1_img
                (INDEX_BIS (scen_hdrs 2 4).phdr_mioff i (scen_hdrs 2 4).phdr_ment_szB) = some a
            ∧ a.p_type = PT_LOAD ∧ 0 < a.p_memsz
            ∧ r.svma_base = a.p_vaddr ∧ r.svma_limit = addW amd64 a.p_vaddr a.p_memsz
            ∧ (a.p_vaddr + a.p_memsz < amd64.wmod → r.svma_base < r.svma_limit))
        ∧ List.Pairwise (fun a b : RangeAndBias => a.svma_base ≤ b.svma_base)
            ps.svma_ranges) :=
  ⟨_, rfl, C5_load_ranges_ascending amd64 scen1_img (scen_hdrs 2 4) scen1_di _ rfl⟩


/-! ### C6 -/

/-- The PT_LOAD part fails with the unmapped-segment diagnostic exactly when no
mapping acquires the entry. -/
theorem phdr_load_unmapped_iff (t : Target) (a : ElfXX_Phdr) (st : PhdrScan)
    (d : DebugInfo) :
    phdr_load t a st = Res.fail "ELF section outside all mapped regions" d ↔
      a.p_type = PT_LOAD ∧ st.prev_svma ≤ a.p_vaddr ∧ 0 < a.p_memsz
      ∧ (∀ map ∈ st.di.maps, ¬ (map_holds t a map = true
            ∧ (acquired_rw a map = true ∨ acquired_rx a map = true)))
      ∧ d = { st.di with soname := none } := by
  obtain ⟨new, -, -, h3⟩ := load_fold_spec t a st.di.maps (st.svma_ranges, false)
  have hany : (List.foldl (load_map_step t a) (st.svma_ranges, false) st.di.maps).2 = false ↔
      ∀ map ∈ st.di.maps, ¬ (map_holds t a map = true
            ∧ (acquired_rw a map = true ∨ acquired_rx a map = true)) := by
    rw [h3]
    simp only [Bool.false_or, List.any_eq_false, Bool.and_eq_true, Bool.or_eq_true]
  constructor
  · intro h
    unfold phdr_load at h
    split at h
    · rename_i hty
      split at h
      · simp only [Res.fail.injEq] at h
        exact absurd h.1 (by decide)
      · rename_i hlt
        split at h
        · rename_i hmem
          dsimp only at h
          split at h
          · rename_i hl
            simp only [Res.fail.injEq, true_and] at h
            exact ⟨hty, by omega, hmem, hany.1 (by simpa using hl), h.symm⟩
          · cases h
        · cases h
    · cases h
  · rintro ⟨hty, hle, hmem, hall, rfl⟩
    have hl := hany.2 hall
    unfold phdr_load
    simp [hty, Nat.not_lt.2 hle, hmem, hl]

/-- One iteration of the loop over the program headers fails with the
unmapped-segment diagnostic exactly when its entry is a PT_LOAD entry in order,
with `p_memsz > 0`, that no mapping acquires. -/
theorem phdr_step_unmapped_iff (t : Target) (mimg : DiImage) (hd : MainHdrs)
    (st : PhdrScan) (k : Nat) (d : DebugInfo) :
    phdr_step t mimg hd st k = Res.fail "ELF section outside all mapped regions" d ↔
      ∃ a, img_get_Phdr t mimg (INDEX_BIS hd.phdr_mioff k hd.phdr_ment_szB) = some a
        ∧ a.p_type = PT_LOAD ∧ st.prev_svma ≤ a.p_vaddr ∧ 0 < a.p_memsz
        ∧ (∀ map ∈ st.di.maps, ¬ (map_holds t a map = true
              ∧ (acquired_rw a map = true ∨ acquired_rx a map = true)))
        ∧ d = { st.di with soname := none } := by
  unfold phdr_step
  cases hg : img_get_Phdr t mimg (INDEX_BIS hd.phdr_mioff k hd.phdr_ment_szB) with
  | none => simp
  | some a =>
    simp only [Option.some.injEq, exists_eq_left']
    rw [Res.bind_fail_iff, phdr_load_unmapped_iff]
    constructor
    · rintro (h | ⟨st2, -, h3⟩)
      · exact h
      · unfold phdr_dynamic at h3
        split at h3
        · rcases (Res.bind_fail_iff _ _ _ _).1 h3 with h4 | ⟨r, -, h5⟩
          · exact absurd (dyn_walk_fail _ _ _ _ _ _ _ _ _ _ _ h4).2 (by decide)
          · split at h5
            · split at h5 <;> cases h5
            · cases h5
        · cases h3
    · intro h; exact Or.inl h

/-- C6 (counterexample): every PT_LOAD entry of the image has a mapping whose
file-offset window contains its file range, and yet the scan fails with the
unmapped-segment diagnostic, because the read-only entry is acquired by no
mapping. -/
theorem C6_counterexample :
    (∀ a ∈ [ph_rx, ph_ro, ph_rw], ∃ map ∈ scen1_di.maps, file_window_contains a map)
    ∧ ∃ d, read_elf_debug_info_sections amd64 (some ro_img) scen1_di
            = Res.fail "ELF section outside all mapped regions" d := by
  refine ⟨?_, _, rfl⟩
  unfold file_window_contains
  decide

/-- C6 (amended): the scan of the program headers fails with "ELF section outside
all mapped regions" if and only if it reaches, without an earlier failure, a
PT_LOAD entry in ascending order with `p_memsz > 0` that no mapping acquires;
a mapping acquires the entry when it is rx or rw, its file-offset window holds
the file range of the entry, and it is rw with the entry R|W or rx with the
entry R|X. -/
theorem C6_unmapped_iff (t : Target) (mimg : DiImage) (hd : MainHdrs) (di d : DebugInfo) :
    scan_program_headers t mimg hd di
        = Res.fail "ELF section outside all mapped regions" d ↔
      ∃ k ps a, k < hd.phdr_mnent
        ∧ forRes (phdr_step t mimg hd) k 0 { di := di, prev_svma := 0, svma_ranges := [] }
            = Res.ok ps
        ∧ img_get_Phdr t mimg (INDEX_BIS hd.phdr_mioff k hd.phdr_ment_szB) = some a
        ∧ a.p_type = PT_LOAD ∧ ps.prev_svma ≤ a.p_vaddr ∧ 0 < a.p_memsz
        ∧ (∀ map ∈ di.maps, ¬ (map_holds t a map = true
              ∧ (acquired_rw a map = true ∨ acquired_rx a map = true)))
        ∧ d = { ps.di with soname := none } := by
  unfold scan_program_headers
  rw [forRes_fail_iff]
  constructor
  · rintro ⟨k, ps, hk, hpre, hstep⟩
    rw [Nat.zero_add, phdr_step_unmapped_iff] at hstep
    obtain ⟨a, h1, h2, h3, h4, h5, h6⟩ := hstep
    have hm : ps.di.maps = di.maps :=
      same_but_soname_maps _ _ (forRes_ok_inv (phdr_step t mimg hd)
        (fun st => same_but_soname di st.di)
        (fun s i s1 hP hs => same_but_soname_trans _ _ _ hP (phdr_step_ok _ _ _ _ _ _ hs))
        _ _ _ _ (same_but_soname_refl di) hpre)
    rw [hm] at h5
    exact ⟨k, ps, a, hk, hpre, h1, h2, h3, h4, h5, h6⟩
  · rintro ⟨k, ps, a, hk, hpre, h1, h2, h3, h4, h5, h6⟩
    refine ⟨k, ps, hk, hpre, ?_⟩
    rw [Nat.zero_add, phdr_step_unmapped_iff]
    have hm : ps.di.maps = di.maps :=
      same_but_soname_maps _ _ (forRes_ok_inv (phdr_step t mimg hd)
        (fun st => same_but_soname di st.di)
        (fun s i s1 hP hs => same_but_soname_trans _ _ _ hP (phdr_step_ok _ _ _ _ _ _ hs))
        _ _ _ _ (same_but_soname_refl di) hpre)
    rw [← hm] at h5
    exact ⟨a, h1, h2, h3, h4, h5, h6⟩


/-! ### C7 -/

theorem cstr_inj (a b : String) : cstr a = cstr b ↔ a = b := by
  unfold cstr
  constructor
  · intro h
    have h1 : a.toList = b.toList := by
      apply List.map_injective_iff.2 _ h
      intro x y hxy
      exact Char.ext (UInt32.ext (by simpa [Char.toNat] using hxy))
    exact String.ext h1
  · intro h; rw [h]

/-- The classification fails on a section of one of the eight names below that
does not lie in a load range of the kind its block asks for. -/
theorem classify_section_fatal (t : Target) (s : SecHdr) (st : ShdrScan) (hsize : s.size ≠ 0)
    (hviol : (s.name ∈ [cstr ".text", cstr ".rodata"] ∧ s.inrx = none)
      ∨ (s.name ∈ [cstr ".data", cstr ".sdata", cstr ".sbss", cstr ".got", cstr ".got.plt",
            cstr ".opd"] ∧ s.inrw = none)) :
    ∃ e d, classify_section t s st = Res.fail e d := by
  rcases hviol with ⟨hn, hr⟩ | ⟨hn, hr⟩
  · simp only [List.mem_cons, List.mem_singleton, List.not_mem_nil, or_false] at hn
    rcases hn with hn | hn <;>
      simp [classify_section, sec_text, sec_data, sec_sdata, sec_rodata, sec_dynbss, sec_bss,
        sec_sdynbss, sec_sbss, sec_got, sec_gotplt, sec_plt, sec_opd, sec_ehframe, hn, hr,
        cstr_inj, Res.bind, BAD]
  · simp only [List.mem_cons, List.mem_singleton, List.not_mem_nil, or_false] at hn
    rcases hn with hn | hn | hn | hn | hn | hn <;>
      simp [classify_section, sec_text, sec_data, sec_sdata, sec_rodata, sec_dynbss, sec_bss,
        sec_sdynbss, sec_sbss, sec_got, sec_gotplt, sec_plt, sec_opd, sec_ehframe, hn, hr,
        hsize, cstr_inj, Res.bind, BAD]

/-- The checks before the classification either fail or hand a section of
non-zero size to the classification. -/
theorem check_and_classify_nonzero (t : Target) (mimg : DiImage) (a_shdr : ElfXX_Shdr)
    (s : SecHdr) (st : ShdrScan) (hsize : s.size ≠ 0) :
    (∃ e d, check_and_classify t mimg a_shdr s st = Res.fail e d)
    ∨ check_and_classify t mimg a_shdr s st = classify_section t s st := by
  unfold check_and_classify
  dsimp only
  rw [if_neg hsize]
  split_ifs <;> first | exact Or.inl ⟨_, _, rfl⟩ | exact Or.inr rfl

/-- C7 (counterexample): a `.bss` section of non-zero size that lies in no load
range is not fatal; the first part of the reader runs to its end and treats
`.bss` as absent. -/
theorem C7_counterexample :
    ∃ d, read_elf_debug_info_sections amd64 (some bss_unmapped_img) scen1_di = Res.ok d
      ∧ img_strdup bss_unmapped_img 0x2057 = some (cstr ".bss")
      ∧ sh_bss_unmapped.sh_size ≠ 0
      ∧ (find_inrx_inrw sh_bss_unmapped.sh_addr d.svma_ranges none none).2 = none
      ∧ d.di.bss.present = false :=
  ⟨_, rfl, by decide, by decide, by decide, by decide⟩

/-- C7 (amended): when the first loop over the section headers reaches a section
of non-zero size named `.text` or `.rodata` whose SVMA lies in no load range with
exec=true, or named `.data`, `.sdata`, `.sbss`, `.got`, `.got.plt` or `.opd`
whose SVMA lies in no load range with exec=false, the reader returns False.  A
`.dynbss` or `.sdynbss` section outside every exec=false range is skipped, and a
`.bss` section outside every exec=false range is treated as absent when no bss
has been recorded. -/
theorem C7_mapping_violation_fatal (t : Target) (mimg : DiImage) (di : DebugInfo)
    (hd : MainHdrs) (ps : PhdrScan) (k : Nat) (ss : ShdrScan) (a_shdr : ElfXX_Shdr)
    (name : List Nat)
    (hentry : entry_asserts t di = true)
    (hloc : locate_headers t mimg di = Res.ok hd)
    (hph : scan_program_headers t mimg hd di = Res.ok ps)
    (hne : ps.svma_ranges.length ≠ 0)
    (hk : k < hd.shdr_mnent)
    (hpre : forRes (shdr_step t mimg hd ps.svma_ranges) k 0
              { di := with_soname_default ps.di, dynbss_present := false,
                sdynbss_present := false } = Res.ok ss)
    (hsh : img_get_Shdr t mimg (INDEX_BIS hd.shdr_mioff k hd.shdr_ment_szB) = some a_shdr)
    (hname : img_strdup mimg (add64 hd.shdr_strtab_mioff a_shdr.sh_name) = some name)
    (hsize : a_shdr.sh_size ≠ 0)
    (hviol : (name ∈ [cstr ".text", cstr ".rodata"]
            ∧ (find_inrx_inrw a_shdr.sh_addr ps.svma_ranges none none).1 = none)
      ∨ (name ∈ [cstr ".data", cstr ".sdata", cstr ".sbss", cstr ".got", cstr ".got.plt",
            cstr ".opd"]
            ∧ (find_inrx_inrw a_shdr.sh_addr ps.svma_ranges none none).2 = none)) :
    (∃ e d, read_elf_debug_info_sections t (some mimg) di = Res.fail e d)
    ∧ (∀ (s : SecHdr) (st : ShdrScan), s.inrw = none →
        (s.name = cstr ".dynbss" ∨ s.name = cstr ".sdynbss") →
        classify_section t s st = Res.ok st)
    ∧ (∀ (s : SecHdr) (st : ShdrScan), s.inrw = none → s.name = cstr ".bss" →
        st.di.bss.present = false →
        ∃ st1, classify_section t s st = Res.ok st1 ∧ st1.di.bss.present = false) := by
  refine ⟨?_, ?_, ?_⟩
  · have hstep : ∃ e d, shdr_step t mimg hd ps.svma_ranges ss k = Res.fail e d := by
      unfold shdr_step
      rw [hsh]
      dsimp only
      rw [hname]
      dsimp only
      rcases check_and_classify_nonzero t mimg a_shdr
          { name := name, svma := a_shdr.sh_addr, size := a_shdr.sh_size,
            inrx := (find_inrx_inrw a_shdr.sh_addr ps.svma_ranges none none).1,
            inrw := (find_inrx_inrw a_shdr.sh_addr ps.svma_ranges none none).2 } ss hsize
        with h | h
      · exact h
      · rw [h]
        exact classify_section_fatal t _ ss hsize hviol
    obtain ⟨e, d, hstep⟩ := hstep
    have hscan : scan_section_headers t mimg hd ps.svma_ranges (with_soname_default ps.di)
        = Res.fail e d := by
      unfold scan_section_headers
      rw [forRes_fail_iff]
      exact ⟨k, ss, hk, hpre, by rw [Nat.zero_add]; exact hstep⟩
    refine ⟨e, d, ?_⟩
    unfold read_elf_debug_info_sections
    rw [hentry]
    simp only [Bool.not_true, Bool.false_eq_true, if_false, hloc, Res.bind, hph, hne]
    unfold with_soname_default at hscan
    rw [hscan]
  · intro s st hr hn
    rcases hn with hn | hn <;>
      simp [classify_section, sec_text, sec_data, sec_sdata, sec_rodata, sec_dynbss, sec_bss,
        sec_sdynbss, sec_sbss, sec_got, sec_gotplt, sec_plt, sec_opd, sec_ehframe, hn, hr,
        cstr_inj, Res.bind, BAD]
  · intro s st hr hn hp
    cases hx : s.inrx <;>
      simp [classify_section, sec_text, sec_data, sec_sdata, sec_rodata, sec_dynbss, sec_bss,
        sec_sdynbss, sec_sbss, sec_got, sec_gotplt, sec_plt, sec_opd, sec_ehframe, hn, hr,
        hx, hp, cstr_inj, Res.bind, BAD, SecRec.cleared]

/-- C7 (witness): on the image of scenario 1 with `.data` outside every load
range, the loop reaches `.data` after `.text` and the reader returns False. -/
theorem C7_witness :
    ∃ ss, forRes (shdr_step amd64 baddata_img (scen_hdrs 2 4)
              [⟨0, 0x1500, 0x401000, true⟩, ⟨0x2000, 0x2040, 0x600000, false⟩]) 2 0
            { di := with_soname_default scen1_di, dynbss_present := false,
              sdynbss_present := false } = Res.ok ss
      ∧ ((∃ e d, read_elf_debug_info_sections amd64 (some baddata_img) scen1_di
                  = Res.fail e d)
        ∧ (∀ (s : SecHdr) (st : ShdrScan), s.inrw = none →
            (s.name = cstr ".dynbss" ∨ s.name = cstr ".sdynbss") →
            classify_section amd64 s st = Res.ok st)
        ∧ (∀ (s : SecHdr) (st : ShdrScan), s.inrw = none → s.name = cstr ".bss" →
            st.di.bss.present = false →
            ∃ st1, classify_section amd64 s st = Res.ok st1 ∧ st1.di.bss.present = false)) :=
  ⟨_, rfl,
    C7_mapping_violation_fatal amd64 baddata_img scen1_di (scen_hdrs 2 4)
      { di := scen1_di, prev_svma := 0x2000,
        svma_ranges := [⟨0, 0x1500, 0x401000, true⟩, ⟨0x2000, 0x2040, 0x600000, false⟩] }
      2 _ { sh_data with sh_addr := 0x5000 } (cstr ".data")
      rfl rfl rfl (by decide) (by decide) rfl rfl rfl (by decide)
      (Or.inr ⟨by decide, by decide⟩)⟩


/-! ### C8 -/

/-- The loop that sets `inrx` and `inrw` finds the first load range of each kind
that contains the address. -/
theorem find_inrx_inrw_spec (svma : Nat) :
    ∀ (l : List RangeAndBias) (inrx inrw : Option RangeAndBias),
      find_inrx_inrw svma l inrx inrw
        = (inrx.orElse (fun _ => first_range l svma true),
           inrw.orElse (fun _ => first_range l svma false)) := by
  intro l
  induction l with
  | nil => intro inrx inrw; cases inrx <;> cases inrw <;> simp [find_inrx_inrw, first_range]
  | cons r rs ih =>
    intro inrx inrw
    simp only [find_inrx_inrw]
    by_cases hc : svma ≥ r.svma_base ∧ svma < r.svma_limit
    · have hb : r.svma_base ≤ svma := hc.1
      have hl : svma < r.svma_limit := hc.2
      rw [if_pos hc]
      cases hx : r.exec <;> cases inrx <;> cases inrw <;>
        simp [ih, first_range, List.find?, hb, hl, hx, Option.orElse]
    · rw [if_neg hc, ih]
      have : (decide (r.svma_base ≤ svma) && decide (svma < r.svma_limit)) = false := by
        simp only [Bool.and_eq_false_imp, decide_eq_true_eq, decide_eq_false_iff_not]
        intro h1 h2; exact hc ⟨h1, h2⟩
      simp [first_range, List.find?, this]

theorem acquire_sec_ok (t : Target) (ranges : List RangeAndBias) (exec : Bool)
    (svma size : Nat) (rng : RangeAndBias) (h : first_range ranges svma exec = some rng) :
    sec_ok t ranges exec (acquire t svma size rng) := by
  intro _
  exact ⟨rfl, ⟨rng, h, rfl⟩, rfl, rfl⟩

theorem sec_ok_of_absent (t : Target) (ranges : List RangeAndBias) (exec : Bool)
    (s : SecRec) (h : s.present = false) : sec_ok t ranges exec s := by
  intro hp; rw [h] at hp; cases hp

theorem sec_ok_resize (t : Target) (ranges : List RangeAndBias) (exec : Bool)
    (s : SecRec) (n : Nat) (h : sec_ok t ranges exec s) :
    sec_ok t ranges exec { s with size := n } := by
  intro hp
  exact h hp

/-- The classification of a section keeps `sections_ok`. -/
theorem classify_section_inv (t : Target) (ranges : List RangeAndBias) (s : SecHdr)
    (hrx : s.inrx = first_range ranges s.svma true)
    (hrw : s.inrw = first_range ranges s.svma false)
    (st st1 : ShdrScan) (hP : sections_ok t ranges st.di)
    (h : classify_section t s st = Res.ok st1) : sections_ok t ranges st1.di := by
  unfold classify_section at h
  obtain ⟨a1, h1, h⟩ := (Res.bind_ok_iff _ _ _).1 h
  obtain ⟨a2, h2, h⟩ := (Res.bind_ok_iff _ _ _).1 h
  obtain ⟨a3, h3, h⟩ := (Res.bind_ok_iff _ _ _).1 h
  obtain ⟨a4, h4, h⟩ := (Res.bind_ok_iff _ _ _).1 h
  obtain ⟨a5, h5, h⟩ := (Res.bind_ok_iff _ _ _).1 h
  obtain ⟨a6, h6, h⟩ := (Res.bind_ok_iff _ _ _).1 h
  obtain ⟨a7, h7, h⟩ := (Res.bind_ok_iff _ _ _).1 h
  obtain ⟨a8, h8, h⟩ := (Res.bind_ok_iff _ _ _).1 h
  obtain ⟨a9, h9, h⟩ := (Res.bind_ok_iff _ _ _).1 h
  obtain ⟨a10, h10, h⟩ := (Res.bind_ok_iff _ _ _).1 h
  obtain ⟨a11, h11, h⟩ := (Res.bind_ok_iff _ _ _).1 h
  obtain ⟨a12, h12, h13⟩ := (Res.bind_ok_iff _ _ _).1 h
  -- .text
  have P1 : sections_ok t ranges a1.di := by
    unfold sec_text at h1
    split at h1
    · split at h1
      · rename_i inrx hx
        split at h1
        · simp only [Res.ok.injEq] at h1; subst h1
          obtain ⟨_, q2, q3, q4, q5, q6⟩ := hP
          exact ⟨acquire_sec_ok _ _ _ _ _ _ (by rw [← hrx, hx]), q2, q3, q4, q5, q6⟩
        · cases h1
      · cases h1
    · simp only [Res.ok.injEq] at h1; subst h1; exact hP
  -- .data
  have P2 : sections_ok t ranges a2.di := by
    unfold sec_data at h2
    split at h2
    · split at h2
      · rename_i inrw hx
        split at h2
        · simp only [Res.ok.injEq] at h2; subst h2
          obtain ⟨q1, _, q3, q4, q5, q6⟩ := P1
          exact ⟨q1, acquire_sec_ok _ _ _ _ _ _ (by rw [← hrw, hx]), q3, q4, q5, q6⟩
        · cases h2
      · cases h2
    · simp only [Res.ok.injEq] at h2; subst h2; exact P1
  -- .sdata
  have P3 : sections_ok t ranges a3.di := by
    unfold sec_sdata at h3
    split at h3
    · split at h3
      · rename_i inrw hx
        split at h3
        · simp only [Res.ok.injEq] at h3; subst h3
          obtain ⟨q1, q2, _, q4, q5, q6⟩ := P2
          exact ⟨q1, q2, acquire_sec_ok _ _ _ _ _ _ (by rw [← hrw, hx]), q4, q5, q6⟩
        · cases h3
      · cases h3
    · simp only [Res.ok.injEq] at h3; subst h3; exact P2
  -- .rodata
  have P4 : sections_ok t ranges a4.di := by
    unfold sec_rodata at h4
    split at h4
    · split at h4
      · rename_i inrx hx
        split at h4
        · simp only [Res.ok.injEq] at h4; subst h4
          obtain ⟨q1, q2, q3, _, q5, q6⟩ := P3
          exact ⟨q1, q2, q3, acquire_sec_ok _ _ _ _ _ _ (by rw [← hrx, hx]), q5, q6⟩
        · cases h4
      · cases h4
    · simp only [Res.ok.injEq] at h4; subst h4; exact P3
  -- .dynbss
  have P5 : sections_ok t ranges a5.di := by
    unfold sec_dynbss at h5
    split at h5
    · split at h5
      · rename_i inrw hx
        split at h5
        · simp only [Res.ok.injEq] at h5; subst h5
          obtain ⟨q1, q2, q3, q4, _, q6⟩ := P4
          exact ⟨q1, q2, q3, q4, acquire_sec_ok _ _ _ _ _ _ (by rw [← hrw, hx]), q6⟩
        · simp only [Res.ok.injEq] at h5; subst h5; exact P4
      · simp only [Res.ok.injEq] at h5; subst h5; exact P4
    · simp only [Res.ok.injEq] at h5; subst h5; exact P4
  -- .bss
  have P6 : sections_ok t ranges a6.di := by
    unfold sec_bss at h6
    split at h6
    · split at h6
      · split at h6
        · cases h6
        · split at h6
          · cases h6
          · simp only [Res.ok.injEq] at h6; subst h6
            obtain ⟨q1, q2, q3, q4, q5, q6⟩ := P5
            exact ⟨q1, q2, q3, q4, sec_ok_resize _ _ _ _ _ q5, q6⟩
      · split at h6
        · rename_i inrw hx
          split at h6
          · simp only [Res.ok.injEq] at h6; subst h6
            obtain ⟨q1, q2, q3, q4, _, q6⟩ := P5
            exact ⟨q1, q2, q3, q4, acquire_sec_ok _ _ _ _ _ _ (by rw [← hrw, hx]), q6⟩
          · cases h6
        · split at h6
          · simp only [Res.ok.injEq] at h6; subst h6
            obtain ⟨q1, q2, q3, q4, _, q6⟩ := P5
            exact ⟨q1, q2, q3, q4, sec_ok_of_absent _ _ _ _ rfl, q6⟩
          · split at h6
            · simp only [Res.ok.injEq] at h6; subst h6
              obtain ⟨q1, q2, q3, q4, _, q6⟩ := P5
              exact ⟨q1, q2, q3, q4, sec_ok_of_absent _ _ _ _ rfl, q6⟩
            · cases h6
    · simp only [Res.ok.injEq] at h6; subst h6; exact P5
  -- .sdynbss
  have P7 : sections_ok t ranges a7.di := by
    unfold sec_sdynbss at h7
    split at h7
    · split at h7
      · rename_i inrw hx
        split at h7
        · simp only [Res.ok.injEq] at h7; subst h7
          obtain ⟨q1, q2, q3, q4, q5, _⟩ := P6
          exact ⟨q1, q2, q3, q4, q5, acquire_sec_ok _ _ _ _ _ _ (by rw [← hrw, hx])⟩
        · simp only [Res.ok.injEq] at h7; subst h7; exact P6
      · simp only [Res.ok.injEq] at h7; subst h7; exact P6
    · simp only [Res.ok.injEq] at h7; subst h7; exact P6
  -- .sbss
  have P8 : sections_ok t ranges a8.di := by
    unfold sec_sbss at h8
    split at h8
    · split at h8
      · split at h8
        · cases h8
        · split at h8
          · cases h8
          · simp only [Res.ok.injEq] at h8; subst h8
            obtain ⟨q1, q2, q3, q4, q5, q6⟩ := P7
            exact ⟨q1, q2, q3, q4, q5, sec_ok_resize _ _ _ _ _ q6⟩
      · split at h8
        · rename_i inrw hx
          split at h8
          · simp only [Res.ok.injEq] at h8; subst h8
            obtain ⟨q1, q2, q3, q4, q5, _⟩ := P7
            exact ⟨q1, q2, q3, q4, q5, acquire_sec_ok _ _ _ _ _ _ (by rw [← hrw, hx])⟩
          · cases h8
        · cases h8
    · simp only [Res.ok.injEq] at h8; subst h8; exact P7
  -- .got, .got.plt, .plt, .opd and .eh_frame write none of the six records
  have P9 : sections_ok t ranges a9.di := by
    unfold sec_got at h9
    split at h9
    · split at h9
      · split at h9
        · simp only [Res.ok.injEq] at h9; subst h9; exact P8
        · cases h9
      · cases h9
    · simp only [Res.ok.injEq] at h9; subst h9; exact P8
  have P10 : sections_ok t ranges a10.di := by
    unfold sec_gotplt at h10
    split at h10
    · split at h10
      · split at h10
        · simp only [Res.ok.injEq] at h10; subst h10; exact P9
        · split at h10
          · cases h10
          · simp only [Res.ok.injEq] at h10; subst h10; exact P9
      · split at h10
        · cases h10
        · simp only [Res.ok.injEq] at h10; subst h10; exact P9
    · simp only [Res.ok.injEq] at h10; subst h10; exact P9
  have P11 : sections_ok t ranges a11.di := by
    unfold sec_plt at h11
    split at h11
    · split at h11
      · split at h11
        · split at h11
          · simp only [Res.ok.injEq] at h11; subst h11; exact P10
          · cases h11
        · cases h11
      · split at h11
        · split at h11
          · simp only [Res.ok.injEq] at h11; subst h11; exact P10
          · cases h11
        · split at h11
          · simp only [Res.ok.injEq] at h11; subst h11; exact P10
          · cases h11
      · split at h11
        · split at h11
          · simp only [Res.ok.injEq] at h11; subst h11; exact P10
          · cases h11
        · cases h11
    · simp only [Res.ok.injEq] at h11; subst h11; exact P10
  have P12 : sections_ok t ranges a12.di := by
    unfold sec_opd at h12
    split at h12
    · split at h12
      · split at h12
        · simp only [Res.ok.injEq] at h12; subst h12; exact P11
        · cases h12
      · cases h12
    · simp only [Res.ok.injEq] at h12; subst h12; exact P11
  unfold sec_ehframe at h13
  split at h13
  · split at h13
    · split at h13
      · simp only [Res.ok.injEq] at h13; subst h13; exact P12
      · cases h13
    · split at h13
      · simp only [Res.ok.injEq] at h13; subst h13; exact P12
      · cases h13
    · cases h13
  · simp only [Res.ok.injEq] at h13; subst h13; exact P12

/-- One iteration of the first loop over the section headers keeps
`sections_ok`. -/
theorem shdr_step_inv (t : Target) (mimg : DiImage) (hd : MainHdrs)
    (ranges : List RangeAndBias) (st st1 : ShdrScan) (i : Nat)
    (hP : sections_ok t ranges st.di)
    (h : shdr_step t mimg hd ranges st i = Res.ok st1) : sections_ok t ranges st1.di := by
  unfold shdr_step at h
  split at h
  · cases h
  · split at h
    · cases h
    · rename_i a_shdr _ name _
      dsimp only at h
      unfold check_and_classify at h
      dsimp only at h
      split_ifs at h
      all_goals first
        | (simp only [Res.ok.injEq] at h; subst h; exact hP)
        | (refine classify_section_inv t ranges _ ?_ ?_ st st1 hP h
           · simp [find_inrx_inrw_spec, Option.orElse]
           · simp [find_inrx_inrw_spec, Option.orElse])

/-- C8: after the first loop over the section headers has completed without
failure, on a DebugInfo that entered with none of the six sections present,
every present section among text, data, sdata, rodata, bss and sbss has
`avma = svma + bias` modulo the word size, with `bias` the bias of the first load
range that contains `svma` with exec=true (text, rodata) or exec=false (data,
sdata, bss, sbss), and `debug_svma = svma`, `debug_bias = bias`. -/
theorem C8_present_sections_biased (t : Target) (mimg : Option DiImage) (di : DebugInfo)
    (d : Discovered) (hfresh : no_section_present di)
    (h : read_elf_debug_info_sections t mimg di = Res.ok d) :
    sections_ok t d.svma_ranges d.di := by
  unfold read_elf_debug_info_sections at h
  split at h
  · cases h
  · split at h
    · cases h
    · rename_i img
      obtain ⟨hd, -, h⟩ := (Res.bind_ok_iff _ _ _).1 h
      obtain ⟨ps, hps, h⟩ := (Res.bind_ok_iff _ _ _).1 h
      dsimp only at h
      split at h
      · cases h
      · obtain ⟨ss, hss, h⟩ := (Res.bind_ok_iff _ _ _).1 h
        simp only [Res.ok.injEq] at h
        subst h
        dsimp only
        obtain ⟨s0, hs0⟩ := scan_program_headers_ok _ _ _ _ _ hps
        obtain ⟨f1, f2, f3, f4, f5, f6⟩ := hfresh
        have hinit : sections_ok t ps.svma_ranges
            (if ps.di.soname = none then { ps.di with soname := some soname_NONE }
             else ps.di) := by
          rw [hs0]
          split <;>
            exact ⟨sec_ok_of_absent _ _ _ _ f1, sec_ok_of_absent _ _ _ _ f2,
              sec_ok_of_absent _ _ _ _ f3, sec_ok_of_absent _ _ _ _ f4,
              sec_ok_of_absent _ _ _ _ f5, sec_ok_of_absent _ _ _ _ f6⟩
        unfold scan_section_headers at hss
        exact forRes_ok_inv (shdr_step t img hd ps.svma_ranges)
          (fun st => sections_ok t ps.svma_ranges st.di)
          (fun s i s1 hP hs => shdr_step_inv t img hd ps.svma_ranges s s1 i hP hs)
          _ _ _ _ hinit hss

/-- C8 (witness): scenario 1. -/
theorem C8_witness :
    ∃ d, read_elf_debug_info_sections amd64 (some scen1_img) scen1_di = Res.ok d
      ∧ no_section_present scen1_di
      ∧ sections_ok amd64 d.svma_ranges d.di :=
  ⟨_, rfl, by unfold no_section_present; decide,
    C8_present_sections_biased amd64 (some scen1_img) scen1_di _
      (by unfold no_section_present; decide) rfl⟩


/-! ### C9 -/

/-- A mapping at AVMA 0x401000 whose file-offset window holds the R|X segment of
scenario 1, which starts at file offset 0, starts at file offset 0 itself, so
that the bias of the load range is 0x401000. -/
theorem scenario1_rx_bias_forced (map : DebugInfoMapping) (hav : map.avma = 0x401000)
    (hh : map_holds amd64 ph_rx map = true) :
    (load_item amd64 ph_rx map true).bias = 0x401000 := by
  unfold map_holds at hh
  simp only [Bool.and_eq_true, decide_eq_true_eq] at hh
  have hf : map.foff = 0 := by
    have := hh.1.1.2
    simp only [ph_rx] at this
    omega
  simp only [load_item, subW, addW, hav, hf, ph_rx, Target.wmod, Target.wbits, amd64]
  norm_num

/-- C9 (counterexample): on scenario 1 the reader does not record
`text_avma = 0x401000` and `text_bias = 0x400000`. -/
theorem C9_counterexample :
    ∃ d, read_elf_debug_info_sections amd64 (some scen1_img) scen1_di = Res.ok d
      ∧ ¬ (d.di.text.avma = 0x401000 ∧ d.di.text.bias = 0x400000
            ∧ d.di.data.avma = 0x602000 ∧ d.di.soname = some (cstr "NONE")) :=
  ⟨_, rfl, by decide⟩

/-- C9 (amended): on scenario 1, with the rx mapping at AVMA 0x401000 from file
offset 0 and the rw mapping at AVMA 0x602000 from file offset 0x2000, the first
part of the reader completes with `text_avma = 0x402000`,
`text_bias = 0x401000`, `data_avma = 0x602000` and soname "NONE". -/
theorem C9_scenario1 :
    ∃ d, read_elf_debug_info_sections amd64 (some scen1_img) scen1_di = Res.ok d
      ∧ d.di.text.present = true ∧ d.di.text.svma = 0x1000 ∧ d.di.text.size = 0x500
      ∧ d.di.text.avma = 0x402000 ∧ d.di.text.bias = 0x401000
      ∧ d.di.data.present = true ∧ d.di.data.svma = 0x2000 ∧ d.di.data.size = 0x40
      ∧ d.di.data.avma = 0x602000 ∧ d.di.data.bias = 0x600000
      ∧ d.di.soname = some (cstr "NONE") :=
  ⟨_, rfl, by decide⟩

/-! ### C10 -/

/-- The results of `dyn_walk` that are not failures do not depend on the
DebugInfo it is given. -/
theorem dyn_walk_ok_indep (t : Target) (mimg : DiImage) (di1 di2 : DebugInfo) (hd : MainHdrs)
    (a : ElfXX_Phdr) (r : Nat × Nat) :
    ∀ fuel j stroff strtab,
      dyn_walk t mimg di1 hd a fuel j stroff strtab = Res.ok r →
      dyn_walk t mimg di2 hd a fuel j stroff strtab = Res.ok r := by
  intro fuel
  induction fuel with
  | zero => intro j stroff strtab hw; simp [dyn_walk] at hw
  | succ fuel ih =>
    intro j stroff strtab hw
    simp only [dyn_walk] at hw ⊢
    cases hs : dyn_step t mimg hd a j stroff strtab with
    | done => rw [hs] at hw; exact hw
    | next s1 s2 => rw [hs] at hw; exact ih _ _ _ hw
    | crash => rw [hs] at hw; cases hw
    | fail => rw [hs] at hw; cases hw

theorem dyn_step_done (t : Target) (mimg : DiImage) (hd : MainHdrs) (a : ElfXX_Phdr)
    (j so st : Nat) (h : dyn_step t mimg hd a j so st = DynStep.done) :
    (dyn_entry t mimg hd a j).d_tag = DT_NULL := by
  unfold dyn_step at h
  split_ifs at h with h1 h2 h3 h4
  · exact h2
  · split at h
    · cases h
    · split_ifs at h

/-- What an iteration that goes on to the next entry has done. -/
theorem dyn_step_next (t : Target) (mimg : DiImage) (hd : MainHdrs) (a : ElfXX_Phdr)
    (j so st s1 s2 : Nat) (h : dyn_step t mimg hd a j so st = DynStep.next s1 s2) :
    (dyn_entry t mimg hd a j).d_tag ≠ DT_NULL
    ∧ s1 = (if (dyn_entry t mimg hd a j).d_tag = DT_SONAME
            then (dyn_entry t mimg hd a j).d_un else so)
    ∧ (st ≠ DiOffT_INVALID → s2 = st)
    ∧ (st = DiOffT_INVALID →
        ((dyn_entry t mimg hd a j).d_tag = DT_STRTAB
          ∧ ∃ off, file_offset_from_svma t (dyn_entry t mimg hd a j).d_un mimg
                hd.phdr_mioff hd.phdr_mnent hd.phdr_ment_szB = some (true, off)
            ∧ img_valid mimg (sext64 t off) 1 = true
            ∧ s2 = add64 hd.ehdr_mioff (sext64 t off))
        ∨ (s2 = DiOffT_INVALID
          ∧ ¬ ((dyn_entry t mimg hd a j).d_tag = DT_STRTAB
            ∧ ∃ off, file_offset_from_svma t (dyn_entry t mimg hd a j).d_un mimg
                hd.phdr_mioff hd.phdr_mnent hd.phdr_ment_szB = some (true, off)))) := by
  unfold dyn_step at h
  split_ifs at h with h1 h2 h3 h4
  · -- DT_SONAME
    simp only [DynStep.next.injEq] at h
    have hne : ¬ (dyn_entry t mimg hd a j).d_tag = DT_STRTAB := by
      rw [h3]; decide
    refine ⟨h2, by rw [if_pos h3]; exact h.1.symm, fun _ => h.2.symm, fun hst => Or.inr ⟨?_, ?_⟩⟩
    · rw [← h.2, hst]
    · intro hx; exact hne hx.1
  · -- DT_STRTAB
    split at h
    · cases h
    · rename_i ok2 offset hf
      split_ifs at h with h5 h6
      · simp only [DynStep.next.injEq] at h
        simp only [Bool.and_eq_true, beq_iff_eq] at h5
        simp only [Bool.not_eq_true', Bool.not_eq_false] at h6
        refine ⟨h2, by rw [if_neg h3]; exact h.1.symm, fun hst => absurd h5.2 hst,
          fun _ => Or.inl ⟨h4, offset, ?_, ?_, h.2.symm⟩⟩
        · rw [hf, h5.1]
        · simpa using h6
      · simp only [DynStep.next.injEq] at h
        refine ⟨h2, by rw [if_neg h3]; exact h.1.symm, fun _ => h.2.symm,
          fun hst => Or.inr ⟨by rw [← h.2, hst], ?_⟩⟩
        rintro ⟨-, off, hoff⟩
        rw [hf] at hoff
        simp only [Option.some.injEq, Prod.mk.injEq] at hoff
        apply h5
        simp [hoff.1, hst]
  · -- another tag
    simp only [DynStep.next.injEq] at h
    refine ⟨h2, by rw [if_neg h3]; exact h.1.symm, fun _ => h.2.symm,
      fun hst => Or.inr ⟨by rw [← h.2, hst], fun hx => h4 hx.1⟩⟩

/-- The first component of the result of the walk is the value of the last
DT_SONAME entry before DT_NULL, and the initial `stroff` if there is none. -/
theorem dyn_walk_stroff (t : Target) (mimg : DiImage) (di : DebugInfo) (hd : MainHdrs)
    (a : ElfXX_Phdr) (r : Nat × Nat) (m : Nat)
    (hm : (dyn_entry t mimg hd a m).d_tag = DT_NULL) :
    ∀ fuel j so st, j ≤ m →
      (∀ i, j ≤ i → i < m → (dyn_entry t mimg hd a i).d_tag ≠ DT_NULL) →
      dyn_walk t mimg di hd a fuel j so st = Res.ok r →
      ((∀ i, j ≤ i → i < m → (dyn_entry t mimg hd a i).d_tag ≠ DT_SONAME) → r.1 = so)
      ∧ (∀ ia, j ≤ ia → ia < m → (dyn_entry t mimg hd a ia).d_tag = DT_SONAME →
          (∀ i, ia < i → i < m → (dyn_entry t mimg hd a i).d_tag ≠ DT_SONAME) →
          r.1 = (dyn_entry t mimg hd a ia).d_un) := by
  intro fuel
  induction fuel with
  | zero => intro j so st _ _ hw; simp [dyn_walk] at hw
  | succ fuel ih =>
    intro j so st hjm hnn hw
    simp only [dyn_walk] at hw
    cases hs : dyn_step t mimg hd a j so st with
    | done =>
      rw [hs] at hw
      simp only [Res.ok.injEq] at hw
      have hj := dyn_step_done _ _ _ _ _ _ _ hs
      have hjeq : j = m := by
        by_contra hne
        exact hnn j (le_refl _) (by omega) hj
      refine ⟨fun _ => by rw [← hw], ?_⟩
      intro ia h1 h2
      omega
    | next s1 s2 =>
      rw [hs] at hw
      obtain ⟨hnull, hs1, -, -⟩ := dyn_step_next _ _ _ _ _ _ _ _ _ hs
      have hjlt : j < m := by
        by_contra hne
        have : j = m := by omega
        rw [this] at hnull
        exact hnull hm
      obtain ⟨ih1, ih2⟩ := ih (j + 1) s1 s2 (by omega)
        (fun i h1 h2 => hnn i (by omega) h2) hw
      constructor
      · intro hno
        rw [ih1 (fun i h1 h2 => hno i (by omega) h2), hs1,
          if_neg (hno j (le_refl _) hjlt)]
      · intro ia h1 h2 hia hlast
        by_cases hje : ia = j
        · subst hje
          rw [ih1 (fun i h1 h2 => hlast i (by omega) h2), hs1, if_pos hia]
        · exact ih2 ia (by omega) h2 hia hlast
    | crash => rw [hs] at hw; cases hw
    | fail => rw [hs] at hw; cases hw

/-- The second component of the result of the walk is the initial
`strtab_mioff` when that is valid; otherwise it is the file offset of the first
DT_STRTAB entry before DT_NULL that `file_offset_from_svma` resolves, and that
offset is inside the image. -/
theorem dyn_walk_strtab (t : Target) (mimg : DiImage) (di : DebugInfo) (hd : MainHdrs)
    (a : ElfXX_Phdr) (r : Nat × Nat) (m : Nat)
    (hm : (dyn_entry t mimg hd a m).d_tag = DT_NULL) :
    ∀ fuel j so st, j ≤ m →
      (∀ i, j ≤ i → i < m → (dyn_entry t mimg hd a i).d_tag ≠ DT_NULL) →
      dyn_walk t mimg di hd a fuel j so st = Res.ok r →
      (st ≠ DiOffT_INVALID → r.2 = st)
      ∧ (st = DiOffT_INVALID → ∀ ib off, j ≤ ib → ib < m →
          (dyn_entry t mimg hd a ib).d_tag = DT_STRTAB →
          file_offset_from_svma t (dyn_entry t mimg hd a ib).d_un mimg
              hd.phdr_mioff hd.phdr_mnent hd.phdr_ment_szB = some (true, off) →
          (∀ i, j ≤ i → i < ib → (dyn_entry t mimg hd a i).d_tag = DT_STRTAB →
            ∀ x, file_offset_from_svma t (dyn_entry t mimg hd a i).d_un mimg
              hd.phdr_mioff hd.phdr_mnent hd.phdr_ment_szB ≠ some (true, x)) →
          add64 hd.ehdr_mioff (sext64 t off) ≠ DiOffT_INVALID →
          r.2 = add64 hd.ehdr_mioff (sext64 t off)
          ∧ img_valid mimg (sext64 t off) 1 = true) := by
  intro fuel
  induction fuel with
  | zero => intro j so st _ _ hw; simp [dyn_walk] at hw
  | succ fuel ih =>
    intro j so st hjm hnn hw
    simp only [dyn_walk] at hw
    cases hs : dyn_step t mimg hd a j so st with
    | done =>
      rw [hs] at hw
      simp only [Res.ok.injEq] at hw
      have hj := dyn_step_done _ _ _ _ _ _ _ hs
      have hjeq : j = m := by
        by_contra hne
        exact hnn j (le_refl _) (by omega) hj
      refine ⟨fun _ => by rw [← hw], ?_⟩
      intro _ ib off h1 h2
      omega
    | next s1 s2 =>
      rw [hs] at hw
      obtain ⟨hnull, -, hkeep, hset⟩ := dyn_step_next _ _ _ _ _ _ _ _ _ hs
      have hjlt : j < m := by
        by_contra hne
        have : j = m := by omega
        rw [this] at hnull
        exact hnull hm
      obtain ⟨ih1, ih2⟩ := ih (j + 1) s1 s2 (by omega)
        (fun i h1 h2 => hnn i (by omega) h2) hw
      constructor
      · intro hst
        have h2 := hkeep hst
        rw [ih1 (by rw [h2]; exact hst), h2]
      · intro hst ib off h1 h2 htag hres hfirst hne
        rcases hset hst with ⟨htag2, off2, hres2, hval2, hs2⟩ | ⟨hs2, hnot⟩
        · -- the entry j is resolved: it is the entry ib
          have hjb : ib = j := by
            by_contra hx
            exact hfirst j (le_refl _) (by omega) htag2 off2 hres2
          subst hjb
          rw [hres] at hres2
          simp only [Option.some.injEq, Prod.mk.injEq, true_and] at hres2
          subst hres2
          exact ⟨by rw [ih1 (by rw [hs2]; exact hne), hs2], hval2⟩
        · have hjb : ib ≠ j := by
            intro hx
            subst hx
            exact hnot ⟨htag, off, hres⟩
          exact ih2 hs2 ib off (by omega) h2 htag hres
            (fun i h1 h2 => hfirst i (by omega) h2) hne
    | crash => rw [hs] at hw; cases hw
    | fail => rw [hs] at hw; cases hw

theorem with_soname_default_soname (di : DebugInfo) :
    (with_soname_default di).soname
      = some (match di.soname with | some s => s | none => soname_NONE) := by
  unfold with_soname_default
  cases h : di.soname with
  | none => simp
  | some s => simp [h]

/-- One iteration of the loop over the program headers keeps `soname_inv`. -/
theorem soname_inv_step (t : Target) (mimg : DiImage) (hd : MainHdrs) (k : Nat)
    (st st1 : PhdrScan) (hinv : soname_inv t mimg hd k st.di.soname)
    (h : phdr_step t mimg hd st k = Res.ok st1) :
    soname_inv t mimg hd (k + 1) st1.di.soname := by
  unfold phdr_step img_get_Phdr at h
  by_cases hv : img_valid mimg (INDEX_BIS hd.phdr_mioff k hd.phdr_ment_szB) (sizeof_Phdr t)
      = true
  · rw [if_pos hv] at h
    dsimp only at h
    obtain ⟨st2, h2, h3⟩ := (Res.bind_ok_iff _ _ _).1 h
    have hdi := phdr_load_ok _ _ _ _ h2
    rw [← hdi] at hinv
    have hk : mimg.phdr (INDEX_BIS hd.phdr_mioff k hd.phdr_ment_szB) = phdr_entry mimg hd k :=
      rfl
    rw [hk] at h3
    unfold phdr_dynamic at h3
    split at h3
    · rename_i hc
      obtain ⟨r, hr, h4⟩ := (Res.bind_ok_iff _ _ _).1 h3
      have hleft : ∀ i, i < k → (phdr_entry mimg hd i).p_type = PT_DYNAMIC →
          no_soname_pieces t mimg hd (phdr_entry mimg hd i) := by
        rcases hinv with ⟨-, hl⟩ | ⟨k0, -, -, -, di1, so, sm, str, -, -, -, -, hsome⟩
        · exact hl
        · rw [hc.2] at hsome; cases hsome
      split at h4
      · rename_i hcomp
        split at h4
        · cases h4
        · rename_i str hstr
          simp only [Res.ok.injEq] at h4
          subst h4
          right
          exact ⟨k, by omega, hc.1, hleft, st2.di, r.1, r.2, str, hr, hcomp.1, hcomp.2, hstr,
            rfl⟩
      · rename_i hcomp
        simp only [Res.ok.injEq] at h4
        subst h4
        left
        refine ⟨hc.2, ?_⟩
        intro i hi hty
        by_cases hik : i = k
        · subst hik
          intro di1 r1 hr1
          have := dyn_walk_ok_indep t mimg di1 st2.di hd _ r1 _ _ _ _ hr1
          rw [hr] at this
          simp only [Res.ok.injEq] at this
          subst this
          by_contra hx
          apply hcomp
          constructor
          · intro h1; exact hx (Or.inl h1)
          · intro h1; exact hx (Or.inr h1)
        · exact hleft i (by omega) hty
    · rename_i hc
      simp only [Res.ok.injEq] at h3
      subst h3
      rcases hinv with ⟨hnone, hl⟩ | ⟨k0, hk0, rest⟩
      · left
        refine ⟨hnone, ?_⟩
        intro i hi hty
        by_cases hik : i = k
        · subst hik
          exact absurd ⟨hty, hnone⟩ hc
        · exact hl i (by omega) hty
      · right
        exact ⟨k0, by omega, rest⟩
  · rw [if_neg hv] at h
    cases h

/-- C10 (counterexample): in this image the first PT_DYNAMIC entry holds a lone
DT_NULL, so both pieces are missing from it, and yet the soname is not "NONE": it
is taken from the second PT_DYNAMIC entry. -/
theorem C10_counterexample :
    ∃ d, read_elf_debug_info_sections amd64 (some two_dyn_img) scen1_di = Res.ok d
      ∧ (phdr_entry two_dyn_img (scen_hdrs 4 4) 0).p_type ≠ PT_DYNAMIC
      ∧ (phdr_entry two_dyn_img (scen_hdrs 4 4) 1).p_type ≠ PT_DYNAMIC
      ∧ (phdr_entry two_dyn_img (scen_hdrs 4 4) 2).p_type = PT_DYNAMIC
      ∧ (dyn_entry amd64 two_dyn_img (scen_hdrs 4 4)
            (phdr_entry two_dyn_img (scen_hdrs 4 4) 2) 0).d_tag = DT_NULL
      ∧ d.di.soname = some (cstr "libfoo.so.1")
      ∧ d.di.soname ≠ some (cstr "NONE") :=
  ⟨_, rfl, by decide, by decide, by decide, by decide, by decide, by decide⟩

/-- C10 (amended): after a successful scan of the program headers of a DebugInfo
that entered without a soname, either no PT_DYNAMIC entry gave both pieces and
the soname is "NONE", or the soname is the NUL-terminated string at image offset
`strtab_mioff + stroff`, where `stroff` (not -1) and `strtab_mioff` (valid) are
what the walk over the first PT_DYNAMIC entry that gives both pieces returns.
The walk returns as `stroff` the value of the last DT_SONAME entry before
DT_NULL, and as `strtab_mioff` the file offset, inside the image, of the first
DT_STRTAB entry before DT_NULL that `file_offset_from_svma` resolves. -/
theorem C10_soname_from_dynamic (t : Target) (mimg : DiImage) (hd : MainHdrs)
    (di : DebugInfo) (ps : PhdrScan)
    (hscan : scan_program_headers t mimg hd di = Res.ok ps) (hso : di.soname = none) :
    (((with_soname_default ps.di).soname = some (cstr "NONE")
        ∧ ∀ i, i < hd.phdr_mnent → (phdr_entry mimg hd i).p_type = PT_DYNAMIC →
            no_soname_pieces t mimg hd (phdr_entry mimg hd i))
      ∨ ∃ k0, k0 < hd.phdr_mnent ∧ (phdr_entry mimg hd k0).p_type = PT_DYNAMIC
          ∧ (∀ i, i < k0 → (phdr_entry mimg hd i).p_type = PT_DYNAMIC →
              no_soname_pieces t mimg hd (phdr_entry mimg hd i))
          ∧ ∃ di1 stroff strtab_mioff str,
              dyn_walk t mimg di1 hd (phdr_entry mimg hd k0) (mimg.size + 1) 0 (negW t 1)
                  DiOffT_INVALID = Res.ok (stroff, strtab_mioff)
              ∧ stroff ≠ negW t 1 ∧ strtab_mioff ≠ DiOffT_INVALID
              ∧ img_strdup mimg (add64 strtab_mioff (sext64 t stroff)) = some str
              ∧ (with_soname_default ps.di).soname = some str)
    ∧ (∀ (a : ElfXX_Phdr) (m ia ib off fuel : Nat) (di1 : DebugInfo) (r : Nat × Nat),
        (dyn_entry t mimg hd a m).d_tag = DT_NULL →
        (∀ i, i < m → (dyn_entry t mimg hd a i).d_tag ≠ DT_NULL) →
        ia < m → (dyn_entry t mimg hd a ia).d_tag = DT_SONAME →
        (∀ i, ia < i → i < m → (dyn_entry t mimg hd a i).d_tag ≠ DT_SONAME) →
        ib < m → (dyn_entry t mimg hd a ib).d_tag = DT_STRTAB →
        file_offset_from_svma t (dyn_entry t mimg hd a ib).d_un mimg
            hd.phdr_mioff hd.phdr_mnent hd.phdr_ment_szB = some (true, off) →
        (∀ i, i < ib → (dyn_entry t mimg hd a i).d_tag = DT_STRTAB →
          ∀ x, file_offset_from_svma t (dyn_entry t mimg hd a i).d_un mimg
            hd.phdr_mioff hd.phdr_mnent hd.phdr_ment_szB ≠ some (true, x)) →
        add64 hd.ehdr_mioff (sext64 t off) ≠ DiOffT_INVALID →
        dyn_walk t mimg di1 hd a fuel 0 (negW t 1) DiOffT_INVALID = Res.ok r →
        r = ((dyn_entry t mimg hd a ia).d_un, add64 hd.ehdr_mioff (sext64 t off))
        ∧ img_valid mimg (sext64 t off) 1 = true) := by
  constructor
  · unfold scan_program_headers at hscan
    have hinv := forRes_ok_inv_idx (phdr_step t mimg hd)
      (fun k st => soname_inv t mimg hd k st.di.soname) hd.phdr_mnent 0 _ ps
      (fun j s s2 _ _ hP hs => soname_inv_step t mimg hd j s s2 hP hs)
      (Or.inl ⟨hso, fun i hi => absurd hi (by omega)⟩) hscan
    rw [Nat.zero_add] at hinv
    rw [with_soname_default_soname]
    rcases hinv with ⟨hnone, hl⟩ | ⟨k0, hk0, hty, hl, di1, so, sm, str, hw, h1, h2, h3, hsome⟩
    · left
      rw [hnone]
      exact ⟨rfl, hl⟩
    · right
      rw [hsome]
      exact ⟨k0, hk0, hty, hl, di1, so, sm, str, hw, h1, h2, h3, rfl⟩
  · intro a m ia ib off fuel di1 r hm hnn hia htia hlast hib htib hres hfirst hne hw
    have hs := (dyn_walk_stroff t mimg di1 hd a r m hm fuel 0 _ _ (Nat.zero_le _)
      (fun i _ h2 => hnn i h2) hw).2 ia (Nat.zero_le _) hia htia hlast
    have ht := (dyn_walk_strtab t mimg di1 hd a r m hm fuel 0 _ _ (Nat.zero_le _)
      (fun i _ h2 => hnn i h2) hw).2 rfl ib off (Nat.zero_le _) hib htib hres
      (fun i _ h2 => hfirst i h2) hne
    exact ⟨Prod.ext hs ht.1, ht.2⟩

/-- C10 (witness): scenario 2.  The PT_DYNAMIC entry holds DT_SONAME with the
value 7 and DT_STRTAB with an SVMA that resolves to the file offset 0x2055; the
soname is the string "libfoo.so.1" at image offset 0x2055 + 7. -/
theorem C10_witness :
    ∃ ps, scan_program_headers amd64 scen2_img (scen_hdrs 3 4) scen1_di = Res.ok ps
      ∧ scen1_di.soname = none
      ∧ (with_soname_default ps.di).soname = some (cstr "libfoo.so.1")
      ∧ img_strdup scen2_img (0x2055 + 7) = some (cstr "libfoo.so.1")
      ∧ (∀ r, dyn_walk amd64 scen2_img scen1_di (scen_hdrs 3 4) (ph_dyn 0x2400)
                (scen2_img.size + 1) 0 (negW amd64 1) DiOffT_INVALID = Res.ok r →
              r = (7, 0x2055) ∧ img_valid scen2_img 0x2055 1 = true)
      ∧ ((((with_soname_default ps.di).soname = some (cstr "NONE")
            ∧ ∀ i, i < (scen_hdrs 3 4).phdr_mnent →
                (phdr_entry scen2_img (scen_hdrs 3 4) i).p_type = PT_DYNAMIC →
                no_soname_pieces amd64 scen2_img (scen_hdrs 3 4)
                  (phdr_entry scen2_img (scen_hdrs 3 4) i))
          ∨ ∃ k0, k0 < (scen_hdrs 3 4).phdr_mnent
              ∧ (phdr_entry scen2_img (scen_hdrs 3 4) k0).p_type = PT_DYNAMIC
              ∧ (∀ i, i < k0 → (phdr_entry scen2_img (scen_hdrs 3 4) i).p_type = PT_DYNAMIC →
                  no_soname_pieces amd64 scen2_img (scen_hdrs 3 4)
                    (phdr_entry scen2_img (scen_hdrs 3 4) i))
              ∧ ∃ di1 stroff strtab_mioff str,
                  dyn_walk amd64 scen2_img di1 (scen_hdrs 3 4)
                      (phdr_entry scen2_img (scen_hdrs 3 4) k0) (scen2_img.size + 1) 0
                      (negW amd64 1) DiOffT_INVALID = Res.ok (stroff, strtab_mioff)
                  ∧ stroff ≠ negW amd64 1 ∧ strtab_mioff ≠ DiOffT_INVALID
                  ∧ img_strdup scen2_img (add64 strtab_mioff (sext64 amd64 stroff))
                      = some str
                  ∧ (with_soname_default ps.di).soname = some str)
        ∧ (∀ (a : ElfXX_Phdr) (m ia ib off fuel : Nat) (di1 : DebugInfo) (r : Nat × Nat),
            (dyn_entry amd64 scen2_img (scen_hdrs 3 4) a m).d_tag = DT_NULL →
            (∀ i, i < m → (dyn_entry amd64 scen2_img (scen_hdrs 3 4) a i).d_tag ≠ DT_NULL) →
            ia < m → (dyn_entry amd64 scen2_img (scen_hdrs 3 4) a ia).d_tag = DT_SONAME →
            (∀ i, ia < i → i < m →
              (dyn_entry amd64 scen2_img (scen_hdrs 3 4) a i).d_tag ≠ DT_SONAME) →
            ib < m → (dyn_entry amd64 scen2_img (scen_hdrs 3 4) a ib).d_tag = DT_STRTAB →
            file_offset_from_svma amd64 (dyn_entry amd64 scen2_img (scen_hdrs 3 4) a ib).d_un
                scen2_img (scen_hdrs 3 4).phdr_mioff (scen_hdrs 3 4).phdr_mnent
                (scen_hdrs 3 4).phdr_ment_szB = some (true, off) →
            (∀ i, i < ib → (dyn_entry amd64 scen2_img (scen_hdrs 3 4) a i).d_tag = DT_STRTAB →
              ∀ x, file_offset_from_svma amd64
                (dyn_entry amd64 scen2_img (scen_hdrs 3 4) a i).d_un scen2_img
                (scen_hdrs 3 4).phdr_mioff (scen_hdrs 3 4).phdr_mnent
                (scen_hdrs 3 4).phdr_ment_szB ≠ some (true, x)) →
            add64 (scen_hdrs 3 4).ehdr_mioff (sext64 amd64 off) ≠ DiOffT_INVALID →
            dyn_walk amd64 scen2_img di1 (scen_hdrs 3 4) a fuel 0 (negW amd64 1)
                DiOffT_INVALID = Res.ok r →
            r = ((dyn_entry amd64 scen2_img (scen_hdrs 3 4) a ia).d_un,
                 add64 (scen_hdrs 3 4).ehdr_mioff (sext64 amd64 off))
            ∧ img_valid scen2_img (sext64 amd64 off) 1 = true)) :=
  ⟨_, rfl, rfl, by decide, by decide,
    fun r hr =>
      (C10_soname_from_dynamic amd64 scen2_img (scen_hdrs 3 4) scen1_di _ rfl rfl).2
        (ph_dyn 0x2400) 2 0 1 0x2055 (scen2_img.size + 1) scen1_di r
        (by decide) (by decide) (by decide) (by decide)
        (by intro i h1 h2; interval_cases i; decide)
        (by decide) (by decide) (by decide)
        (by intro i h1; interval_cases i; intro h; exact absurd h (by decide))
        (by decide) hr,
    C10_soname_from_dynamic amd64 scen2_img (scen_hdrs 3 4) scen1_di _ rfl rfl⟩


/-! ### C4 -/

theorem clamp_size_le (t : Target) (n : Nat) : clamp_size t n ≤ 2 ^ 31 - 1 := by
  unfold clamp_size
  dsimp only
  split_ifs <;> omega

/-- What the final range check has established when it accepts a symbol. -/
theorem sym_range_check_spec (t : Target) (di : DebugInfo) (out o : SymInfo)
    (h : sym_range_check t di out = some (some o)) :
    o = out
    ∧ (out.is_text_out = true →
        out.sym_avma_out ≤ addW t out.sym_avma_out out.sym_size_out
        ∧ covered_by_rx di out.sym_avma_out (addW t out.sym_avma_out out.sym_size_out))
    ∧ (out.is_text_out = false →
        ∃ s ∈ [di.data, di.sdata, di.rodata, di.bss, di.sbss],
          s.present = true ∧ 0 < s.size
          ∧ s.avma < addW t out.sym_avma_out out.sym_size_out
          ∧ out.sym_avma_out < addW t s.avma s.size) := by
  have hacq : ∀ x : Option (Option SymInfo),
      (if (decide (t.plat = Platform.ppc64_linux) && di.opd.present
            && decide (di.opd.size > 0)
            && !(decide (addW t out.sym_avma_out out.sym_size_out ≤ di.opd.avma)
                 || decide (out.sym_avma_out ≥ addW t di.opd.avma di.opd.size))) = true
        then none else some (some out)) = x → x = some (some o) → o = out := by
    intro x hx hxo
    subst hx
    split at hxo
    · cases hxo
    · simp only [Option.some.injEq] at hxo; exact hxo.symm
  have hov : ∀ s : SecRec, overlaps_sec t s out.sym_avma_out out.sym_size_out = true →
      s.present = true ∧ 0 < s.size
        ∧ s.avma < addW t out.sym_avma_out out.sym_size_out
        ∧ out.sym_avma_out < addW t s.avma s.size := by
    intro s hs
    unfold overlaps_sec at hs
    simp only [Bool.and_eq_true, decide_eq_true_eq, Bool.not_eq_true', Bool.or_eq_false_iff,
      decide_eq_false_iff_not] at hs
    exact ⟨hs.1.1, hs.1.2, by omega, by omega⟩
  unfold sym_range_check at h
  dsimp only at h
  cases htext : out.is_text_out with
  | true =>
    rw [htext] at h
    simp only [if_true] at h
    split at h
    · cases h
    · cases hf : find_rx_mapping di out.sym_avma_out
          (addW t out.sym_avma_out out.sym_size_out) with
      | none => rw [hf] at h; cases h
      | some in_rx =>
        rw [hf] at h
        dsimp only at h
        unfold find_rx_mapping at hf
        split at hf
        · cases hf
        · rename_i hle
          simp only [Option.some.injEq] at hf
          cases hr : in_rx with
          | none =>
            rw [hr] at h
            simp only [Option.isNone_none, Bool.and_true] at h
            split at h
            · cases h
            · simp at h
          | some map =>
            rw [hr] at h hf
            simp only [Option.isNone_some, Bool.and_false, Bool.false_eq_true, if_false] at h
            have hmem := List.mem_of_find?_eq_some hf
            have hp := List.find?_some hf
            simp only [Bool.and_eq_true, decide_eq_true_eq] at hp
            refine ⟨hacq _ rfl h, ?_, ?_⟩
            · intro _
              exact ⟨by omega, map, hmem, hp.1.1, hp.1.2, hp.2⟩
            · intro hx; cases hx
  | false =>
    rw [htext] at h
    simp only [Bool.false_eq_true, if_false] at h
    split at h
    · cases h
    · rename_i hin
      simp only [Bool.not_eq_true', Bool.not_eq_false, Bool.or_eq_true] at hin
      refine ⟨hacq _ rfl h, ?_, ?_⟩
      · intro hx; cases hx
      intro _
      rcases hin with (((h1 | h1) | h1) | h1) | h1
      · exact ⟨di.data, by simp, hov _ h1⟩
      · exact ⟨di.sdata, by simp, hov _ h1⟩
      · exact ⟨di.rodata, by simp, hov _ h1⟩
      · exact ⟨di.bss, by simp, hov _ h1⟩
      · exact ⟨di.sbss, by simp, hov _ h1⟩

/-- A symbol that `get_elf_symbol_info` accepts has passed the final range check,
with a size between 1 and 2^31 - 1 and a value whose low 32 bits are not all
zero. -/
theorem get_elf_symbol_info_spec (t : Target) (di : DebugInfo) (sym : ElfXX_Sym)
    (sym_name_ioff : Nat) (escn_strtab : DiSlice) (sym_svma : Nat) (symtab_in_debug : Bool)
    (escn_opd : DiSlice) (opd_bias : Nat) (o : SymInfo)
    (h : get_elf_symbol_info t di sym sym_name_ioff escn_strtab sym_svma symtab_in_debug
          escn_opd opd_bias = some (some o)) :
    ∃ out, sym_range_check t di out = some (some o)
      ∧ 0 < out.sym_size_out ∧ out.sym_size_out ≤ 2 ^ 31 - 1
      ∧ sym.st_value % 2 ^ 32 ≠ 0 := by
  have hsz : 0 < (if clamp_size t sym.st_size = 0 then 2048 else clamp_size t sym.st_size)
      ∧ (if clamp_size t sym.st_size = 0 then 2048 else clamp_size t sym.st_size)
          ≤ 2 ^ 31 - 1 := by
    have := clamp_size_le t sym.st_size
    split <;> omega
  unfold get_elf_symbol_info at h
  dsimp only at h
  split at h
  · cases h
  · split at h
    · cases h
    · cases h
    · split at h
      · cases h
      · split at h
        · cases h
        · rename_i hval
          split at h
          · cases h
          · split at h
            · cases h
            · split at h
              · cases h
              · cases h
              · split at h
                · cases h
                · exact ⟨_, h, hsz.1, hsz.2, hval⟩

/-- C4 (counterexample): on the DebugInfo of scenario 1, a function symbol at
SVMA 0x1800, after the end of `.text`, is accepted as a text symbol at AVMA
0x402800: its range lies in the rx mapping but within none of the recognised
sections. -/
theorem C4_counterexample :
    ∃ out, get_elf_symbol_info amd64 scen1_after sym_after_text 0x2041 scen1_strtab 0x1800
              false DiSlice_INVALID 0 = some (some out)
      ∧ ¬ accepted_as_specified scen1_after out := by
  refine ⟨_, rfl, ?_⟩
  unfold accepted_as_specified within_sec
  intro h
  have h2 := h.2.1
  revert h2
  decide

/-- C4 (amended): a symbol for which `get_elf_symbol_info` returns True has a
size between 1 and 2^31 - 1 and a value whose low 32 bits are not all zero; if it
is a text symbol its range `[avma, avma+size)` is covered by an rx mapping, and
otherwise some part of that range falls within one of the sections data, sdata,
rodata, bss and sbss that is present and not empty. -/
theorem C4_accepted_symbol_range (t : Target) (di : DebugInfo) (sym : ElfXX_Sym)
    (sym_name_ioff : Nat) (escn_strtab : DiSlice) (sym_svma : Nat) (symtab_in_debug : Bool)
    (escn_opd : DiSlice) (opd_bias : Nat) (out : SymInfo)
    (h : get_elf_symbol_info t di sym sym_name_ioff escn_strtab sym_svma symtab_in_debug
          escn_opd opd_bias = some (some out)) :
    0 < out.sym_size_out ∧ out.sym_size_out ≤ 2 ^ 31 - 1 ∧ sym.st_value % 2 ^ 32 ≠ 0
    ∧ (out.is_text_out = true →
        out.sym_avma_out ≤ addW t out.sym_avma_out out.sym_size_out
        ∧ covered_by_rx di out.sym_avma_out (addW t out.sym_avma_out out.sym_size_out))
    ∧ (out.is_text_out = false →
        ∃ s ∈ [di.data, di.sdata, di.rodata, di.bss, di.sbss],
          s.present = true ∧ 0 < s.size
          ∧ s.avma < addW t out.sym_avma_out out.sym_size_out
          ∧ out.sym_avma_out < addW t s.avma s.size) := by
  obtain ⟨o1, hr, h1, h2, h3⟩ := get_elf_symbol_info_spec _ _ _ _ _ _ _ _ _ _ h
  obtain ⟨heq, ht, hd⟩ := sym_range_check_spec _ _ _ _ hr
  subst heq
  exact ⟨h1, h2, h3, ht, hd⟩

/-- C4 (witness): on the DebugInfo of scenario 1, an object symbol at SVMA 0x2010
is accepted as a data symbol at AVMA 0x602010. -/
theorem C4_witness :
    ∃ out, get_elf_symbol_info amd64 scen1_after sym_in_data 0x2047 scen1_strtab 0x2010
              false DiSlice_INVALID 0 = some (some out)
      ∧ out.sym_avma_out = 0x602010 ∧ out.is_text_out = false
      ∧ (0 < out.sym_size_out ∧ out.sym_size_out ≤ 2 ^ 31 - 1
        ∧ sym_in_data.st_value % 2 ^ 32 ≠ 0
        ∧ (out.is_text_out = true →
            out.sym_avma_out ≤ addW amd64 out.sym_avma_out out.sym_size_out
            ∧ covered_by_rx scen1_after out.sym_avma_out
                (addW amd64 out.sym_avma_out out.sym_size_out))
        ∧ (out.is_text_out = false →
            ∃ s ∈ [scen1_after.data, scen1_after.sdata, scen1_after.rodata, scen1_after.bss,
                    scen1_after.sbss],
              s.present = true ∧ 0 < s.size
              ∧ s.avma < addW amd64 out.sym_avma_out out.sym_size_out
              ∧ out.sym_avma_out < addW amd64 s.avma s.size)) :=
  ⟨_, rfl, by decide, by decide,
    C4_accepted_symbol_range amd64 scen1_after sym_in_data 0x2047 scen1_strtab 0x2010 false
      DiSlice_INVALID 0 _ rfl⟩


/-! ### The blocks of the classification -/

theorem Res.bind_ok_right {α : Type} (r : Res α) : (r.bind fun a => Res.ok a) = r := by
  cases r <;> rfl

theorem Res.ok_bind {α β : Type} (a : α) (f : α → Res β) : (Res.ok a).bind f = f a := rfl

/-- A section named `.text` runs the block for `.text` alone. -/
theorem classify_section_text (t : Target) (s : SecHdr) (st : ShdrScan)
    (h : s.name = cstr ".text") : classify_section t s st = sec_text t s st := by
  obtain ⟨name, svma, size, inrx, inrw⟩ := s
  simp only at h
  subst h
  simp only [
    classify_section, sec_data, sec_sdata, sec_rodata, sec_dynbss, sec_bss, sec_sdynbss,
    sec_sbss, sec_got, sec_gotplt, sec_plt, sec_opd, sec_ehframe, cstr_inj, String.reduceEq,
    if_false, Res.ok_bind]
  exact Res.bind_ok_right _

/-- A section named `.data` runs the block for `.data` alone. -/
theorem classify_section_data (t : Target) (s : SecHdr) (st : ShdrScan)
    (h : s.name = cstr ".data") : classify_section t s st = sec_data t s st := by
  obtain ⟨name, svma, size, inrx, inrw⟩ := s
  simp only at h
  subst h
  simp only [
    classify_section, sec_text, sec_sdata, sec_rodata, sec_dynbss, sec_bss, sec_sdynbss,
    sec_sbss, sec_got, sec_gotplt, sec_plt, sec_opd, sec_ehframe, cstr_inj, String.reduceEq,
    if_false, Res.ok_bind]
  exact Res.bind_ok_right _

/-- A section named `.sdata` runs the block for `.sdata` alone. -/
theorem classify_section_sdata (t : Target) (s : SecHdr) (st : ShdrScan)
    (h : s.name = cstr ".sdata") : classify_section t s st = sec_sdata t s st := by
  obtain ⟨name, svma, size, inrx, inrw⟩ := s
  simp only at h
  subst h
  simp only [
    classify_section, sec_text, sec_data, sec_rodata, sec_dynbss, sec_bss, sec_sdynbss,
    sec_sbss, sec_got, sec_gotplt, sec_plt, sec_opd, sec_ehframe, cstr_inj, String.reduceEq,
    if_false, Res.ok_bind]
  exact Res.bind_ok_right _

/-- A section named `.rodata` runs the block for `.rodata` alone. -/
theorem classify_section_rodata (t : Target) (s : SecHdr) (st : ShdrScan)
    (h : s.name = cstr ".rodata") : classify_section t s st = sec_rodata t s st := by
  obtain ⟨name, svma, size, inrx, inrw⟩ := s
  simp only at h
  subst h
  simp only [
    classify_section, sec_text, sec_data, sec_sdata, sec_dynbss, sec_bss, sec_sdynbss,
    sec_sbss, sec_got, sec_gotplt, sec_plt, sec_opd, sec_ehframe, cstr_inj, String.reduceEq,
    if_false, Res.ok_bind]
  exact Res.bind_ok_right _

/-- A section named `.dynbss` runs the block for `.dynbss` alone. -/
theorem classify_section_dynbss (t : Target) (s : SecHdr) (st : ShdrScan)
    (h : s.name = cstr ".dynbss") : classify_section t s st = sec_dynbss t s st := by
  obtain ⟨name, svma, size, inrx, inrw⟩ := s
  simp only at h
  subst h
  simp only [
    classify_section, sec_text, sec_data, sec_sdata, sec_rodata, sec_bss, sec_sdynbss,
    sec_sbss, sec_got, sec_gotplt, sec_plt, sec_opd, sec_ehframe, cstr_inj, String.reduceEq,
    if_false, Res.ok_bind]
  exact Res.bind_ok_right _

/-- A section named `.bss` runs the block for `.bss` alone. -/
theorem classify_section_bss (t : Target) (s : SecHdr) (st : ShdrScan)
    (h : s.name = cstr ".bss") : classify_section t s st = sec_bss t s st := by
  obtain ⟨name, svma, size, inrx, inrw⟩ := s
  simp only at h
  subst h
  simp only [
    classify_section, sec_text, sec_data, sec_sdata, sec_rodata, sec_dynbss, sec_sdynbss,
    sec_sbss, sec_got, sec_gotplt, sec_plt, sec_opd, sec_ehframe, cstr_inj, String.reduceEq,
    if_false, Res.ok_bind]
  exact Res.bind_ok_right _

/-- A section named `.sdynbss` runs the block for `.sdynbss` alone. -/
theorem classify_section_sdynbss (t : Target) (s : SecHdr) (st : ShdrScan)
    (h : s.name = cstr ".sdynbss") : classify_section t s st = sec_sdynbss t s st := by
  obtain ⟨name, svma, size, inrx, inrw⟩ := s
  simp only at h
  subst h
  simp only [
    classify_section, sec_text, sec_data, sec_sdata, sec_rodata, sec_dynbss, sec_bss, sec_sbss,
    sec_got, sec_gotplt, sec_plt, sec_opd, sec_ehframe, cstr_inj, String.reduceEq, if_false,
    Res.ok_bind]
  exact Res.bind_ok_right _

/-- A section named `.sbss` runs the block for `.sbss` alone. -/
theorem classify_section_sbss (t : Target) (s : SecHdr) (st : ShdrScan)
    (h : s.name = cstr ".sbss") : classify_section t s st = sec_sbss t s st := by
  obtain ⟨name, svma, size, inrx, inrw⟩ := s
  simp only at h
  subst h
  simp only [
    classify_section, sec_text, sec_data, sec_sdata, sec_rodata, sec_dynbss, sec_bss,
    sec_sdynbss, sec_got, sec_gotplt, sec_plt, sec_opd, sec_ehframe, cstr_inj, String.reduceEq,
    if_false, Res.ok_bind]
  exact Res.bind_ok_right _

/-- A section named `.got` runs the block for `.got` alone. -/
theorem classify_section_got (t : Target) (s : SecHdr) (st : ShdrScan)
    (h : s.name = cstr ".got") : classify_section t s st = sec_got t s st := by
  obtain ⟨name, svma, size, inrx, inrw⟩ := s
  simp only at h
  subst h
  simp only [
    classify_section, sec_text, sec_data, sec_sdata, sec_rodata, sec_dynbss, sec_bss,
    sec_sdynbss, sec_sbss, sec_gotplt, sec_plt, sec_opd, sec_ehframe, cstr_inj,
    String.reduceEq, if_false, Res.ok_bind]
  exact Res.bind_ok_right _

/-- A section named `.got.plt` runs the block for `.got.plt` alone. -/
theorem classify_section_gotplt (t : Target) (s : SecHdr) (st : ShdrScan)
    (h : s.name = cstr ".got.plt") : classify_section t s st = sec_gotplt t s st := by
  obtain ⟨name, svma, size, inrx, inrw⟩ := s
  simp only at h
  subst h
  simp only [
    classify_section, sec_text, sec_data, sec_sdata, sec_rodata, sec_dynbss, sec_bss,
    sec_sdynbss, sec_sbss, sec_got, sec_plt, sec_opd, sec_ehframe, cstr_inj, String.reduceEq,
    if_false, Res.ok_bind]
  exact Res.bind_ok_right _

/-- A section named `.plt` runs the block for `.plt` alone. -/
theorem classify_section_plt (t : Target) (s : SecHdr) (st : ShdrScan)
    (h : s.name = cstr ".plt") : classify_section t s st = sec_plt t s st := by
  obtain ⟨name, svma, size, inrx, inrw⟩ := s
  simp only at h
  subst h
  simp only [
    classify_section, sec_text, sec_data, sec_sdata, sec_rodata, sec_dynbss, sec_bss,
    sec_sdynbss, sec_sbss, sec_got, sec_gotplt, sec_opd, sec_ehframe, cstr_inj,
    String.reduceEq, if_false, Res.ok_bind]
  exact Res.bind_ok_right _

/-- A section named `.opd` runs the block for `.opd` alone. -/
theorem classify_section_opd (t : Target) (s : SecHdr) (st : ShdrScan)
    (h : s.name = cstr ".opd") : classify_section t s st = sec_opd t s st := by
  obtain ⟨name, svma, size, inrx, inrw⟩ := s
  simp only at h
  subst h
  simp only [
    classify_section, sec_text, sec_data, sec_sdata, sec_rodata, sec_dynbss, sec_bss,
    sec_sdynbss, sec_sbss, sec_got, sec_gotplt, sec_plt, sec_ehframe, cstr_inj,
    String.reduceEq, if_false, Res.ok_bind]
  exact Res.bind_ok_right _

/-- A section named `.eh_frame` runs the block for `.eh_frame` alone. -/
theorem classify_section_ehframe (t : Target) (s : SecHdr) (st : ShdrScan)
    (h : s.name = cstr ".eh_frame") : classify_section t s st = sec_ehframe t s st := by
  obtain ⟨name, svma, size, inrx, inrw⟩ := s
  simp only at h
  subst h
  simp only [
    classify_section, sec_text, sec_data, sec_sdata, sec_rodata, sec_dynbss, sec_bss,
    sec_sdynbss, sec_sbss, sec_got, sec_gotplt, sec_plt, sec_opd, cstr_inj, String.reduceEq,
    if_false, Res.ok_bind]

/-- A section of none of the thirteen names is left alone. -/
theorem classify_section_other (t : Target) (s : SecHdr) (st : ShdrScan)
    (h : sec_tag s.name = none) : classify_section t s st = Res.ok st := by
  have h1 : s.name ≠ cstr ".text" := by intro e; simp [sec_tag, e, cstr_inj] at h
  have h2 : s.name ≠ cstr ".data" := by intro e; simp [sec_tag, e, cstr_inj] at h
  have h3 : s.name ≠ cstr ".sdata" := by intro e; simp [sec_tag, e, cstr_inj] at h
  have h4 : s.name ≠ cstr ".rodata" := by intro e; simp [sec_tag, e, cstr_inj] at h
  have h5 : s.name ≠ cstr ".dynbss" := by intro e; simp [sec_tag, e, cstr_inj] at h
  have h6 : s.name ≠ cstr ".bss" := by intro e; simp [sec_tag, e, cstr_inj] at h
  have h7 : s.name ≠ cstr ".sdynbss" := by intro e; simp [sec_tag, e, cstr_inj] at h
  have h8 : s.name ≠ cstr ".sbss" := by intro e; simp [sec_tag, e, cstr_inj] at h
  have h9 : s.name ≠ cstr ".got" := by intro e; simp [sec_tag, e, cstr_inj] at h
  have h10 : s.name ≠ cstr ".got.plt" := by intro e; simp [sec_tag, e, cstr_inj] at h
  have h11 : s.name ≠ cstr ".plt" := by intro e; simp [sec_tag, e, cstr_inj] at h
  have h12 : s.name ≠ cstr ".opd" := by intro e; simp [sec_tag, e, cstr_inj] at h
  have h13 : s.name ≠ cstr ".eh_frame" := by intro e; simp [sec_tag, e, cstr_inj] at h
  simp only [
    classify_section, sec_text, sec_data, sec_sdata, sec_rodata, sec_dynbss, sec_bss,
    sec_sdynbss, sec_sbss, sec_got, sec_gotplt, sec_plt, sec_opd, sec_ehframe, h1, h2, h3, h4,
    h5, h6, h7, h8, h9, h10, h11, h12, h13, if_false, Res.ok_bind]

/-- The block for `.text` writes the text record alone. -/
theorem sec_text_ok (t : Target) (s : SecHdr) (st st1 : ShdrScan)
    (h : sec_text t s st = Res.ok st1) : same_except (some SecTag.text) st st1 := by
  unfold sec_text at h
  repeat' split at h
  all_goals first
    | (simp only [Res.ok.injEq] at h; subst h; simp [same_except])
    | cases h

/-- The block for `.text` ends the read through `BAD` only. -/
theorem sec_text_fail (t : Target) (s : SecHdr) (st : ShdrScan) (e : String) (d : DebugInfo)
    (h : sec_text t s st = Res.fail e d) :
    ∃ n ∈ bad_names, (Res.fail e d : Res ShdrScan) = BAD n st.di := by
  unfold sec_text at h
  repeat' split at h
  all_goals first
    | (rw [← h]; exact ⟨".text", by decide, rfl⟩)
    | cases h

/-- The block for `.data` writes the data record alone. -/
theorem sec_data_ok (t : Target) (s : SecHdr) (st st1 : ShdrScan)
    (h : sec_data t s st = Res.ok st1) : same_except (some SecTag.data) st st1 := by
  unfold sec_data at h
  repeat' split at h
  all_goals first
    | (simp only [Res.ok.injEq] at h; subst h; simp [same_except])
    | cases h

/-- The block for `.data` ends the read through `BAD` only. -/
theorem sec_data_fail (t : Target) (s : SecHdr) (st : ShdrScan) (e : String) (d : DebugInfo)
    (h : sec_data t s st = Res.fail e d) :
    ∃ n ∈ bad_names, (Res.fail e d : Res ShdrScan) = BAD n st.di := by
  unfold sec_data at h
  repeat' split at h
  all_goals first
    | (rw [← h]; exact ⟨".data", by decide, rfl⟩)
    | cases h

/-- The block for `.sdata` writes the sdata record alone. -/
theorem sec_sdata_ok (t : Target) (s : SecHdr) (st st1 : ShdrScan)
    (h : sec_sdata t s st = Res.ok st1) : same_except (some SecTag.sdata) st st1 := by
  unfold sec_sdata at h
  repeat' split at h
  all_goals first
    | (simp only [Res.ok.injEq] at h; subst h; simp [same_except])
    | cases h

/-- The block for `.sdata` ends the read through `BAD` only. -/
theorem sec_sdata_fail (t : Target) (s : SecHdr) (st : ShdrScan) (e : String) (d : DebugInfo)
    (h : sec_sdata t s st = Res.fail e d) :
    ∃ n ∈ bad_names, (Res.fail e d : Res ShdrScan) = BAD n st.di := by
  unfold sec_sdata at h
  repeat' split at h
  all_goals first
    | (rw [← h]; exact ⟨".sdata", by decide, rfl⟩)
    | cases h

/-- The block for `.rodata` writes the rodata record alone. -/
theorem sec_rodata_ok (t : Target) (s : SecHdr) (st st1 : ShdrScan)
    (h : sec_rodata t s st = Res.ok st1) : same_except (some SecTag.rodata) st st1 := by
  unfold sec_rodata at h
  repeat' split at h
  all_goals first
    | (simp only [Res.ok.injEq] at h; subst h; simp [same_except])
    | cases h

/-- The block for `.rodata` ends the read through `BAD` only. -/
theorem sec_rodata_fail (t : Target) (s : SecHdr) (st : ShdrScan) (e : String) (d : DebugInfo)
    (h : sec_rodata t s st = Res.fail e d) :
    ∃ n ∈ bad_names, (Res.fail e d : Res ShdrScan) = BAD n st.di := by
  unfold sec_rodata at h
  repeat' split at h
  all_goals first
    | (rw [← h]; exact ⟨".rodata", by decide, rfl⟩)
    | cases h

/-- The block for `.dynbss` writes the bss record alone. -/
theorem sec_dynbss_ok (t : Target) (s : SecHdr) (st st1 : ShdrScan)
    (h : sec_dynbss t s st = Res.ok st1) : same_except (some SecTag.bss) st st1 := by
  unfold sec_dynbss at h
  repeat' split at h
  all_goals (simp only [Res.ok.injEq] at h; subst h; simp [same_except])

/-- The block for `.dynbss` ends the read through `BAD` only. -/
theorem sec_dynbss_fail (t : Target) (s : SecHdr) (st : ShdrScan) (e : String) (d : DebugInfo)
    (h : sec_dynbss t s st = Res.fail e d) :
    ∃ n ∈ bad_names, (Res.fail e d : Res ShdrScan) = BAD n st.di := by
  unfold sec_dynbss at h
  repeat' split at h
  all_goals cases h

/-- The block for `.bss` writes the bss record alone. -/
theorem sec_bss_ok (t : Target) (s : SecHdr) (st st1 : ShdrScan)
    (h : sec_bss t s st = Res.ok st1) : same_except (some SecTag.bss) st st1 := by
  unfold sec_bss at h
  repeat' split at h
  all_goals first
    | (simp only [Res.ok.injEq] at h; subst h; simp [same_except])
    | cases h

/-- The block for `.bss` ends the read through `BAD` only. -/
theorem sec_bss_fail (t : Target) (s : SecHdr) (st : ShdrScan) (e : String) (d : DebugInfo)
    (h : sec_bss t s st = Res.fail e d) :
    ∃ n ∈ bad_names, (Res.fail e d : Res ShdrScan) = BAD n st.di := by
  unfold sec_bss at h
  repeat' split at h
  all_goals first
    | (rw [← h]; exact ⟨".bss", by decide, rfl⟩)
    | cases h

/-- The block for `.sdynbss` writes the sbss record alone. -/
theorem sec_sdynbss_ok (t : Target) (s : SecHdr) (st st1 : ShdrScan)
    (h : sec_sdynbss t s st = Res.ok st1) : same_except (some SecTag.sbss) st st1 := by
  unfold sec_sdynbss at h
  repeat' split at h
  all_goals (simp only [Res.ok.injEq] at h; subst h; simp [same_except])

/-- The block for `.sdynbss` ends the read through `BAD` only. -/
theorem sec_sdynbss_fail (t : Target) (s : SecHdr) (st : ShdrScan) (e : String) (d : DebugInfo)
    (h : sec_sdynbss t s st = Res.fail e d) :
    ∃ n ∈ bad_names, (Res.fail e d : Res ShdrScan) = BAD n st.di := by
  unfold sec_sdynbss at h
  repeat' split at h
  all_goals cases h

/-- The block for `.sbss` writes the sbss record alone. -/
theorem sec_sbss_ok (t : Target) (s : SecHdr) (st st1 : ShdrScan)
    (h : sec_sbss t s st = Res.ok st1) : same_except (some SecTag.sbss) st st1 := by
  unfold sec_sbss at h
  repeat' split at h
  all_goals first
    | (simp only [Res.ok.injEq] at h; subst h; simp [same_except])
    | cases h

/-- The block for `.sbss` ends the read through `BAD` only. -/
theorem sec_sbss_fail (t : Target) (s : SecHdr) (st : ShdrScan) (e : String) (d : DebugInfo)
    (h : sec_sbss t s st = Res.fail e d) :
    ∃ n ∈ bad_names, (Res.fail e d : Res ShdrScan) = BAD n st.di := by
  unfold sec_sbss at h
  repeat' split at h
  all_goals first
    | (rw [← h]; exact ⟨".sbss", by decide, rfl⟩)
    | cases h

/-- The block for `.got` writes the got record alone. -/
theorem sec_got_ok (t : Target) (s : SecHdr) (st st1 : ShdrScan)
    (h : sec_got t s st = Res.ok st1) : same_except (some SecTag.got) st st1 := by
  unfold sec_got at h
  repeat' split at h
  all_goals first
    | (simp only [Res.ok.injEq] at h; subst h; simp [same_except])
    | cases h

/-- The block for `.got` ends the read through `BAD` only. -/
theorem sec_got_fail (t : Target) (s : SecHdr) (st : ShdrScan) (e : String) (d : DebugInfo)
    (h : sec_got t s st = Res.fail e d) :
    ∃ n ∈ bad_names, (Res.fail e d : Res ShdrScan) = BAD n st.di := by
  unfold sec_got at h
  repeat' split at h
  all_goals first
    | (rw [← h]; exact ⟨".got", by decide, rfl⟩)
    | cases h

/-- The block for `.got.plt` writes the gotplt record alone. -/
theorem sec_gotplt_ok (t : Target) (s : SecHdr) (st st1 : ShdrScan)
    (h : sec_gotplt t s st = Res.ok st1) : same_except (some SecTag.gotplt) st st1 := by
  unfold sec_gotplt at h
  repeat' split at h
  all_goals first
    | (simp only [Res.ok.injEq] at h; subst h; simp [same_except])
    | cases h

/-- The block for `.got.plt` ends the read through `BAD` only. -/
theorem sec_gotplt_fail (t : Target) (s : SecHdr) (st : ShdrScan) (e : String) (d : DebugInfo)
    (h : sec_gotplt t s st = Res.fail e d) :
    ∃ n ∈ bad_names, (Res.fail e d : Res ShdrScan) = BAD n st.di := by
  unfold sec_gotplt at h
  repeat' split at h
  all_goals first
    | (rw [← h]; exact ⟨".got.plt", by decide, rfl⟩)
    | cases h

/-- The block for `.plt` writes the plt record alone. -/
theorem sec_plt_ok (t : Target) (s : SecHdr) (st st1 : ShdrScan)
    (h : sec_plt t s st = Res.ok st1) : same_except (some SecTag.plt) st st1 := by
  unfold sec_plt at h
  repeat' split at h
  all_goals first
    | (simp only [Res.ok.injEq] at h; subst h; simp [same_except])
    | cases h

/-- The block for `.plt` ends the read through `BAD` only. -/
theorem sec_plt_fail (t : Target) (s : SecHdr) (st : ShdrScan) (e : String) (d : DebugInfo)
    (h : sec_plt t s st = Res.fail e d) :
    ∃ n ∈ bad_names, (Res.fail e d : Res ShdrScan) = BAD n st.di := by
  unfold sec_plt at h
  repeat' split at h
  all_goals first
    | (rw [← h]; exact ⟨".plt", by decide, rfl⟩)
    | cases h

/-- The block for `.opd` writes the opd record alone. -/
theorem sec_opd_ok (t : Target) (s : SecHdr) (st st1 : ShdrScan)
    (h : sec_opd t s st = Res.ok st1) : same_except (some SecTag.opd) st st1 := by
  unfold sec_opd at h
  repeat' split at h
  all_goals first
    | (simp only [Res.ok.injEq] at h; subst h; simp [same_except])
    | cases h

/-- The block for `.opd` ends the read through `BAD` only. -/
theorem sec_opd_fail (t : Target) (s : SecHdr) (st : ShdrScan) (e : String) (d : DebugInfo)
    (h : sec_opd t s st = Res.fail e d) :
    ∃ n ∈ bad_names, (Res.fail e d : Res ShdrScan) = BAD n st.di := by
  unfold sec_opd at h
  repeat' split at h
  all_goals first
    | (rw [← h]; exact ⟨".opd", by decide, rfl⟩)
    | cases h

/-- The block for `.eh_frame` writes the ehframe record alone. -/
theorem sec_ehframe_ok (t : Target) (s : SecHdr) (st st1 : ShdrScan)
    (h : sec_ehframe t s st = Res.ok st1) : same_except (some SecTag.ehframe) st st1 := by
  unfold sec_ehframe at h
  repeat' split at h
  all_goals first
    | (simp only [Res.ok.injEq] at h; subst h; simp [same_except, record_ehframe])
    | cases h

/-- The block for `.eh_frame` ends the read through `BAD` only. -/
theorem sec_ehframe_fail (t : Target) (s : SecHdr) (st : ShdrScan) (e : String) (d : DebugInfo)
    (h : sec_ehframe t s st = Res.fail e d) :
    ∃ n ∈ bad_names, (Res.fail e d : Res ShdrScan) = BAD n st.di := by
  unfold sec_ehframe at h
  repeat' split at h
  all_goals first
    | (rw [← h]; exact ⟨".eh_frame", by decide, rfl⟩)
    | cases h

/-- The classification of a section writes the record of its name alone, and
nothing for a section of another name. -/
theorem classify_section_ok (t : Target) (s : SecHdr) (st st1 : ShdrScan)
    (h : classify_section t s st = Res.ok st1) : same_except (sec_tag s.name) st st1 := by
  by_cases h1 : s.name = cstr ".text"
  · rw [classify_section_text t s st h1] at h
    have e : sec_tag s.name = some SecTag.text := by simp [sec_tag, h1, cstr_inj]
    rw [e]
    exact sec_text_ok t s st st1 h
  by_cases h2 : s.name = cstr ".data"
  · rw [classify_section_data t s st h2] at h
    have e : sec_tag s.name = some SecTag.data := by simp [sec_tag, h2, cstr_inj]
    rw [e]
    exact sec_data_ok t s st st1 h
  by_cases h3 : s.name = cstr ".sdata"
  · rw [classify_section_sdata t s st h3] at h
    have e : sec_tag s.name = some SecTag.sdata := by simp [sec_tag, h3, cstr_inj]
    rw [e]
    exact sec_sdata_ok t s st st1 h
  by_cases h4 : s.name = cstr ".rodata"
  · rw [classify_section_rodata t s st h4] at h
    have e : sec_tag s.name = some SecTag.rodata := by simp [sec_tag, h4, cstr_inj]
    rw [e]
    exact sec_rodata_ok t s st st1 h
  by_cases h5 : s.name = cstr ".dynbss"
  · rw [classify_section_dynbss t s st h5] at h
    have e : sec_tag s.name = some SecTag.bss := by simp [sec_tag, h5, cstr_inj]
    rw [e]
    exact sec_dynbss_ok t s st st1 h
  by_cases h6 : s.name = cstr ".bss"
  · rw [classify_section_bss t s st h6] at h
    have e : sec_tag s.name = some SecTag.bss := by simp [sec_tag, h6, cstr_inj]
    rw [e]
    exact sec_bss_ok t s st st1 h
  by_cases h7 : s.name = cstr ".sdynbss"
  · rw [classify_section_sdynbss t s st h7] at h
    have e : sec_tag s.name = some SecTag.sbss := by simp [sec_tag, h7, cstr_inj]
    rw [e]
    exact sec_sdynbss_ok t s st st1 h
  by_cases h8 : s.name = cstr ".sbss"
  · rw [classify_section_sbss t s st h8] at h
    have e : sec_tag s.name = some SecTag.sbss := by simp [sec_tag, h8, cstr_inj]
    rw [e]
    exact sec_sbss_ok t s st st1 h
  by_cases h9 : s.name = cstr ".got"
  · rw [classify_section_got t s st h9] at h
    have e : sec_tag s.name = some SecTag.got := by simp [sec_tag, h9, cstr_inj]
    rw [e]
    exact sec_got_ok t s st st1 h
  by_cases h10 : s.name = cstr ".got.plt"
  · rw [classify_section_gotplt t s st h10] at h
    have e : sec_tag s.name = some SecTag.gotplt := by simp [sec_tag, h10, cstr_inj]
    rw [e]
    exact sec_gotplt_ok t s st st1 h
  by_cases h11 : s.name = cstr ".plt"
  · rw [classify_section_plt t s st h11] at h
    have e : sec_tag s.name = some SecTag.plt := by simp [sec_tag, h11, cstr_inj]
    rw [e]
    exact sec_plt_ok t s st st1 h
  by_cases h12 : s.name = cstr ".opd"
  · rw [classify_section_opd t s st h12] at h
    have e : sec_tag s.name = some SecTag.opd := by simp [sec_tag, h12, cstr_inj]
    rw [e]
    exact sec_opd_ok t s st st1 h
  by_cases h13 : s.name = cstr ".eh_frame"
  · rw [classify_section_ehframe t s st h13] at h
    have e : sec_tag s.name = some SecTag.ehframe := by simp [sec_tag, h13, cstr_inj]
    rw [e]
    exact sec_ehframe_ok t s st st1 h
  have e : sec_tag s.name = none := by
    simp [sec_tag, h1, h2, h3, h4, h5, h6, h7,
      h8, h9, h10, h11, h12, h13]
  rw [classify_section_other t s st e] at h
  simp only [Res.ok.injEq] at h
  subst h
  rw [e]
  simp [same_except]

/-- The classification of a section ends the read through `BAD` only. -/
theorem classify_section_fail (t : Target) (s : SecHdr) (st : ShdrScan) (e : String)
    (d : DebugInfo) (h : classify_section t s st = Res.fail e d) :
    ∃ n ∈ bad_names, (Res.fail e d : Res ShdrScan) = BAD n st.di := by
  by_cases h1 : s.name = cstr ".text"
  · rw [classify_section_text t s st h1] at h
    exact sec_text_fail t s st e d h
  by_cases h2 : s.name = cstr ".data"
  · rw [classify_section_data t s st h2] at h
    exact sec_data_fail t s st e d h
  by_cases h3 : s.name = cstr ".sdata"
  · rw [classify_section_sdata t s st h3] at h
    exact sec_sdata_fail t s st e d h
  by_cases h4 : s.name = cstr ".rodata"
  · rw [classify_section_rodata t s st h4] at h
    exact sec_rodata_fail t s st e d h
  by_cases h5 : s.name = cstr ".dynbss"
  · rw [classify_section_dynbss t s st h5] at h
    exact sec_dynbss_fail t s st e d h
  by_cases h6 : s.name = cstr ".bss"
  · rw [classify_section_bss t s st h6] at h
    exact sec_bss_fail t s st e d h
  by_cases h7 : s.name = cstr ".sdynbss"
  · rw [classify_section_sdynbss t s st h7] at h
    exact sec_sdynbss_fail t s st e d h
  by_cases h8 : s.name = cstr ".sbss"
  · rw [classify_section_sbss t s st h8] at h
    exact sec_sbss_fail t s st e d h
  by_cases h9 : s.name = cstr ".got"
  · rw [classify_section_got t s st h9] at h
    exact sec_got_fail t s st e d h
  by_cases h10 : s.name = cstr ".got.plt"
  · rw [classify_section_gotplt t s st h10] at h
    exact sec_gotplt_fail t s st e d h
  by_cases h11 : s.name = cstr ".plt"
  · rw [classify_section_plt t s st h11] at h
    exact sec_plt_fail t s st e d h
  by_cases h12 : s.name = cstr ".opd"
  · rw [classify_section_opd t s st h12] at h
    exact sec_opd_fail t s st e d h
  by_cases h13 : s.name = cstr ".eh_frame"
  · rw [classify_section_ehframe t s st h13] at h
    exact sec_ehframe_fail t s st e d h
  have e0 : sec_tag s.name = none := by
    simp [sec_tag, h1, h2, h3, h4, h5, h6, h7,
      h8, h9, h10, h11, h12, h13]
  rw [classify_section_other t s st e0] at h
  cases h

/-! ### C13 -/

/-- No diagnostic of `BAD` is one of the two diagnostics of the checks that
precede the classification. -/
theorem bad_names_msg (n : String) (h : n ∈ bad_names) :
    "Can't make sense of " ++ n ++ " section mapping" ≠ "ELF Section extends beyond image end"
    ∧ "Can't make sense of " ++ n ++ " section mapping"
        ≠ "ELF Section contains invalid .sh_addralign value" := by
  revert n
  decide

/-- The diagnostic with which the classification of a section ends the read is
none of the two diagnostics of the checks that precede it. -/
theorem classify_section_fail_msg (t : Target) (s : SecHdr) (st : ShdrScan) (e : String)
    (d : DebugInfo) (h : classify_section t s st = Res.fail e d) :
    e ≠ "ELF Section extends beyond image end"
    ∧ e ≠ "ELF Section contains invalid .sh_addralign value" := by
  obtain ⟨n, hn, hb⟩ := classify_section_fail t s st e d h
  unfold BAD at hb
  simp only [Res.fail.injEq] at hb
  rw [hb.1]
  exact bad_names_msg n hn

/-- The condition of the first check, as `check_and_classify` writes it. -/
theorem beyond_image_end_iff (t : Target) (mimg : DiImage) (a_shdr : ElfXX_Shdr) :
    (sext64 t a_shdr.sh_offset ≥ img_size mimg
      ∨ addW t a_shdr.sh_offset
          (if (!(a_shdr.sh_type == SHT_NOBITS)) = true then a_shdr.sh_size else 0)
          > img_size mimg)
    ↔ beyond_image_end t mimg a_shdr := by
  unfold beyond_image_end
  by_cases h : a_shdr.sh_type = SHT_NOBITS <;> simp [h]

/-- One iteration of the first loop over the section headers, on a section
header and a name that can be read. -/
theorem shdr_step_eq (t : Target) (mimg : DiImage) (hd : MainHdrs)
    (ranges : List RangeAndBias) (st : ShdrScan) (i : Nat) (a_shdr : ElfXX_Shdr)
    (name : List Nat)
    (hsh : img_get_Shdr t mimg (INDEX_BIS hd.shdr_mioff i hd.shdr_ment_szB) = some a_shdr)
    (hname : img_strdup mimg (add64 hd.shdr_strtab_mioff a_shdr.sh_name) = some name) :
    shdr_step t mimg hd ranges st i =
      check_and_classify t mimg a_shdr
        { name := name, svma := a_shdr.sh_addr, size := a_shdr.sh_size,
          inrx := (find_inrx_inrw a_shdr.sh_addr ranges none none).1,
          inrw := (find_inrx_inrw a_shdr.sh_addr ranges none none).2 } st := by
  unfold shdr_step
  rw [hsh]
  dsimp only
  rw [hname]

/-- The outcomes of the checks that precede the classification. -/
theorem check_and_classify_eq (t : Target) (mimg : DiImage) (a_shdr : ElfXX_Shdr) (s : SecHdr)
    (st : ShdrScan) (hs : s.size = a_shdr.sh_size) :
    check_and_classify t mimg a_shdr s st =
      if beyond_image_end t mimg a_shdr then
        Res.fail "ELF Section extends beyond image end" st.di
      else if a_shdr.sh_addralign % 2 ^ 32 > 0 ∧ VG_log2 (a_shdr.sh_addralign % 2 ^ 32) = -1 then
        Res.fail "ELF Section contains invalid .sh_addralign value" st.di
      else if a_shdr.sh_size = 0 then Res.ok st
      else classify_section t s st := by
  unfold check_and_classify
  dsimp only
  rw [hs]
  by_cases h : beyond_image_end t mimg a_shdr
  · rw [if_pos h, if_pos ((beyond_image_end_iff t mimg a_shdr).2 h)]
  · rw [if_neg h, if_neg (fun h1 => h ((beyond_image_end_iff t mimg a_shdr).1 h1))]

/-- C13 (counterexample): a `.bss` section of type SHT_NOBITS whose file offset
equals the size of the image has `foff + (nobits ? 0 : size) <= image.size()`,
and the reader rejects it with "ELF Section extends beyond image end" when the
loop reaches it, after three sections that pass. -/
theorem C13_counterexample :
    ∃ ss d, img_get_Shdr amd64 nobits_at_end_img (INDEX_BIS 0x2100 3 64) = some sh_bss_at_end
      ∧ ¬ beyond_image_end_spec nobits_at_end_img sh_bss_at_end
      ∧ forRes (shdr_step amd64 nobits_at_end_img (scen_hdrs 2 5) scen1_ranges) 3 0
          (shdr_scan_init (with_soname_default scen1_di)) = Res.ok ss
      ∧ shdr_step amd64 nobits_at_end_img (scen_hdrs 2 5) scen1_ranges ss 3
          = Res.fail "ELF Section extends beyond image end" d
      ∧ read_elf_debug_info_sections amd64 (some nobits_at_end_img) scen1_di
          = Res.fail "ELF Section extends beyond image end" d :=
  ⟨_, _, rfl, by decide, rfl, rfl, rfl⟩

/-- C13 (amended): in the first loop over the section headers, a section header
is rejected with "ELF Section extends beyond image end" if and only if its file
offset, read as a signed offset, is at or after the end of the image, or
`foff + (nobits ? 0 : size)`, computed modulo the word size, is greater than the
size of the image. -/
theorem C13_section_beyond_image_end (t : Target) (mimg : DiImage) (hd : MainHdrs)
    (ranges : List RangeAndBias) (st : ShdrScan) (i : Nat) (a_shdr : ElfXX_Shdr)
    (name : List Nat)
    (hsh : img_get_Shdr t mimg (INDEX_BIS hd.shdr_mioff i hd.shdr_ment_szB) = some a_shdr)
    (hname : img_strdup mimg (add64 hd.shdr_strtab_mioff a_shdr.sh_name) = some name) :
    (∃ d, shdr_step t mimg hd ranges st i
            = Res.fail "ELF Section extends beyond image end" d)
    ↔ beyond_image_end t mimg a_shdr := by
  rw [shdr_step_eq t mimg hd ranges st i a_shdr name hsh hname,
    check_and_classify_eq t mimg a_shdr _ st rfl]
  by_cases h : beyond_image_end t mimg a_shdr
  · rw [if_pos h]
    exact ⟨fun _ => h, fun _ => ⟨_, rfl⟩⟩
  · rw [if_neg h]
    refine ⟨fun hx => ?_, fun hx => absurd hx h⟩
    obtain ⟨d, hd1⟩ := hx
    exfalso
    split_ifs at hd1 with h2 h3
    · simp only [Res.fail.injEq] at hd1
      exact absurd hd1.1 (by decide)
    · exact (classify_section_fail_msg t _ st _ d hd1).1 rfl

/-- C13 (witness): the section `.bss` of `nobits_at_end_img`. -/
theorem C13_witness :
    ((∃ d, shdr_step amd64 nobits_at_end_img (scen_hdrs 2 5) scen1_ranges
              (shdr_scan_init (with_soname_default scen1_di)) 3
            = Res.fail "ELF Section extends beyond image end" d)
      ↔ beyond_image_end amd64 nobits_at_end_img sh_bss_at_end)
    ∧ beyond_image_end amd64 nobits_at_end_img sh_bss_at_end :=
  ⟨C13_section_beyond_image_end amd64 nobits_at_end_img (scen_hdrs 2 5) scen1_ranges
      (shdr_scan_init (with_soname_default scen1_di)) 3 sh_bss_at_end (cstr ".bss") rfl
      (by decide),
    by decide⟩

/-! ### C14 -/

/-- The function `VG_(log2)` returns -1 on a 32-bit number exactly when the
number is not a power of two. -/
theorem VG_log2_eq_neg_one (x : Nat) (hx : x < 2 ^ 32) :
    VG_log2 x = -1 ↔ ¬ is_power_of_two x := by
  unfold VG_log2 is_power_of_two
  constructor
  · intro h
    rintro ⟨k, hk⟩
    have hk32 : k < 32 := by
      by_contra hge
      have : 2 ^ 32 ≤ 2 ^ k := Nat.pow_le_pow_right (by decide) (by omega)
      omega
    cases hf : (List.range 32).find? (fun i => 2 ^ i == x) with
    | some i => rw [hf] at h; simp at h
    | none =>
      rw [List.find?_eq_none] at hf
      have := hf k (List.mem_range.2 hk32)
      simp [hk] at this
  · intro h
    cases hf : (List.range 32).find? (fun i => 2 ^ i == x) with
    | some i =>
      exfalso
      have := List.find?_some hf
      simp only [beq_iff_eq] at this
      exact h ⟨i, this.symm⟩
    | none => rfl

/-- The outcomes of one iteration of the first loop over the section headers
that passes the check of the end of the image. -/
theorem shdr_step_in_image (t : Target) (mimg : DiImage) (hd : MainHdrs)
    (ranges : List RangeAndBias) (st : ShdrScan) (i : Nat) (a_shdr : ElfXX_Shdr)
    (name : List Nat)
    (hsh : img_get_Shdr t mimg (INDEX_BIS hd.shdr_mioff i hd.shdr_ment_szB) = some a_shdr)
    (hname : img_strdup mimg (add64 hd.shdr_strtab_mioff a_shdr.sh_name) = some name)
    (hpass : ¬ beyond_image_end t mimg a_shdr) :
    shdr_step t mimg hd ranges st i =
      if bad_addralign a_shdr then
        Res.fail "ELF Section contains invalid .sh_addralign value" st.di
      else if a_shdr.sh_size = 0 then Res.ok st
      else classify_section t
        { name := name, svma := a_shdr.sh_addr, size := a_shdr.sh_size,
          inrx := (find_inrx_inrw a_shdr.sh_addr ranges none none).1,
          inrw := (find_inrx_inrw a_shdr.sh_addr ranges none none).2 } st := by
  rw [shdr_step_eq t mimg hd ranges st i a_shdr name hsh hname,
    check_and_classify_eq t mimg a_shdr _ st rfl, if_neg hpass]
  rfl

/-- C14 (counterexample): the section `.text` of `badalign_beyond_img` has an
`sh_addralign` of 3, which is non-zero and not a power of two, and the reader
rejects it with "ELF Section extends beyond image end", not with the diagnostic
of the alignment; and the section `.text` of `wide_align_img` has an
`sh_addralign` of 2^32 + 1 and is not rejected. -/
theorem C14_counterexample :
    (∃ d, img_get_Shdr amd64 badalign_beyond_img (INDEX_BIS 0x2100 1 64) = some sh_text_bad
      ∧ sh_text_bad.sh_addralign ≠ 0 ∧ ¬ is_power_of_two sh_text_bad.sh_addralign
      ∧ shdr_step amd64 badalign_beyond_img (scen_hdrs 2 4) scen1_ranges
          (shdr_scan_init (with_soname_default scen1_di)) 1
          = Res.fail "ELF Section extends beyond image end" d
      ∧ read_elf_debug_info_sections amd64 (some badalign_beyond_img) scen1_di
          = Res.fail "ELF Section extends beyond image end" d)
    ∧ (∃ d, img_get_Shdr amd64 wide_align_img (INDEX_BIS 0x2100 1 64) = some sh_text_wide
      ∧ sh_text_wide.sh_addralign ≠ 0 ∧ ¬ is_power_of_two sh_text_wide.sh_addralign
      ∧ read_elf_debug_info_sections amd64 (some wide_align_img) scen1_di = Res.ok d) := by
  refine ⟨⟨_, rfl, by decide, ?_, rfl, rfl⟩, ⟨_, rfl, by decide, ?_, rfl⟩⟩
  · exact (VG_log2_eq_neg_one 3 (by decide)).1 (by decide)
  · rintro ⟨k, hk⟩
    have h32 : k < 33 := by
      by_contra hge
      have : 2 ^ 33 ≤ 2 ^ k := Nat.pow_le_pow_right (by decide) (by omega)
      have e : sh_text_wide.sh_addralign = 2 ^ 32 + 1 := rfl
      omega
    have e : sh_text_wide.sh_addralign = 2 ^ 32 + 1 := rfl
    rw [e] at hk
    interval_cases k <;> omega

/-- C14 (amended): in the first loop over the section headers, a section header
that passes the check of the end of the image, and whose `sh_addralign` is less
than 2^32, is rejected with "ELF Section contains invalid .sh_addralign value" if
and only if its `sh_addralign` is non-zero and not a power of two. -/
theorem C14_invalid_addralign (t : Target) (mimg : DiImage) (hd : MainHdrs)
    (ranges : List RangeAndBias) (st : ShdrScan) (i : Nat) (a_shdr : ElfXX_Shdr)
    (name : List Nat)
    (hsh : img_get_Shdr t mimg (INDEX_BIS hd.shdr_mioff i hd.shdr_ment_szB) = some a_shdr)
    (hname : img_strdup mimg (add64 hd.shdr_strtab_mioff a_shdr.sh_name) = some name)
    (hpass : ¬ beyond_image_end t mimg a_shdr)
    (hfit : a_shdr.sh_addralign < 2 ^ 32) :
    (∃ d, shdr_step t mimg hd ranges st i
            = Res.fail "ELF Section contains invalid .sh_addralign value" d)
    ↔ (a_shdr.sh_addralign ≠ 0 ∧ ¬ is_power_of_two a_shdr.sh_addralign) := by
  rw [shdr_step_in_image t mimg hd ranges st i a_shdr name hsh hname hpass]
  have hb : bad_addralign a_shdr
      ↔ (a_shdr.sh_addralign ≠ 0 ∧ ¬ is_power_of_two a_shdr.sh_addralign) := by
    unfold bad_addralign
    rw [Nat.mod_eq_of_lt hfit, VG_log2_eq_neg_one _ hfit]
    constructor
    · rintro ⟨h1, h2⟩; exact ⟨by omega, h2⟩
    · rintro ⟨h1, h2⟩; exact ⟨by omega, h2⟩
  by_cases h : bad_addralign a_shdr
  · rw [if_pos h]
    exact ⟨fun _ => hb.1 h, fun _ => ⟨_, rfl⟩⟩
  · rw [if_neg h]
    refine ⟨fun hx => ?_, fun hx => absurd (hb.2 hx) h⟩
    obtain ⟨d, hd1⟩ := hx
    exfalso
    split_ifs at hd1 with h3
    exact (classify_section_fail_msg t _ st _ d hd1).2 rfl

/-- C14 (witness): the section `.text` of `badalign_img`, whose `sh_addralign`
is 3. -/
theorem C14_witness :
    ((∃ d, shdr_step amd64 badalign_img (scen_hdrs 2 4) scen1_ranges
              (shdr_scan_init (with_soname_default scen1_di)) 1
            = Res.fail "ELF Section contains invalid .sh_addralign value" d)
      ↔ (({ sh_text with sh_addralign := 3 } : ElfXX_Shdr).sh_addralign ≠ 0
          ∧ ¬ is_power_of_two ({ sh_text with sh_addralign := 3 } : ElfXX_Shdr).sh_addralign))
    ∧ ∃ d, shdr_step amd64 badalign_img (scen_hdrs 2 4) scen1_ranges
              (shdr_scan_init (with_soname_default scen1_di)) 1
            = Res.fail "ELF Section contains invalid .sh_addralign value" d :=
  ⟨C14_invalid_addralign amd64 badalign_img (scen_hdrs 2 4) scen1_ranges
      (shdr_scan_init (with_soname_default scen1_di)) 1 { sh_text with sh_addralign := 3 }
      (cstr ".text") rfl (by decide) (by decide) (by decide),
    ⟨_, rfl⟩⟩

/-! ### C15 -/

/-- C15 (counterexample): the null section header of `empty_beyond_img` has
`sh_size = 0` and a file offset after the end of the image, and the one of
`empty_badalign_img` has `sh_size = 0` and an `sh_addralign` of 3; the reader
returns False on both images. -/
theorem C15_counterexample :
    (∃ d, img_get_Shdr amd64 empty_beyond_img (INDEX_BIS 0x2100 0 64) = some sh_null_beyond
      ∧ sh_null_beyond.sh_size = 0
      ∧ read_elf_debug_info_sections amd64 (some empty_beyond_img) scen1_di
          = Res.fail "ELF Section extends beyond image end" d)
    ∧ (∃ d, img_get_Shdr amd64 empty_badalign_img (INDEX_BIS 0x2100 0 64)
              = some sh_null_align3
      ∧ sh_null_align3.sh_size = 0
      ∧ read_elf_debug_info_sections amd64 (some empty_badalign_img) scen1_di
          = Res.fail "ELF Section contains invalid .sh_addralign value" d) :=
  ⟨⟨_, rfl, rfl, rfl⟩, ⟨_, rfl, rfl, rfl⟩⟩

/-- C15 (amended): in the first loop over the section headers, a section header
with `sh_size = 0` that passes the check of the end of the image and the check
of the alignment, which are made first, is skipped whatever its name: the
iteration ends without failure and leaves the DebugInfo and the locals of the
loop as they were. -/
theorem C15_zero_sized_section_skipped (t : Target) (mimg : DiImage) (hd : MainHdrs)
    (ranges : List RangeAndBias) (st : ShdrScan) (i : Nat) (a_shdr : ElfXX_Shdr)
    (name : List Nat)
    (hsh : img_get_Shdr t mimg (INDEX_BIS hd.shdr_mioff i hd.shdr_ment_szB) = some a_shdr)
    (hname : img_strdup mimg (add64 hd.shdr_strtab_mioff a_shdr.sh_name) = some name)
    (hsize : a_shdr.sh_size = 0)
    (hpass : ¬ beyond_image_end t mimg a_shdr)
    (halign : ¬ bad_addralign a_shdr) :
    shdr_step t mimg hd ranges st i = Res.ok st := by
  rw [shdr_step_in_image t mimg hd ranges st i a_shdr name hsh hname hpass, if_neg halign,
    if_pos hsize]

/-- C15 (witness): the null section header of scenario 1. -/
theorem C15_witness :
    sh_null.sh_size = 0
    ∧ shdr_step amd64 scen1_img (scen_hdrs 2 4) scen1_ranges
        (shdr_scan_init (with_soname_default scen1_di)) 0
      = Res.ok (shdr_scan_init (with_soname_default scen1_di)) :=
  ⟨rfl,
    C15_zero_sized_section_skipped amd64 scen1_img (scen_hdrs 2 4) scen1_ranges
      (shdr_scan_init (with_soname_default scen1_di)) 0 sh_null [] rfl (by decide) rfl
      (by decide) (by decide)⟩

/-! ### C12 -/

/-- The sections whose block writes the bss record are `.dynbss` and `.bss`. -/
theorem sec_tag_bss (name : List Nat) (h : sec_tag name = some SecTag.bss) :
    name = cstr ".dynbss" ∨ name = cstr ".bss" := by
  by_cases h1 : name = cstr ".text"
  · rw [h1] at h; simp [sec_tag, cstr_inj] at h
  by_cases h2 : name = cstr ".data"
  · rw [h2] at h; simp [sec_tag, cstr_inj] at h
  by_cases h3 : name = cstr ".sdata"
  · rw [h3] at h; simp [sec_tag, cstr_inj] at h
  by_cases h4 : name = cstr ".rodata"
  · rw [h4] at h; simp [sec_tag, cstr_inj] at h
  by_cases h5 : name = cstr ".dynbss"
  · exact Or.inl h5
  by_cases h6 : name = cstr ".bss"
  · exact Or.inr h6
  by_cases h7 : name = cstr ".sdynbss"
  · rw [h7] at h; simp [sec_tag, cstr_inj] at h
  by_cases h8 : name = cstr ".sbss"
  · rw [h8] at h; simp [sec_tag, cstr_inj] at h
  by_cases h9 : name = cstr ".got"
  · rw [h9] at h; simp [sec_tag, cstr_inj] at h
  by_cases h10 : name = cstr ".got.plt"
  · rw [h10] at h; simp [sec_tag, cstr_inj] at h
  by_cases h11 : name = cstr ".plt"
  · rw [h11] at h; simp [sec_tag, cstr_inj] at h
  by_cases h12 : name = cstr ".opd"
  · rw [h12] at h; simp [sec_tag, cstr_inj] at h
  by_cases h13 : name = cstr ".eh_frame"
  · rw [h13] at h; simp [sec_tag, cstr_inj] at h
  simp [sec_tag, h1, h2, h3, h4, h5, h6, h7, h8, h9, h10, h11, h12, h13] at h

/-- The sections whose block writes the sbss record are `.sdynbss` and
`.sbss`. -/
theorem sec_tag_sbss (name : List Nat) (h : sec_tag name = some SecTag.sbss) :
    name = cstr ".sdynbss" ∨ name = cstr ".sbss" := by
  by_cases h1 : name = cstr ".text"
  · rw [h1] at h; simp [sec_tag, cstr_inj] at h
  by_cases h2 : name = cstr ".data"
  · rw [h2] at h; simp [sec_tag, cstr_inj] at h
  by_cases h3 : name = cstr ".sdata"
  · rw [h3] at h; simp [sec_tag, cstr_inj] at h
  by_cases h4 : name = cstr ".rodata"
  · rw [h4] at h; simp [sec_tag, cstr_inj] at h
  by_cases h5 : name = cstr ".dynbss"
  · rw [h5] at h; simp [sec_tag, cstr_inj] at h
  by_cases h6 : name = cstr ".bss"
  · rw [h6] at h; simp [sec_tag, cstr_inj] at h
  by_cases h7 : name = cstr ".sdynbss"
  · exact Or.inl h7
  by_cases h8 : name = cstr ".sbss"
  · exact Or.inr h8
  by_cases h9 : name = cstr ".got"
  · rw [h9] at h; simp [sec_tag, cstr_inj] at h
  by_cases h10 : name = cstr ".got.plt"
  · rw [h10] at h; simp [sec_tag, cstr_inj] at h
  by_cases h11 : name = cstr ".plt"
  · rw [h11] at h; simp [sec_tag, cstr_inj] at h
  by_cases h12 : name = cstr ".opd"
  · rw [h12] at h; simp [sec_tag, cstr_inj] at h
  by_cases h13 : name = cstr ".eh_frame"
  · rw [h13] at h; simp [sec_tag, cstr_inj] at h
  simp [sec_tag, h1, h2, h3, h4, h5, h6, h7, h8, h9, h10, h11, h12, h13] at h

/-- An iteration of the first loop over the section headers that ends without
failure has read the section header and its name, and has skipped the section
or classified it. -/
theorem shdr_step_ok_cases (t : Target) (mimg : DiImage) (hd : MainHdrs)
    (ranges : List RangeAndBias) (st st1 : ShdrScan) (i : Nat)
    (h : shdr_step t mimg hd ranges st i = Res.ok st1) :
    ∃ a_shdr name,
      img_get_Shdr t mimg (INDEX_BIS hd.shdr_mioff i hd.shdr_ment_szB) = some a_shdr
      ∧ img_strdup mimg (add64 hd.shdr_strtab_mioff a_shdr.sh_name) = some name
      ∧ ((a_shdr.sh_size = 0 ∧ st1 = st)
        ∨ (a_shdr.sh_size ≠ 0
          ∧ classify_section t
              { name := name, svma := a_shdr.sh_addr, size := a_shdr.sh_size,
                inrx := first_range ranges a_shdr.sh_addr true,
                inrw := first_range ranges a_shdr.sh_addr false } st = Res.ok st1)) := by
  cases hsh : img_get_Shdr t mimg (INDEX_BIS hd.shdr_mioff i hd.shdr_ment_szB) with
  | none => unfold shdr_step at h; rw [hsh] at h; cases h
  | some a_shdr =>
    cases hname : img_strdup mimg (add64 hd.shdr_strtab_mioff a_shdr.sh_name) with
    | none => unfold shdr_step at h; rw [hsh] at h; dsimp only at h; rw [hname] at h; cases h
    | some name =>
      refine ⟨a_shdr, name, rfl, hname, ?_⟩
      rw [shdr_step_eq t mimg hd ranges st i a_shdr name hsh hname,
        check_and_classify_eq t mimg a_shdr _ st rfl] at h
      have e1 : (find_inrx_inrw a_shdr.sh_addr ranges none none).1
          = first_range ranges a_shdr.sh_addr true := by
        simp [find_inrx_inrw_spec, Option.orElse]
      have e2 : (find_inrx_inrw a_shdr.sh_addr ranges none none).2
          = first_range ranges a_shdr.sh_addr false := by
        simp [find_inrx_inrw_spec, Option.orElse]
      rw [e1, e2] at h
      by_cases h1 : beyond_image_end t mimg a_shdr
      · rw [if_pos h1] at h; cases h
      · rw [if_neg h1] at h
        by_cases h2 : a_shdr.sh_addralign % 2 ^ 32 > 0
            ∧ VG_log2 (a_shdr.sh_addralign % 2 ^ 32) = -1
        · rw [if_pos h2] at h; cases h
        · rw [if_neg h2] at h
          by_cases h3 : a_shdr.sh_size = 0
          · rw [if_pos h3] at h
            simp only [Res.ok.injEq] at h
            exact Or.inl ⟨h3, h.symm⟩
          · rw [if_neg h3] at h
            exact Or.inr ⟨h3, h⟩

/-- The classification of a section that is named neither `.dynbss` nor `.bss`
(neither `.sdynbss` nor `.sbss`) keeps the bss record (the sbss record) and the
local `dynbss_present` (`sdynbss_present`). -/
theorem classify_section_keeps_bss (small : Bool) (t : Target) (s : SecHdr)
    (st st1 : ShdrScan) (h1 : s.name ≠ dyn_name small) (h2 : s.name ≠ bss_name small)
    (h : classify_section t s st = Res.ok st1) :
    bss_rec small st1.di = bss_rec small st.di ∧ dyn_flag small st1 = dyn_flag small st := by
  have hsame := classify_section_ok t s st st1 h
  unfold same_except at hsame
  obtain ⟨-, -, -, -, -, -, -, -, -, -, -, -, -, -, -, hb, hsb, -⟩ := hsame
  cases small
  · have hne : sec_tag s.name ≠ some SecTag.bss := by
      intro e
      rcases sec_tag_bss s.name e with e1 | e1
      · exact h1 e1
      · exact h2 e1
    exact hb hne
  · have hne : sec_tag s.name ≠ some SecTag.sbss := by
      intro e
      rcases sec_tag_sbss s.name e with e1 | e1
      · exact h1 e1
      · exact h2 e1
    exact hsb hne

/-- A `.dynbss` section (`.sdynbss` section) in a load range with exec=false is
acquired as the bss record (the sbss record) when none is recorded. -/
theorem classify_dynbss_acquire (small : Bool) (t : Target) (s : SecHdr) (st st1 : ShdrScan)
    (r : RangeAndBias) (hn : s.name = dyn_name small) (hr : s.inrw = some r)
    (hp : (bss_rec small st.di).present = false)
    (h : classify_section t s st = Res.ok st1) :
    bss_rec small st1.di = acquire t s.svma s.size r ∧ dyn_flag small st1 = true := by
  cases small
  · have hn1 : s.name = cstr ".dynbss" := hn
    rw [classify_section_dynbss t s st hn1] at h
    have hp1 : st.di.bss.present = false := hp
    unfold sec_dynbss at h
    rw [if_pos hn1, hr] at h
    simp only [hp1, Bool.not_false, if_true, Res.ok.injEq] at h
    subst h
    exact ⟨rfl, rfl⟩
  · have hn1 : s.name = cstr ".sdynbss" := hn
    rw [classify_section_sdynbss t s st hn1] at h
    have hp1 : st.di.sbss.present = false := hp
    unfold sec_sdynbss at h
    rw [if_pos hn1, hr] at h
    simp only [hp1, Bool.not_false, if_true, Res.ok.injEq] at h
    subst h
    exact ⟨rfl, rfl⟩

/-- A `.bss` section (`.sbss` section) in a load range with exec=false that
starts where the recorded `.dynbss` section (`.sdynbss` section) ends extends
the record by its size. -/
theorem classify_bss_merge (small : Bool) (t : Target) (s : SecHdr)
    (st st1 : ShdrScan) (hn : s.name = bss_name small) (hr : s.inrw.isSome = true)
    (hf : dyn_flag small st = true) (hp : (bss_rec small st.di).present = true)
    (habut : s.svma = addW t (bss_rec small st.di).svma (bss_rec small st.di).size)
    (h : classify_section t s st = Res.ok st1) :
    bss_rec small st1.di
      = { bss_rec small st.di with size := addW t (bss_rec small st.di).size s.size } := by
  cases small
  · have hn1 : s.name = cstr ".bss" := hn
    rw [classify_section_bss t s st hn1] at h
    have hp1 : st.di.bss.present = true := hp
    have hf1 : st.dynbss_present = true := hf
    have ha1 : addW t st.di.bss.svma st.di.bss.size = s.svma := habut.symm
    unfold sec_bss at h
    rw [if_pos hn1] at h
    simp only [hr, hf1, Bool.and_self, if_true, hp1, Bool.not_true, Bool.false_eq_true,
      if_false, ha1, ne_eq, not_true_eq_false, Res.ok.injEq] at h
    subst h
    simp [bss_rec, hp1]
  · have hn1 : s.name = cstr ".sbss" := hn
    rw [classify_section_sbss t s st hn1] at h
    have hp1 : st.di.sbss.present = true := hp
    have hf1 : st.sdynbss_present = true := hf
    have ha1 : addW t st.di.sbss.svma st.di.sbss.size = s.svma := habut.symm
    unfold sec_sbss at h
    rw [if_pos hn1] at h
    simp only [hr, hf1, Bool.and_self, if_true, hp1, Bool.not_true, Bool.false_eq_true,
      if_false, ha1, ne_eq, not_true_eq_false, Res.ok.injEq] at h
    subst h
    simp [bss_rec, hp1]

/-- C12: if the first loop over the section headers runs to its end on a
DebugInfo without a bss record, and its section headers hold a non-empty
`.dynbss` section `a1` that lies in the load range `r` with exec=false, a later
non-empty `.bss` section `a2` with `a2.sh_addr = a1.sh_addr + a1.sh_size` that
lies in a load range with exec=false, and no other non-empty section of one of
these two names, then the bss record is present with the SVMA of `a1`, the bias
of `r`, the AVMA `a1.sh_addr + r.bias` and the size `a1.sh_size + a2.sh_size`
(both modulo the word size); and the same holds of `.sdynbss`, `.sbss` and the
sbss record (`small` true). -/
theorem C12_dynbss_bss_merged (small : Bool) (t : Target) (mimg : DiImage) (hd : MainHdrs)
    (ranges : List RangeAndBias) (di0 : DebugInfo) (ss : ShdrScan) (i j : Nat)
    (a1 a2 : ElfXX_Shdr) (r : RangeAndBias)
    (hscan : scan_section_headers t mimg hd ranges di0 = Res.ok ss)
    (hfresh : (bss_rec small di0).present = false)
    (hij : i < j) (hj : j < hd.shdr_mnent)
    (h1 : img_get_Shdr t mimg (INDEX_BIS hd.shdr_mioff i hd.shdr_ment_szB) = some a1)
    (hn1 : img_strdup mimg (add64 hd.shdr_strtab_mioff a1.sh_name) = some (dyn_name small))
    (hs1 : a1.sh_size ≠ 0)
    (hr1 : first_range ranges a1.sh_addr false = some r)
    (h2 : img_get_Shdr t mimg (INDEX_BIS hd.shdr_mioff j hd.shdr_ment_szB) = some a2)
    (hn2 : img_strdup mimg (add64 hd.shdr_strtab_mioff a2.sh_name) = some (bss_name small))
    (hs2 : a2.sh_size ≠ 0)
    (hr2 : (first_range ranges a2.sh_addr false).isSome = true)
    (habut : a2.sh_addr = addW t a1.sh_addr a1.sh_size)
    (hother : ∀ k a name, k < hd.shdr_mnent → k ≠ i → k ≠ j →
      img_get_Shdr t mimg (INDEX_BIS hd.shdr_mioff k hd.shdr_ment_szB) = some a →
      img_strdup mimg (add64 hd.shdr_strtab_mioff a.sh_name) = some name →
      a.sh_size = 0 ∨ (name ≠ dyn_name small ∧ name ≠ bss_name small)) :
    bss_rec small ss.di = merged_bss t a1 a2 r := by
  unfold scan_section_headers at hscan
  have hinv := forRes_ok_inv_idx (shdr_step t mimg hd ranges)
    (merge_inv small t i j a1 a2 r) hd.shdr_mnent 0 _ ss ?_ ?_ hscan
  · rw [Nat.zero_add] at hinv
    exact hinv.2.2 hj
  · -- one iteration
    intro k st st1 _ hk hP hstep
    rw [Nat.zero_add] at hk
    obtain ⟨a, name, ha, hname, hcase⟩ := shdr_step_ok_cases t mimg hd ranges st st1 k hstep
    obtain ⟨P1, P2, P3⟩ := hP
    by_cases hki : k = i
    · -- the `.dynbss` section
      subst hki
      rw [h1] at ha
      simp only [Option.some.injEq] at ha
      subst ha
      rw [hn1] at hname
      simp only [Option.some.injEq] at hname
      subst hname
      rcases hcase with ⟨hz, -⟩ | ⟨-, hc⟩
      · exact absurd hz hs1
      · obtain ⟨q1, q2⟩ := classify_dynbss_acquire small t _ st st1 r rfl hr1
          (P1 (le_refl _)).1 hc
        exact ⟨fun h => by omega, fun _ _ => ⟨q1, q2⟩, fun h => by omega⟩
    · by_cases hkj : k = j
      · -- the `.bss` section
        subst hkj
        rw [h2] at ha
        simp only [Option.some.injEq] at ha
        subst ha
        rw [hn2] at hname
        simp only [Option.some.injEq] at hname
        subst hname
        obtain ⟨q1, q2⟩ := P2 hij (le_refl _)
        rcases hcase with ⟨hz, -⟩ | ⟨-, hc⟩
        · exact absurd hz hs2
        · have hm := classify_bss_merge small t _ st st1 rfl hr2 q2
            (by rw [q1]; rfl) (by rw [q1]; exact habut) hc
          refine ⟨fun h => by omega, fun h1 h2 => by omega, fun _ => ?_⟩
          rw [hm, q1]
          rfl
      · -- another section
        have hkeep : bss_rec small st1.di = bss_rec small st.di
            ∧ dyn_flag small st1 = dyn_flag small st := by
          rcases hcase with ⟨-, he⟩ | ⟨hnz, hc⟩
          · rw [he]; exact ⟨rfl, rfl⟩
          · rcases hother k a name hk hki hkj ha hname with hz | ⟨hx, hy⟩
            · exact absurd hz hnz
            · exact classify_section_keeps_bss small t _ st st1 hx hy hc
        unfold merge_inv
        rw [hkeep.1, hkeep.2]
        refine ⟨fun h => P1 (by omega), fun h1 h2 => P2 (by omega) (by omega),
          fun h => P3 (by omega)⟩
  · -- the start of the loop
    refine ⟨fun _ => ⟨hfresh, ?_⟩, fun h => by omega, fun h => by omega⟩
    cases small <;> rfl

/-- C12 (witness): the image `merge_img`, whose `.dynbss` section of 0x20 bytes
at the SVMA 0x2040 is followed by a `.bss` section of 0x60 bytes at the SVMA
0x2060: the bss record has the SVMA 0x2040 and the size 0x80. -/
theorem C12_witness :
    scan_section_headers amd64 merge_img (scen_hdrs 2 6) merge_ranges
        (with_soname_default scen1_di) = Res.ok merge_after
    ∧ bss_rec false merge_after.di
        = merged_bss amd64 sh_dynbss sh_bss_abut ⟨0x2000, 0x2100, 0x600000, false⟩
    ∧ merged_bss amd64 sh_dynbss sh_bss_abut ⟨0x2000, 0x2100, 0x600000, false⟩
        = { present := true, svma := 0x2040, avma := 0x602040, size := 0x80,
            bias := 0x600000, debug_svma := 0x2040, debug_bias := 0x600000 } := by
  refine ⟨rfl, ?_, by decide⟩
  refine C12_dynbss_bss_merged false amd64 merge_img (scen_hdrs 2 6) merge_ranges
    (with_soname_default scen1_di) merge_after 3 4 sh_dynbss sh_bss_abut
    ⟨0x2000, 0x2100, 0x600000, false⟩ rfl rfl (by decide) (by decide) rfl (by decide)
    (by decide) (by decide) rfl (by decide) (by decide) (by decide) (by decide) ?_
  intro k a name hk hki hkj ha hname
  have hk6 : k < 6 := hk
  interval_cases k
  · left; rw [show a = sh_null from (Option.some.inj ha).symm]; rfl
  · right
    rw [show a = sh_text from (Option.some.inj ha).symm] at hname
    rw [show name = cstr ".text" from (Option.some.inj
      ((show img_strdup merge_img (add64 (scen_hdrs 2 6).shdr_strtab_mioff sh_text.sh_name)
          = some (cstr ".text") by decide).symm.trans hname)).symm]
    decide
  · right
    rw [show a = sh_data from (Option.some.inj ha).symm] at hname
    rw [show name = cstr ".data" from (Option.some.inj
      ((show img_strdup merge_img (add64 (scen_hdrs 2 6).shdr_strtab_mioff sh_data.sh_name)
          = some (cstr ".data") by decide).symm.trans hname)).symm]
    decide
  · exact absurd rfl hki
  · exact absurd rfl hkj
  · right
    rw [show a = sh_shstrtab_merge from (Option.some.inj ha).symm] at hname
    rw [show name = cstr ".shstrtab" from (Option.some.inj
      ((show img_strdup merge_img
          (add64 (scen_hdrs 2 6).shdr_strtab_mioff sh_shstrtab_merge.sh_name)
          = some (cstr ".shstrtab") by decide).symm.trans hname)).symm]
    decide

/-! ### C18 -/

/-- A size of zero is not changed by the restriction to a signed 32-bit int. -/
theorem clamp_size_zero (t : Target) (hw : 0 < t.wordsize) : clamp_size t 0 = 0 := by
  have h8 : (2 : Nat) ^ 1 ≤ 2 ^ (8 * t.wordsize) := Nat.pow_le_pow_right (by decide) (by omega)
  have h2 : ¬ (t.wmod / 2 ≤ 0 % t.wmod) := by
    unfold Target.wmod Target.wbits
    rw [Nat.zero_mod]
    omega
  have h3 : t.wmod / 2 ≠ 0 := by
    unfold Target.wmod Target.wbits
    omega
  unfold clamp_size isNegW
  simp [h2, h3]

/-- The outcome of `get_elf_symbol_info` on a symbol that the test of the size
or the test of the value rejects: it returns False, unless the read of the first
byte of the name stops it. -/
theorem get_elf_symbol_info_rejected (t : Target) (di : DebugInfo) (sym : ElfXX_Sym)
    (sym_name_ioff : Nat) (escn_strtab : DiSlice) (sym_svma : Nat) (symtab_in_debug : Bool)
    (escn_opd : DiSlice) (opd_bias : Nat)
    (hrej : (clamp_size t sym.st_size = 0 ∧ (!t.android) = true)
      ∨ sym.st_value % 2 ^ 32 = 0) :
    get_elf_symbol_info t di sym sym_name_ioff escn_strtab sym_svma symtab_in_debug
        escn_opd opd_bias = some none
    ∨ (get_elf_symbol_info t di sym sym_name_ioff escn_strtab sym_svma symtab_in_debug
        escn_opd opd_bias = none
      ∧ sym_name_ioff ≠ DiOffT_INVALID
      ∧ ∀ simg, escn_strtab.img = some simg → img_valid simg sym_name_ioff 1 = false) := by
  unfold get_elf_symbol_info
  dsimp only
  split
  · exact Or.inl rfl
  · split
    · rename_i hnl
      right
      refine ⟨rfl, ?_, ?_⟩
      · intro e; rw [if_pos e] at hnl; cases hnl
      · intro simg hs
        by_cases e : sym_name_ioff = DiOffT_INVALID
        · rw [if_pos e] at hnl; cases hnl
        · rw [if_neg e, hs] at hnl
          unfold img_get_UChar at hnl
          cases hv : img_valid simg sym_name_ioff 1
          · rfl
          · simp [hv] at hnl
    · exact Or.inl rfl
    · left
      rcases hrej with h | h
      · rw [if_pos h]
      · by_cases h1 : clamp_size t sym.st_size = 0 ∧ (!t.android) = true
        · rw [if_pos h1]
        · rw [if_neg h1, if_pos h]

/-- C18: on a target that is not Android, `get_elf_symbol_info` never returns
True for a symbol with `st_size = 0` or with `st_value = 0`, whatever the other
fields of the symbol and the DebugInfo; and it returns False whenever the first
byte of the name of the symbol can be read. -/
theorem C18_zero_size_or_value_rejected (t : Target) (di : DebugInfo) (sym : ElfXX_Sym)
    (sym_name_ioff : Nat) (escn_strtab : DiSlice) (sym_svma : Nat) (symtab_in_debug : Bool)
    (escn_opd : DiSlice) (opd_bias : Nat)
    (hw : 0 < t.wordsize) (hand : t.android = false)
    (hz : sym.st_size = 0 ∨ sym.st_value = 0) :
    (∀ out, get_elf_symbol_info t di sym sym_name_ioff escn_strtab sym_svma symtab_in_debug
              escn_opd opd_bias ≠ some (some out))
    ∧ (name_readable escn_strtab sym_name_ioff →
        get_elf_symbol_info t di sym sym_name_ioff escn_strtab sym_svma symtab_in_debug
          escn_opd opd_bias = some none) := by
  have hrej : (clamp_size t sym.st_size = 0 ∧ (!t.android) = true)
      ∨ sym.st_value % 2 ^ 32 = 0 := by
    rcases hz with h | h
    · left; rw [h, clamp_size_zero t hw, hand]; exact ⟨rfl, rfl⟩
    · right; rw [h, Nat.zero_mod]
  rcases get_elf_symbol_info_rejected t di sym sym_name_ioff escn_strtab sym_svma
      symtab_in_debug escn_opd opd_bias hrej with h | ⟨h, hne, hinv⟩
  · rw [h]
    exact ⟨fun out e => (nomatch e), fun _ => rfl⟩
  · rw [h]
    refine ⟨fun out e => (nomatch e), fun hr => ?_⟩
    rcases hr with e | ⟨simg, hs, hv⟩
    · exact absurd e hne
    · rw [hinv simg hs] at hv; cases hv

/-- C18 (witness): a function symbol of size 0 inside `.text` of scenario 1. -/
theorem C18_witness :
    name_readable scen1_strtab (0x2040 + 1)
    ∧ get_elf_symbol_info amd64 scen1_after sym_size0 (0x2040 + 1) scen1_strtab 0x1010 false
        DiSlice_INVALID 0 = some none :=
  ⟨Or.inr ⟨scen1_img, rfl, by decide⟩,
    (C18_zero_size_or_value_rejected amd64 scen1_after sym_size0 (0x2040 + 1) scen1_strtab
      0x1010 false DiSlice_INVALID 0 (by decide) rfl (Or.inl rfl)).2
      (Or.inr ⟨scen1_img, rfl, by decide⟩)⟩

/-! ### C20 -/

/-- On ppc64-linux, a symbol that the final range check accepts while `.opd` is
present and not empty does not overlap `.opd`. -/
theorem sym_range_check_clear_of_opd (t : Target) (di : DebugInfo) (out o : SymInfo)
    (hp : t.plat = Platform.ppc64_linux) (ho : di.opd.present = true) (hs : 0 < di.opd.size)
    (h : sym_range_check t di out = some (some o)) :
    clear_of_opd t di o.sym_avma_out o.sym_size_out := by
  have e := (sym_range_check_spec t di out o h).1
  subst e
  by_contra hc
  unfold clear_of_opd at hc
  have hacq : (if (decide (t.plat = Platform.ppc64_linux) && di.opd.present
            && decide (di.opd.size > 0)
            && !(decide (addW t o.sym_avma_out o.sym_size_out ≤ di.opd.avma)
                 || decide (o.sym_avma_out ≥ addW t di.opd.avma di.opd.size))) = true
        then (none : Option (Option SymInfo)) else some (some o)) = none := by
    rw [if_pos]
    simp only [hp, ho, decide_True, Bool.and_self, hs, gt_iff_lt, Bool.true_and,
      Bool.not_eq_true', Bool.or_eq_false_iff, decide_eq_false_iff_not]
    exact ⟨fun h1 => hc (Or.inl h1), fun h1 => hc (Or.inr h1)⟩
  unfold sym_range_check at h
  dsimp only at h
  rw [hacq] at h
  repeat' split at h
  all_goals cases h

/-- On ppc64-linux, a symbol for which `get_elf_symbol_info` returns True while
`.opd` is present and not empty does not overlap `.opd`. -/
theorem get_elf_symbol_info_clear_of_opd (t : Target) (di : DebugInfo) (sym : ElfXX_Sym)
    (sym_name_ioff : Nat) (escn_strtab : DiSlice) (sym_svma : Nat) (symtab_in_debug : Bool)
    (escn_opd : DiSlice) (opd_bias : Nat) (o : SymInfo)
    (hp : t.plat = Platform.ppc64_linux) (ho : di.opd.present = true) (hs : 0 < di.opd.size)
    (h : get_elf_symbol_info t di sym sym_name_ioff escn_strtab sym_svma symtab_in_debug
          escn_opd opd_bias = some (some o)) :
    clear_of_opd t di o.sym_avma_out o.sym_size_out := by
  obtain ⟨out, hr, -⟩ := get_elf_symbol_info_spec t di sym sym_name_ioff escn_strtab sym_svma
    symtab_in_debug escn_opd opd_bias o h
  exact sym_range_check_clear_of_opd t di out o hp ho hs hr

/-- C20: on ppc64-linux the final assertion of `get_elf_symbol_info` fails for
the object symbol `sym_edge` of `ppc64_img`.  The symbol (address 0x10002038,
size 16) lies outside `.opd` (0x10002040 to 0x10002070), is neither nameless nor
of size 0 nor in `.got` or `.plt`, and overlaps `.data`, so it passes every
filter before the assertion; its last 8 bytes overlap `.opd`, and the function
stops at the assertion instead of returning. -/
theorem C20_opd_assertion_fails :
    ppc64_after.opd = ⟨true, 0x10002040, 0x30⟩
    ∧ name_readable ppc64_strtab (0x2900 + 12)
    ∧ avma_in_addr ppc64 ppc64_after.opd 0x10002038 = false
    ∧ overlaps_sec ppc64 ppc64_after.data 0x10002038 16 = true
    ∧ ¬ clear_of_opd ppc64 ppc64_after 0x10002038 16
    ∧ sym_range_check ppc64 ppc64_after out_edge = none
    ∧ get_elf_symbol_info ppc64 ppc64_after sym_edge (0x2900 + 12) ppc64_strtab 0x2038 false
        ppc64_opd ppc64_after.text.bias = none :=
  ⟨by decide, Or.inr ⟨ppc64_img, rfl, by decide⟩, by decide, by decide, by decide, by decide,
    by decide⟩

/-! ### C17 -/

/-- An invariant of the body of a loop holds at the end of the loop. -/
theorem forOpt_some_inv_idx {σ : Type} (body : σ → Nat → Option σ) (P : Nat → σ → Prop) :
    ∀ n i s s1,
      (∀ j s s2, i ≤ j → j < i + n → P j s → body s j = some s2 → P (j + 1) s2) →
      P i s → forOpt body n i s = some s1 → P (i + n) s1 := by
  intro n
  induction n with
  | zero =>
    intro i s s1 _ hP h
    simp only [forOpt, Option.some.injEq] at h
    exact h ▸ hP
  | succ n ih =>
    intro i s s1 hstep hP h
    simp only [forOpt] at h
    cases hb : body s i with
    | none => rw [hb] at h; cases h
    | some s2 =>
      rw [hb] at h
      have hP2 : P (i + 1) s2 := hstep i s s2 (le_refl _) (by omega) hP hb
      have := ih (i + 1) s2 s1
        (fun j s s3 h1 h2 => hstep j s s3 (by omega) (by omega)) hP2 h
      have e : i + 1 + n = i + (n + 1) := by omega
      rw [e] at this
      exact this

/-- A symbol whose name starts with a NUL byte is rejected by
`get_elf_symbol_info`. -/
theorem get_elf_symbol_info_nameless (t : Target) (di : DebugInfo) (sym : ElfXX_Sym)
    (sym_name_ioff : Nat) (escn_strtab : DiSlice) (sym_svma : Nat) (symtab_in_debug : Bool)
    (escn_opd : DiSlice) (opd_bias : Nat) (simg : DiImage)
    (hs : escn_strtab.img = some simg) (hnul : img_get_UChar simg sym_name_ioff = some 0) :
    get_elf_symbol_info t di sym sym_name_ioff escn_strtab sym_svma symtab_in_debug
        escn_opd opd_bias = some none := by
  unfold get_elf_symbol_info
  dsimp only
  split
  · rfl
  · rw [hs]
    dsimp only
    rw [hnul]
    by_cases e : sym_name_ioff = DiOffT_INVALID
    · rw [if_pos e]
    · rw [if_neg e]
      rfl

/-- A symbol that `get_elf_symbol_info` accepts has a name, whose first byte is
not NUL. -/
theorem get_elf_symbol_info_named (t : Target) (di : DebugInfo) (sym : ElfXX_Sym)
    (sym_name_ioff : Nat) (escn_strtab : DiSlice) (sym_svma : Nat) (symtab_in_debug : Bool)
    (escn_opd : DiSlice) (opd_bias : Nat) (o : SymInfo)
    (h : get_elf_symbol_info t di sym sym_name_ioff escn_strtab sym_svma symtab_in_debug
          escn_opd opd_bias = some (some o)) :
    sym_name_ioff ≠ DiOffT_INVALID
    ∧ ∃ simg c, escn_strtab.img = some simg ∧ img_get_UChar simg sym_name_ioff = some c
        ∧ c ≠ 0 := by
  unfold get_elf_symbol_info at h
  dsimp only at h
  split at h
  · cases h
  · split at h
    · cases h
    · cases h
    · rename_i hnl
      by_cases e : sym_name_ioff = DiOffT_INVALID
      · rw [if_pos e] at hnl; cases hnl
      · rw [if_neg e] at hnl
        refine ⟨e, ?_⟩
        cases hi : escn_strtab.img with
        | none => rw [hi] at hnl; cases hnl
        | some simg =>
          rw [hi] at hnl
          dsimp only at hnl
          cases hc : img_get_UChar simg sym_name_ioff with
          | none => rw [hc] at hnl; cases hnl
          | some c =>
            rw [hc] at hnl
            simp only [Option.map_some', Option.some.injEq, beq_eq_false_iff_ne, ne_eq] at hnl
            exact ⟨simg, c, rfl, hc, hnl⟩

/-- An entry that the loop of `read_elf_symtab__normal` adds a symbol for has
been read and has a name whose first byte is not NUL. -/
theorem symtab_entry__normal_named (t : Target) (di : DebugInfo) (tabimg strimg : DiImage)
    (escn_symtab escn_strtab escn_opd : DiSlice) (symtab_in_debug : Bool) (i : Nat) (s : DiSym)
    (hstr : escn_strtab.img = some strimg)
    (h : symtab_entry__normal t di tabimg strimg escn_symtab escn_strtab escn_opd
          symtab_in_debug i = some (some s)) :
    ∃ sym c, symtab_sym t tabimg escn_symtab i = some sym
      ∧ img_get_UChar strimg (add64 escn_strtab.ioff sym.st_name) = some c ∧ c ≠ 0 := by
  unfold symtab_entry__normal symtab_entry_info at h
  unfold symtab_sym
  cases hsym : img_get_Sym t tabimg (add64 escn_symtab.ioff (mulW t i (sizeof_Sym t))) with
  | none => rw [hsym] at h; cases h
  | some sym =>
    rw [hsym] at h
    dsimp only at h
    cases hg : get_elf_symbol_info t di sym (add64 escn_strtab.ioff sym.st_name) escn_strtab
        sym.st_value symtab_in_debug escn_opd di.text.bias with
    | none => rw [hg] at h; cases h
    | some r =>
      cases r with
      | none => rw [hg] at h; cases h
      | some o =>
        obtain ⟨-, simg, c, h1, h2, h3⟩ := get_elf_symbol_info_named t di sym _ escn_strtab _
          symtab_in_debug escn_opd _ o hg
        rw [hstr] at h1
        simp only [Option.some.injEq] at h1
        subst h1
        exact ⟨sym, c, rfl, h2, h3⟩

/-- C17 (counterexample): with the bytes of `symtab_img` from the offset 0x2041
as the string table, whose first byte is not NUL, `read_elf_symtab__normal` adds
a symbol for the entry `sym_noname`, whose `st_name` is 0: the symbol named
".text" at the address 0x402020. -/
theorem C17_counterexample :
    symtab_sym amd64 symtab_img symtab_tab 2 = some sym_noname
    ∧ sym_noname.st_name = 0
    ∧ symtab_entry__normal amd64 scen1_after symtab_img symtab_img symtab_tab
        symtab_str_nonul DiSlice_INVALID false 2
      = some (some ⟨0x402020, 0, cstr ".text", 16, true, false⟩)
    ∧ read_elf_symtab__normal amd64 scen1_after symtab_tab symtab_str_nonul DiSlice_INVALID
        false
      = some [⟨0x402010, 0, cstr "text", 16, true, false⟩,
              ⟨0x402020, 0, cstr ".text", 16, true, false⟩,
              ⟨0x602010, 0, cstr "data", 8, false, false⟩] := by
  decide

/-- C17 (amended): `read_elf_symtab__normal` adds no symbol for an entry whose
name starts with a NUL byte, that is, whose name is empty: the iteration for
such an entry adds nothing, and every symbol that the function adds comes from
an entry of the table whose name has a first byte that is not NUL.  An entry
with `st_name = 0` is such an entry when the first byte of the string table is
NUL. -/
theorem C17_nameless_not_emitted (t : Target) (di : DebugInfo)
    (escn_symtab escn_strtab escn_opd : DiSlice) (symtab_in_debug : Bool)
    (tabimg strimg : DiImage)
    (htab : escn_symtab.img = some tabimg) (hstr : escn_strtab.img = some strimg) :
    (∀ i sym, symtab_sym t tabimg escn_symtab i = some sym →
        img_get_UChar strimg (add64 escn_strtab.ioff sym.st_name) = some 0 →
        symtab_entry__normal t di tabimg strimg escn_symtab escn_strtab escn_opd
          symtab_in_debug i = some none)
    ∧ (∀ i sym, symtab_sym t tabimg escn_symtab i = some sym → sym.st_name = 0 →
        escn_strtab.ioff < mod64 → img_get_UChar strimg escn_strtab.ioff = some 0 →
        symtab_entry__normal t di tabimg strimg escn_symtab escn_strtab escn_opd
          symtab_in_debug i = some none)
    ∧ (∀ syms, read_elf_symtab__normal t di escn_symtab escn_strtab escn_opd symtab_in_debug
          = some syms →
        ∀ s ∈ syms, ∃ i sym c, 1 ≤ i ∧ i < symtab_count t escn_symtab
          ∧ symtab_sym t tabimg escn_symtab i = some sym
          ∧ symtab_entry__normal t di tabimg strimg escn_symtab escn_strtab escn_opd
              symtab_in_debug i = some (some s)
          ∧ img_get_UChar strimg (add64 escn_strtab.ioff sym.st_name) = some c ∧ c ≠ 0) := by
  have h1 : ∀ i sym, symtab_sym t tabimg escn_symtab i = some sym →
      img_get_UChar strimg (add64 escn_strtab.ioff sym.st_name) = some 0 →
      symtab_entry__normal t di tabimg strimg escn_symtab escn_strtab escn_opd
        symtab_in_debug i = some none := by
    intro i sym hsym hnul
    unfold symtab_sym at hsym
    unfold symtab_entry__normal symtab_entry_info
    rw [hsym]
    dsimp only
    rw [get_elf_symbol_info_nameless t di sym _ escn_strtab _ symtab_in_debug escn_opd _
      strimg hstr hnul]
  refine ⟨h1, ?_, ?_⟩
  · intro i sym hsym h0 hlt hnul
    apply h1 i sym hsym
    rw [h0]
    unfold add64
    rw [Nat.add_zero, Nat.mod_eq_of_lt hlt]
    exact hnul
  · intro syms hread s hs
    unfold read_elf_symtab__normal at hread
    rw [hstr, htab] at hread
    dsimp only at hread
    have hinv := forOpt_some_inv_idx _
      (fun k (st : List DiSym) => ∀ s ∈ st, ∃ i, 1 ≤ i ∧ i < k
        ∧ symtab_entry__normal t di tabimg strimg escn_symtab escn_strtab escn_opd
            symtab_in_debug i = some (some s))
      (symtab_count t escn_symtab - 1) 1 [] syms ?_ ?_ hread
    · obtain ⟨i, hi1, hi2, hi3⟩ := hinv s hs
      obtain ⟨sym, c, q1, q2, q3⟩ := symtab_entry__normal_named t di tabimg strimg escn_symtab
        escn_strtab escn_opd symtab_in_debug i s hstr hi3
      exact ⟨i, sym, c, hi1, by omega, q1, hi3, q2, q3⟩
    · intro j st st2 hj1 hj2 hP hbody
      cases he : symtab_entry__normal t di tabimg strimg escn_symtab escn_strtab escn_opd
          symtab_in_debug j with
      | none => rw [he] at hbody; cases hbody
      | some r =>
        rw [he] at hbody
        cases r with
        | none =>
          simp only [Option.some.injEq] at hbody
          subst hbody
          intro s hs
          obtain ⟨i, a, b, c⟩ := hP s hs
          exact ⟨i, a, by omega, c⟩
        | some s1 =>
          simp only [Option.some.injEq] at hbody
          subst hbody
          intro s hs
          rcases List.mem_append.1 hs with hs | hs
          · obtain ⟨i, a, b, c⟩ := hP s hs
            exact ⟨i, a, by omega, c⟩
          · simp only [List.mem_singleton] at hs
            subst hs
            exact ⟨j, hj1, by omega, he⟩
    · intro s hs
      cases hs

/-- C17 (witness): the symbol table of `symtab_img` with the string table whose
first byte is NUL: nothing is added for the entry `sym_noname`, whose `st_name`
is 0, and the symbols of the two other entries are added. -/
theorem C17_witness :
    symtab_sym amd64 symtab_img symtab_tab 2 = some sym_noname
    ∧ symtab_entry__normal amd64 scen1_after symtab_img symtab_img symtab_tab symtab_str
        DiSlice_INVALID false 2 = some none
    ∧ read_elf_symtab__normal amd64 scen1_after symtab_tab symtab_str DiSlice_INVALID false
      = some [⟨0x402010, 0, cstr ".text", 16, true, false⟩,
              ⟨0x602010, 0, cstr ".data", 8, false, false⟩] :=
  ⟨by decide,
    (C17_nameless_not_emitted amd64 scen1_after symtab_tab symtab_str DiSlice_INVALID false
      symtab_img symtab_img rfl rfl).2.1 2 sym_noname (by decide) rfl (by decide) (by decide),
    by decide⟩

/-! ### C19 -/

theorem strcmp_bytes_self (s : List Nat) : strcmp_bytes s s = 0 := by
  induction s with
  | nil => rfl
  | cons a s ih => simp [strcmp_bytes, ih]

theorem strcmp_bytes_eq_zero : ∀ (s1 s2 : List Nat), strcmp_bytes s1 s2 = 0 → s1 = s2 := by
  intro s1
  induction s1 with
  | nil =>
    intro s2 h
    cases s2 with
    | nil => rfl
    | cons b s2 => simp [strcmp_bytes] at h
  | cons a s1 ih =>
    intro s2 h
    cases s2 with
    | nil => simp [strcmp_bytes] at h
    | cons b s2 =>
      simp only [strcmp_bytes] at h
      by_cases h1 : a < b
      · rw [if_pos h1] at h; cases h
      · rw [if_neg h1] at h
        by_cases h2 : a > b
        · rw [if_pos h2] at h; cases h
        · rw [if_neg h2] at h
          have hab : a = b := by omega
          rw [hab, ih s2 h]

/-- The comparison of a key with an element gives 0 exactly when they have the
same address and the same name, the two names being strings of the image. -/
theorem cmp_TempSymKey_zero (simg : DiImage) (addr name : Nat) (e : TempSym)
    (h : cmp_TempSymKey simg addr name e = some 0) :
    addr = e.addr ∧ ∃ s, img_strdup simg name = some s ∧ img_strdup simg e.name = some s := by
  unfold cmp_TempSymKey at h
  by_cases h1 : addr < e.addr
  · rw [if_pos h1] at h; cases h
  rw [if_neg h1] at h
  by_cases h2 : addr > e.addr
  · rw [if_pos h2] at h; cases h
  rw [if_neg h2] at h
  by_cases h3 : name = DiOffT_INVALID
  · rw [if_pos h3] at h; cases h
  rw [if_neg h3] at h
  by_cases h4 : e.name = DiOffT_INVALID
  · rw [if_pos h4] at h; cases h
  rw [if_neg h4] at h
  refine ⟨by omega, ?_⟩
  unfold img_strcmp at h
  cases hs1 : img_strdup simg name with
  | none => rw [hs1] at h; cases h
  | some s1 =>
    cases hs2 : img_strdup simg e.name with
    | none => rw [hs1, hs2] at h; cases h
    | some s2 =>
      rw [hs1, hs2] at h
      simp only [Option.some.injEq] at h
      exact ⟨s1, rfl, by rw [strcmp_bytes_eq_zero s1 s2 h]⟩

/-- A comparison of a key with an element of the same address and the same name
gives 0 when it returns. -/
theorem cmp_TempSymKey_same (simg : DiImage) (addr name : Nat) (e : TempSym) (N : List Nat)
    (c : Int) (ha : addr = e.addr) (h1 : img_strdup simg name = some N)
    (h2 : img_strdup simg e.name = some N)
    (h : cmp_TempSymKey simg addr name e = some c) : c = 0 := by
  unfold cmp_TempSymKey at h
  rw [ha] at h
  simp only [lt_self_iff_false, if_false, gt_iff_lt] at h
  by_cases h3 : name = DiOffT_INVALID
  · rw [if_pos h3] at h; cases h
  rw [if_neg h3] at h
  by_cases h4 : e.name = DiOffT_INVALID
  · rw [if_pos h4] at h; cases h
  rw [if_neg h4] at h
  unfold img_strcmp at h
  rw [h1, h2] at h
  simp only [Option.some.injEq] at h
  rw [← h, strcmp_bytes_self]

/-- The element that a lookup finds compares equal to the key. -/
theorem oset_lookup_found (simg : DiImage) (addr name : Nat) :
    ∀ (l : List TempSym) (k : Nat), oset_lookup simg addr name l = some (some k) →
      ∃ l1 e l2, l = l1 ++ e :: l2 ∧ l1.length = k
        ∧ cmp_TempSymKey simg addr name e = some 0 := by
  intro l
  induction l with
  | nil => intro k h; simp [oset_lookup] at h
  | cons e rest ih =>
    intro k h
    simp only [oset_lookup] at h
    cases hc : cmp_TempSymKey simg addr name e with
    | none => rw [hc] at h; cases h
    | some c =>
      rw [hc] at h
      dsimp only at h
      by_cases h0 : c = 0
      · rw [if_pos h0] at h
        simp only [Option.some.injEq] at h
        subst h
        subst h0
        exact ⟨[], e, rest, rfl, rfl, hc⟩
      · rw [if_neg h0] at h
        cases hr : oset_lookup simg addr name rest with
        | none => rw [hr] at h; cases h
        | some r =>
          rw [hr] at h
          cases r with
          | none => simp at h
          | some k1 =>
            simp only [Option.map_some', Option.some.injEq] at h
            subst h
            obtain ⟨l1, e1, l2, q1, q2, q3⟩ := ih k1 hr
            exact ⟨e :: l1, e1, l2, by rw [q1]; rfl, by simp [q2], q3⟩

/-- When a lookup finds nothing, no element compares equal to the key, and every
comparison has returned. -/
theorem oset_lookup_none (simg : DiImage) (addr name : Nat) :
    ∀ (l : List TempSym), oset_lookup simg addr name l = some none →
      ∀ e ∈ l, ∃ c, cmp_TempSymKey simg addr name e = some c ∧ c ≠ 0 := by
  intro l
  induction l with
  | nil => intro _ e he; cases he
  | cons e rest ih =>
    intro h x hx
    simp only [oset_lookup] at h
    cases hc : cmp_TempSymKey simg addr name e with
    | none => rw [hc] at h; cases h
    | some c =>
      rw [hc] at h
      dsimp only at h
      by_cases h0 : c = 0
      · rw [if_pos h0] at h; cases h
      · rw [if_neg h0] at h
        cases hr : oset_lookup simg addr name rest with
        | none => rw [hr] at h; cases h
        | some r =>
          rw [hr] at h
          cases r with
          | some k1 => simp at h
          | none =>
            rcases List.mem_cons.1 hx with hx | hx
            · subst hx; exact ⟨c, hc, h0⟩
            · exact ih hr x hx

/-- An insertion places the new element between two parts of the list. -/
theorem oset_insert_split (simg : DiImage) (elem : TempSym) :
    ∀ (l l' : List TempSym), oset_insert simg elem l = some l' →
      ∃ l1 l2, l = l1 ++ l2 ∧ l' = l1 ++ elem :: l2 := by
  intro l
  induction l with
  | nil =>
    intro l' h
    simp only [oset_insert, Option.some.injEq] at h
    exact ⟨[], [], rfl, h.symm⟩
  | cons e rest ih =>
    intro l' h
    simp only [oset_insert] at h
    cases hc : cmp_TempSymKey simg elem.addr elem.name e with
    | none => rw [hc] at h; cases h
    | some c =>
      rw [hc] at h
      dsimp only at h
      by_cases h0 : c < 0
      · rw [if_pos h0] at h
        simp only [Option.some.injEq] at h
        exact ⟨[], e :: rest, rfl, h.symm⟩
      · rw [if_neg h0] at h
        cases hr : oset_insert simg elem rest with
        | none => rw [hr] at h; cases h
        | some r =>
          rw [hr] at h
          simp only [Option.map_some', Option.some.injEq] at h
          obtain ⟨l1, l2, q1, q2⟩ := ih r hr
          exact ⟨e :: l1, l2, by rw [q1]; rfl, by rw [← h, q2]; rfl⟩

/-- The two outcomes of the merge of an accepted entry into the set: the element
that compares equal to its key is replaced by its merge with the entry, or no
element compares equal and a new element is inserted. -/
theorem ppc64_merge_cases (simg : DiImage) (l l' : List TempSym) (o : SymInfo)
    (h : ppc64_merge simg l o = some l') :
    (∃ l1 p l2, l = l1 ++ p :: l2
        ∧ cmp_TempSymKey simg o.sym_avma_out o.sym_name_out_ioff p = some 0
        ∧ l' = l1 ++ merge_elem p o :: l2)
    ∨ ((∀ e ∈ l, ∃ c, cmp_TempSymKey simg o.sym_avma_out o.sym_name_out_ioff e = some c
          ∧ c ≠ 0)
        ∧ ∃ l1 l2, l = l1 ++ l2 ∧ l' = l1 ++ TempSym.ofInfo o :: l2) := by
  unfold ppc64_merge at h
  cases hl : oset_lookup simg o.sym_avma_out o.sym_name_out_ioff l with
  | none => rw [hl] at h; cases h
  | some r =>
    rw [hl] at h
    cases r with
    | none =>
      right
      exact ⟨oset_lookup_none simg _ _ l hl, oset_insert_split simg _ l l' h⟩
    | some k =>
      left
      obtain ⟨l1, p, l2, q1, q2, q3⟩ := oset_lookup_found simg _ _ l k hl
      refine ⟨l1, p, l2, q1, q3, ?_⟩
      dsimp only at h
      have hget : l.get? k = some p := by
        rw [q1, ← q2, List.get?_eq_getElem?, List.getElem?_append_right (le_refl _)]
        simp
      have hset : ∀ x, l.set k x = l1 ++ x :: l2 := by
        intro x
        rw [q1, ← q2]
        simp
      rw [hget] at h
      dsimp only at h
      unfold merge_elem
      split_ifs at h with h1 h2 h3
      · rw [if_pos h1]
        simp only [Option.some.injEq] at h
        rw [← h, hset]
      · rw [if_neg h1, if_pos h2]
        simp only [Option.some.injEq] at h
        rw [← h, hset]
      · rw [if_neg h1, if_neg h2]
        simp only [Option.some.injEq] at h
        rw [← h, q1]

theorem has_key_merge_elem (simg : DiImage) (X : Nat) (N : List Nat) (p : TempSym)
    (o : SymInfo) : has_key simg X N (merge_elem p o) = has_key simg X N p := by
  unfold merge_elem
  split_ifs <;> rfl

theorem has_key_of_cmp (simg : DiImage) (X : Nat) (N : List Nat) (p : TempSym) (o : SymInfo)
    (h : cmp_TempSymKey simg o.sym_avma_out o.sym_name_out_ioff p = some 0) :
    has_key simg X N p = true ↔ info_has_key simg X N o := by
  obtain ⟨ha, s, h1, h2⟩ := cmp_TempSymKey_zero simg _ _ p h
  unfold has_key info_has_key
  simp only [Bool.and_eq_true, decide_eq_true_eq]
  rw [ha, h1, h2]

theorem has_key_ofInfo (simg : DiImage) (X : Nat) (N : List Nat) (o : SymInfo) :
    has_key simg X N (TempSym.ofInfo o) = true ↔ info_has_key simg X N o := by
  unfold has_key info_has_key TempSym.ofInfo
  simp only [Bool.and_eq_true, decide_eq_true_eq]

/-- The merge of an entry of another key leaves the pending symbols of the key
`(X, N)` as they are. -/
theorem ppc64_merge_other (simg : DiImage) (X : Nat) (N : List Nat) (l l' : List TempSym)
    (o : SymInfo) (hk : ¬ info_has_key simg X N o) (h : ppc64_merge simg l o = some l') :
    l'.filter (has_key simg X N) = l.filter (has_key simg X N) := by
  rcases ppc64_merge_cases simg l l' o h with ⟨l1, p, l2, q1, q2, q3⟩ | ⟨-, l1, l2, q1, q2⟩
  · have hp : has_key simg X N p = false := by
      cases hb : has_key simg X N p with
      | false => rfl
      | true => exact absurd ((has_key_of_cmp simg X N p o q2).1 hb) hk
    have hp' : has_key simg X N (merge_elem p o) = false := by
      rw [has_key_merge_elem, hp]
    rw [q1, q3]
    simp [List.filter_append, List.filter_cons, hp, hp']
  · have hn : has_key simg X N (TempSym.ofInfo o) = false := by
      cases hb : has_key simg X N (TempSym.ofInfo o) with
      | false => rfl
      | true => exact absurd ((has_key_ofInfo simg X N o).1 hb) hk
    rw [q1, q2]
    simp [List.filter_append, List.filter_cons, hn]

/-- The merge of an entry of the key `(X, N)` into a set without such a pending
symbol inserts the entry. -/
theorem ppc64_merge_new (simg : DiImage) (X : Nat) (N : List Nat) (l l' : List TempSym)
    (o : SymInfo) (hk : info_has_key simg X N o)
    (hf : l.filter (has_key simg X N) = []) (h : ppc64_merge simg l o = some l') :
    l'.filter (has_key simg X N) = [TempSym.ofInfo o] := by
  rcases ppc64_merge_cases simg l l' o h with ⟨l1, p, l2, q1, q2, q3⟩ | ⟨-, l1, l2, q1, q2⟩
  · exfalso
    have hp : has_key simg X N p = true := (has_key_of_cmp simg X N p o q2).2 hk
    have hmem : p ∈ l.filter (has_key simg X N) := by
      rw [List.mem_filter]
      exact ⟨by rw [q1]; simp, hp⟩
    rw [hf] at hmem
    cases hmem
  · have hn : has_key simg X N (TempSym.ofInfo o) = true := (has_key_ofInfo simg X N o).2 hk
    rw [q1, List.filter_append] at hf
    obtain ⟨f1, f2⟩ := List.append_eq_nil.1 hf
    rw [q2, List.filter_append, List.filter_cons, f1, hn, f2]
    rfl

/-- The merge of an entry of the key `(X, N)` into a set with one such pending
symbol merges the entry into it. -/
theorem ppc64_merge_old (simg : DiImage) (X : Nat) (N : List Nat) (l l' : List TempSym)
    (o : SymInfo) (p : TempSym) (hk : info_has_key simg X N o)
    (hf : l.filter (has_key simg X N) = [p]) (h : ppc64_merge simg l o = some l') :
    l'.filter (has_key simg X N) = [merge_elem p o] := by
  have hpm : p ∈ l.filter (has_key simg X N) := by rw [hf]; simp
  rw [List.mem_filter] at hpm
  rcases ppc64_merge_cases simg l l' o h with ⟨l1, p1, l2, q1, q2, q3⟩ | ⟨hne, -⟩
  · have hp : has_key simg X N p1 = true := (has_key_of_cmp simg X N p1 o q2).2 hk
    rw [q1, List.filter_append, List.filter_cons, hp] at hf
    simp only [if_true] at hf
    cases hf1 : List.filter (has_key simg X N) l1 with
    | cons a as =>
      rw [hf1] at hf
      simp only [List.cons_append, List.cons.injEq] at hf
      have := congrArg List.length hf.2
      simp at this
    | nil =>
      rw [hf1] at hf
      simp only [List.nil_append, List.cons.injEq] at hf
      obtain ⟨e1, e2⟩ := hf
      subst e1
      rw [q3, List.filter_append, List.filter_cons, hf1, has_key_merge_elem, hp, e2]
      rfl
  · exfalso
    obtain ⟨c, hc, hc0⟩ := hne p hpm.1
    unfold has_key at hpm
    simp only [Bool.and_eq_true, decide_eq_true_eq] at hpm
    exact hc0 (cmp_TempSymKey_same simg _ _ p N c (hk.1.trans hpm.2.1.symm) hk.2 hpm.2.2 hc)

/-- The symbols of the key `(X, N)` that the second loop adds are those of the
pending symbols of that key. -/
theorem oset_emit_filter (strimg : DiImage) (X : Nat) (N : List Nat) :
    ∀ (l : List TempSym) (syms : List DiSym), oset_emit strimg l = some syms →
      syms.filter (sym_has_key X N)
        = (l.filter (has_key strimg X N)).map fun e =>
            { addr := e.addr, tocptr := e.tocptr, pri_name := N, size := e.size,
              isText := e.is_text, isIFunc := e.is_ifunc } := by
  intro l
  induction l with
  | nil =>
    intro syms h
    simp only [oset_emit, Option.some.injEq] at h
    subst h
    rfl
  | cons e rest ih =>
    intro syms h
    simp only [oset_emit] at h
    cases hs : img_strdup strimg e.name with
    | none => rw [hs] at h; cases h
    | some c =>
      rw [hs] at h
      dsimp only at h
      cases hr : oset_emit strimg rest with
      | none => rw [hr] at h; cases h
      | some r =>
        rw [hr] at h
        simp only [Option.map_some', Option.some.injEq] at h
        subst h
        rw [List.filter_cons, List.filter_cons, ih r hr]
        by_cases hk : e.addr = X ∧ c = N
        · have h1 : sym_has_key X N
              { addr := e.addr, tocptr := e.tocptr, pri_name := c, size := e.size,
                isText := e.is_text, isIFunc := e.is_ifunc } = true := by
            simp [sym_has_key, hk.1, hk.2]
          have h2 : has_key strimg X N e = true := by
            simp [has_key, hk.1, hs, hk.2]
          rw [h1, h2]
          simp [hk.2]
        · have h1 : sym_has_key X N
              { addr := e.addr, tocptr := e.tocptr, pri_name := c, size := e.size,
                isText := e.is_text, isIFunc := e.is_ifunc } = false := by
            simp only [sym_has_key, Bool.and_eq_false_imp, decide_eq_true_eq,
              decide_eq_false_iff_not]
            intro ha hc
            exact hk ⟨ha, hc⟩
          have h2 : has_key strimg X N e = false := by
            simp only [has_key, hs, Option.some.injEq, Bool.and_eq_false_imp,
              decide_eq_true_eq, decide_eq_false_iff_not]
            intro ha hc
            exact hk ⟨ha, hc⟩
          rw [h1, h2]
          simp

/-- The merge of the other entry into the pending symbol of the `.opd`-redirect
entry adopts its size, and keeps the TOC pointer. -/
theorem merge_elem_opd_first (oi oj : SymInfo) (hopd : oi.from_opd_out = true)
    (hsz : oi.sym_size_out = 16 ∨ oi.sym_size_out = 24) (hnon : oj.from_opd_out = false)
    (hdiff : oj.sym_size_out ≠ oi.sym_size_out) :
    (merge_elem (TempSym.ofInfo oi) oj).tocptr = oi.sym_tocptr_out
    ∧ (merge_elem (TempSym.ofInfo oi) oj).size = oj.sym_size_out := by
  unfold merge_elem TempSym.ofInfo
  dsimp only
  rw [if_pos]
  · exact ⟨rfl, rfl⟩
  · rcases hsz with h | h <;> simp [hopd, hnon, h, hdiff] <;> omega

/-- The merge of the `.opd`-redirect entry into the pending symbol of the other
entry adopts its TOC pointer, and keeps the size. -/
theorem merge_elem_opd_second (oi oj : SymInfo) (hopd : oi.from_opd_out = true)
    (hsz : oi.sym_size_out = 16 ∨ oi.sym_size_out = 24) (hnon : oj.from_opd_out = false) :
    (merge_elem (TempSym.ofInfo oj) oi).tocptr = oi.sym_tocptr_out
    ∧ (merge_elem (TempSym.ofInfo oj) oi).size = oj.sym_size_out := by
  unfold merge_elem TempSym.ofInfo
  dsimp only
  rw [if_neg, if_pos]
  · exact ⟨rfl, rfl⟩
  · rcases hsz with h | h <;> simp [hopd, hnon, h]
  · simp [hnon]

/-- C19: if `read_elf_symtab__ppc64_linux` returns on a symbol table that holds
an accepted `.opd`-redirect entry `i` (`from_opd`, size 16 or 24, address `X`,
TOC pointer `Y`) and an accepted entry `j` that is not from `.opd`, with the same
name `N`, the same address `X` and a different size `S`, in either order, and no
other accepted entry has the address `X` and the name `N`, then the function
adds exactly one symbol with the address `X` and the name `N`, and that symbol
has the TOC pointer `Y` and the size `S`. -/
theorem C19_opd_redirect_merged (t : Target) (di : DebugInfo)
    (escn_symtab escn_strtab escn_opd : DiSlice) (symtab_in_debug : Bool)
    (tabimg strimg : DiImage) (syms : List DiSym) (i j : Nat) (oi oj : SymInfo) (N : List Nat)
    (htab : escn_symtab.img = some tabimg) (hstr : escn_strtab.img = some strimg)
    (hread : read_elf_symtab__ppc64_linux t di escn_symtab escn_strtab escn_opd
              symtab_in_debug = some syms)
    (hi1 : 1 ≤ i) (hi2 : i < symtab_count t escn_symtab)
    (hj1 : 1 ≤ j) (hj2 : j < symtab_count t escn_symtab) (hij : i ≠ j)
    (hoi : symtab_entry_info t di tabimg escn_symtab escn_strtab escn_opd symtab_in_debug i
            = some (some oi))
    (hoj : symtab_entry_info t di tabimg escn_symtab escn_strtab escn_opd symtab_in_debug j
            = some (some oj))
    (hopd : oi.from_opd_out = true)
    (hsz : oi.sym_size_out = 16 ∨ oi.sym_size_out = 24)
    (hnon : oj.from_opd_out = false)
    (hdiff : oj.sym_size_out ≠ oi.sym_size_out)
    (haddr : oj.sym_avma_out = oi.sym_avma_out)
    (hni : img_strdup strimg oi.sym_name_out_ioff = some N)
    (hnj : img_strdup strimg oj.sym_name_out_ioff = some N)
    (hother : ∀ k o, 1 ≤ k → k < symtab_count t escn_symtab → k ≠ i → k ≠ j →
      symtab_entry_info t di tabimg escn_symtab escn_strtab escn_opd symtab_in_debug k
        = some (some o) →
      ¬ info_has_key strimg oi.sym_avma_out N o) :
    ∃ s, syms.filter (sym_has_key oi.sym_avma_out N) = [s]
      ∧ s.addr = oi.sym_avma_out ∧ s.pri_name = N
      ∧ s.tocptr = oi.sym_tocptr_out ∧ s.size = oj.sym_size_out := by
  have hki : info_has_key strimg oi.sym_avma_out N oi := ⟨rfl, hni⟩
  have hkj : info_has_key strimg oi.sym_avma_out N oj := ⟨haddr, hnj⟩
  unfold read_elf_symtab__ppc64_linux at hread
  rw [hstr, htab] at hread
  dsimp only at hread
  cases hscan : forOpt
      (symtab_entry__ppc64 t di tabimg strimg escn_symtab escn_strtab escn_opd symtab_in_debug)
      (symtab_count t escn_symtab - 1) 1 [] with
  | none => rw [hscan] at hread; cases hread
  | some oset =>
    rw [hscan] at hread
    dsimp only at hread
    have hinv := forOpt_some_inv_idx _
      (opd_merge_inv strimg oi.sym_avma_out N i j oi oj)
      (symtab_count t escn_symtab - 1) 1 [] oset ?_ ?_ hscan
    · have hn : 1 + (symtab_count t escn_symtab - 1) = symtab_count t escn_symtab := by omega
      rw [hn] at hinv
      obtain ⟨e, he, ht, hs⟩ := hinv.2.2.2 hi2 hj2
      have hem := oset_emit_filter strimg oi.sym_avma_out N oset syms hread
      rw [he] at hem
      have hmem : e ∈ oset.filter (has_key strimg oi.sym_avma_out N) := by rw [he]; simp
      rw [List.mem_filter] at hmem
      unfold has_key at hmem
      simp only [Bool.and_eq_true, decide_eq_true_eq] at hmem
      exact ⟨_, hem, hmem.2.1, rfl, ht, hs⟩
    · -- one iteration
      intro k l l' hk1 hk2 hP hbody
      have hk3 : k < symtab_count t escn_symtab := by omega
      obtain ⟨P1, P2, P3, P4⟩ := hP
      unfold symtab_entry__ppc64 at hbody
      cases hinfo : symtab_entry_info t di tabimg escn_symtab escn_strtab escn_opd
          symtab_in_debug k with
      | none => rw [hinfo] at hbody; cases hbody
      | some r =>
        rw [hinfo] at hbody
        cases r with
        | none =>
          simp only [Option.some.injEq] at hbody
          subst hbody
          have hki' : k ≠ i := by
            intro e; rw [e, hoi] at hinfo; cases hinfo
          have hkj' : k ≠ j := by
            intro e; rw [e, hoj] at hinfo; cases hinfo
          exact ⟨fun a b => P1 (by omega) (by omega), fun a b => P2 (by omega) (by omega),
            fun a b => P3 (by omega) (by omega), fun a b => P4 (by omega) (by omega)⟩
        | some o =>
          dsimp only at hbody
          by_cases hki' : k = i
          · subst hki'
            rw [hoi] at hinfo
            simp only [Option.some.injEq] at hinfo
            subst hinfo
            by_cases hlt : k < j
            · have hf := ppc64_merge_new strimg oi.sym_avma_out N l l' oi hki
                (P1 (le_refl _) (by omega)) hbody
              exact ⟨fun a b => by omega, fun _ _ => hf, fun a b => by omega,
                fun a b => by omega⟩
            · have hf := ppc64_merge_old strimg oi.sym_avma_out N l l' oi _ hki
                (P3 (by omega) (le_refl _)) hbody
              obtain ⟨m1, m2⟩ := merge_elem_opd_second oi oj hopd hsz hnon
              exact ⟨fun a b => by omega, fun a b => by omega, fun a b => by omega,
                fun _ _ => ⟨_, hf, m1, m2⟩⟩
          · by_cases hkj' : k = j
            · subst hkj'
              rw [hoj] at hinfo
              simp only [Option.some.injEq] at hinfo
              subst hinfo
              by_cases hlt : k < i
              · have hf := ppc64_merge_new strimg oi.sym_avma_out N l l' oj hkj
                  (P1 (by omega) (le_refl _)) hbody
                exact ⟨fun a b => by omega, fun a b => by omega, fun _ _ => hf,
                  fun a b => by omega⟩
              · have hf := ppc64_merge_old strimg oi.sym_avma_out N l l' oj _ hkj
                  (P2 (by omega) (le_refl _)) hbody
                obtain ⟨m1, m2⟩ := merge_elem_opd_first oi oj hopd hsz hnon hdiff
                exact ⟨fun a b => by omega, fun a b => by omega, fun a b => by omega,
                  fun _ _ => ⟨_, hf, m1, m2⟩⟩
            · have hf := ppc64_merge_other strimg oi.sym_avma_out N l l' o
                (hother k o hk1 hk3 hki' hkj' hinfo) hbody
              unfold opd_merge_inv
              rw [hf]
              exact ⟨fun a b => P1 (by omega) (by omega), fun a b => P2 (by omega) (by omega),
                fun a b => P3 (by omega) (by omega), fun a b => P4 (by omega) (by omega)⟩
    · -- the start of the loop
      exact ⟨fun _ _ => rfl, fun a b => by omega, fun a b => by omega, fun a b => by omega⟩

/-- C19 (witness): scenario 5, on the symbol table of `ppc64_img` with the
`.opd`-redirect entry `work` (size 24) before the entry `.work` (size 128), and on
the one with the two entries in the other order: one symbol is added, with the address 0x10001100, the TOC pointer 0x1000A000 and the
size 128. -/
theorem C19_witness :
    read_elf_symtab__ppc64_linux ppc64 ppc64_after ppc64_symtab ppc64_strtab ppc64_opd false
      = some [sym_work_merged]
    ∧ read_elf_symtab__ppc64_linux ppc64 ppc64_after ppc64_symtab_rev ppc64_strtab ppc64_opd
        false = some [sym_work_merged]
    ∧ ∃ s, [sym_work_merged].filter (sym_has_key 0x10001100 (cstr "work")) = [s]
        ∧ s.addr = 0x10001100 ∧ s.pri_name = cstr "work"
        ∧ s.tocptr = 0x1000A000 ∧ s.size = 128 := by
  refine ⟨by decide, by decide, ?_⟩
  refine C19_opd_redirect_merged ppc64 ppc64_after ppc64_symtab ppc64_strtab ppc64_opd false
    ppc64_img ppc64_img [sym_work_merged] 1 2
    ⟨0x2901, 0x10001100, 24, 0x1000A000, true, true, false⟩
    ⟨0x2907, 0x10001100, 128, 0, false, true, false⟩ (cstr "work")
    rfl rfl (by decide) (by decide) (by decide) (by decide) (by decide) (by decide)
    (by decide) (by decide) rfl (Or.inr rfl) rfl (by decide) rfl (by decide) (by decide) ?_
  intro k o hk1 hk2 hki hkj
  have hk3 : k < 3 := hk2
  omega

/-! ### The end of the reader -/

/-- An invariant of the steps of a sequence holds at its end. -/
theorem foldRes_ok_inv {α σ : Type} (step : σ → α → Res σ) (P : σ → Prop)
    (hstep : ∀ s a s1, P s → step s a = Res.ok s1 → P s1) :
    ∀ (l : List α) (s s1 : σ), P s → foldRes step l s = Res.ok s1 → P s1 := by
  intro l
  induction l with
  | nil =>
    intro s s1 hP h
    simp only [foldRes, Res.ok.injEq] at h
    exact h ▸ hP
  | cons a rest ih =>
    intro s s1 hP h
    simp only [foldRes] at h
    obtain ⟨s2, h2, h3⟩ := (Res.bind_ok_iff _ _ _).1 h
    exact ih s2 s1 (hstep s a s2 hP h2) h3

/-- What the first part of the reader has done when it runs to its end. -/
theorem read_elf_debug_info_sections_ok (t : Target) (mimg : Option DiImage) (di : DebugInfo)
    (d : Discovered) (h : read_elf_debug_info_sections t mimg di = Res.ok d) :
    ∃ img hd ps ss, mimg = some img ∧ entry_asserts t di = true
      ∧ locate_headers t img di = Res.ok hd
      ∧ scan_program_headers t img hd di = Res.ok ps
      ∧ scan_section_headers t img hd ps.svma_ranges (with_soname_default ps.di) = Res.ok ss
      ∧ d = { di := ss.di, hdrs := hd, svma_ranges := ps.svma_ranges } := by
  unfold read_elf_debug_info_sections at h
  cases he : entry_asserts t di with
  | false => rw [he] at h; cases h
  | true =>
    rw [he] at h
    simp only [Bool.not_true, Bool.false_eq_true, if_false] at h
    cases mimg with
    | none => cases h
    | some img =>
      obtain ⟨hd, hloc, h⟩ := (Res.bind_ok_iff _ _ _).1 h
      obtain ⟨ps, hps, h⟩ := (Res.bind_ok_iff _ _ _).1 h
      split at h
      · cases h
      · obtain ⟨ss, hss, h⟩ := (Res.bind_ok_iff _ _ _).1 h
        simp only [Res.ok.injEq] at h
        exact ⟨img, hd, ps, ss, rfl, rfl, hloc, hps, hss, h.symm⟩

/-- The first loop over the section headers does not write the soname when it
runs to its end. -/
theorem scan_section_headers_soname (t : Target) (mimg : DiImage) (hd : MainHdrs)
    (ranges : List RangeAndBias) (di : DebugInfo) (ss : ShdrScan)
    (h : scan_section_headers t mimg hd ranges di = Res.ok ss) :
    ss.di.soname = di.soname := by
  unfold scan_section_headers at h
  refine forRes_ok_inv (shdr_step t mimg hd ranges) (fun st => st.di.soname = di.soname)
    ?_ _ _ _ _ rfl h
  intro st i st1 hP hstep
  obtain ⟨a, name, -, -, hcase⟩ := shdr_step_ok_cases t mimg hd ranges st st1 i hstep
  rcases hcase with ⟨-, he⟩ | ⟨-, hc⟩
  · rw [he]; exact hP
  · have hs := classify_section_ok t _ st st1 hc
    unfold same_except at hs
    rw [hs.2.2.2.2.2.2.2.2.2.2.1]
    exact hP

/-- The state of the soname at the end of the loop over the program headers. -/
theorem scan_program_headers_soname (t : Target) (mimg : DiImage) (hd : MainHdrs)
    (di : DebugInfo) (ps : PhdrScan)
    (hscan : scan_program_headers t mimg hd di = Res.ok ps) (hso : di.soname = none) :
    soname_inv t mimg hd hd.phdr_mnent ps.di.soname := by
  unfold scan_program_headers at hscan
  have hinv := forRes_ok_inv_idx (phdr_step t mimg hd)
    (fun k st => soname_inv t mimg hd k st.di.soname) hd.phdr_mnent 0 _ ps
    (fun j s s2 _ _ hP hs => soname_inv_step t mimg hd j s s2 hP hs)
    (Or.inl ⟨hso, fun i hi => absurd hi (by omega)⟩) hscan
  rw [Nat.zero_add] at hinv
  exact hinv

/-- The six `FIND`s of the section records of the debug image do not write the
soname. -/
theorem debug_secs_soname (t : Target) (dimg : DiImage) (h : AuxHdrs) (b : DebugBias) (i : Nat)
    (di di1 : DebugInfo) (hx : debug_secs t dimg h b i di = Res.ok di1) :
    di1.soname = di.soname := by
  unfold debug_secs at hx
  obtain ⟨r1, -, hx⟩ := (Res.bind_ok_iff _ _ _).1 hx
  obtain ⟨r2, -, hx⟩ := (Res.bind_ok_iff _ _ _).1 hx
  obtain ⟨r3, -, hx⟩ := (Res.bind_ok_iff _ _ _).1 hx
  obtain ⟨r4, -, hx⟩ := (Res.bind_ok_iff _ _ _).1 hx
  obtain ⟨r5, -, hx⟩ := (Res.bind_ok_iff _ _ _).1 hx
  obtain ⟨r6, -, hx⟩ := (Res.bind_ok_iff _ _ _).1 hx
  simp only [Res.ok.injEq] at hx
  rw [← hx]

/-- What the reader takes from a debug image does not include the soname. -/
theorem read_debug_image_soname (t : Target) (dimg : DiImage) (st st1 : AuxScan)
    (h : read_debug_image t dimg st = Res.ok st1) : st1.di.soname = st.di.soname := by
  have hstep : ∀ (hd : AuxHdrs) (b : DebugBias) (needs : Need → Bool) (s : AuxScan) (i : Nat)
      (s1 : AuxScan), s.di.soname = st.di.soname →
      debug_step t dimg hd b needs s i = Res.ok s1 → s1.di.soname = st.di.soname := by
    intro hd b needs s i s1 hP hs
    unfold debug_step at hs
    obtain ⟨di2, h2, h3⟩ := (Res.bind_ok_iff _ _ _).1 hs
    refine foldRes_ok_inv (debug_find t dimg hd needs i)
      (fun x => x.di.soname = st.di.soname) ?_ _ _ _ ?_ h3
    · intro x f x1 hx hf
      unfold debug_find at hf
      obtain ⟨r, -, hr⟩ := (Res.bind_ok_iff _ _ _).1 hf
      cases r with
      | none => simp only [Res.ok.injEq] at hr; rw [← hr]; exact hx
      | some sli => simp only [Res.ok.injEq] at hr; rw [← hr]; exact hx
    · show di2.soname = st.di.soname
      rw [debug_secs_soname t dimg hd b i s.di di2 h2]
      exact hP
  unfold read_debug_image at h
  split at h
  · cases h
  · simp only [Res.ok.injEq] at h; rw [← h]
  · split at h
    · cases h
    · dsimp only at h
      split at h
      · cases h
      · split at h
        · cases h
        · split at h
          · cases h
          · split at h
            · cases h
            · split at h
              · cases h
              · split at h
                · cases h
                · exact forRes_ok_inv _ (fun x => x.di.soname = st.di.soname)
                    (fun s i s1 hP hs => hstep _ _ _ s i s1 hP hs) _ _ _ _ rfl h

/-- What the reader takes from an alternate debug image leaves the DebugInfo as
it is. -/
theorem read_alt_image_di (t : Target) (aimg : DiImage) (st st1 : AuxScan)
    (h : read_alt_image t aimg st = Res.ok st1) : st1.di = st.di := by
  have hstep : ∀ (hd : AuxHdrs) (s : AuxScan) (i : Nat) (s1 : AuxScan), s.di = st.di →
      foldRes (alt_find t aimg hd i) alt_finds s = Res.ok s1 → s1.di = st.di := by
    intro hd s i s1 hP hs
    refine foldRes_ok_inv (alt_find t aimg hd i) (fun x => x.di = st.di) ?_ _ _ _ hP hs
    intro x f x1 hx hf
    unfold alt_find at hf
    obtain ⟨r, -, hr⟩ := (Res.bind_ok_iff _ _ _).1 hf
    cases r with
    | none => simp only [Res.ok.injEq] at hr; rw [← hr]; exact hx
    | some sli => simp only [Res.ok.injEq] at hr; rw [← hr]; exact hx
  unfold read_alt_image at h
  split at h
  · cases h
  · simp only [Res.ok.injEq] at h; rw [← h]
  · split at h
    · cases h
    · dsimp only at h
      split at h
      · cases h
      · split at h
        · cases h
        · split at h
          · cases h
          · split at h
            · cases h
            · exact forRes_ok_inv _ (fun x => x.di = st.di)
                (fun s i s1 hP hs => hstep _ s i s1 hP hs) _ _ _ _ rfl h

/-- The part of the reader from the search for the debug image to the symbol
tables does not write the soname. -/
theorem read_companions_and_symbols_soname (env : Env) (t : Target) (mimg : DiImage)
    (di : DebugInfo) (escns : Escns) (r : ReadOutcome)
    (h : read_companions_and_symbols env t mimg di escns = Res.ok r) :
    r.di.soname = di.soname := by
  unfold read_companions_and_symbols at h
  split at h
  · cases h
  · rename_i dimg hdimg
    obtain ⟨st1, h1, h⟩ := (Res.bind_ok_iff _ _ _).1 h
    have e1 : st1.di.soname = di.soname := by
      cases dimg with
      | none => simp only [Res.ok.injEq] at h1; rw [← h1]
      | some d => exact read_debug_image_soname t d _ st1 h1
    split at h
    · cases h
    · rename_i aimg haimg
      obtain ⟨st2, h2, h⟩ := (Res.bind_ok_iff _ _ _).1 h
      have e2 : st2.di = st1.di := by
        cases aimg with
        | none => simp only [Res.ok.injEq] at h2; rw [← h2]
        | some a => exact read_alt_image_di t a st1 st2 h2
      dsimp only at h
      split at h
      · cases h
      · split at h
        · cases h
        · split at h
          · cases h
          · split at h
            · cases h
            · simp only [Res.ok.injEq] at h
              rw [← h]
              show st2.di.soname = di.soname
              rw [e2, e1]

/-- The entry assertions hold only for a DebugInfo without a soname. -/
theorem entry_asserts_soname (t : Target) (di : DebugInfo) (h : entry_asserts t di = true) :
    di.soname = none := by
  unfold entry_asserts at h
  simp only [Bool.and_eq_true] at h
  exact Option.isNone_iff_eq_none.1 h.1.1.1.2

/-! ### C11 -/

/-- C11 (counterexample): the image of scenario 2 with a DT_SONAME of 0x27.  The
string table of the dynamic segment is at the file offset 0x2040, and the byte
at 0x2040 + 0x27 is NUL: the function returns True and the soname is the empty
string. -/
theorem C11_counterexample :
    ∃ r, read_elf_debug_info (env_of empty_soname_img) amd64 scen1_di = Res.ok r
      ∧ img_strdup empty_soname_img (0x2040 + 0x27) = some []
      ∧ r.di.soname = some []
      ∧ r.di.soname ≠ some (cstr "NONE") :=
  ⟨_, rfl, by decide, by decide, by decide⟩

/-- C11 (amended): whenever `ML_(read_elf_debug_info)` returns True, the soname is
not NULL: it is "NONE" whenever no PT_DYNAMIC entry of the main image gives both
pieces, and else it is the NUL-terminated string, which may be empty, that
`ML_(img_strdup)` reads at the image offset `strtab_mioff + stroff` found
through the first PT_DYNAMIC entry that gives both pieces. -/
theorem C11_soname_set_on_success (env : Env) (t : Target) (di : DebugInfo) (r : ReadOutcome)
    (h : read_elf_debug_info env t di = Res.ok r) :
    ∃ mimg hd, di.filename.bind env.img_from_local_file = some mimg
      ∧ locate_headers t mimg di = Res.ok hd
      ∧ (∃ s, r.di.soname = some s)
      ∧ ((∀ i, i < hd.phdr_mnent → (phdr_entry mimg hd i).p_type = PT_DYNAMIC →
            no_soname_pieces t mimg hd (phdr_entry mimg hd i))
          → r.di.soname = some (cstr "NONE"))
      ∧ ((∃ i, i < hd.phdr_mnent ∧ (phdr_entry mimg hd i).p_type = PT_DYNAMIC
            ∧ ¬ no_soname_pieces t mimg hd (phdr_entry mimg hd i))
          → ∃ k0, k0 < hd.phdr_mnent ∧ (phdr_entry mimg hd k0).p_type = PT_DYNAMIC
              ∧ (∀ i, i < k0 → (phdr_entry mimg hd i).p_type = PT_DYNAMIC →
                  no_soname_pieces t mimg hd (phdr_entry mimg hd i))
              ∧ ∃ di1 stroff strtab_mioff str,
                  dyn_walk t mimg di1 hd (phdr_entry mimg hd k0) (mimg.size + 1) 0 (negW t 1)
                      DiOffT_INVALID = Res.ok (stroff, strtab_mioff)
                  ∧ stroff ≠ negW t 1 ∧ strtab_mioff ≠ DiOffT_INVALID
                  ∧ img_strdup mimg (add64 strtab_mioff (sext64 t stroff)) = some str
                  ∧ r.di.soname = some str) := by
  unfold read_elf_debug_info at h
  dsimp only at h
  obtain ⟨d, hd1, h⟩ := (Res.bind_ok_iff _ _ _).1 h
  obtain ⟨img, hd, ps, ss, hm, hentry, hloc, hps, hss, hdeq⟩ :=
    read_elf_debug_info_sections_ok _ _ _ _ hd1
  rw [hm] at h
  dsimp only at h
  obtain ⟨escns, -, h⟩ := (Res.bind_ok_iff _ _ _).1 h
  obtain ⟨r1, hr1, h⟩ := (Res.bind_ok_iff _ _ _).1 h
  split at h
  · cases h
  · simp only [Res.ok.injEq] at h
    subst h
    have e1 := read_companions_and_symbols_soname env t img d.di escns r1 hr1
    have e2 := scan_section_headers_soname t img hd ps.svma_ranges _ ss hss
    have e3 : d.di.soname = ss.di.soname := by rw [hdeq]
    have hinv := scan_program_headers_soname t img hd di ps hps (entry_asserts_soname t di hentry)
    have hso : r1.di.soname
        = some (match ps.di.soname with | some s => s | none => soname_NONE) := by
      rw [e1, e3, e2, with_soname_default_soname]
    refine ⟨img, hd, hm, hloc, ⟨_, hso⟩, ?_, ?_⟩
    · intro hall
      rcases hinv with ⟨hnone, -⟩ | ⟨k0, hk0, hty, -, di1, so, sm, str, hw, h1, h2, -, -⟩
      · rw [hso, hnone]
        rfl
      · rcases hall k0 hk0 hty di1 (so, sm) hw with hx | hx
        · exact absurd hx h1
        · exact absurd hx h2
    · rintro ⟨i, hi, hty, hnot⟩
      rcases hinv with ⟨-, hl⟩ | ⟨k0, hk0, hty0, hl, di1, so, sm, str, hw, h1, h2, h3, hsome⟩
      · exact absurd (hl i hi hty) hnot
      · refine ⟨k0, hk0, hty0, hl, di1, so, sm, str, hw, h1, h2, h3, ?_⟩
        rw [hso, hsome]

/-- C11 (witness): scenario 2 as the file of the DebugInfo.  The function returns
True and the soname is "libfoo.so.1", read through the PT_DYNAMIC entry. -/
theorem C11_witness :
    ∃ r, read_elf_debug_info (env_of scen2_img) amd64 scen1_di = Res.ok r
      ∧ r.di.soname = some (cstr "libfoo.so.1")
      ∧ ∃ mimg hd, scen1_di.filename.bind (env_of scen2_img).img_from_local_file = some mimg
          ∧ locate_headers amd64 mimg scen1_di = Res.ok hd
          ∧ (∃ s, r.di.soname = some s)
          ∧ ((∀ i, i < hd.phdr_mnent → (phdr_entry mimg hd i).p_type = PT_DYNAMIC →
                no_soname_pieces amd64 mimg hd (phdr_entry mimg hd i))
              → r.di.soname = some (cstr "NONE"))
          ∧ ((∃ i, i < hd.phdr_mnent ∧ (phdr_entry mimg hd i).p_type = PT_DYNAMIC
                ∧ ¬ no_soname_pieces amd64 mimg hd (phdr_entry mimg hd i))
              → ∃ k0, k0 < hd.phdr_mnent ∧ (phdr_entry mimg hd k0).p_type = PT_DYNAMIC
                  ∧ (∀ i, i < k0 → (phdr_entry mimg hd i).p_type = PT_DYNAMIC →
                      no_soname_pieces amd64 mimg hd (phdr_entry mimg hd i))
                  ∧ ∃ di1 stroff strtab_mioff str,
                      dyn_walk amd64 mimg di1 hd (phdr_entry mimg hd k0) (mimg.size + 1) 0
                          (negW amd64 1) DiOffT_INVALID = Res.ok (stroff, strtab_mioff)
                      ∧ stroff ≠ negW amd64 1 ∧ strtab_mioff ≠ DiOffT_INVALID
                      ∧ img_strdup mimg (add64 strtab_mioff (sext64 amd64 stroff)) = some str
                      ∧ r.di.soname = some str) :=
  ⟨_, rfl, by decide, C11_soname_set_on_success _ _ _ _ rfl⟩

/-! ### C16 -/

/-- C16 (failing input): an image with two sections named `.eh_frame`, the first
of size 0 and the second of 0x100 bytes.  The first loop over the section headers
skips the section of size 0 and records one `.eh_frame`, of size 0x100; the
second loop records a slice for each of the two, so that it has recorded 2
slices for `n_ehframe = 1` and the slice 0, which is valid, has the size 0.  The
assertion `ehframe_escn[0].szB == di->ehframe_size[0]` before the call-frame
information is read fails, and the function does not return. -/
theorem C16_ehframe_assertion_fails :
    ∃ d escns r,
      read_elf_debug_info_sections amd64 (some ehframe_img) scen1_di = Res.ok d
      ∧ d.di.n_ehframe = 1 ∧ d.di.ehframe_size 0 = 0x100
      ∧ second_pass amd64 ehframe_img d.hdrs d.di = Res.ok escns
      ∧ escns.ehframe_mix = 2
      ∧ sli_is_valid (escns.ehframe 0) = true ∧ (escns.ehframe 0).szB = 0
      ∧ (escns.ehframe 1).szB = 0x100
      ∧ read_companions_and_symbols (env_of ehframe_img) amd64 ehframe_img d.di escns
          = Res.ok r
      ∧ r.di.n_ehframe = 1 ∧ r.di.ehframe_size 0 = 0x100 ∧ (r.escns.ehframe 0).szB = 0
      ∧ callframe_asserts amd64 r.di r.escns = false
      ∧ read_elf_debug_info (env_of ehframe_img) amd64 scen1_di = Res.crash :=
  ⟨_, _, _, rfl, by decide, by decide, rfl, by decide, by decide, by decide, by decide, rfl,
    by decide, by decide, by decide, by decide, rfl⟩

/-! ### C30 -/

/-- What `get_elf_symbol_info` has established when it returns True: the symbol is
of the right flavour, or it is the special case of ppc64-linux; `*is_text_out` is
the choice of `choose_bias`; and an address that was not taken from `.opd` is the
address of the symbol plus the chosen bias. -/
theorem get_elf_symbol_info_outputs (t : Target) (di : DebugInfo) (sym : ElfXX_Sym)
    (sym_name_ioff : Nat) (escn_strtab : DiSlice) (sym_svma : Nat) (symtab_in_debug : Bool)
    (escn_opd : DiSlice) (opd_bias : Nat) (o : SymInfo)
    (h : get_elf_symbol_info t di sym sym_name_ioff escn_strtab sym_svma symtab_in_debug
          escn_opd opd_bias = some (some o)) :
    (((ELFXX_ST_BIND sym.st_info = STB_GLOBAL ∨ ELFXX_ST_BIND sym.st_info = STB_LOCAL
          ∨ ELFXX_ST_BIND sym.st_info = STB_WEAK)
        ∧ (ELFXX_ST_TYPE sym.st_info = STT_FUNC ∨ ELFXX_ST_TYPE sym.st_info = STT_OBJECT
          ∨ ELFXX_ST_TYPE sym.st_info = STT_GNU_IFUNC))
      ∨ t.plat = Platform.ppc64_linux)
    ∧ o.is_text_out = (choose_bias t di symtab_in_debug sym_svma).1
    ∧ (o.from_opd_out = false →
        o.sym_avma_out = addW t sym_svma (choose_bias t di symtab_in_debug sym_svma).2) := by
  unfold get_elf_symbol_info at h
  dsimp only at h
  split at h
  · cases h
  · rename_i hpl
    have hplaus : ((ELFXX_ST_BIND sym.st_info = STB_GLOBAL
          ∨ ELFXX_ST_BIND sym.st_info = STB_LOCAL ∨ ELFXX_ST_BIND sym.st_info = STB_WEAK)
        ∧ (ELFXX_ST_TYPE sym.st_info = STT_FUNC ∨ ELFXX_ST_TYPE sym.st_info = STT_OBJECT
          ∨ ELFXX_ST_TYPE sym.st_info = STT_GNU_IFUNC))
      ∨ t.plat = Platform.ppc64_linux := by
      simp only [Bool.not_eq_true', Bool.not_eq_false, Bool.or_eq_true, Bool.and_eq_true,
        beq_iff_eq, decide_eq_true_eq] at hpl
      rcases hpl with h1 | h1
      · exact Or.inl ⟨by tauto, by tauto⟩
      · exact Or.inr h1.1.1.1.1
    refine ⟨hplaus, ?_⟩
    split at h
    · cases h
    · cases h
    · split at h
      · cases h
      · split at h
        · cases h
        · split at h
          · cases h
          · split at h
            · cases h
            · split at h
              · cases h
              · cases h
              · rename_i avma tocptr is_in_opd hopd
                split at h
                · cases h
                · obtain ⟨heq, -, -⟩ := sym_range_check_spec _ _ _ _ h
                  subst heq
                  refine ⟨rfl, ?_⟩
                  intro hfrom
                  have hfrom1 : is_in_opd = false := hfrom
                  subst hfrom1
                  split at hopd
                  · split at hopd
                    · cases hopd
                    · cases hd : opd_deref t di escn_opd opd_bias
                          (addW t sym_svma (choose_bias t di symtab_in_debug sym_svma).2) with
                      | none => rw [hd] at hopd; cases hopd
                      | some r =>
                        rw [hd] at hopd
                        cases r with
                        | none => cases hopd
                        | some p =>
                          simp only [Option.map_some', Option.some.injEq, Prod.mk.injEq] at hopd
                          exact absurd hopd.2.2 (by decide)
                  · simp only [Option.some.injEq, Prod.mk.injEq] at hopd
                    exact hopd.1.symm

/-- C30: on a target other than ppc64-linux, whenever `get_elf_symbol_info`
returns True the binding of the symbol is one of STB_GLOBAL, STB_LOCAL and
STB_WEAK and its type is one of STT_FUNC, STT_OBJECT and STT_GNU_IFUNC; and for
every symbol with another binding or another type the function returns False. -/
theorem C30_binding_and_type_filter (t : Target) (di : DebugInfo) (sym : ElfXX_Sym)
    (sym_name_ioff : Nat) (escn_strtab : DiSlice) (sym_svma : Nat) (symtab_in_debug : Bool)
    (escn_opd : DiSlice) (opd_bias : Nat) (hp : t.plat ≠ Platform.ppc64_linux) :
    (∀ o, get_elf_symbol_info t di sym sym_name_ioff escn_strtab sym_svma symtab_in_debug
            escn_opd opd_bias = some (some o) →
        (ELFXX_ST_BIND sym.st_info = STB_GLOBAL ∨ ELFXX_ST_BIND sym.st_info = STB_LOCAL
          ∨ ELFXX_ST_BIND sym.st_info = STB_WEAK)
        ∧ (ELFXX_ST_TYPE sym.st_info = STT_FUNC ∨ ELFXX_ST_TYPE sym.st_info = STT_OBJECT
          ∨ ELFXX_ST_TYPE sym.st_info = STT_GNU_IFUNC))
    ∧ (¬ ((ELFXX_ST_BIND sym.st_info = STB_GLOBAL ∨ ELFXX_ST_BIND sym.st_info = STB_LOCAL
            ∨ ELFXX_ST_BIND sym.st_info = STB_WEAK)
          ∧ (ELFXX_ST_TYPE sym.st_info = STT_FUNC ∨ ELFXX_ST_TYPE sym.st_info = STT_OBJECT
            ∨ ELFXX_ST_TYPE sym.st_info = STT_GNU_IFUNC)) →
        get_elf_symbol_info t di sym sym_name_ioff escn_strtab sym_svma symtab_in_debug
          escn_opd opd_bias = some none) := by
  constructor
  · intro o h
    rcases (get_elf_symbol_info_outputs t di sym sym_name_ioff escn_strtab sym_svma
      symtab_in_debug escn_opd opd_bias o h).1 with h1 | h1
    · exact h1
    · exact absurd h1 hp
  · intro hnot
    have hp0 : ((ELFXX_ST_BIND sym.st_info == STB_GLOBAL || ELFXX_ST_BIND sym.st_info == STB_LOCAL
          || ELFXX_ST_BIND sym.st_info == STB_WEAK)
        && (ELFXX_ST_TYPE sym.st_info == STT_FUNC || ELFXX_ST_TYPE sym.st_info == STT_OBJECT
          || ELFXX_ST_TYPE sym.st_info == STT_GNU_IFUNC)) = false := by
      rw [Bool.eq_false_iff]
      intro hc
      apply hnot
      simp only [Bool.and_eq_true, Bool.or_eq_true, beq_iff_eq] at hc
      exact ⟨by tauto, by tauto⟩
    have hpp : decide (t.plat = Platform.ppc64_linux) = false := decide_eq_false hp
    unfold get_elf_symbol_info
    dsimp only
    rw [hp0, hpp]
    rfl

/-- C30 (witness): on amd64 a symbol of the type STT_SECTION (3) inside `.text` of
scenario 1 is rejected. -/
theorem C30_witness :
    ELFXX_ST_TYPE sym_section.st_info = 3
    ∧ get_elf_symbol_info amd64 scen1_after sym_section (0x2040 + 1) scen1_strtab 0x1010 false
        DiSlice_INVALID 0 = some none :=
  ⟨by decide,
    (C30_binding_and_type_filter amd64 scen1_after sym_section (0x2040 + 1) scen1_strtab 0x1010
      false DiSlice_INVALID 0 (by decide)).2 (by decide)⟩

/-! ### C29 -/

/-- The choice of `choose_bias` is the one the specification describes. -/
theorem choose_bias_eq (t : Target) (di : DebugInfo) (symtab_in_debug : Bool) (sym_svma : Nat) :
    choose_bias t di symtab_in_debug sym_svma
      = bias_of_first_section t di symtab_in_debug sym_svma := by
  have e : ∀ s : SecRec,
      svma_in_sec t s (if symtab_in_debug then s.debug_svma else s.svma) sym_svma
        = sec_contains t symtab_in_debug sym_svma s := fun _ => rfl
  unfold choose_bias bias_of_first_section bias_sections
  dsimp only
  simp only [e, List.find?]
  cases sec_contains t symtab_in_debug sym_svma di.text
  · cases sec_contains t symtab_in_debug sym_svma di.data
    · cases sec_contains t symtab_in_debug sym_svma di.sdata
      · cases sec_contains t symtab_in_debug sym_svma di.rodata
        · cases sec_contains t symtab_in_debug sym_svma di.bss
          · cases sec_contains t symtab_in_debug sym_svma di.sbss <;> rfl
          · rfl
        · rfl
      · rfl
    · rfl
  · rfl

/-- C29: `get_elf_symbol_info` biases the symbol by the first section, in the
order text, data, sdata, rodata, bss, sbss, that is present, has a size greater
than 0 and whose range `[S.svma, S.svma + S.size)` contains `sym_svma` (with
`S.debug_svma` and `S.debug_bias` when the symbol table is in the debug file),
and by text if no section does: the choice the function makes is that one, and
whenever the function returns True, `is_text` is true iff the section is text or
none matched, and an address that was not taken from `.opd` is `sym_svma` plus
that bias, modulo the word size. -/
theorem C29_bias_of_first_section (t : Target) (di : DebugInfo) (sym : ElfXX_Sym)
    (sym_name_ioff : Nat) (escn_strtab : DiSlice) (sym_svma : Nat) (symtab_in_debug : Bool)
    (escn_opd : DiSlice) (opd_bias : Nat) :
    choose_bias t di symtab_in_debug sym_svma
      = bias_of_first_section t di symtab_in_debug sym_svma
    ∧ ∀ o, get_elf_symbol_info t di sym sym_name_ioff escn_strtab sym_svma symtab_in_debug
            escn_opd opd_bias = some (some o) →
        o.is_text_out = (bias_of_first_section t di symtab_in_debug sym_svma).1
        ∧ (o.from_opd_out = false →
            o.sym_avma_out
              = addW t sym_svma (bias_of_first_section t di symtab_in_debug sym_svma).2) := by
  refine ⟨choose_bias_eq t di symtab_in_debug sym_svma, ?_⟩
  intro o h
  have h1 := (get_elf_symbol_info_outputs t di sym sym_name_ioff escn_strtab sym_svma
    symtab_in_debug escn_opd opd_bias o h).2
  rw [choose_bias_eq] at h1
  exact h1

/-- C29 (witness): on the DebugInfo of scenario 1 the object symbol at the SVMA
0x2010 lies in `.data`, the second section of the order: it is not a text
symbol and its address is 0x2010 plus the bias 0x600000 of `.data`. -/
theorem C29_witness :
    ∃ o, get_elf_symbol_info amd64 scen1_after sym_in_data (0x2040 + 7) scen1_strtab 0x2010
            false DiSlice_INVALID 0 = some (some o)
      ∧ bias_of_first_section amd64 scen1_after false 0x2010 = (false, 0x600000)
      ∧ o.is_text_out = (bias_of_first_section amd64 scen1_after false 0x2010).1
      ∧ (o.from_opd_out = false →
          o.sym_avma_out
            = addW amd64 0x2010 (bias_of_first_section amd64 scen1_after false 0x2010).2)
      ∧ o.sym_avma_out = 0x602010 :=
  ⟨_, rfl, by decide,
    ((C29_bias_of_first_section amd64 scen1_after sym_in_data (0x2040 + 7) scen1_strtab 0x2010
      false DiSlice_INVALID 0).2 _ rfl).1,
    ((C29_bias_of_first_section amd64 scen1_after sym_in_data (0x2040 + 7) scen1_strtab 0x2010
      false DiSlice_INVALID 0).2 _ rfl).2, by decide⟩

/-! ### C28 -/

/-- The loop of `file_offset_from_svma` returns at the first entry that passes
its test. -/
theorem file_offset_from_svma_loop_found (t : Target) (svma : Nat) (img : DiImage)
    (phdr_ioff phdr_ent_szB : Nat) :
    ∀ (n i k : Nat), i ≤ k → k < i + n →
      (∀ j, i ≤ j → j ≤ k →
        img_valid img (INDEX_BIS phdr_ioff j phdr_ent_szB) (sizeof_Phdr t) = true) →
      seg_matches t (img.phdr (INDEX_BIS phdr_ioff k phdr_ent_szB)) svma →
      (∀ j, i ≤ j → j < k →
        ¬ seg_matches t (img.phdr (INDEX_BIS phdr_ioff j phdr_ent_szB)) svma) →
      file_offset_from_svma_loop t svma img phdr_ioff phdr_ent_szB n i
        = some (true, addW t (subW t svma (img.phdr (INDEX_BIS phdr_ioff k phdr_ent_szB)).p_vaddr)
            (img.phdr (INDEX_BIS phdr_ioff k phdr_ent_szB)).p_offset) := by
  intro n
  induction n with
  | zero => intro i k h1 h2; omega
  | succ n ih =>
    intro i k hik hk hvalid hm hfirst
    unfold file_offset_from_svma_loop img_get_Phdr
    rw [if_pos (hvalid i (le_refl _) hik)]
    dsimp only
    by_cases hki : k = i
    · subst hki
      rw [if_neg (fun hne => hne hm.1), if_pos hm.2]
    · have hnot := hfirst i (le_refl _) (by omega)
      have hrest := ih (i + 1) k (by omega) (by omega)
        (fun j h1 h2 => hvalid j (by omega) h2) hm (fun j h1 h2 => hfirst j (by omega) h2)
      by_cases hty : (img.phdr (INDEX_BIS phdr_ioff i phdr_ent_szB)).p_type ≠ PT_LOAD
      · rw [if_pos hty]
        exact hrest
      · rw [if_neg hty, if_neg (fun hc => hnot ⟨not_not.1 hty, hc.1, hc.2⟩)]
        exact hrest

/-- The loop of `file_offset_from_svma` ends with `ok = False` and 0 when no entry
passes its test. -/
theorem file_offset_from_svma_loop_none (t : Target) (svma : Nat) (img : DiImage)
    (phdr_ioff phdr_ent_szB : Nat) :
    ∀ (n i : Nat),
      (∀ j, i ≤ j → j < i + n →
        img_valid img (INDEX_BIS phdr_ioff j phdr_ent_szB) (sizeof_Phdr t) = true) →
      (∀ j, i ≤ j → j < i + n →
        ¬ seg_matches t (img.phdr (INDEX_BIS phdr_ioff j phdr_ent_szB)) svma) →
      file_offset_from_svma_loop t svma img phdr_ioff phdr_ent_szB n i = some (false, 0) := by
  intro n
  induction n with
  | zero => intro i _ _; rfl
  | succ n ih =>
    intro i hvalid hnone
    unfold file_offset_from_svma_loop img_get_Phdr
    rw [if_pos (hvalid i (le_refl _) (by omega))]
    dsimp only
    have hnot := hnone i (le_refl _) (by omega)
    have hrest := ih (i + 1) (fun j h1 h2 => hvalid j (by omega) (by omega))
      (fun j h1 h2 => hnone j (by omega) (by omega))
    by_cases hty : (img.phdr (INDEX_BIS phdr_ioff i phdr_ent_szB)).p_type ≠ PT_LOAD
    · rw [if_pos hty]
      exact hrest
    · rw [if_neg hty, if_neg (fun hc => hnot ⟨not_not.1 hty, hc.1, hc.2⟩)]
      exact hrest

/-- C28 (counterexample): for the address 2^64 - 1 and the program headers of
scenario 1, no entry satisfies `(p_vaddr & -p_align) <= svma < p_vaddr + p_filesz`,
and `file_offset_from_svma` returns `ok = True` with the value 2^64 - 1: the sum
`svma + 1` of its test is 0. -/
theorem C28_counterexample :
    file_offset_from_svma amd64 (2 ^ 64 - 1) scen1_img 64 2 56 = some (true, 2 ^ 64 - 1)
    ∧ ∀ i, i < 2 → ¬ seg_contains amd64 (scen1_img.phdr (INDEX_BIS 64 i 56)) (2 ^ 64 - 1) := by
  decide

/-- C28 (amended): `file_offset_from_svma` returns `ok = True` and the value
`svma - p_vaddr + p_offset`, computed on words, for the first program-header
entry, in table order, that has the type PT_LOAD and satisfies
`(p_vaddr & -p_align) <= svma` and `svma + 1 <= p_vaddr + p_filesz`, both sums
computed on words; if no entry does, it returns `ok = False` and 0.  When
neither `svma + 1` nor `p_vaddr + p_filesz` wraps, the test is
`(p_vaddr & -p_align) <= svma < p_vaddr + p_filesz`. -/
theorem C28_file_offset_from_svma (t : Target) (svma : Nat) (img : DiImage)
    (phdr_ioff phdr_nent phdr_ent_szB : Nat) :
    (∀ k, k < phdr_nent →
      (∀ j, j ≤ k →
        img_valid img (INDEX_BIS phdr_ioff j phdr_ent_szB) (sizeof_Phdr t) = true) →
      seg_matches t (img.phdr (INDEX_BIS phdr_ioff k phdr_ent_szB)) svma →
      (∀ j, j < k → ¬ seg_matches t (img.phdr (INDEX_BIS phdr_ioff j phdr_ent_szB)) svma) →
      file_offset_from_svma t svma img phdr_ioff phdr_nent phdr_ent_szB
        = some (true, addW t (subW t svma (img.phdr (INDEX_BIS phdr_ioff k phdr_ent_szB)).p_vaddr)
            (img.phdr (INDEX_BIS phdr_ioff k phdr_ent_szB)).p_offset))
    ∧ ((∀ j, j < phdr_nent →
          img_valid img (INDEX_BIS phdr_ioff j phdr_ent_szB) (sizeof_Phdr t) = true) →
        (∀ j, j < phdr_nent →
          ¬ seg_matches t (img.phdr (INDEX_BIS phdr_ioff j phdr_ent_szB)) svma) →
        file_offset_from_svma t svma img phdr_ioff phdr_nent phdr_ent_szB = some (false, 0))
    ∧ (∀ seg : ElfXX_Phdr, svma + 1 < t.wmod → seg.p_vaddr + seg.p_filesz < t.wmod →
        (seg_matches t seg svma ↔ seg.p_type = PT_LOAD ∧ seg_contains t seg svma)) := by
  refine ⟨?_, ?_, ?_⟩
  · intro k hk hvalid hm hfirst
    exact file_offset_from_svma_loop_found t svma img phdr_ioff phdr_ent_szB phdr_nent 0 k
      (Nat.zero_le _) (by omega) (fun j _ h2 => hvalid j h2) hm (fun j _ h2 => hfirst j h2)
  · intro hvalid hnone
    exact file_offset_from_svma_loop_none t svma img phdr_ioff phdr_ent_szB phdr_nent 0
      (fun j _ h2 => hvalid j (by omega)) (fun j _ h2 => hnone j (by omega))
  · intro seg h1 h2
    unfold seg_matches seg_contains addW
    rw [Nat.mod_eq_of_lt h1, Nat.mod_eq_of_lt h2]
    constructor
    · rintro ⟨ha, hb, hc⟩
      exact ⟨ha, hb, by omega⟩
    · rintro ⟨ha, hb, hc⟩
      exact ⟨ha, hb, by omega⟩

/-- C28 (witness): the address 0x2055 of scenario 2 lies in the second PT_LOAD
entry, and not in the first: the function returns `ok = True` and the file
offset 0x2055. -/
theorem C28_witness :
    seg_matches amd64 (scen2_img.phdr (INDEX_BIS 64 1 56)) 0x2055
    ∧ file_offset_from_svma amd64 0x2055 scen2_img 64 3 56 = some (true, 0x2055) :=
  ⟨by decide,
    (C28_file_offset_from_svma amd64 0x2055 scen2_img 64 3 56).1 1 (by decide)
      (by decide) (by decide) (by decide)⟩

/-! ### C27 -/

/-- The conjunction with a mask below 8 looks at the low three bits only. -/
theorem land_flags_iff (f m : Nat) (hm : m < 8) : Nat.land f m = Nat.land (f % 8) m := by
  apply Nat.eq_of_testBit_eq
  intro i
  show (f &&& m).testBit i = ((f % 8) &&& m).testBit i
  rw [Nat.testBit_and, Nat.testBit_and]
  by_cases hi : i < 3
  · have : (f % 2 ^ 3).testBit i = f.testBit i := by
      rw [Nat.testBit_mod_two_pow]; simp [hi]
    rw [show (8 : Nat) = 2 ^ 3 from rfl, this]
  · have hm2 : m.testBit i = false := by
      apply Nat.testBit_lt_two_pow
      calc m < 8 := hm
        _ = 2 ^ 3 := rfl
        _ ≤ 2 ^ i := Nat.pow_le_pow_right (by decide) (by omega)
    rw [hm2]; simp

/-- The test `map->rw && (p_flags & (PF_R|PF_W)) == (PF_R|PF_W)` holds exactly
when the mapping is rw and the flags contain both PF_R and PF_W. -/
theorem acquired_rw_iff (a : ElfXX_Phdr) (map : DebugInfoMapping) :
    acquired_rw a map = true ↔ map.rw = true ∧ has_flags a.p_flags PF_R PF_W := by
  unfold acquired_rw has_flags
  simp only [Bool.and_eq_true, beq_iff_eq]
  refine and_congr_right fun _ => ?_
  rw [land_flags_iff _ (Nat.lor PF_R PF_W) (by decide), land_flags_iff _ PF_R (by decide),
    land_flags_iff _ PF_W (by decide)]
  have : a.p_flags % 8 < 8 := Nat.mod_lt _ (by decide)
  generalize a.p_flags % 8 = g at this
  interval_cases g <;> decide

/-- The test `map->rx && (p_flags & (PF_R|PF_X)) == (PF_R|PF_X)` holds exactly
when the mapping is rx and the flags contain both PF_R and PF_X. -/
theorem acquired_rx_iff (a : ElfXX_Phdr) (map : DebugInfoMapping) :
    acquired_rx a map = true ↔ map.rx = true ∧ has_flags a.p_flags PF_R PF_X := by
  unfold acquired_rx has_flags
  simp only [Bool.and_eq_true, beq_iff_eq]
  refine and_congr_right fun _ => ?_
  rw [land_flags_iff _ (Nat.lor PF_R PF_X) (by decide), land_flags_iff _ PF_R (by decide),
    land_flags_iff _ PF_X (by decide)]
  have : a.p_flags % 8 < 8 := Nat.mod_lt _ (by decide)
  generalize a.p_flags % 8 = g at this
  interval_cases g <;> decide

/-- One iteration of the loop over the mappings appends the ranges of the
specification when the mapping holds the file range of the entry, and nothing
otherwise. -/
theorem load_map_step_ranges (t : Target) (a : ElfXX_Phdr) (acc : List RangeAndBias × Bool)
    (map : DebugInfoMapping) :
    (load_map_step t a acc map).1
      = acc.1 ++ (if map_holds t a map = true then emitted_ranges t a map else []) := by
  unfold load_map_step emitted_ranges
  by_cases hh : map_holds t a map = true
  · rw [if_pos hh, if_pos hh]
    dsimp only
    by_cases hw : acquired_rw a map = true <;> by_cases hx : acquired_rx a map = true
    · rw [if_pos hw, if_pos hx, if_pos ((acquired_rw_iff a map).1 hw),
        if_pos ((acquired_rx_iff a map).1 hx)]
      simp [load_item]
    · rw [if_pos hw, if_neg hx, if_pos ((acquired_rw_iff a map).1 hw),
        if_neg (fun h => hx ((acquired_rx_iff a map).2 h))]
      simp [load_item]
    · rw [if_neg hw, if_pos hx, if_neg (fun h => hw ((acquired_rw_iff a map).2 h)),
        if_pos ((acquired_rx_iff a map).1 hx)]
      simp [load_item]
    · rw [if_neg hw, if_neg hx, if_neg (fun h => hw ((acquired_rw_iff a map).2 h)),
        if_neg (fun h => hx ((acquired_rx_iff a map).2 h))]
      simp
  · rw [if_neg hh, if_neg hh]
    simp

/-- The loop over the mappings appends, for each mapping in its turn, the ranges
of the specification when the mapping holds the file range of the entry. -/
theorem load_fold_ranges (t : Target) (a : ElfXX_Phdr) :
    ∀ (maps : List DebugInfoMapping) (acc : List RangeAndBias × Bool),
      (maps.foldl (load_map_step t a) acc).1
        = acc.1 ++ maps.flatMap fun map =>
            if map_holds t a map = true then emitted_ranges t a map else [] := by
  intro maps
  induction maps with
  | nil => intro acc; simp
  | cons m ms ih =>
    intro acc
    rw [List.foldl_cons, ih, load_map_step_ranges, List.flatMap_cons, List.append_assoc]

/-- C27 (counterexample): the PT_LOAD entry `ph_bss_at_end` has `p_memsz > 0`, and
the file-offset window `[0x2000, 0x3000)` of the rw mapping `map_rw` contains its
file range `[0x3000, 0x3000)`; its flags contain PF_R and PF_W.  The scan of the
program headers succeeds and emits one range for the entry, for the mapping
`map_rw_next`, and none for `map_rw`. -/
theorem C27_counterexample :
    ∃ ps, scan_program_headers amd64 bss_at_end_img (scen_hdrs 3 4)
            (fresh_di [map_rx, map_rw, map_rw_next]) = Res.ok ps
      ∧ img_get_Phdr amd64 bss_at_end_img (INDEX_BIS 64 2 56) = some ph_bss_at_end
      ∧ 0 < ph_bss_at_end.p_memsz
      ∧ file_window_contains ph_bss_at_end map_rw
      ∧ map_rw.rw = true ∧ has_flags ph_bss_at_end.p_flags PF_R PF_W
      ∧ emitted_ranges amd64 ph_bss_at_end map_rw = [⟨0x3000, 0x3040, 0x600000, false⟩]
      ∧ ps.svma_ranges
          = [⟨0, 0x1500, 0x401000, true⟩, ⟨0x2000, 0x2040, 0x600000, false⟩,
             ⟨0x3000, 0x3040, 0x701000, false⟩]
      ∧ (⟨0x3000, 0x3040, 0x600000, false⟩ : RangeAndBias) ∉ ps.svma_ranges := by
  refine ⟨_, rfl, rfl, by decide, ?_, rfl, by decide, by decide, by decide, by decide⟩
  unfold file_window_contains
  decide

/-- C27 (amended): an iteration of the loop over the program headers that
succeeds on a PT_LOAD entry with `p_memsz > 0` appends to `svma_ranges`, for
each mapping of the inventory in its turn that is rx or rw and satisfies
`p_offset >= foff`, `p_offset < foff + size` and
`p_offset + p_filesz <= foff + size` (sums computed on words), a range with
exec=false if the mapping is rw and the flags contain PF_R and PF_W and then a
range with exec=true if the mapping is rx and the flags contain PF_R and PF_X,
each with `svma_base = p_vaddr`, `svma_limit = p_vaddr + p_memsz` and
`bias = map.avma - map.foff + p_offset - p_vaddr` modulo the word size; and it
appends nothing else. -/
theorem C27_load_ranges_emitted (t : Target) (mimg : DiImage) (hd : MainHdrs)
    (st st1 : PhdrScan) (i : Nat) (a : ElfXX_Phdr)
    (hget : img_get_Phdr t mimg (INDEX_BIS hd.phdr_mioff i hd.phdr_ment_szB) = some a)
    (hty : a.p_type = PT_LOAD) (hmem : 0 < a.p_memsz)
    (hstep : phdr_step t mimg hd st i = Res.ok st1) :
    st1.svma_ranges
      = st.svma_ranges ++ st.di.maps.flatMap (fun map =>
          if map_holds t a map = true then emitted_ranges t a map else [])
    ∧ ∀ map : DebugInfoMapping,
        (map_holds t a map = true ↔
          (map.rx = true ∨ map.rw = true) ∧ map.foff ≤ a.p_offset
          ∧ a.p_offset < addW t map.foff map.size
          ∧ addW t a.p_offset a.p_filesz ≤ addW t map.foff map.size) := by
  constructor
  · unfold phdr_step at hstep
    rw [hget] at hstep
    obtain ⟨st2, h2, h3⟩ := (Res.bind_ok_iff _ _ _).1 hstep
    rw [(phdr_dynamic_ok_ranges t mimg hd a st2 st1 h3).2]
    unfold phdr_load at h2
    rw [if_pos hty] at h2
    split at h2
    · cases h2
    · dsimp only at h2
      split at h2
      · cases h2
      · simp only [Res.ok.injEq] at h2
        rw [← h2]
        exact load_fold_ranges t a st.di.maps (st.svma_ranges, false)
  · intro map
    unfold map_holds
    simp only [Bool.and_eq_true, Bool.or_eq_true, decide_eq_true_eq, ge_iff_le]
    tauto

/-- C27 (witness): the second program header of scenario 1, the PT_LOAD entry of
flags R|W, is held by the rw mapping only, and one range with exec=false is
appended for it. -/
theorem C27_witness :
    forRes (phdr_step amd64 scen1_img (scen_hdrs 2 4)) 1 0
        { di := scen1_di, prev_svma := 0, svma_ranges := [] }
      = Res.ok { di := scen1_di, prev_svma := 0, svma_ranges := [⟨0, 0x1500, 0x401000, true⟩] }
    ∧ ([⟨0, 0x1500, 0x401000, true⟩, ⟨0x2000, 0x2040, 0x600000, false⟩] : List RangeAndBias)
        = [⟨0, 0x1500, 0x401000, true⟩] ++ scen1_di.maps.flatMap (fun map =>
            if map_holds amd64 ph_rw map = true then emitted_ranges amd64 ph_rw map else []) :=
  ⟨rfl,
    (C27_load_ranges_emitted amd64 scen1_img (scen_hdrs 2 4)
      { di := scen1_di, prev_svma := 0, svma_ranges := [⟨0, 0x1500, 0x401000, true⟩] }
      { di := scen1_di, prev_svma := 0x2000,
        svma_ranges := [⟨0, 0x1500, 0x401000, true⟩, ⟨0x2000, 0x2040, 0x600000, false⟩] }
      1 ph_rw rfl rfl (by decide) rfl).1⟩

/-! ### C21 -/

/-- C21: `open_debug_file` returns an image only if the candidate opened and,
when a build-id was requested, `find_buildid` (which then searches the section
headers too) returns for the candidate a build-id equal to the requested one,
or, when no build-id was requested, the CRC-32 of the whole candidate equals the
requested `crc`.  With a build-id requested the result does not depend on `crc`,
and a candidate for which `find_buildid` returns NULL is rejected. -/
theorem C21_open_debug_file_validates (env : Env) (t : Target) (name : List Nat)
    (buildid : Option (List Nat)) (crc : Nat) (rel_ok : Bool) (serverAddr : Option (List Nat)) :
    (∀ dimg, open_debug_file env t name buildid crc rel_ok serverAddr = some (some dimg) →
        opened_image env name serverAddr = some dimg
        ∧ (∀ b, buildid = some b → find_buildid t dimg rel_ok true = some (some b))
        ∧ (buildid = none → img_calc_gnu_debuglink_crc32 dimg = crc))
    ∧ (∀ b crc2, buildid = some b →
        open_debug_file env t name buildid crc2 rel_ok serverAddr
          = open_debug_file env t name buildid crc rel_ok serverAddr)
    ∧ (∀ b dimg, buildid = some b →
        opened_image env name serverAddr = some dimg →
        find_buildid t dimg rel_ok true = some none →
        open_debug_file env t name buildid crc rel_ok serverAddr = some none) := by
  have hdef : ∀ (bid : Option (List Nat)) (c : Nat),
      open_debug_file env t name bid c rel_ok serverAddr
        = match opened_image env name serverAddr with
          | none => some none
          | some dimg =>
            match bid with
            | some buildid =>
              match find_buildid t dimg rel_ok true with
              | none => none
              | some none => some none
              | some (some debug_buildid) =>
                if buildid ≠ debug_buildid then some none else some (some dimg)
            | none =>
              if img_calc_gnu_debuglink_crc32 dimg ≠ c then some none else some (some dimg) := by
    intro bid c
    cases serverAddr <;> rfl
  refine ⟨?_, ?_, ?_⟩
  · intro dimg h
    rw [hdef] at h
    cases hopen : opened_image env name serverAddr with
    | none => rw [hopen] at h; cases h
    | some d =>
      rw [hopen] at h
      dsimp only at h
      cases buildid with
      | some b =>
        dsimp only at h
        split at h
        · cases h
        · cases h
        · rename_i dbg hfind
          split at h
          · cases h
          · rename_i heq
            simp only [Option.some.injEq] at h
            subst h
            refine ⟨rfl, ?_, (fun hn => by cases hn)⟩
            intro b1 hb1
            simp only [Option.some.injEq] at hb1
            subst hb1
            rw [hfind, not_not.1 heq]
      | none =>
        dsimp only at h
        split at h
        · cases h
        · rename_i heq
          simp only [Option.some.injEq] at h
          subst h
          exact ⟨rfl, (fun b hb => by cases hb), (fun _ => not_not.1 heq)⟩
  · intro b crc2 hb
    subst hb
    rw [hdef, hdef]
  · intro b dimg hb hopen hfind
    subst hb
    rw [hdef, hopen]
    dsimp only
    rw [hfind]

/-- C21 (witness): the candidate `/usr/lib/debug/.build-id/aa/bbcc.debug` with the
build-id "aabbcc" is accepted for the requested build-id "aabbcc", and the
candidate of that name with the build-id "aabbdd" is rejected. -/
theorem C21_witness :
    open_debug_file (env_files [(path_aabbcc, debug_img [0xaa, 0xbb, 0xcc])]) amd64 path_aabbcc
        (some (cstr "aabbcc")) 0 false none = some (some (debug_img [0xaa, 0xbb, 0xcc]))
    ∧ (∀ b, some (cstr "aabbcc") = some b →
        find_buildid amd64 (debug_img [0xaa, 0xbb, 0xcc]) false true = some (some b))
    ∧ find_buildid amd64 (debug_img [0xaa, 0xbb, 0xdd]) false true
        = some (some (cstr "aabbdd"))
    ∧ open_debug_file (env_files [(path_aabbcc, debug_img [0xaa, 0xbb, 0xdd])]) amd64
        path_aabbcc (some (cstr "aabbcc")) 0 false none = some none :=
  ⟨rfl,
    ((C21_open_debug_file_validates (env_files [(path_aabbcc, debug_img [0xaa, 0xbb, 0xcc])])
      amd64 path_aabbcc (some (cstr "aabbcc")) 0 false none).1 _ rfl).2.1,
    by decide, rfl⟩

/-! ### C22 -/

/-- The directory of a path with a `/` is what comes before its last `/`. -/
theorem objdir_of_split (d b : List Nat) (hb : '/'.toNat ∉ b) :
    objdir_of (d ++ '/'.toNat :: b) = d := by
  unfold objdir_of
  have h1 : (d ++ '/'.toNat :: b).reverse = b.reverse ++ '/'.toNat :: d.reverse := by simp
  have h2 : (b.reverse ++ '/'.toNat :: d.reverse).dropWhile (fun c => c != '/'.toNat)
      = '/'.toNat :: d.reverse := by
    rw [List.dropWhile_append_of_pos]
    · rw [List.dropWhile_cons_of_neg]
      simp
    · intro c hc
      have hc1 : c ∈ b := List.mem_reverse.1 hc
      simp only [bne_iff_ne, ne_eq]
      intro e
      exact hb (e ▸ hc1)
  rw [h1, h2]
  simp

/-- The basename of a name with a `/` is what comes after its last `/`. -/
theorem basename_of_split (d b : List Nat) (hb : '/'.toNat ∉ b) :
    basename_of (d ++ '/'.toNat :: b) = b := by
  unfold basename_of
  have h1 : (d ++ '/'.toNat :: b).reverse = b.reverse ++ '/'.toNat :: d.reverse := by simp
  have h2 : (b.reverse ++ '/'.toNat :: d.reverse).takeWhile (fun c => c != '/'.toNat)
      = b.reverse := by
    rw [List.takeWhile_append_of_pos]
    · rw [List.takeWhile_cons_of_neg]
      · simp
      · simp
    · intro c hc
      have hc1 : c ∈ b := List.mem_reverse.1 hc
      simp only [bne_iff_ne, ne_eq]
      intro e
      exact hb (e ▸ hc1)
  rw [h1, h2]
  simp

/-- The name that `VG_(sprintf)` builds for a build-id of at least two
characters. -/
theorem buildid_path_eq (b : List Nat) (hb : 2 ≤ b.length) :
    buildid_path b
      = some (cstr "/usr/lib/debug/.build-id/" ++ b.take 2 ++ cstr "/" ++ b.drop 2
                ++ cstr ".debug") := by
  match b, hb with
  | b0 :: b1 :: rest, _ => simp [buildid_path, buildid_format]

/-- No name is built for a build-id of fewer than two characters. -/
theorem buildid_path_short (b : List Nat) (hb : b.length < 2) : buildid_path b = none := by
  match b, hb with
  | [], _ => rfl
  | [_], _ => rfl

/-- The characters that `VG_(sprintf)` writes for a build-id, and the NUL after
them, are 35 bytes and those of the third argument. -/
theorem buildid_format_length (b0 b1 : Nat) (rest : List Nat) :
    (buildid_format b0 b1 rest).length + 1 = rest.length + 35 := by
  unfold buildid_format
  simp only [List.length_append, List.length_cons, List.length_nil]
  have e1 : (cstr "/usr/lib/debug/.build-id/").length = 25 := by decide
  have e2 : (cstr "/").length = 1 := by decide
  have e3 : (cstr ".debug").length = 6 := by decide
  rw [e1, e2, e3]
  omega

/-- The first accepted candidate of a list is the first candidate if it is
accepted, and else the first accepted one of the rest. -/
theorem first_accepted_cons (env : Env) (t : Target) (rel_ok : Bool) (c : Candidate)
    (rest : List Candidate) :
    first_accepted env t rel_ok (c :: rest)
      = or_next (open_debug_file env t c.name c.buildid c.crc rel_ok c.server)
          (first_accepted env t rel_ok rest) := by
  unfold or_next
  rw [first_accepted]

/-- No candidate is accepted in an empty list. -/
theorem first_accepted_nil (env : Env) (t : Target) (rel_ok : Bool) :
    first_accepted env t rel_ok [] = some none := rfl

/-- An attempt that nothing follows. -/
theorem or_next_right (r : Option (Option DiImage)) : or_next r (some none) = r := by
  unfold or_next
  split <;> simp_all

/-- The attempts that follow an attempt that found nothing. -/
theorem or_next_left (r : Option (Option DiImage)) : or_next (some none) r = r := rfl

/-- For a build-id of at least two characters, and for none, `find_debug_file`
tries the candidates of the specification in their order and returns the first
one that `open_debug_file` accepts, or NULL if none is accepted. -/
theorem find_debug_file_order (env : Env) (t : Target) (objpath : List Nat)
    (buildid debugname : Option (List Nat)) (crc : Nat) (rel_ok : Bool)
    (hb : ∀ b, buildid = some b → 2 ≤ b.length) :
    find_debug_file env t objpath buildid debugname crc rel_ok
      = first_accepted env t rel_ok (candidates env objpath buildid debugname crc rel_ok) := by
  unfold find_debug_file candidates find_by_debuglink
  cases buildid with
  | none =>
    cases debugname with
    | none => rfl
    | some n =>
      cases rel_ok with
      | true => rfl
      | false =>
        cases hx : env.clo_extra_debuginfo_path <;> cases hs : env.clo_debuginfo_server <;>
          simp [first_accepted_cons, first_accepted_nil, or_next_right, or_next_left]
  | some b =>
    have hp := buildid_path_eq b (hb b rfl)
    cases debugname with
    | none => simp [first_accepted_cons, first_accepted_nil, or_next_right, or_next_left, hp]
    | some n =>
      cases rel_ok with
      | true => simp [first_accepted_cons, first_accepted_nil, or_next_right, or_next_left, hp]
      | false =>
        cases hx : env.clo_extra_debuginfo_path <;> cases hs : env.clo_debuginfo_server <;>
          simp [first_accepted_cons, first_accepted_nil, or_next_right, or_next_left, hp]

/-- For a build-id of fewer than two characters `find_debug_file` reads beyond
the string, whatever its other arguments are. -/
theorem find_debug_file_short (env : Env) (t : Target) (objpath b : List Nat)
    (debugname : Option (List Nat)) (crc : Nat) (rel_ok : Bool) (hb : b.length < 2) :
    find_debug_file env t objpath (some b) debugname crc rel_ok = none := by
  unfold find_debug_file
  simp only [buildid_path_short b hb]
  rfl

/-- C22 (failing input): the build-id note of `empty_buildid_img` has an empty
descriptor, and `find_buildid` returns the empty string for it, not NULL.  With
a build-id of fewer than two characters `find_debug_file` passes `buildid[1]`
and `buildid + 2` to `VG_(sprintf)`, which lie beyond the NUL that ends the
string: for the empty build-id, whatever is read there, 35 bytes or more are
written into the block of `strlen(buildid) + 33 = 33` bytes, and
`find_debug_file` has no defined result, nor has `ML_(read_elf_debug_info)` for
that image, whose first part and second loop over the section headers run to
their end.  The candidate of the specification for the empty build-id is the
name `/usr/lib/debug/.build-id//.debug`, and its result NULL when no such file
exists.  For every build-id of at least two characters, and for none,
`find_debug_file` tries the candidates of the specification in their order and
returns the first one that `open_debug_file` accepts, or NULL if none is
accepted, and the name of the build-id fills its block exactly; `objdir` is
`objpath` cut at its last `/`, and the name given to the server is what follows
the last `/` of `debugname`. -/
theorem C22_short_buildid_read_beyond_string :
    find_buildid amd64 empty_buildid_img false false = some (some [])
    ∧ (buildid_debugpath_size [] = 33
        ∧ ∀ (b0 b1 : Nat) (rest : List Nat),
            buildid_debugpath_size [] < (buildid_format b0 b1 rest).length + 1)
    ∧ (∀ (env : Env) (t : Target) (objpath b : List Nat) (debugname : Option (List Nat))
          (crc : Nat) (rel_ok : Bool), b.length < 2 →
        buildid_path b = none
        ∧ find_debug_file env t objpath (some b) debugname crc rel_ok = none)
    ∧ (candidates (env_of empty_buildid_img) (cstr "/tmp/obj/libmain.so") (some []) none 0 false
          = [⟨cstr "/usr/lib/debug/.build-id//.debug", some [], 0, none⟩]
        ∧ first_accepted (env_of empty_buildid_img) amd64 false
            (candidates (env_of empty_buildid_img) (cstr "/tmp/obj/libmain.so") (some []) none 0
              false)
          = some none)
    ∧ (∃ d escns,
        read_elf_debug_info_sections amd64 (some empty_buildid_img) scen1_di = Res.ok d
        ∧ second_pass amd64 empty_buildid_img d.hdrs d.di = Res.ok escns
        ∧ (escns.sli Slot.debuglink).img.isNone = true
        ∧ d.di.filename = some (cstr "/tmp/obj/libmain.so")
        ∧ find_debug_image (env_of empty_buildid_img) amd64 empty_buildid_img d.di escns = none
        ∧ read_elf_debug_info (env_of empty_buildid_img) amd64 scen1_di = Res.crash)
    ∧ (∀ (env : Env) (t : Target) (objpath : List Nat) (buildid debugname : Option (List Nat))
          (crc : Nat) (rel_ok : Bool), (∀ b, buildid = some b → 2 ≤ b.length) →
        find_debug_file env t objpath buildid debugname crc rel_ok
          = first_accepted env t rel_ok
              (candidates env objpath buildid debugname crc rel_ok))
    ∧ (∀ b : List Nat, 2 ≤ b.length →
        ∃ debugpath, buildid_path b = some debugpath
          ∧ debugpath.length + 1 = buildid_debugpath_size b)
    ∧ (∀ objpath d b : List Nat, objpath = d ++ '/'.toNat :: b → '/'.toNat ∉ b →
        objdir_of objpath = d)
    ∧ (∀ n d b : List Nat, n = d ++ '/'.toNat :: b → '/'.toNat ∉ b → basename_of n = b) := by
  refine ⟨by decide, ⟨rfl, ?_⟩, ?_, ⟨by decide, rfl⟩, ⟨_, _, rfl, rfl, by decide,
    by decide, rfl, rfl⟩, find_debug_file_order, ?_, ?_, ?_⟩
  · intro b0 b1 rest
    rw [buildid_format_length]
    unfold buildid_debugpath_size
    simp only [List.length_nil]
    omega
  · intro env t objpath b debugname crc rel_ok hb
    exact ⟨buildid_path_short b hb,
      find_debug_file_short env t objpath b debugname crc rel_ok hb⟩
  · intro b hb
    match b, hb with
    | b0 :: b1 :: rest, _ =>
      refine ⟨_, rfl, ?_⟩
      rw [buildid_format_length]
      unfold buildid_debugpath_size
      simp only [List.length_cons]
  · intro objpath d b h1 h2
    rw [h1]
    exact objdir_of_split d b h2
  · intro n d b h1 h2
    rw [h1]
    exact basename_of_split d b h2

/-- C22 (witness): for the object `/tmp/obj/libmain.so`, the debuglink name
`foo.debug` and the build-id "aabbcc", the candidates are the file of the
build-id and then `/tmp/obj/foo.debug`, `/tmp/obj/.debug/foo.debug` and
`/usr/lib/debug/tmp/obj/foo.debug`; with only `/tmp/obj/foo.debug` in the
filesystem, with the CRC 0x1234, that file is found. -/
theorem C22_witness :
    candidates env_foo_debug
        (cstr "/tmp/obj/libmain.so") (some (cstr "aabbcc")) (some (cstr "foo.debug")) 0x1234 false
      = [⟨cstr "/usr/lib/debug/.build-id/aa/bbcc.debug", some (cstr "aabbcc"), 0, none⟩,
         ⟨cstr "/tmp/obj/foo.debug", none, 0x1234, none⟩,
         ⟨cstr "/tmp/obj/.debug/foo.debug", none, 0x1234, none⟩,
         ⟨cstr "/usr/lib/debug/tmp/obj/foo.debug", none, 0x1234, none⟩]
    ∧ find_debug_file env_foo_debug
        amd64 (cstr "/tmp/obj/libmain.so") (some (cstr "aabbcc")) (some (cstr "foo.debug")) 0x1234
        false
      = first_accepted env_foo_debug
          amd64 false
          (candidates env_foo_debug
            (cstr "/tmp/obj/libmain.so") (some (cstr "aabbcc")) (some (cstr "foo.debug")) 0x1234
            false)
    ∧ find_debug_file env_foo_debug
        amd64 (cstr "/tmp/obj/libmain.so") (some (cstr "aabbcc")) (some (cstr "foo.debug")) 0x1234
        false
      = some (some foo_debug_img) :=
  ⟨by decide,
    C22_short_buildid_read_beyond_string.2.2.2.2.2.1 _ amd64 (cstr "/tmp/obj/libmain.so")
      (some (cstr "aabbcc")) (some (cstr "foo.debug")) 0x1234 false
      (fun b hb => by
        simp only [Option.some.injEq] at hb
        subst hb
        decide),
    rfl⟩

/-! ### C23 -/

/-- The search for the alternate debug image is the search of `find_debug_file`
for the build-id `alt_buildid`, with `rel_ok` true. -/
theorem find_alt_image_eq (env : Env) (t : Target) (di : DebugInfo) (escns : Escns) :
    find_alt_image env t di escns
      = match (escns.sli Slot.debugaltlink).img with
        | none => some none
        | some _ =>
          match alt_buildid (escns.sli Slot.debugaltlink) with
          | none => none
          | some altbuildid =>
            find_debug_file env t (di.filename.getD []) (some altbuildid) none 0 true := by
  unfold find_alt_image alt_buildid
  dsimp only
  cases h : (escns.sli Slot.debugaltlink).img with
  | none => rfl
  | some limg =>
    dsimp only
    cases img_strlen limg 0 with
    | none => rfl
    | some len =>
      dsimp only
      split
      · rfl
      · rfl

/-- C23 (failing input): the section `.gnu_debugaltlink` of `altlink_img` holds
the path "alt.debug", a NUL and the bytes aa bb cc, so that the build-id of the
specification is "aabbcc", and a debug file with that build-id exists under the
name of that build-id.  The reader measures the string at the offset 0 of the
image, the seven bytes of the ELF identification, and not the path: it takes the
bytes of the section from the section offset 8 on, passes the build-id
"6700aabbcc" to `find_debug_file`, and finds no alternate debug image. -/
theorem C23_altlink_offset_from_image_start :
    ∃ d escns r,
      read_elf_debug_info_sections amd64 (some altlink_img) scen1_di = Res.ok d
      ∧ second_pass amd64 altlink_img d.hdrs d.di = Res.ok escns
      ∧ (escns.sli Slot.debugaltlink).ioff = 0x2700 ∧ (escns.sli Slot.debugaltlink).szB = 13
      ∧ alt_buildid (escns.sli Slot.debugaltlink) = alt_buildid altlink_escn
      ∧ img_strdup altlink_img 0x2700 = some (cstr "alt.debug")
      ∧ alt_buildid_spec altlink_escn = some (cstr "aabbcc")
      ∧ img_strdup altlink_img 0 = some [0x7F, 'E'.toNat, 'L'.toNat, 'F'.toNat, 2, 1, 1]
      ∧ alt_buildid altlink_escn = some (cstr "6700aabbcc")
      ∧ buildid_path (cstr "aabbcc") = some path_aabbcc
      ∧ open_debug_file env_altlink amd64 path_aabbcc (some (cstr "aabbcc")) 0
          true none = some (some (debug_img [0xaa, 0xbb, 0xcc]))
      ∧ find_alt_image env_altlink amd64 d.di escns = some none
      ∧ read_elf_debug_info env_altlink amd64 scen1_di = Res.ok r
      ∧ r.aimg.isNone = true :=
  ⟨_, _, _, rfl, rfl, by decide, by decide, rfl, by decide, by decide, by decide, by decide,
    by decide, rfl, rfl, rfl, rfl⟩

/-! ### C25 -/

/-- C25 (counterexample): the section `.symtab` appears in the main image
`main_symtab_img` and in its debug file, which is accepted by its build-id, and
`ML_(read_elf_debug_info)` returns True: the main image has a `.symtab`, so the
reader does not look for `.symtab` in the debug file, and keeps the one of the
main image. -/
theorem C25_counterexample :
    ∃ r, read_elf_debug_info env_symtab_both amd64 scen1_di = Res.ok r
      ∧ img_get_Shdr amd64 main_symtab_img (INDEX_BIS 0x2100 3 64) = some sh_symtab
      ∧ img_strdup main_symtab_img (0x2040 + sh_symtab.sh_name) = some (cstr ".symtab")
      ∧ r.dimg = some (debug_img [0xaa, 0xbb, 0xcc])
      ∧ img_get_Shdr amd64 (debug_img [0xaa, 0xbb, 0xcc]) (INDEX_BIS 0x2100 1 64)
          = some sh_symtab
      ∧ img_strdup (debug_img [0xaa, 0xbb, 0xcc]) (0x2040 + sh_symtab.sh_name)
          = some (cstr ".symtab")
      ∧ (r.escns.sli Slot.symtab).img = some main_symtab_img
      ∧ r.escns.symtab_in_dimg = false :=
  ⟨_, rfl, by decide, by decide, rfl, by decide, by decide, rfl, by decide⟩

/-- C25 (amended): at a section header of the debug image, the `FIND` of a
recognised section whose `need_*` condition is false does nothing; the conditions
are computed before the loop, `need_symtab` for `.symtab` and `.strtab` (the main
image has no `.symtab`), `need_stabs` for `.stab` and `.stabstr` (no `.stab`),
`need_dwarf2` for the `.debug_*` sections of DWARF and `.gnu_debugaltlink` (no
`.debug_info`), `need_dwarf1` for `.debug` and `.line` (no `.debug`).  The
`FIND` fails with the duplicate-section error if and only if its condition is
true, the name of the header is the name of the section, and the slice of the
section is set already, by the main image or by an earlier header of the debug
image. -/
theorem C25_duplicate_section (t : Target) (dimg : DiImage) (h : AuxHdrs)
    (needs : Need → Bool) (i : Nat) (st : AuxScan) (f : Need × String × Slot)
    (a : ElfXX_Shdr)
    (hget : img_get_Shdr t dimg (INDEX_BIS h.shdr_ioff i h.shdr_ent_szB) = some a) :
    (needs f.1 = false → debug_find t dimg h needs i st f = Res.ok st)
    ∧ ((∃ d, debug_find t dimg h needs i st f
              = Res.fail "   debuginfo section duplicates a section in the main ELF file" d)
        ↔ (needs f.1 = true
            ∧ img_strcmp_c dimg (add64 h.shdr_strtab_ioff a.sh_name) (cstr f.2.1) = some 0
            ∧ (st.escns.sli f.2.2).img.isSome = true)) := by
  unfold debug_find aux_find
  rw [hget]
  dsimp only
  cases hn : needs f.1 with
  | false =>
    refine ⟨fun _ => rfl, ?_⟩
    constructor
    · rintro ⟨d, hd⟩
      cases hd
    · rintro ⟨h1, -⟩
      cases h1
  | true =>
    refine ⟨(fun hx => by cases hx), ?_⟩
    simp only [Bool.not_true, Bool.false_eq_true, if_false, true_and]
    cases hc : img_strcmp_c dimg (add64 h.shdr_strtab_ioff a.sh_name) (cstr f.2.1) with
    | none =>
      constructor
      · rintro ⟨d, hd⟩
        cases hd
      · rintro ⟨h1, -⟩
        cases h1
    | some c =>
      dsimp only
      by_cases hc0 : c = 0
      · subst hc0
        rw [if_neg (by simp)]
        by_cases hcur : (st.escns.sli f.2.2).img.isSome = true
        · rw [if_pos hcur]
          exact ⟨fun _ => ⟨rfl, hcur⟩, fun _ => ⟨_, rfl⟩⟩
        · rw [if_neg hcur]
          constructor
          · rintro ⟨d, hd⟩
            exfalso
            by_cases h1 : a.sh_offset = DiOffT_INVALID
            · rw [if_pos h1] at hd
              cases hd
            · rw [if_neg h1] at hd
              split at hd <;> split at hd <;>
                first
                | cases hd
                | (simp only [Res.bind, Res.fail.injEq] at hd
                   exact absurd hd.1 (by decide))
          · rintro ⟨-, h2⟩
            exact absurd h2 hcur
      · rw [if_pos hc0]
        constructor
        · rintro ⟨d, hd⟩
          cases hd
        · rintro ⟨h1, -⟩
          simp only [Option.some.injEq] at h1
          exact absurd h1 hc0

/-- C25 (witness): the main image `main_strtab_img` has a section `.strtab` and
no `.symtab`, so `need_symtab` is true; at the header of `.strtab` of its debug
file the `FIND` fails with the duplicate-section error, and
`ML_(read_elf_debug_info)` returns False with it. -/
theorem C25_witness :
    (∃ d, debug_find amd64 debug_strtab_img debug_hdrs (fun n => Need.holds strtab_only_escns n)
            1 { di := scen1_after, escns := strtab_only_escns }
            (Need.symtab, ".strtab", Slot.strtab)
          = Res.fail "   debuginfo section duplicates a section in the main ELF file" d)
    ∧ ∃ d, read_elf_debug_info env_strtab_both amd64 scen1_di
          = Res.fail "   debuginfo section duplicates a section in the main ELF file" d :=
  ⟨(C25_duplicate_section amd64 debug_strtab_img debug_hdrs
      (fun n => Need.holds strtab_only_escns n) 1
      { di := scen1_after, escns := strtab_only_escns } (Need.symtab, ".strtab", Slot.strtab)
      sh_strtab rfl).2.2 ⟨by decide, by decide, by decide⟩,
    ⟨_, rfl⟩⟩

/-! ### C26 -/

/-- The offset of a header of the main image, whose table offset is
`ehdr_mioff + e_shoff` with `ehdr_mioff` 0, is `INDEX_BIS(e_shoff, i, scale)`. -/
theorem INDEX_BIS_add64_zero (b i s : Nat) : INDEX_BIS (add64 0 b) i s = INDEX_BIS b i s := by
  unfold INDEX_BIS add64
  rw [Nat.zero_add, Nat.mod_add_mod]

/-- The table that the ELF header at the offset 0 of an image describes is the
section header table of the image. -/
theorem shdr_table_of_ehdr (t : Target) (img : DiImage) (ehdr : ElfXX_Ehdr) (shdr_ioff : Nat)
    (he : img_get_Ehdr t img 0 = some ehdr)
    (hoff : ∀ i, INDEX_BIS shdr_ioff i ehdr.e_shentsize
              = INDEX_BIS ehdr.e_shoff i ehdr.e_shentsize) :
    shdr_table_of t img shdr_ioff ehdr.e_shnum ehdr.e_shentsize := by
  intro i a hi ha
  unfold section_header_of
  rw [he]
  dsimp only
  rw [if_pos hi, ← hoff i]
  exact ha

/-- The section header table that `locate_headers` finds is the section header
table of the main image. -/
theorem locate_headers_table (t : Target) (mimg : DiImage) (di : DebugInfo) (h : MainHdrs)
    (hl : locate_headers t mimg di = Res.ok h) :
    shdr_table_of t mimg h.shdr_mioff h.shdr_mnent h.shdr_ment_szB := by
  unfold locate_headers at hl
  split at hl
  · cases hl
  · cases hl
  · dsimp only at hl
    split at hl
    · cases hl
    · rename_i ehdr he
      split at hl
      · cases hl
      · split at hl
        · cases hl
        · split at hl
          · cases hl
          · split at hl
            · cases hl
            · split at hl
              · cases hl
              · simp only [Res.ok.injEq] at hl
                rw [← hl]
                exact shdr_table_of_ehdr t mimg ehdr _ he
                  (fun i => INDEX_BIS_add64_zero _ _ _)

/-- The header tables that the first part of the reader hands on are those that
`locate_headers` finds. -/
theorem read_elf_debug_info_sections_hdrs (t : Target) (mimg : DiImage) (di : DebugInfo)
    (d : Discovered) (h : read_elf_debug_info_sections t (some mimg) di = Res.ok d) :
    locate_headers t mimg di = Res.ok d.hdrs := by
  unfold read_elf_debug_info_sections at h
  split at h
  · cases h
  · dsimp only at h
    obtain ⟨hd, h1, h⟩ := (Res.bind_ok_iff _ _ _).1 h
    obtain ⟨ps, -, h⟩ := (Res.bind_ok_iff _ _ _).1 h
    split at h
    · cases h
    · obtain ⟨ss, -, h⟩ := (Res.bind_ok_iff _ _ _).1 h
      simp only [Res.ok.injEq] at h
      rw [← h]
      exact h1

/-- The slice that `FINDX` of the main image sets has passed its check. -/
theorem find_section_checked (t : Target) (img : DiImage)
    (shdr_ioff nent shdr_ent_szB shdr_strtab_ioff : Nat) (di : DebugInfo) (i : Nat)
    (sec_name : String) (sli : DiSlice)
    (hT : shdr_table_of t img shdr_ioff nent shdr_ent_szB) (hi : i < nent)
    (h : find_section t img shdr_ioff shdr_ent_szB shdr_strtab_ioff di i sec_name
          = Res.ok (some sli)) :
    slice_checked t sli := by
  unfold find_section at h
  split at h
  · cases h
  · rename_i a ha
    split at h
    · cases h
    · split at h
      · cases h
      · dsimp only at h
        split at h
        · cases h
        · rename_i hoff
          have hsz : (if (a.sh_type == SHT_NOBITS) = true then 0 else a.sh_size)
              = (if a.sh_type = SHT_NOBITS then 0 else a.sh_size) := by
            by_cases hn : a.sh_type = SHT_NOBITS <;> simp [hn]
          rw [hsz] at h
          by_cases hend : add64 a.sh_offset (if a.sh_type = SHT_NOBITS then 0 else a.sh_size)
              > img_size img
          · rw [if_pos hend] at h
            cases h
          · rw [if_neg hend] at h
            simp only [Res.ok.injEq, Option.some.injEq] at h
            right
            exact ⟨img, i, a, hT i a hi ha, h.symm, hoff, not_lt.1 hend⟩

/-- The slice that `FIND` of the debug image sets has passed its check. -/
theorem aux_find_checked (t : Target) (img : DiImage) (hd : AuxHdrs) (di : DebugInfo)
    (i : Nat) (cond : Bool) (dup sec_name : String) (cur sli : DiSlice)
    (hT : shdr_table_of t img hd.shdr_ioff hd.shdr_nent hd.shdr_ent_szB)
    (hi : i < hd.shdr_nent)
    (h : aux_find t img hd di i cond true dup sec_name cur = Res.ok (some sli)) :
    slice_checked t sli := by
  unfold aux_find at h
  split at h
  · cases h
  · rename_i a ha
    split at h
    · cases h
    · split at h
      · cases h
      · split at h
        · cases h
        · split at h
          · cases h
          · dsimp only at h
            split at h
            · cases h
            · rename_i hoff
              have hsz : (if (a.sh_type == SHT_NOBITS) = true then 0 else a.sh_size)
                  = (if a.sh_type = SHT_NOBITS then 0 else a.sh_size) := by
                by_cases hn : a.sh_type = SHT_NOBITS <;> simp [hn]
              rw [hsz] at h
              by_cases hend : add64 a.sh_offset
                  (if a.sh_type = SHT_NOBITS then 0 else a.sh_size) > img_size img
              · simp only [hend, decide_True, Bool.and_self, if_true] at h
                cases h
              · simp only [hend, decide_False, Bool.and_false, Bool.false_eq_true, if_false,
                  Res.ok.injEq, Option.some.injEq] at h
                right
                exact ⟨img, i, a, hT i a hi ha, h.symm, hoff, not_lt.1 hend⟩

/-- Writing a checked slice keeps the slices checked. -/
theorem slices_checked_update (t : Target) (e : Escns) (s : Slot) (sli : DiSlice) (b : Bool)
    (he : slices_checked t e) (hs : s.is_alt = true ∨ slice_checked t sli) :
    slices_checked t { e with sli := Function.update e.sli s sli, symtab_in_dimg := b } := by
  refine ⟨?_, he.2⟩
  intro s1 h1
  show slice_checked t (Function.update e.sli s sli s1)
  by_cases hss : s1 = s
  · subst hss
    rw [Function.update_same]
    rcases hs with hs | hs
    · rw [hs] at h1; cases h1
    · exact hs
  · rw [Function.update_noteq hss]
    exact he.1 s1 h1

/-- One `FIND` of the second loop over the section headers of the main image
keeps the slices checked. -/
theorem main_find_checked (t : Target) (mimg : DiImage) (h : MainHdrs) (di : DebugInfo)
    (i : Nat) (st st1 : Escns) (f : String × Slot)
    (hT : shdr_table_of t mimg h.shdr_mioff h.shdr_mnent h.shdr_ment_szB)
    (hi : i < h.shdr_mnent) (hP : slices_checked t st)
    (hs : main_find t mimg h di i st f = Res.ok st1) : slices_checked t st1 := by
  unfold main_find at hs
  obtain ⟨r, hr, hs⟩ := (Res.bind_ok_iff _ _ _).1 hs
  cases r with
  | none => simp only [Res.ok.injEq] at hs; rw [← hs]; exact hP
  | some sli =>
    simp only [Res.ok.injEq] at hs
    rw [← hs]
    exact slices_checked_update t st f.2 sli st.symtab_in_dimg hP
      (Or.inr (find_section_checked _ _ _ _ _ _ _ _ _ _ hT hi hr))

/-- The `FINDX` of `.eh_frame` keeps the slices checked. -/
theorem main_find_ehframe_checked (t : Target) (mimg : DiImage) (h : MainHdrs)
    (di : DebugInfo) (i : Nat) (st st1 : Escns)
    (hT : shdr_table_of t mimg h.shdr_mioff h.shdr_mnent h.shdr_ment_szB)
    (hi : i < h.shdr_mnent) (hP : slices_checked t st)
    (hs : main_find_ehframe t mimg h di i st = Res.ok st1) : slices_checked t st1 := by
  unfold main_find_ehframe at hs
  obtain ⟨r, hr, hs⟩ := (Res.bind_ok_iff _ _ _).1 hs
  cases r with
  | none => simp only [Res.ok.injEq] at hs; rw [← hs]; exact hP
  | some sli =>
    dsimp only at hs
    split at hs
    · simp only [Res.ok.injEq] at hs
      rw [← hs]
      refine ⟨hP.1, ?_⟩
      intro k
      show slice_checked t (Function.update st.ehframe st.ehframe_mix sli k)
      by_cases hk : k = st.ehframe_mix
      · subst hk
        rw [Function.update_same]
        exact find_section_checked _ _ _ _ _ _ _ _ _ _ hT hi hr
      · rw [Function.update_noteq hk]
        exact hP.2 k
    · cases hs

/-- The slices that the second loop over the section headers of the main image
leaves are checked, when its table is the section header table of the image. -/
theorem second_pass_checked (t : Target) (mimg : DiImage) (h : MainHdrs) (di : DebugInfo)
    (escns : Escns) (hT : shdr_table_of t mimg h.shdr_mioff h.shdr_mnent h.shdr_ment_szB)
    (hs : second_pass t mimg h di = Res.ok escns) : slices_checked t escns := by
  unfold second_pass at hs
  refine forRes_ok_inv_idx (second_pass_step t mimg h di) (fun _ s => slices_checked t s)
    _ _ _ _ ?_ ?_ hs
  · intro i s s1 _ hi hP hstep
    have hi1 : i < h.shdr_mnent := by omega
    unfold second_pass_step at hstep
    obtain ⟨s2, h2, h3⟩ := (Res.bind_ok_iff _ _ _).1 hstep
    exact main_find_ehframe_checked t mimg h di i s2 s1 hT hi1
      (foldRes_ok_inv (main_find t mimg h di i) (slices_checked t)
        (fun x f x1 hx hf => main_find_checked t mimg h di i x x1 f hT hi1 hx hf) _ _ _ hP h2)
      h3
  · exact ⟨fun _ _ => Or.inl rfl, fun _ => Or.inl rfl⟩

/-- One second `FIND` of the loop over the section headers of the debug image
keeps the slices checked. -/
theorem debug_find_checked (t : Target) (dimg : DiImage) (h : AuxHdrs) (needs : Need → Bool)
    (i : Nat) (st st1 : AuxScan) (f : Need × String × Slot)
    (hT : shdr_table_of t dimg h.shdr_ioff h.shdr_nent h.shdr_ent_szB) (hi : i < h.shdr_nent)
    (hP : slices_checked t st.escns)
    (hs : debug_find t dimg h needs i st f = Res.ok st1) : slices_checked t st1.escns := by
  unfold debug_find at hs
  obtain ⟨r, hr, hs⟩ := (Res.bind_ok_iff _ _ _).1 hs
  cases r with
  | none => simp only [Res.ok.injEq] at hs; rw [← hs]; exact hP
  | some sli =>
    simp only [Res.ok.injEq] at hs
    rw [← hs]
    exact slices_checked_update t st.escns f.2.2 sli _ hP
      (Or.inr (aux_find_checked _ _ _ _ _ _ _ _ _ _ hT hi hr))

/-- What the reader takes from a debug image keeps the slices checked. -/
theorem read_debug_image_checked (t : Target) (dimg : DiImage) (st st1 : AuxScan)
    (hP : slices_checked t st.escns) (h : read_debug_image t dimg st = Res.ok st1) :
    slices_checked t st1.escns := by
  have hstep : ∀ (hd : AuxHdrs) (b : DebugBias) (needs : Need → Bool) (s : AuxScan) (i : Nat)
      (s1 : AuxScan), shdr_table_of t dimg hd.shdr_ioff hd.shdr_nent hd.shdr_ent_szB →
      i < hd.shdr_nent → slices_checked t s.escns →
      debug_step t dimg hd b needs s i = Res.ok s1 → slices_checked t s1.escns := by
    intro hd b needs s i s1 hT hi hQ hs
    unfold debug_step at hs
    obtain ⟨di2, -, h3⟩ := (Res.bind_ok_iff _ _ _).1 hs
    exact foldRes_ok_inv (debug_find t dimg hd needs i) (fun x => slices_checked t x.escns)
      (fun x f x1 hx hf => debug_find_checked t dimg hd needs i x x1 f hT hi hx hf) debug_finds
      { s with di := di2 } s1 hQ h3
  unfold read_debug_image at h
  split at h
  · cases h
  · simp only [Res.ok.injEq] at h; rw [← h]; exact hP
  · split at h
    · cases h
    · rename_i ehdr he
      dsimp only at h
      split at h
      · cases h
      · split at h
        · cases h
        · split at h
          · cases h
          · split at h
            · cases h
            · split at h
              · cases h
              · split at h
                · cases h
                · refine forRes_ok_inv_idx _ (fun _ x => slices_checked t x.escns)
                    _ _ _ _ ?_ hP h
                  intro j s s2 _ hj hQ hs
                  have hj1 : j < ehdr.e_shnum := by omega
                  exact hstep _ _ _ s j s2
                    (shdr_table_of_ehdr t dimg ehdr _ he (fun _ => rfl)) hj1 hQ hs

/-- One `FIND` of the loop over the section headers of the alternate debug image
writes a slice of the alternate debug image only. -/
theorem alt_find_checked (t : Target) (aimg : DiImage) (h : AuxHdrs) (i : Nat)
    (st st1 : AuxScan) (f : String × Slot) (hf : f.2.is_alt = true)
    (hP : slices_checked t st.escns) (hs : alt_find t aimg h i st f = Res.ok st1) :
    slices_checked t st1.escns := by
  unfold alt_find at hs
  obtain ⟨r, -, hs⟩ := (Res.bind_ok_iff _ _ _).1 hs
  cases r with
  | none => simp only [Res.ok.injEq] at hs; rw [← hs]; exact hP
  | some sli =>
    simp only [Res.ok.injEq] at hs
    rw [← hs]
    exact slices_checked_update t st.escns f.2 sli st.escns.symtab_in_dimg hP (Or.inl hf)

/-- What the reader takes from an alternate debug image keeps the slices of the
main image and of the debug image checked. -/
theorem read_alt_image_checked (t : Target) (aimg : DiImage) (st st1 : AuxScan)
    (hP : slices_checked t st.escns) (h : read_alt_image t aimg st = Res.ok st1) :
    slices_checked t st1.escns := by
  have hstep : ∀ (hd : AuxHdrs) (s : AuxScan) (i : Nat) (s1 : AuxScan),
      slices_checked t s.escns →
      foldRes (alt_find t aimg hd i) alt_finds s = Res.ok s1 → slices_checked t s1.escns := by
    intro hd s i s1 hQ hs
    simp only [alt_finds, foldRes] at hs
    obtain ⟨x1, h1, hs⟩ := (Res.bind_ok_iff _ _ _).1 hs
    obtain ⟨x2, h2, hs⟩ := (Res.bind_ok_iff _ _ _).1 hs
    obtain ⟨x3, h3, hs⟩ := (Res.bind_ok_iff _ _ _).1 hs
    obtain ⟨x4, h4, hs⟩ := (Res.bind_ok_iff _ _ _).1 hs
    simp only [Res.ok.injEq] at hs
    rw [← hs]
    exact alt_find_checked t aimg hd i x3 x4 (".debug_str", Slot.debug_str_alt) rfl
      (alt_find_checked t aimg hd i x2 x3 (".debug_abbrev", Slot.debug_abbv_alt) rfl
        (alt_find_checked t aimg hd i x1 x2 (".debug_info", Slot.debug_info_alt) rfl
          (alt_find_checked t aimg hd i s x1 (".debug_line", Slot.debug_line_alt) rfl hQ h1)
          h2) h3) h4
  unfold read_alt_image at h
  split at h
  · cases h
  · simp only [Res.ok.injEq] at h; rw [← h]; exact hP
  · split at h
    · cases h
    · dsimp only at h
      split at h
      · cases h
      · split at h
        · cases h
        · split at h
          · cases h
          · split at h
            · cases h
            · exact forRes_ok_inv _ (fun x => slices_checked t x.escns)
                (fun s i s1 hQ hs => hstep _ s i s1 hQ hs) _ _ _ _ hP h

/-- The part of the reader from the search for the debug image to the symbol
tables keeps the slices checked. -/
theorem read_companions_and_symbols_checked (env : Env) (t : Target) (mimg : DiImage)
    (di : DebugInfo) (escns : Escns) (r : ReadOutcome) (hP : slices_checked t escns)
    (h : read_companions_and_symbols env t mimg di escns = Res.ok r) :
    slices_checked t r.escns := by
  unfold read_companions_and_symbols at h
  split at h
  · cases h
  · rename_i dimg hdimg
    obtain ⟨st1, h1, h⟩ := (Res.bind_ok_iff _ _ _).1 h
    have e1 : slices_checked t st1.escns := by
      cases dimg with
      | none => simp only [Res.ok.injEq] at h1; rw [← h1]; exact hP
      | some d => exact read_debug_image_checked t d _ st1 hP h1
    split at h
    · cases h
    · rename_i aimg haimg
      obtain ⟨st2, h2, h⟩ := (Res.bind_ok_iff _ _ _).1 h
      have e2 : slices_checked t st2.escns := by
        cases aimg with
        | none => simp only [Res.ok.injEq] at h2; rw [← h2]; exact e1
        | some a => exact read_alt_image_checked t a st1 st2 e1 h2
      dsimp only at h
      split at h
      · cases h
      · split at h
        · cases h
        · split at h
          · cases h
          · split at h
            · cases h
            · simp only [Res.ok.injEq] at h
              rw [← h]
              exact e2

/-- The slices that the reader holds when it returns True are checked. -/
theorem read_elf_debug_info_checked (env : Env) (t : Target) (di : DebugInfo)
    (r : ReadOutcome) (h : read_elf_debug_info env t di = Res.ok r) :
    slices_checked t r.escns := by
  unfold read_elf_debug_info at h
  dsimp only at h
  obtain ⟨d, hd, h⟩ := (Res.bind_ok_iff _ _ _).1 h
  split at h
  · cases h
  · rename_i mimg hm
    rw [hm] at hd
    obtain ⟨escns, he, h⟩ := (Res.bind_ok_iff _ _ _).1 h
    obtain ⟨r1, hr1, h⟩ := (Res.bind_ok_iff _ _ _).1 h
    split at h
    · cases h
    · simp only [Res.ok.injEq] at h
      rw [← h]
      exact read_companions_and_symbols_checked env t mimg d.di escns r1
        (second_pass_checked t mimg d.hdrs d.di escns
          (locate_headers_table t mimg di d.hdrs
            (read_elf_debug_info_sections_hdrs t mimg di d hd)) he) hr1

/-- A checked slice lies in its image unless its section is of the type
SHT_NOBITS or `sh_offset + sh_size` is 2^64 or more. -/
theorem slice_checked_in_image (t : Target) (sli : DiSlice) (hs : slice_checked t sli) :
    slice_in_image sli = true
    ∨ ∃ (img : DiImage) (i : Nat) (a : ElfXX_Shdr),
        section_header_of t img i = some a
        ∧ sli = { img := some img, ioff := a.sh_offset, szB := a.sh_size }
        ∧ (a.sh_type = SHT_NOBITS ∨ mod64 ≤ a.sh_offset + a.sh_size) := by
  rcases hs with hs | ⟨img, i, a, ha, hs, -, hend⟩
  · left
    rw [hs]
    rfl
  · by_cases hn : a.sh_type = SHT_NOBITS
    · exact Or.inr ⟨img, i, a, ha, hs, Or.inl hn⟩
    · by_cases hw : mod64 ≤ a.sh_offset + a.sh_size
      · exact Or.inr ⟨img, i, a, ha, hs, Or.inr hw⟩
      · left
        rw [if_neg hn] at hend
        unfold add64 at hend
        rw [Nat.mod_eq_of_lt (not_le.1 hw)] at hend
        rw [hs]
        simp only [slice_in_image, decide_eq_true_eq]
        exact hend

/-- No section header of `nobits_info_img` has the size 0x100000. -/
theorem nobits_info_img_sizes (i : Nat) (a : ElfXX_Shdr)
    (ha : section_header_of amd64 nobits_info_img i = some a) : a.sh_size ≠ 0x100000 := by
  have he : img_get_Ehdr amd64 nobits_info_img 0 = some (mkEhdr 2 5) := rfl
  have hall : ∀ k, k < 5 → ∀ b, section_header_of amd64 nobits_info_img k = some b →
      b.sh_size ≠ 0x100000 := by
    decide
  by_cases hi : i < 5
  · exact hall i hi a ha
  · unfold section_header_of at ha
    rw [he] at ha
    have hi1 : ¬ i < (mkEhdr 2 5).e_shnum := hi
    dsimp only at ha
    rw [if_neg hi1] at ha
    cases ha

/-- C26 (counterexample): the main image `nobits_info_img` has a section
`.debug_info` of the type SHT_NOBITS at the offset 0x2f00, of 0x1000 bytes, in an
image of 0x3000 bytes.  `ML_(read_elf_debug_info)` returns True and holds for
`.debug_info` a slice of that image with `ioff + szB = 0x3f00`, greater than the
size of the image. -/
theorem C26_counterexample :
    ∃ r, read_elf_debug_info (env_of nobits_info_img) amd64 scen1_di = Res.ok r
      ∧ img_get_Shdr amd64 nobits_info_img (INDEX_BIS 0x2100 3 64) = some sh_debug_info_nobits
      ∧ section_header_of amd64 nobits_info_img 3 = some sh_debug_info_nobits
      ∧ (r.escns.sli Slot.debug_info).img = some nobits_info_img
      ∧ (r.escns.sli Slot.debug_info).ioff = 0x2f00
      ∧ (r.escns.sli Slot.debug_info).szB = 0x1000
      ∧ nobits_info_img.size = 0x3000
      ∧ slice_in_image (r.escns.sli Slot.debug_info) = false :=
  ⟨_, rfl, by decide, by decide, rfl, by decide, by decide, by decide, by decide⟩

/-- C26 (amended): every slice that the reader has set from the main image or
from the debug image when it calls the readers of the symbols, and every slice
of `ehframe_escn`, is either the invalid slice or the slice of a section header
of its own image, the header at an index below `e_shnum` of the section header
table of that image, for which `sh_offset + (nobits ? 0 : sh_size)`, computed on
64 bits, is at most the size of the image: this holds after the second loop over
the section headers of the main image, for the tables that the reader has
located in that image, is kept by the loops over the section headers of the
debug image and of the alternate debug image, and so holds when
`ML_(read_elf_debug_info)` returns True.  Such a slice has
`ioff + szB <= size of the image` unless its section, a section of that image,
is of the type SHT_NOBITS or has `sh_offset + sh_size` of 2^64 or more.  A slice
of 0x100000 bytes at the offset 0x2f00 of `nobits_info_img`, an image of 0x3000
bytes with no section of that size, is not such a slice. -/
theorem C26_slices_checked :
    (∀ (t : Target) (mimg : DiImage) (h : MainHdrs) (di0 di : DebugInfo) (escns : Escns),
        locate_headers t mimg di0 = Res.ok h →
        second_pass t mimg h di = Res.ok escns → slices_checked t escns)
    ∧ (∀ (t : Target) (dimg : DiImage) (st st1 : AuxScan), slices_checked t st.escns →
        read_debug_image t dimg st = Res.ok st1 → slices_checked t st1.escns)
    ∧ (∀ (t : Target) (aimg : DiImage) (st st1 : AuxScan), slices_checked t st.escns →
        read_alt_image t aimg st = Res.ok st1 → slices_checked t st1.escns)
    ∧ (∀ (env : Env) (t : Target) (di : DebugInfo) (r : ReadOutcome),
        read_elf_debug_info env t di = Res.ok r → slices_checked t r.escns)
    ∧ (∀ (t : Target) (sli : DiSlice), slice_checked t sli →
        slice_in_image sli = true
        ∨ ∃ (img : DiImage) (i : Nat) (a : ElfXX_Shdr),
            section_header_of t img i = some a
            ∧ sli = { img := some img, ioff := a.sh_offset, szB := a.sh_size }
            ∧ (a.sh_type = SHT_NOBITS ∨ mod64 ≤ a.sh_offset + a.sh_size))
    ∧ ¬ slice_checked amd64 { img := some nobits_info_img, ioff := 0x2f00, szB := 0x100000 } := by
  refine ⟨?_, read_debug_image_checked, read_alt_image_checked, read_elf_debug_info_checked,
    slice_checked_in_image, ?_⟩
  · intro t mimg h di0 di escns hl hs
    exact second_pass_checked t mimg h di escns (locate_headers_table t mimg di0 h hl) hs
  · intro hc
    rcases hc with hc | ⟨img, i, a, ha, hs, -, -⟩
    · have e := congrArg DiSlice.szB hc
      revert e
      decide
    · simp only [DiSlice.mk.injEq, Option.some.injEq] at hs
      obtain ⟨h1, -, h3⟩ := hs
      rw [← h1] at ha
      exact nobits_info_img_sizes i a ha h3.symm

/-- C26 (witness): the slices that the reader holds for `main_symtab_img` and its
debug file, among them the one of `.symtab`, which is the slice of the section
header 1 of the debug file, and whose 96 bytes at the offset 0x2500 lie in the
image. -/
theorem C26_witness :
    ∃ r, read_elf_debug_info env_symtab_both amd64 scen1_di = Res.ok r
      ∧ slices_checked amd64 r.escns
      ∧ section_header_of amd64 (debug_img [0xaa, 0xbb, 0xcc]) 1 = some sh_symtab
      ∧ (r.escns.sli Slot.symtab).ioff = 0x2500 ∧ (r.escns.sli Slot.symtab).szB = 96
      ∧ slice_in_image (r.escns.sli Slot.symtab) = true :=
  ⟨_, rfl, C26_slices_checked.2.2.2.1 env_symtab_both amd64 scen1_di _ rfl, by decide,
    by decide, by decide, by decide⟩

/-! ### C24 -/

/-- Subtracting a word and adding it again gives the word back. -/
theorem addW_subW_cancel (t : Target) (x d : Nat) : addW t (subW t x d) d = x % t.wmod := by
  unfold addW subW
  have hm : 0 < t.wmod := Nat.pos_of_ne_zero (by unfold Target.wmod; positivity)
  have hr : d % t.wmod < t.wmod := Nat.mod_lt _ hm
  have hd : d = t.wmod * (d / t.wmod) + d % t.wmod := (Nat.div_add_mod d t.wmod).symm
  rw [Nat.mod_add_mod]
  have e : x + (t.wmod - d % t.wmod) + d = x + t.wmod * (1 + d / t.wmod) := by
    have e1 : t.wmod * (1 + d / t.wmod) = t.wmod + t.wmod * (d / t.wmod) := by ring
    rw [e1]
    omega
  rw [e, Nat.add_mul_mod_self_left]

/-- What the first `FIND` of the debug image does to a section record. -/
theorem debug_sec_ok (t : Target) (dimg : DiImage) (h : AuxHdrs) (i : Nat) (sec_name : String)
    (dbias : Nat) (r r1 : SecRec)
    (hs : debug_sec t dimg h i sec_name dbias r = Res.ok r1) :
    debug_sec_rel t dimg h i sec_name r r1 := by
  obtain ⟨p, sv, av, sz, bi, dsv, dbi⟩ := r
  unfold debug_sec img_get_Shdr at hs
  unfold debug_sec_rel sec_named
  by_cases hv : img_valid dimg (INDEX_BIS h.shdr_ioff i h.shdr_ent_szB) (sizeof_Shdr t) = true
  · rw [if_pos hv] at hs
    dsimp only at hs
    cases p with
    | false =>
      simp only [Bool.not_false, if_true, Res.ok.injEq] at hs
      subst hs
      exact ⟨rfl, (fun hx => Bool.noConfusion hx.1), (fun _ => rfl)⟩
    | true =>
      simp only [Bool.not_true, Bool.false_eq_true, if_false] at hs
      split at hs
      · cases hs
      · rename_i c hc
        by_cases hc0 : c = 0
        · subst hc0
          rw [if_neg (by simp)] at hs
          split at hs
          · cases hs
          · split at hs
            · cases hs
            · simp only [Res.ok.injEq] at hs
              subst hs
              refine ⟨rfl, (fun _ => ⟨rfl, ?_⟩), (fun hx => absurd ⟨rfl, hc⟩ hx)⟩
              unfold debug_eq
              dsimp only
              rw [addW_subW_cancel]
              unfold addW
              rw [Nat.mod_mod]
        · rw [if_pos hc0] at hs
          simp only [Res.ok.injEq] at hs
          subst hs
          refine ⟨rfl, (fun hx => ?_), (fun _ => rfl)⟩
          rw [hc] at hx
          simp only [Option.some.injEq] at hx
          exact absurd hx.2 hc0
  · rw [if_neg hv] at hs
    cases hs

/-- What the six first `FIND`s of the debug image do to the six section records
at one section header. -/
theorem debug_secs_ok (t : Target) (dimg : DiImage) (h : AuxHdrs) (b : DebugBias) (i : Nat)
    (di di1 : DebugInfo) (hx : debug_secs t dimg h b i di = Res.ok di1) :
    ∀ p ∈ six_sections, debug_sec_rel t dimg h i p.1 (p.2 di) (p.2 di1) := by
  unfold debug_secs at hx
  obtain ⟨r1, h1, hx⟩ := (Res.bind_ok_iff _ _ _).1 hx
  obtain ⟨r2, h2, hx⟩ := (Res.bind_ok_iff _ _ _).1 hx
  obtain ⟨r3, h3, hx⟩ := (Res.bind_ok_iff _ _ _).1 hx
  obtain ⟨r4, h4, hx⟩ := (Res.bind_ok_iff _ _ _).1 hx
  obtain ⟨r5, h5, hx⟩ := (Res.bind_ok_iff _ _ _).1 hx
  obtain ⟨r6, h6, hx⟩ := (Res.bind_ok_iff _ _ _).1 hx
  simp only [Res.ok.injEq] at hx
  subst hx
  intro p hp
  simp only [six_sections, List.mem_cons, List.mem_singleton, List.not_mem_nil, or_false] at hp
  rcases hp with rfl | rfl | rfl | rfl | rfl | rfl
  · exact debug_sec_ok _ _ _ _ _ _ _ _ h1
  · exact debug_sec_ok _ _ _ _ _ _ _ _ h2
  · exact debug_sec_ok _ _ _ _ _ _ _ _ h3
  · exact debug_sec_ok _ _ _ _ _ _ _ _ h4
  · exact debug_sec_ok _ _ _ _ _ _ _ _ h5
  · exact debug_sec_ok _ _ _ _ _ _ _ _ h6

/-- One iteration of the loop over the section headers of the debug image leaves
the DebugInfo that the six first `FIND`s have written. -/
theorem debug_step_di (t : Target) (dimg : DiImage) (hd : AuxHdrs) (b : DebugBias)
    (needs : Need → Bool) (s s1 : AuxScan) (i : Nat)
    (hs : debug_step t dimg hd b needs s i = Res.ok s1) :
    debug_secs t dimg hd b i s.di = Res.ok s1.di := by
  unfold debug_step at hs
  obtain ⟨di2, h2, h3⟩ := (Res.bind_ok_iff _ _ _).1 hs
  have e : s1.di = di2 := by
    refine foldRes_ok_inv (debug_find t dimg hd needs i) (fun x => x.di = di2) ?_ debug_finds
      { s with di := di2 } s1 rfl h3
    intro x f x1 hx hf
    unfold debug_find at hf
    obtain ⟨r, -, hr⟩ := (Res.bind_ok_iff _ _ _).1 hf
    cases r with
    | none => simp only [Res.ok.injEq] at hr; rw [← hr]; exact hx
    | some sli => simp only [Res.ok.injEq] at hr; rw [← hr]; exact hx
  rw [e]
  exact h2

/-- One section header of the debug image keeps `debug_sec_inv`. -/
theorem debug_sec_inv_step (t : Target) (dimg : DiImage) (h : AuxHdrs) (sec_name : String)
    (r0 r r1 : SecRec) (k : Nat) (hinv : debug_sec_inv t dimg h sec_name r0 k r)
    (hrel : debug_sec_rel t dimg h k sec_name r r1) :
    debug_sec_inv t dimg h sec_name r0 (k + 1) r1 := by
  obtain ⟨i1, i2, i3⟩ := hinv
  obtain ⟨q1, q2, q3⟩ := hrel
  have hpres : r.present = r0.present := by rw [← i1]
  refine ⟨?_, ?_, ?_⟩
  · rw [← i1, ← q1]
  · intro h0
    by_cases hc : r.present = true ∧ sec_named dimg h k sec_name
    · exact (q2 hc).2
    · rw [q3 hc]
      exact i2 h0
  · intro hp i hi hnamed hlast
    by_cases hik : i = k
    · subst hik
      exact q2 ⟨by rw [hpres]; exact hp, hnamed⟩
    · have hk : ¬ sec_named dimg h k sec_name := hlast k (by omega) (by omega)
      rw [q3 (fun hc => hk hc.2)]
      exact i3 hp i (by omega) hnamed (fun j h1 h2 => hlast j h1 (by omega))

/-- The loop over the section headers of the debug image establishes
`debug_sec_inv` for the six sections. -/
theorem debug_loop_sections (t : Target) (dimg : DiImage) (hd : AuxHdrs) (b : DebugBias)
    (needs : Need → Bool) (n : Nat) (st st1 : AuxScan)
    (h : forRes (debug_step t dimg hd b needs) n 0 st = Res.ok st1) :
    ∀ p ∈ six_sections, debug_sec_inv t dimg hd p.1 (p.2 st.di) n (p.2 st1.di) := by
  have hinv := forRes_ok_inv_idx (debug_step t dimg hd b needs)
    (fun k s => ∀ p ∈ six_sections, debug_sec_inv t dimg hd p.1 (p.2 st.di) k (p.2 s.di))
    n 0 st st1 ?_ ?_ h
  · rw [Nat.zero_add] at hinv
    exact hinv
  · intro j s s2 _ _ hP hstep p hp
    exact debug_sec_inv_step t dimg hd p.1 _ _ _ j (hP p hp)
      (debug_secs_ok t dimg hd b j s.di s2.di (debug_step_di t dimg hd b needs s s2 j hstep) p hp)
  · intro p _
    exact ⟨rfl, fun h0 => h0, fun _ i hi => absurd hi (by omega)⟩

/-- What the reader takes from a debug image: nothing if the image is not an ELF
object file, and else what the loop over its section headers takes. -/
theorem read_debug_image_loop (t : Target) (dimg : DiImage) (st st1 : AuxScan)
    (h : read_debug_image t dimg st = Res.ok st1) :
    (is_elf_object_file_by_DiImage t dimg false = some false ∧ st1 = st)
    ∨ (is_elf_object_file_by_DiImage t dimg false = some true
        ∧ ∃ hd b needs, aux_hdrs_of t dimg = some hd
            ∧ forRes (debug_step t dimg hd b needs) hd.shdr_nent 0 st = Res.ok st1) := by
  unfold read_debug_image at h
  split at h
  · cases h
  · rename_i he
    simp only [Res.ok.injEq] at h
    exact Or.inl ⟨he, h.symm⟩
  · rename_i he
    right
    refine ⟨he, ?_⟩
    split at h
    · cases h
    · rename_i e hehdr
      dsimp only at h
      split at h
      · cases h
      · split at h
        · cases h
        · split at h
          · cases h
          · split at h
            · cases h
            · rename_i a ha
              split at h
              · cases h
              · split at h
                · cases h
                · rename_i b _
                  refine ⟨_, b, _, ?_, h⟩
                  unfold aux_hdrs_of
                  rw [hehdr]
                  dsimp only
                  rw [ha]

/-- What the reader takes from a debug image establishes `debug_sec_inv` for the
six sections. -/
theorem read_debug_image_sections (t : Target) (dimg : DiImage) (st st1 : AuxScan)
    (h : read_debug_image t dimg st = Res.ok st1) :
    ∀ p ∈ six_sections,
      { p.2 st1.di with debug_svma := (p.2 st.di).debug_svma,
                        debug_bias := (p.2 st.di).debug_bias } = p.2 st.di
      ∧ (debug_eq t (p.2 st.di) → debug_eq t (p.2 st1.di))
      ∧ (is_elf_object_file_by_DiImage t dimg false = some true →
          ∀ hd, aux_hdrs_of t dimg = some hd →
            debug_sec_inv t dimg hd p.1 (p.2 st.di) hd.shdr_nent (p.2 st1.di)) := by
  intro p hp
  rcases read_debug_image_loop t dimg st st1 h with ⟨he, hst⟩ | ⟨he, hd, b, needs, hh, hloop⟩
  · subst hst
    refine ⟨rfl, fun h0 => h0, ?_⟩
    intro he1
    rw [he] at he1
    cases he1
  · have hinv := debug_loop_sections t dimg hd b needs hd.shdr_nent st st1 hloop p hp
    refine ⟨hinv.1, hinv.2.1, ?_⟩
    intro _ hd1 hh1
    rw [hh] at hh1
    simp only [Option.some.injEq] at hh1
    subst hh1
    exact hinv

/-- The first part of the reader, on a DebugInfo that enters with none of the six
sections present, leaves every present section with `debug_svma = svma` and
`debug_bias = bias`. -/
theorem first_part_debug_eq (t : Target) (mimg : Option DiImage) (di : DebugInfo)
    (d : Discovered) (hfresh : no_section_present di)
    (h : read_elf_debug_info_sections t mimg di = Res.ok d) :
    ∀ p ∈ six_sections, (p.2 d.di).present = true → debug_eq t (p.2 d.di) := by
  obtain ⟨img, hd, ps, ss, -, -, -, hps, hss, hdeq⟩ :=
    read_elf_debug_info_sections_ok t mimg di d h
  obtain ⟨s0, hs0⟩ := scan_program_headers_ok _ _ _ _ _ hps
  obtain ⟨f1, f2, f3, f4, f5, f6⟩ := hfresh
  have hinit : sections_ok t ps.svma_ranges (with_soname_default ps.di) := by
    unfold with_soname_default
    rw [hs0]
    split <;>
      exact ⟨sec_ok_of_absent _ _ _ _ f1, sec_ok_of_absent _ _ _ _ f2,
        sec_ok_of_absent _ _ _ _ f3, sec_ok_of_absent _ _ _ _ f4,
        sec_ok_of_absent _ _ _ _ f5, sec_ok_of_absent _ _ _ _ f6⟩
  unfold scan_section_headers at hss
  have hok : sections_ok t ps.svma_ranges ss.di :=
    forRes_ok_inv (shdr_step t img hd ps.svma_ranges)
      (fun st => sections_ok t ps.svma_ranges st.di)
      (fun s i s1 hP hs => shdr_step_inv t img hd ps.svma_ranges s s1 i hP hs) _ _ _ _ hinit hss
  obtain ⟨g1, g2, g3, g4, g5, g6⟩ := hok
  rw [hdeq]
  intro p hp hpres
  simp only [six_sections, List.mem_cons, List.mem_singleton, List.not_mem_nil, or_false] at hp
  unfold debug_eq
  rcases hp with rfl | rfl | rfl | rfl | rfl | rfl
  · obtain ⟨-, -, e1, e2⟩ := g1 hpres
    show addW t ss.di.text.bias ss.di.text.svma = _
    rw [e1, e2]
  · obtain ⟨-, -, e1, e2⟩ := g2 hpres
    show addW t ss.di.data.bias ss.di.data.svma = _
    rw [e1, e2]
  · obtain ⟨-, -, e1, e2⟩ := g3 hpres
    show addW t ss.di.sdata.bias ss.di.sdata.svma = _
    rw [e1, e2]
  · obtain ⟨-, -, e1, e2⟩ := g4 hpres
    show addW t ss.di.rodata.bias ss.di.rodata.svma = _
    rw [e1, e2]
  · obtain ⟨-, -, e1, e2⟩ := g5 hpres
    show addW t ss.di.bss.bias ss.di.bss.svma = _
    rw [e1, e2]
  · obtain ⟨-, -, e1, e2⟩ := g6 hpres
    show addW t ss.di.sbss.bias ss.di.sbss.svma = _
    rw [e1, e2]

/-- The part of the reader from the search for the debug image to the symbol
tables writes of the six section records only `debug_svma` and `debug_bias`, and
keeps the equation of the specification. -/
theorem read_companions_and_symbols_sections (env : Env) (t : Target) (mimg : DiImage)
    (di : DebugInfo) (escns : Escns) (r : ReadOutcome)
    (h : read_companions_and_symbols env t mimg di escns = Res.ok r) :
    ∀ p ∈ six_sections,
      { p.2 r.di with debug_svma := (p.2 di).debug_svma,
                      debug_bias := (p.2 di).debug_bias } = p.2 di
      ∧ (debug_eq t (p.2 di) → debug_eq t (p.2 r.di)) := by
  unfold read_companions_and_symbols at h
  split at h
  · cases h
  · rename_i dimg hdimg
    obtain ⟨st1, h1, h⟩ := (Res.bind_ok_iff _ _ _).1 h
    have e1 : ∀ p ∈ six_sections,
        { p.2 st1.di with debug_svma := (p.2 di).debug_svma,
                          debug_bias := (p.2 di).debug_bias } = p.2 di
        ∧ (debug_eq t (p.2 di) → debug_eq t (p.2 st1.di)) := by
      intro p hp
      cases dimg with
      | none =>
        simp only [Res.ok.injEq] at h1
        rw [← h1]
        exact ⟨rfl, fun h0 => h0⟩
      | some d =>
        have hs := read_debug_image_sections t d _ st1 h1 p hp
        exact ⟨hs.1, hs.2.1⟩
    split at h
    · cases h
    · rename_i aimg haimg
      obtain ⟨st2, h2, h⟩ := (Res.bind_ok_iff _ _ _).1 h
      have e2 : st2.di = st1.di := by
        cases aimg with
        | none => simp only [Res.ok.injEq] at h2; rw [← h2]
        | some a => exact read_alt_image_di t a st1 st2 h2
      dsimp only at h
      split at h
      · cases h
      · split at h
        · cases h
        · split at h
          · cases h
          · split at h
            · cases h
            · simp only [Res.ok.injEq] at h
              rw [← h]
              show ∀ p ∈ six_sections,
                { p.2 st2.di with debug_svma := (p.2 di).debug_svma,
                                  debug_bias := (p.2 di).debug_bias } = p.2 di
                ∧ (debug_eq t (p.2 di) → debug_eq t (p.2 st2.di))
              rw [e2]
              exact e1

/-- C24: when `ML_(read_elf_debug_info)` returns True on a DebugInfo that entered
with none of the six sections recorded, every section among text, data, sdata,
rodata, bss and sbss that is present has
`bias + svma = debug_bias + debug_svma` modulo the word size, whether a debug
image has been processed or not; and what the reader takes from a debug image
that is an ELF object file leaves, for every such section that is present and
found by name in the debug image, `debug_svma` equal to the `sh_addr` of the
section of that name in the debug image (the last one, if there are several),
the equation, and `svma` and `bias` as they were. -/
theorem C24_debug_bias_relation :
    (∀ (env : Env) (t : Target) (di : DebugInfo) (r : ReadOutcome),
        no_section_present di → read_elf_debug_info env t di = Res.ok r →
        ∀ p ∈ six_sections, (p.2 r.di).present = true → debug_eq t (p.2 r.di))
    ∧ (∀ (t : Target) (dimg : DiImage) (st st1 : AuxScan) (hd : AuxHdrs),
        read_debug_image t dimg st = Res.ok st1 →
        is_elf_object_file_by_DiImage t dimg false = some true →
        aux_hdrs_of t dimg = some hd →
        ∀ p ∈ six_sections, (p.2 st.di).present = true →
          ∀ i, i < hd.shdr_nent → sec_named dimg hd i p.1 →
            (∀ j, i < j → j < hd.shdr_nent → ¬ sec_named dimg hd j p.1) →
            (p.2 st1.di).debug_svma
                = (dimg.shdr (INDEX_BIS hd.shdr_ioff i hd.shdr_ent_szB)).sh_addr
            ∧ debug_eq t (p.2 st1.di)
            ∧ (p.2 st1.di).svma = (p.2 st.di).svma
            ∧ (p.2 st1.di).bias = (p.2 st.di).bias) := by
  constructor
  · intro env t di r hfresh h p hp hpres
    unfold read_elf_debug_info at h
    dsimp only at h
    obtain ⟨d, hd1, h⟩ := (Res.bind_ok_iff _ _ _).1 h
    split at h
    · cases h
    · rename_i mimg _
      obtain ⟨escns, -, h⟩ := (Res.bind_ok_iff _ _ _).1 h
      obtain ⟨r1, hr1, h⟩ := (Res.bind_ok_iff _ _ _).1 h
      split at h
      · cases h
      · simp only [Res.ok.injEq] at h
        subst h
        obtain ⟨q1, q2⟩ := read_companions_and_symbols_sections env t mimg d.di escns r1 hr1 p hp
        have hpr : (p.2 r1.di).present = (p.2 d.di).present := by
          have hq := congrArg SecRec.present q1
          exact hq
        exact q2 (first_part_debug_eq t _ di d hfresh hd1 p hp (by rw [← hpr]; exact hpres))
  · intro t dimg st st1 hd h he hh p hp hpres i hi hnamed hlast
    obtain ⟨q1, -, q3⟩ := read_debug_image_sections t dimg st st1 h p hp
    obtain ⟨-, -, i3⟩ := q3 he hd hh
    obtain ⟨e1, e2⟩ := i3 hpres i hi hnamed hlast
    have hsv := congrArg SecRec.svma q1
    have hbi := congrArg SecRec.bias q1
    exact ⟨e1, e2, hsv, hbi⟩

/-- C24 (witness): the object `main_symtab_img` with its debug file
`debug_text_img`, whose section `.text` is at the SVMA 0x5000 while the one of the
main image is at 0x1000.  The reader returns True, and the text record has
`debug_svma = 0x5000` and a `debug_bias` that is 0x4000 less than `bias`, modulo
2^64, with `svma` and `bias` as the first part of the reader left them. -/
theorem C24_witness :
    (∃ r, read_elf_debug_info env_debug_text amd64 scen1_di = Res.ok r
      ∧ r.dimg = some debug_text_img
      ∧ r.di.text.svma = 0x1000 ∧ r.di.text.bias = 0x401000
      ∧ r.di.text.debug_svma = 0x5000 ∧ r.di.text.debug_bias = 0x3FD000
      ∧ ∀ p ∈ six_sections, (p.2 r.di).present = true → debug_eq amd64 (p.2 r.di))
    ∧ ∃ st1, read_debug_image amd64 debug_text_img { di := scen1_after, escns := Escns.init }
                = Res.ok st1
        ∧ sec_named debug_text_img debug_hdrs 1 ".text"
        ∧ st1.di.text.debug_svma = (debug_text_img.shdr (INDEX_BIS 0x2100 1 64)).sh_addr
        ∧ debug_eq amd64 st1.di.text
        ∧ st1.di.text.svma = scen1_after.text.svma
        ∧ st1.di.text.bias = scen1_after.text.bias :=
  ⟨⟨_, rfl, rfl, by decide, by decide, by decide, by decide,
      C24_debug_bias_relation.1 env_debug_text amd64 scen1_di _ ⟨rfl, rfl, rfl, rfl, rfl, rfl⟩
        rfl⟩,
    ⟨_, rfl, by decide,
      C24_debug_bias_relation.2 amd64 debug_text_img { di := scen1_after, escns := Escns.init } _
        debug_hdrs rfl (by decide) (by decide) (".text", fun di => di.text)
        (List.mem_cons_self _ _) (by decide) 1 (by decide) (by decide)
        (fun j h1 h2 => by
          have hj : j = 2 := by
            have h3 : j < 3 := h2
            omega
          subst hj
          decide)⟩⟩

/-! ### C31 -/

/-- The size that `get_elf_symbol_info` works with is the clamped `st_size` of
the specification. -/
theorem clamp_size_eq_spec (t : Target) (n : Nat) : ((clamp_size t n : Nat) : Int) = clamp_spec t n := by
  have hw : 0 < t.wmod := Nat.pos_pow_of_pos _ (by decide)
  have hlt : n % t.wmod < t.wmod := Nat.mod_lt _ hw
  unfold clamp_size clamp_spec signed_word isNegW
  dsimp only
  by_cases hneg : n % t.wmod < t.wmod / 2
  · have h1 : ¬ (t.wmod / 2 ≤ n % t.wmod) := by omega
    simp only [hneg, if_true, decide_eq_true_eq, h1, if_false]
    split_ifs <;> omega
  · have h1 : t.wmod / 2 ≤ n % t.wmod := by omega
    simp only [hneg, if_false, decide_eq_true_eq, h1, if_true]
    split_ifs <;> omega

/-- A negative `st_size` is clamped to 1. -/
theorem clamp_size_neg (t : Target) (n : Nat) (h : isNegW t n = true) : clamp_size t n = 1 := by
  unfold clamp_size
  simp only [h, if_true]
  decide

/-- The outputs of `get_elf_symbol_info` when it returns True: the results of
the `.opd` step and of the step for the leading dot, and the record that the
final range check accepts. -/
theorem get_elf_symbol_info_inv (t : Target) (di : DebugInfo) (sym : ElfXX_Sym)
    (sym_name_ioff : Nat) (escn_strtab : DiSlice) (sym_svma : Nat) (symtab_in_debug : Bool)
    (escn_opd : DiSlice) (opd_bias : Nat) (o : SymInfo)
    (h : get_elf_symbol_info t di sym sym_name_ioff escn_strtab sym_svma symtab_in_debug
          escn_opd opd_bias = some (some o)) :
    ∃ avma tocptr is_in_opd dot,
      (if avma_in_addr t di.opd
            (addW t sym_svma (choose_bias t di symtab_in_debug sym_svma).2) = true then
          if (!decide (t.plat = Platform.ppc64_linux)) = true then some none
          else (opd_deref t di escn_opd opd_bias
                  (addW t sym_svma (choose_bias t di symtab_in_debug sym_svma).2)).map
                 (fun r => r.map (fun p => (p.1, p.2, true)))
        else some (some (addW t sym_svma (choose_bias t di symtab_in_debug sym_svma).2, 0, false)))
        = some (some (avma, tocptr, is_in_opd))
      ∧ (if (decide (t.plat = Platform.ppc64_linux) && decide (di.opd.size > 0) && !is_in_opd
              && decide (sym_name_ioff ≠ DiOffT_INVALID)) = true then
            match escn_strtab.img with
            | none => none
            | some simg => (img_get_UChar simg sym_name_ioff).map (fun c => c == '.'.toNat)
          else some false) = some dot
      ∧ o = { sym_name_out_ioff := if dot = true then add64 sym_name_ioff 1 else sym_name_ioff
              sym_avma_out := avma
              sym_size_out :=
                if clamp_size t sym.st_size = 0 then 2048 else clamp_size t sym.st_size
              sym_tocptr_out := tocptr, from_opd_out := is_in_opd
              is_text_out := (choose_bias t di symtab_in_debug sym_svma).1
              is_ifunc := (choose_bias t di symtab_in_debug sym_svma).1
                && ELFXX_ST_TYPE sym.st_info == STT_GNU_IFUNC } := by
  unfold get_elf_symbol_info at h
  dsimp only at h
  split at h
  · cases h
  · split at h
    · cases h
    · cases h
    · split at h
      · cases h
      · split at h
        · cases h
        · split at h
          · cases h
          · split at h
            · cases h
            · split at h
              · cases h
              · cases h
              · rename_i avma tocptr is_in_opd hopd
                split at h
                · cases h
                · rename_i dot hdot
                  exact ⟨avma, tocptr, is_in_opd, dot, hopd, hdot,
                    (sym_range_check_spec _ _ _ _ h).1⟩
/-- The size 1 is clamped to itself. -/
theorem clamp_size_one (t : Target) (hw : 0 < t.wordsize) : clamp_size t 1 = 1 := by
  have h8 : (2 : Nat) ^ 8 ≤ 2 ^ (8 * t.wordsize) := Nat.pow_le_pow_right (by decide) (by omega)
  have h1 : (1 : Nat) % t.wmod = 1 := by
    apply Nat.mod_eq_of_lt
    unfold Target.wmod Target.wbits
    omega
  have h2 : ¬ (t.wmod / 2 ≤ 1 % t.wmod) := by
    rw [h1]
    unfold Target.wmod Target.wbits
    omega
  unfold clamp_size isNegW
  simp [h2, h1]

/-- A word is negative as a signed integer iff its top bit is set. -/
theorem signed_word_neg_iff (t : Target) (a : Nat) : signed_word t a < 0 ↔ isNegW t a = true := by
  have hw : 0 < t.wmod := Nat.pos_pow_of_pos _ (by decide)
  have hlt : a % t.wmod < t.wmod := Nat.mod_lt _ hw
  unfold signed_word isNegW
  rw [decide_eq_true_eq]
  split_ifs <;> omega

/-- C31: the size `get_elf_symbol_info` works with is `st_size` clamped: 1 if
`st_size` read as a signed word is negative, `2^31 - 1` if it exceeds `2^31 - 1`,
and `st_size` otherwise.  Whenever the function returns True the recorded size
is that clamped size, or 2048 in its place when it is 0 (which only an Android
build lets through), and it is at most `2^31 - 1`.  A symbol with a negative
`st_size` has the clamped size 1, so the zero-size rule does not reject it: the
function treats it as it treats the same symbol with `st_size = 1`. -/
theorem C31_size_clamp (t : Target) (di : DebugInfo) (sym : ElfXX_Sym)
    (sym_name_ioff : Nat) (escn_strtab : DiSlice) (sym_svma : Nat) (symtab_in_debug : Bool)
    (escn_opd : DiSlice) (opd_bias : Nat) (hw : 0 < t.wordsize) :
    ((clamp_size t sym.st_size : Nat) : Int) = clamp_spec t sym.st_size
    ∧ (∀ o, get_elf_symbol_info t di sym sym_name_ioff escn_strtab sym_svma symtab_in_debug
              escn_opd opd_bias = some (some o) →
        o.sym_size_out
            = (if clamp_size t sym.st_size = 0 then 2048 else clamp_size t sym.st_size)
        ∧ o.sym_size_out ≤ 2 ^ 31 - 1
        ∧ (t.android = false → ((o.sym_size_out : Nat) : Int) = clamp_spec t sym.st_size))
    ∧ (signed_word t sym.st_size < 0 →
        clamp_size t sym.st_size = 1
        ∧ ¬ (clamp_size t sym.st_size = 0 ∧ (!t.android) = true)
        ∧ get_elf_symbol_info t di sym sym_name_ioff escn_strtab sym_svma symtab_in_debug
              escn_opd opd_bias
            = get_elf_symbol_info t di { sym with st_size := 1 } sym_name_ioff escn_strtab
                sym_svma symtab_in_debug escn_opd opd_bias) := by
  refine ⟨clamp_size_eq_spec t sym.st_size, ?_, ?_⟩
  · intro o h
    obtain ⟨avma, tocptr, is_in_opd, dot, -, -, ho⟩ := get_elf_symbol_info_inv t di sym
      sym_name_ioff escn_strtab sym_svma symtab_in_debug escn_opd opd_bias o h
    have hsz : o.sym_size_out
        = (if clamp_size t sym.st_size = 0 then 2048 else clamp_size t sym.st_size) := by
      rw [ho]
    have hle := clamp_size_le t sym.st_size
    refine ⟨hsz, ?_, ?_⟩
    · rw [hsz]
      split <;> omega
    · intro ha
      have hne : clamp_size t sym.st_size ≠ 0 := by
        intro h0
        have ha1 : (!t.android) = true := by rw [ha]; rfl
        rcases get_elf_symbol_info_rejected t di sym sym_name_ioff escn_strtab sym_svma
          symtab_in_debug escn_opd opd_bias (Or.inl ⟨h0, ha1⟩) with h1 | h1
        · rw [h1] at h
          cases h
        · rw [h1.1] at h
          cases h
      rw [hsz, if_neg hne]
      exact clamp_size_eq_spec t sym.st_size
  · intro hneg
    have h1 : clamp_size t sym.st_size = 1 :=
      clamp_size_neg t sym.st_size ((signed_word_neg_iff t sym.st_size).1 hneg)
    refine ⟨h1, ?_, ?_⟩
    · intro hc
      rw [h1] at hc
      exact absurd hc.1 (by decide)
    · unfold get_elf_symbol_info
      dsimp only
      rw [h1, clamp_size_one t hw]

/-- C31 (witness): on amd64 and the DebugInfo of scenario 1, the function symbol
`sym_negsize`, whose `st_size` is -1, is accepted with the size 1. -/
theorem C31_witness :
    signed_word amd64 sym_negsize.st_size < 0
    ∧ clamp_size amd64 sym_negsize.st_size = 1
    ∧ get_elf_symbol_info amd64 scen1_after sym_negsize (0x2040 + 1) scen1_strtab 0x1010 false
          DiSlice_INVALID 0
        = some (some { sym_name_out_ioff := 0x2041, sym_avma_out := 0x402010, sym_size_out := 1,
                       sym_tocptr_out := 0, from_opd_out := false, is_text_out := true,
                       is_ifunc := false }) :=
  have h := C31_size_clamp amd64 scen1_after sym_negsize (0x2040 + 1) scen1_strtab 0x1010 false
    DiSlice_INVALID 0 (by decide)
  ⟨by decide, (h.2.2 (by decide)).1, by rw [(h.2.2 (by decide)).2.2]; rfl⟩

/-! ### C38 -/

/-- C33: whenever `get_elf_symbol_info` returns True, the output name offset is
the input name offset plus one (on the 64-bit type of image offsets) if the
target is ppc64-linux, the size of `.opd` recorded in the DebugInfo is greater
than 0, the symbol is not `from_opd` and its name begins with `.`; in every
other case it equals the input name offset. -/
theorem C33_dot_stripping (t : Target) (di : DebugInfo) (sym : ElfXX_Sym)
    (sym_name_ioff : Nat) (escn_strtab : DiSlice) (sym_svma : Nat) (symtab_in_debug : Bool)
    (escn_opd : DiSlice) (opd_bias : Nat) (o : SymInfo)
    (h : get_elf_symbol_info t di sym sym_name_ioff escn_strtab sym_svma symtab_in_debug
          escn_opd opd_bias = some (some o)) :
    ∃ simg c, escn_strtab.img = some simg ∧ img_get_UChar simg sym_name_ioff = some c
      ∧ o.sym_name_out_ioff
          = if t.plat = Platform.ppc64_linux ∧ 0 < di.opd.size ∧ o.from_opd_out = false
                ∧ c = '.'.toNat then
              add64 sym_name_ioff 1
            else sym_name_ioff := by
  obtain ⟨hname, simg, c, hs, hc, -⟩ := get_elf_symbol_info_named t di sym sym_name_ioff
    escn_strtab sym_svma symtab_in_debug escn_opd opd_bias o h
  obtain ⟨avma, tocptr, is_in_opd, dot, -, hdot, ho⟩ := get_elf_symbol_info_inv t di sym
    sym_name_ioff escn_strtab sym_svma symtab_in_debug escn_opd opd_bias o h
  refine ⟨simg, c, hs, hc, ?_⟩
  rw [hs] at hdot
  simp only [hc, Option.map_some'] at hdot
  have hfrom : o.from_opd_out = is_in_opd := by rw [ho]
  have hout : o.sym_name_out_ioff
      = if dot = true then add64 sym_name_ioff 1 else sym_name_ioff := by rw [ho]
  rw [hout, hfrom]
  by_cases hcond : (decide (t.plat = Platform.ppc64_linux) && decide (di.opd.size > 0)
      && !is_in_opd && decide (sym_name_ioff ≠ DiOffT_INVALID)) = true
  · rw [if_pos hcond] at hdot
    simp only [Bool.and_eq_true, decide_eq_true_eq, Bool.not_eq_true'] at hcond
    obtain ⟨⟨⟨hp, hsz⟩, hin⟩, -⟩ := hcond
    have hd : dot = (c == '.'.toNat) := (Option.some.inj hdot).symm
    by_cases hcd : c = '.'.toNat
    · have hd1 : dot = true := by rw [hd, hcd]; rfl
      rw [if_pos hd1, if_pos ⟨hp, hsz, hin, hcd⟩]
    · have hd1 : ¬ dot = true := by
        rw [hd, beq_iff_eq]
        exact hcd
      rw [if_neg hd1, if_neg (fun hc4 => hcd hc4.2.2.2)]
  · rw [if_neg hcond] at hdot
    have hd : ¬ dot = true := by
      rw [← Option.some.inj hdot]
      decide
    rw [if_neg hd]
    have hneg : ¬ (t.plat = Platform.ppc64_linux ∧ 0 < di.opd.size ∧ is_in_opd = false
        ∧ c = '.'.toNat) := by
      intro hc4
      apply hcond
      simp only [Bool.and_eq_true, decide_eq_true_eq, Bool.not_eq_true']
      exact ⟨⟨⟨hc4.1, hc4.2.1⟩, hc4.2.2.1⟩, hname⟩
    rw [if_neg hneg]

/-- C33 (witness): on ppc64-linux and the DebugInfo of `ppc64_img`, whose `.opd`
has the size 0x30, the symbol `.work` of `.text` is accepted with the name
offset advanced by one, from 0x2906 to 0x2907. -/
theorem C33_witness :
    ∃ o, get_elf_symbol_info ppc64 ppc64_after sym_work_dot (0x2900 + 6) ppc64_strtab 0x1100
            false ppc64_opd ppc64_after.text.bias = some (some o)
      ∧ o.sym_name_out_ioff = 0x2907
      ∧ ∃ simg c, ppc64_strtab.img = some simg ∧ img_get_UChar simg (0x2900 + 6) = some c
          ∧ o.sym_name_out_ioff
              = if ppc64.plat = Platform.ppc64_linux ∧ 0 < ppc64_after.opd.size
                    ∧ o.from_opd_out = false ∧ c = '.'.toNat then
                  add64 (0x2900 + 6) 1
                else 0x2900 + 6 :=
  ⟨_, rfl, by decide,
    C33_dot_stripping ppc64 ppc64_after sym_work_dot (0x2900 + 6) ppc64_strtab 0x1100 false
      ppc64_opd ppc64_after.text.bias _ rfl⟩

/-- C33 (counterexample): on ppc64-linux and the DebugInfo of `ppc64_noopd_img`,
an object without a section `.opd`, the symbol `.work` of `.text` is accepted,
it is not `from_opd` and its name begins with `.`, and the output name offset
0x2906 is the input name offset: the dot is not stripped. -/
theorem C33_counterexample :
    ppc64.plat = Platform.ppc64_linux
    ∧ ppc64_noopd_after.opd.size = 0
    ∧ img_get_UChar ppc64_img (0x2900 + 6) = some '.'.toNat
    ∧ get_elf_symbol_info ppc64 ppc64_noopd_after sym_work_dot (0x2900 + 6) ppc64_strtab 0x1100
          false DiSlice_INVALID ppc64_noopd_after.text.bias
        = some (some { sym_name_out_ioff := 0x2900 + 6, sym_avma_out := 0x10001100,
                       sym_size_out := 128, sym_tocptr_out := 0, from_opd_out := false,
                       is_text_out := true, is_ifunc := false }) :=
  ⟨rfl, by decide, by decide, by decide⟩

/-! ### C32 -/

/-- For a symbol that passes the filters before the handling of `.opd`,
`get_elf_symbol_info` is the `.opd` step, the step for the leading dot and the
final range check. -/
theorem get_elf_symbol_info_passed (t : Target) (di : DebugInfo) (sym : ElfXX_Sym)
    (sym_name_ioff : Nat) (escn_strtab : DiSlice) (sym_svma : Nat) (symtab_in_debug : Bool)
    (escn_opd : DiSlice) (opd_bias : Nat)
    (hp : passes_filters t di sym sym_name_ioff escn_strtab sym_svma symtab_in_debug) :
    get_elf_symbol_info t di sym sym_name_ioff escn_strtab sym_svma symtab_in_debug
        escn_opd opd_bias
      = match (if avma_in_addr t di.opd (biased_avma t di symtab_in_debug sym_svma) = true then
                if (!decide (t.plat = Platform.ppc64_linux)) = true then some none
                else (opd_deref t di escn_opd opd_bias
                        (biased_avma t di symtab_in_debug sym_svma)).map
                       (fun r => r.map (fun p => (p.1, p.2, true)))
              else some (some (biased_avma t di symtab_in_debug sym_svma, 0, false))) with
        | none => none
        | some none => some none
        | some (some (avma, tocptr, is_in_opd)) =>
          match (if (decide (t.plat = Platform.ppc64_linux) && decide (di.opd.size > 0)
                      && !is_in_opd && decide (sym_name_ioff ≠ DiOffT_INVALID)) = true then
                    match escn_strtab.img with
                    | none => none
                    | some simg =>
                      (img_get_UChar simg sym_name_ioff).map (fun c => c == '.'.toNat)
                  else some false) with
          | none => none
          | some dot =>
            sym_range_check t di
              { sym_name_out_ioff := if dot = true then add64 sym_name_ioff 1 else sym_name_ioff
                sym_avma_out := avma
                sym_size_out :=
                  if clamp_size t sym.st_size = 0 then 2048 else clamp_size t sym.st_size
                sym_tocptr_out := tocptr, from_opd_out := is_in_opd
                is_text_out := (choose_bias t di symtab_in_debug sym_svma).1
                is_ifunc := (choose_bias t di symtab_in_debug sym_svma).1
                  && ELFXX_ST_TYPE sym.st_info == STT_GNU_IFUNC } := by
  obtain ⟨⟨hpl, hname, ⟨simg, c, hs, hc, hc0⟩, hsz⟩, hv, hgot, hplt⟩ := hp
  unfold sym_plaus at hpl
  dsimp only at hpl
  unfold biased_avma at hgot hplt
  have hcb : (c == 0) = false := by
    rw [beq_eq_false_iff_ne]
    exact hc0
  unfold get_elf_symbol_info biased_avma
  dsimp only
  rw [hpl]
  simp only [Bool.not_true, Bool.false_eq_true, if_false, hname, hs, hc, Option.map_some', hcb,
    hsz, hv, hgot, hplt]
  try rfl

/-- The difference of two words that does not wrap around. -/
theorem subW_of_le (t : Target) (a b : Nat) (hba : b ≤ a) (ha : a < t.wmod) :
    subW t a b = a - b := by
  unfold subW
  have hb : b % t.wmod = b := Nat.mod_eq_of_lt (by omega)
  rw [hb]
  have e : a + (t.wmod - b) = (a - b) + t.wmod := by omega
  rw [e, Nat.add_mod_right]
  exact Nat.mod_eq_of_lt (by omega)

/-- On a 64-bit target the sum of a 64-bit word of the image and a signed word,
kept in a word, is the sum of the two modulo the word size. -/
theorem add64_sext64_word (t : Target) (hw : t.wordsize = 8) (w b : Nat) :
    (add64 w (sext64 t b)) % t.wmod = addW t w b := by
  have hm : t.wmod = 2 ^ 64 := by
    unfold Target.wmod Target.wbits
    rw [hw]
  unfold add64 sext64 addW mod64
  rw [hm]
  split <;> omega

/-- The dereference of the `.opd` entry of a symbol whose address lies in
`.opd`, is a multiple of 8 and is less than `2^31` bytes into the section. -/
theorem opd_deref_eq (t : Target) (di : DebugInfo) (escn_opd : DiSlice) (opd_bias avma : Nat)
    (img : DiImage) (hw : t.wordsize = 8) (hin : avma_in_addr t di.opd avma = true)
    (ha : avma < t.wmod) (halign : Nat.land avma 7 = 0) (hoff : avma - di.opd.avma < 2 ^ 31)
    (himg : escn_opd.img = some img) :
    opd_deref t di escn_opd opd_bias avma
      = if img_valid img (add64 escn_opd.ioff (avma - di.opd.avma)) 16 = true then
          some (some (addW t (img.ulong (add64 escn_opd.ioff (avma - di.opd.avma))) opd_bias,
                      addW t (img.ulong (add64 escn_opd.ioff (avma - di.opd.avma) + 8))
                        opd_bias))
        else some none := by
  unfold avma_in_addr at hin
  simp only [Bool.and_eq_true, decide_eq_true_eq] at hin
  obtain ⟨⟨⟨-, -⟩, hge⟩, hlt⟩ := hin
  have hle : addW t di.opd.avma di.opd.size ≤ di.opd.avma + di.opd.size := Nat.mod_le _ _
  have hsub : subW t avma di.opd.avma % 2 ^ 32 = avma - di.opd.avma := by
    rw [subW_of_le t avma di.opd.avma hge ha]
    exact Nat.mod_eq_of_lt (by omega)
  have hnot : ¬ (avma - di.opd.avma ≥ 2 ^ 31 ∨ avma - di.opd.avma ≥ di.opd.size) := by omega
  unfold opd_deref
  rw [if_neg (not_not.2 halign)]
  dsimp only
  rw [hsub, if_neg hnot, himg]
  dsimp only
  rw [add64_sext64_word t hw, add64_sext64_word t hw]
  cases img_valid img (add64 escn_opd.ioff (avma - di.opd.avma)) 16 <;> rfl

/-- An address that `addW` has produced is a word. -/
theorem biased_avma_lt (t : Target) (di : DebugInfo) (symtab_in_debug : Bool) (sym_svma : Nat) :
    biased_avma t di symtab_in_debug sym_svma < t.wmod :=
  Nat.mod_lt _ (Nat.pos_pow_of_pos _ (by decide))

/-- C32: for a symbol that passed the earlier filters and whose biased AVMA lies
in the present, non-empty `.opd`: on a target other than ppc64-linux the symbol
is rejected; on ppc64-linux it is rejected if its AVMA is not a multiple of 8,
and otherwise, when `off = avma - opd_avma` is less than `2^31`, it is rejected
if the 16 bytes at offset `off` of the `.opd` slice are not wholly inside the
image, and else the function is the final range check on the outputs with
`avma = w0 + opd_bias`, `tocptr = w1 + opd_bias` and `from_opd = true`, where
`w0` and `w1` are the two 64-bit words at offset `off` of the `.opd` slice. -/
theorem C32_opd_dereference (t : Target) (di : DebugInfo) (sym : ElfXX_Sym)
    (sym_name_ioff : Nat) (escn_strtab : DiSlice) (sym_svma : Nat) (symtab_in_debug : Bool)
    (escn_opd : DiSlice) (opd_bias : Nat)
    (hp : passes_filters t di sym sym_name_ioff escn_strtab sym_svma symtab_in_debug)
    (hin : avma_in_addr t di.opd (biased_avma t di symtab_in_debug sym_svma) = true) :
    (t.plat ≠ Platform.ppc64_linux →
      get_elf_symbol_info t di sym sym_name_ioff escn_strtab sym_svma symtab_in_debug
        escn_opd opd_bias = some none)
    ∧ (t.plat = Platform.ppc64_linux →
        (Nat.land (biased_avma t di symtab_in_debug sym_svma) 7 ≠ 0 →
          get_elf_symbol_info t di sym sym_name_ioff escn_strtab sym_svma symtab_in_debug
            escn_opd opd_bias = some none)
        ∧ (Nat.land (biased_avma t di symtab_in_debug sym_svma) 7 = 0 → t.wordsize = 8 →
            biased_avma t di symtab_in_debug sym_svma - di.opd.avma < 2 ^ 31 →
            ∀ img, escn_opd.img = some img →
              (img_valid img
                  (add64 escn_opd.ioff
                    (biased_avma t di symtab_in_debug sym_svma - di.opd.avma)) 16 = false →
                get_elf_symbol_info t di sym sym_name_ioff escn_strtab sym_svma
                  symtab_in_debug escn_opd opd_bias = some none)
              ∧ (img_valid img
                  (add64 escn_opd.ioff
                    (biased_avma t di symtab_in_debug sym_svma - di.opd.avma)) 16 = true →
                get_elf_symbol_info t di sym sym_name_ioff escn_strtab sym_svma
                    symtab_in_debug escn_opd opd_bias
                  = sym_range_check t di
                      (opd_outputs t di sym sym_name_ioff sym_svma symtab_in_debug opd_bias
                        (img.ulong
                          (add64 escn_opd.ioff
                            (biased_avma t di symtab_in_debug sym_svma - di.opd.avma)))
                        (img.ulong
                          (add64 escn_opd.ioff
                            (biased_avma t di symtab_in_debug sym_svma - di.opd.avma)
                            + 8)))))) := by
  have hget := get_elf_symbol_info_passed t di sym sym_name_ioff escn_strtab sym_svma
    symtab_in_debug escn_opd opd_bias hp
  rw [hin] at hget
  simp only [if_true] at hget
  refine ⟨?_, ?_⟩
  · intro hnp
    have hd : decide (t.plat = Platform.ppc64_linux) = false := decide_eq_false hnp
    rw [hget, hd]
    try rfl
  · intro hpp
    have hd : decide (t.plat = Platform.ppc64_linux) = true := decide_eq_true hpp
    rw [hd] at hget
    simp only [Bool.not_true, Bool.false_eq_true, if_false] at hget
    refine ⟨?_, ?_⟩
    · intro hal
      have hderef : opd_deref t di escn_opd opd_bias
          (biased_avma t di symtab_in_debug sym_svma) = some none := by
        unfold opd_deref
        rw [if_pos hal]
      rw [hget, hderef]
      try rfl
    · intro hal hw hoff img himg
      have hderef := opd_deref_eq t di escn_opd opd_bias
        (biased_avma t di symtab_in_debug sym_svma) img hw hin
        (biased_avma_lt t di symtab_in_debug sym_svma) hal hoff himg
      refine ⟨?_, ?_⟩
      · intro hv
        rw [hv] at hderef
        rw [hget, hderef]
        try rfl
      · intro hv
        rw [hv] at hderef
        rw [hget, hderef]
        simp only [if_true, Option.map_some', Bool.not_true, Bool.and_false, Bool.false_and,
          Bool.false_eq_true, if_false]
        try rfl
/-- C32 (witness): on ppc64-linux and the DebugInfo of `ppc64_img`, the symbol
`work`, whose address 0x10002040 is the start of `.opd`, passes the earlier
filters, and the function is the range check on the outputs taken from the two
words 0x1100 and 0xA000 of its descriptor: the address 0x10001100 and the TOC
pointer 0x1000A000. -/
theorem C32_witness :
    passes_filters ppc64 ppc64_after sym_work_opd (0x2900 + 1) ppc64_strtab 0x2040 false
    ∧ avma_in_addr ppc64 ppc64_after.opd (biased_avma ppc64 ppc64_after false 0x2040) = true
    ∧ get_elf_symbol_info ppc64 ppc64_after sym_work_opd (0x2900 + 1) ppc64_strtab 0x2040
          false ppc64_opd ppc64_after.text.bias
        = sym_range_check ppc64 ppc64_after
            (opd_outputs ppc64 ppc64_after sym_work_opd (0x2900 + 1) 0x2040 false
              ppc64_after.text.bias 0x1100 0xA000)
    ∧ opd_outputs ppc64 ppc64_after sym_work_opd (0x2900 + 1) 0x2040 false
          ppc64_after.text.bias 0x1100 0xA000
        = { sym_name_out_ioff := 0x2901, sym_avma_out := 0x10001100, sym_size_out := 24,
            sym_tocptr_out := 0x1000A000, from_opd_out := true, is_text_out := true,
            is_ifunc := false } :=
  have hp : passes_filters ppc64 ppc64_after sym_work_opd (0x2900 + 1) ppc64_strtab 0x2040
      false :=
    ⟨⟨by decide, by decide, ⟨ppc64_img, 'w'.toNat, rfl, by decide, by decide⟩, by decide⟩,
      by decide, by decide, by decide⟩
  have hin : avma_in_addr ppc64 ppc64_after.opd (biased_avma ppc64 ppc64_after false 0x2040)
      = true := by decide
  ⟨hp, hin,
    (((C32_opd_dereference ppc64 ppc64_after sym_work_opd (0x2900 + 1) ppc64_strtab 0x2040
      false ppc64_opd ppc64_after.text.bias hp hin).2 rfl).2 (by decide) rfl (by decide)
      ppc64_img rfl).2 (by decide),
    by decide⟩

/-- C32 (counterexample): two symbols on ppc64-linux that pass the earlier
filters and whose biased AVMA lies in `.opd`.  The first is 8 bytes into a
section `.opd` that starts at the address 0x10002044: its position in `.opd` is
a multiple of 8 and the 16 bytes of the entry are inside the image, but its
AVMA 0x1000204C is not a multiple of 8, and the symbol is rejected.  The second
is `2^32 + 24` bytes into a section `.opd` of more than 4 GiB: the two words at
that offset of the slice are inside the image and are both 0, and the function
returns the address and the TOC pointer of the entry at the offset 24, the
offset having been cut to 32 bits. -/
theorem C32_counterexample :
    (passes_filters ppc64 ppc64_opd4_after sym_opd_pos8 (0x2900 + 1) ppc64_strtab 0x204C false
      ∧ avma_in_addr ppc64 ppc64_opd4_after.opd
          (biased_avma ppc64 ppc64_opd4_after false 0x204C) = true
      ∧ biased_avma ppc64 ppc64_opd4_after false 0x204C - ppc64_opd4_after.opd.avma = 8
      ∧ img_valid ppc64_img (add64 ppc64_opd4.ioff 8) 16 = true
      ∧ get_elf_symbol_info ppc64 ppc64_opd4_after sym_opd_pos8 (0x2900 + 1) ppc64_strtab
          0x204C false ppc64_opd4 ppc64_opd4_after.text.bias = some none)
    ∧ (passes_filters ppc64 ppc64_bigopd_after sym_opd_far (0x2900 + 1) ppc64_strtab
          (0x2040 + 2 ^ 32 + 24) false
      ∧ avma_in_addr ppc64 ppc64_bigopd_after.opd
          (biased_avma ppc64 ppc64_bigopd_after false (0x2040 + 2 ^ 32 + 24)) = true
      ∧ Nat.land (biased_avma ppc64 ppc64_bigopd_after false (0x2040 + 2 ^ 32 + 24)) 7 = 0
      ∧ biased_avma ppc64 ppc64_bigopd_after false (0x2040 + 2 ^ 32 + 24)
          - ppc64_bigopd_after.opd.avma = 2 ^ 32 + 24
      ∧ img_valid ppc64_big_img (add64 ppc64_bigopd.ioff (2 ^ 32 + 24)) 16 = true
      ∧ ppc64_big_img.ulong (add64 ppc64_bigopd.ioff (2 ^ 32 + 24)) = 0
      ∧ ppc64_big_img.ulong (add64 ppc64_bigopd.ioff (2 ^ 32 + 24) + 8) = 0
      ∧ ppc64_big_img.ulong (add64 ppc64_bigopd.ioff 24) = 0x1200
      ∧ get_elf_symbol_info ppc64 ppc64_bigopd_after sym_opd_far (0x2900 + 1) ppc64_strtab
            (0x2040 + 2 ^ 32 + 24) false ppc64_bigopd ppc64_bigopd_after.text.bias
          = some (some { sym_name_out_ioff := 0x2901, sym_avma_out := 0x10001200,
                         sym_size_out := 24, sym_tocptr_out := 0x1000A000,
                         from_opd_out := true, is_text_out := true, is_ifunc := false })) :=
  ⟨⟨⟨⟨by decide, by decide, ⟨ppc64_img, 'w'.toNat, rfl, by decide, by decide⟩, by decide⟩,
      by decide, by decide, by decide⟩, by decide, by decide, by decide, by decide⟩,
    ⟨⟨by decide, by decide, ⟨ppc64_img, 'w'.toNat, rfl, by decide, by decide⟩, by decide⟩,
      by decide, by decide, by decide⟩, by decide, by decide, by decide, by decide, by decide,
      by decide, by decide, by decide⟩

/-! ### C36 -/

/-- C36: let `S` be the section that `get_elf_symbol_info` classifies a symbol
into by its SVMA, the first of text, data, sdata, rodata, bss and sbss that
contains it.  If `S.avma = S.svma + S.bias` and, for a symbol table of the debug
file, `S.debug_svma + S.debug_bias = S.svma + S.bias`, both modulo the word
size, and the range `[S.avma, S.avma + S.size)` does not wrap around, then the
biased AVMA that the function computes before any dereference of `.opd` lies in
`[S.avma, S.avma + S.size)`, for either value of `symtab_in_debug`; and so does
the address of every symbol that the function accepts without a dereference of
`.opd`. -/
theorem C36_biased_avma_in_section (t : Target) (di : DebugInfo) (symtab_in_debug : Bool)
    (sym_svma : Nat) (p : Bool × SecRec)
    (hfind : (bias_sections di).find? (fun p => sec_contains t symtab_in_debug sym_svma p.2)
      = some p)
    (havma : p.2.avma = addW t p.2.svma p.2.bias)
    (hdbg : symtab_in_debug = true → debug_eq t p.2)
    (hend : p.2.avma + p.2.size ≤ t.wmod) :
    (p.2.avma ≤ biased_avma t di symtab_in_debug sym_svma
      ∧ biased_avma t di symtab_in_debug sym_svma < p.2.avma + p.2.size)
    ∧ ∀ (sym : ElfXX_Sym) (sym_name_ioff : Nat) (escn_strtab escn_opd : DiSlice)
        (opd_bias : Nat) (o : SymInfo),
        get_elf_symbol_info t di sym sym_name_ioff escn_strtab sym_svma symtab_in_debug
          escn_opd opd_bias = some (some o) →
        o.from_opd_out = false →
        p.2.avma ≤ o.sym_avma_out ∧ o.sym_avma_out < p.2.avma + p.2.size := by
  have hc : sec_contains t symtab_in_debug sym_svma p.2 = true := by
    have := List.find?_some hfind
    exact this
  have hb : biased_avma t di symtab_in_debug sym_svma
      = addW t sym_svma (if symtab_in_debug = true then p.2.debug_bias else p.2.bias) := by
    unfold biased_avma
    rw [choose_bias_eq]
    unfold bias_of_first_section
    rw [hfind]
  have hE : p.2.avma
      = ((if symtab_in_debug = true then p.2.debug_svma else p.2.svma)
          + (if symtab_in_debug = true then p.2.debug_bias else p.2.bias)) % t.wmod := by
    cases hs : symtab_in_debug with
    | false =>
      simp only [Bool.false_eq_true, if_false]
      exact havma
    | true =>
      simp only [if_true]
      have hd := hdbg hs
      unfold debug_eq addW at hd
      rw [havma]
      unfold addW
      rw [Nat.add_comm p.2.svma p.2.bias, hd, Nat.add_comm]
  unfold sec_contains at hc
  simp only [Bool.and_eq_true, decide_eq_true_eq] at hc
  obtain ⟨⟨⟨-, -⟩, hge⟩, hlt⟩ := hc
  have hle : addW t (if symtab_in_debug = true then p.2.debug_svma else p.2.svma) p.2.size
      ≤ (if symtab_in_debug = true then p.2.debug_svma else p.2.svma) + p.2.size :=
    Nat.mod_le _ _
  have key : biased_avma t di symtab_in_debug sym_svma
      = p.2.avma + (sym_svma - (if symtab_in_debug = true then p.2.debug_svma else p.2.svma)) := by
    rw [hb]
    unfold addW
    have e : sym_svma + (if symtab_in_debug = true then p.2.debug_bias else p.2.bias)
        = ((if symtab_in_debug = true then p.2.debug_svma else p.2.svma)
            + (if symtab_in_debug = true then p.2.debug_bias else p.2.bias))
          + (sym_svma - (if symtab_in_debug = true then p.2.debug_svma else p.2.svma)) := by
      omega
    rw [e, ← Nat.mod_add_mod, ← hE]
    exact Nat.mod_eq_of_lt (by omega)
  have hrange : p.2.avma ≤ biased_avma t di symtab_in_debug sym_svma
      ∧ biased_avma t di symtab_in_debug sym_svma < p.2.avma + p.2.size := by
    rw [key]
    constructor <;> omega
  refine ⟨hrange, ?_⟩
  intro sym sym_name_ioff escn_strtab escn_opd opd_bias o h hfrom
  have ho := (get_elf_symbol_info_outputs t di sym sym_name_ioff escn_strtab sym_svma
    symtab_in_debug escn_opd opd_bias o h).2.2 hfrom
  have ho2 : o.sym_avma_out = biased_avma t di symtab_in_debug sym_svma := ho
  rw [ho2]
  exact hrange

/-- C36 (witness): on amd64 and the DebugInfo of scenario 1, for a symbol table
of the debug file, the SVMA 0x1010 is classified into `.text`, whose range is
0x402000 to 0x402500, and the biased AVMA 0x402010 lies in it. -/
theorem C36_witness :
    (bias_sections scen1_after).find? (fun p => sec_contains amd64 true 0x1010 p.2)
      = some (true, scen1_after.text)
    ∧ scen1_after.text.avma = 0x402000 ∧ scen1_after.text.size = 0x500
    ∧ biased_avma amd64 scen1_after true 0x1010 = 0x402010
    ∧ scen1_after.text.avma ≤ biased_avma amd64 scen1_after true 0x1010
    ∧ biased_avma amd64 scen1_after true 0x1010
        < scen1_after.text.avma + scen1_after.text.size :=
  have h := C36_biased_avma_in_section amd64 scen1_after true 0x1010 (true, scen1_after.text)
    (by decide) (by decide) (fun _ => by decide) (by decide)
  ⟨by decide, by decide, by decide, by decide, h.1.1, h.1.2⟩

/-! ### C34 -/

/-- C34: in `read_elf_symtab__ppc64_linux` the assertion `prev->tocptr == 0` of
the tocptr-adoption rule fails on the symbol table `.work`, `work`, `work` of
`ppc64_dup_img`.  After the first two entries the pending symbol of the key
(0x10001100, "work") is not `from_opd` and has taken the TOC pointer 0x1000A000
from the entry `work`; the third entry is accepted with the same key, it is
`from_opd` and has the size 24, so the rule fires again, on a pending symbol
whose TOC pointer is not 0, and the function stops at the assertion.  Without
the third entry the function returns the one merged symbol.  The size
adjustment and the tocptr adjustment never both apply to the same entry: a merge
leaves the size or the TOC pointer of the pending symbol as it was. -/
theorem C34_tocptr_assertion_fails :
    forOpt (symtab_entry__ppc64 ppc64 ppc64_after ppc64_dup_img ppc64_img ppc64_dup_symtab
        ppc64_strtab ppc64_opd false) 2 1 [] = some [pending_work]
    ∧ symtab_entry_info ppc64 ppc64_after ppc64_dup_img ppc64_dup_symtab ppc64_strtab ppc64_opd
        false 3 = some (some out_work_opd)
    ∧ oset_lookup ppc64_img out_work_opd.sym_avma_out out_work_opd.sym_name_out_ioff
        [pending_work] = some (some 0)
    ∧ pending_work.from_opd = false ∧ out_work_opd.from_opd_out = true
    ∧ out_work_opd.sym_size_out = 24 ∧ pending_work.tocptr ≠ 0
    ∧ ppc64_merge ppc64_img [pending_work] out_work_opd = none
    ∧ read_elf_symtab__ppc64_linux ppc64 ppc64_after ppc64_dup_symtab ppc64_strtab ppc64_opd
        false = none
    ∧ read_elf_symtab__ppc64_linux ppc64 ppc64_after ppc64_dup_symtab3 ppc64_strtab ppc64_opd
        false = some [sym_work_merged]
    ∧ ∀ (prev : TempSym) (out : SymInfo),
        (merge_elem prev out).size = prev.size ∨ (merge_elem prev out).tocptr = prev.tocptr := by
  refine ⟨by decide, by decide, by decide, by decide, by decide, by decide, by decide,
    by decide, by decide, by decide, ?_⟩
  intro prev out
  unfold merge_elem
  split_ifs
  · exact Or.inr rfl
  · exact Or.inl rfl
  · exact Or.inl rfl

/-! ### C37 -/

/-- C37: `ML_(read_elf_debug_info)` issues a header read outside the image after
it has accepted the header tables.  On `shstrndx_img` the ELF header is
accepted and the two tables, 2 entries of 56 bytes at 64 and 4 entries of 64
bytes at 0x2100, are inside the image of 0x3000 bytes; `e_shstrndx` is 100, which
the function compares with `SHN_UNDEF` only, and the read of the section header
100, of 64 bytes at the offset 0x3A00, is not valid: the function stops in the
image layer.  On `shentsize_img` the table of 4 entries of the stated size 0 at
0x21F8 is accepted, and the read of the section header 3, of 64 bytes at 0x21F8,
ends after the end of the image, at 0x2200. -/
theorem C37_header_read_outside_image :
    (is_elf_object_file_by_DiImage amd64 shstrndx_img false = some true
      ∧ (shstrndx_img.ehdr 0).e_shstrndx = 100
      ∧ img_valid shstrndx_img 64 (mulW amd64 2 56) = true
      ∧ img_valid shstrndx_img 0x2100 (mulW amd64 4 64) = true
      ∧ INDEX_BIS 0x2100 100 64 = 0x3A00
      ∧ img_valid shstrndx_img (INDEX_BIS 0x2100 100 64) (sizeof_Shdr amd64) = false
      ∧ img_get_Shdr amd64 shstrndx_img (INDEX_BIS 0x2100 100 64) = none
      ∧ locate_headers amd64 shstrndx_img scen1_di = Res.crash
      ∧ read_elf_debug_info (env_of shstrndx_img) amd64 scen1_di = Res.crash)
    ∧ (is_elf_object_file_by_DiImage amd64 shentsize_img false = some true
      ∧ (shentsize_img.ehdr 0).e_shstrndx = 3
      ∧ img_valid shentsize_img 64 (mulW amd64 2 56) = true
      ∧ img_valid shentsize_img 0x21F8 (mulW amd64 4 0) = true
      ∧ INDEX_BIS 0x21F8 3 0 = 0x21F8
      ∧ img_valid shentsize_img (INDEX_BIS 0x21F8 3 0) (sizeof_Shdr amd64) = false
      ∧ img_get_Shdr amd64 shentsize_img (INDEX_BIS 0x21F8 3 0) = none
      ∧ locate_headers amd64 shentsize_img scen1_di = Res.crash
      ∧ read_elf_debug_info (env_of shentsize_img) amd64 scen1_di = Res.crash) :=
  ⟨⟨by decide, by decide, by decide, by decide, by decide, by decide, by decide, rfl, rfl⟩,
    ⟨by decide, by decide, by decide, by decide, by decide, by decide, by decide, rfl, rfl⟩⟩

/-! ### C39 -/

/-- C39: `find_debug_file_ad_hoc` formats strings into `debugpath` that do not
fit the buffer.  For the object path `/d/` followed by a file name of 70
characters, the directory `objdir` is `/d`.  With `--extra-debuginfo-path=/x`
the buffer has `2 + 64 + 2 = 68` bytes, and the string `/x//d/aaa...`, of 76
characters, needs 77.  With `--debuginfo-server=h` the buffer has
`2 + 64 + 1 = 67` bytes, and the string `aaa... on h`, of 75 characters, needs
76.  The size of the buffer counts the directory of `objpath`, and the strings
hold the whole of `objpath` or its basename. -/
theorem C39_debugpath_overflow :
    (objdir_of long_objpath = cstr "/d"
      ∧ ad_hoc_debugpath_size env_extra long_objpath = 68
      ∧ ad_hoc_debugpath_strings env_extra long_objpath
          = [cstr "/x" ++ cstr "/" ++ long_objpath]
      ∧ (cstr "/x" ++ cstr "/" ++ long_objpath).length + 1 = 77
      ∧ ∃ s ∈ ad_hoc_debugpath_strings env_extra long_objpath,
          ad_hoc_debugpath_size env_extra long_objpath < s.length + 1)
    ∧ (ad_hoc_debugpath_size env_server long_objpath = 67
      ∧ basename_of long_objpath = List.replicate 70 'a'.toNat
      ∧ ad_hoc_debugpath_strings env_server long_objpath
          = [List.replicate 70 'a'.toNat ++ cstr " on " ++ cstr "h"]
      ∧ (List.replicate 70 'a'.toNat ++ cstr " on " ++ cstr "h").length + 1 = 76
      ∧ ∃ s ∈ ad_hoc_debugpath_strings env_server long_objpath,
          ad_hoc_debugpath_size env_server long_objpath < s.length + 1) :=
  ⟨⟨by decide, by decide, by decide, by decide, _, List.mem_singleton.2 rfl, by decide⟩,
    ⟨by decide, by decide, by decide, by decide, _, List.mem_singleton.2 rfl, by decide⟩⟩

/-! ### C40 -/

/-- On a 64-bit target the word size is `2^64`. -/
theorem wmod_of_wordsize_8 (t : Target) (hw : t.wordsize = 8) : t.wmod = 2 ^ 64 := by
  unfold Target.wmod Target.wbits
  rw [hw]

/-- A rounded size is less than `2^32`. -/
theorem roundup4_le (n : Nat) : roundup4 n ≤ 2 ^ 32 - 4 := by
  unfold roundup4
  omega

/-- On a 64-bit target, and when the sum does not wrap around, the offset of the
next note is the offset of the note plus `sizeof(Nhdr)` plus the rounded sizes of
the name and of the descriptor, a step of at least 12. -/
theorem note_next_eq (t : Target) (hw : t.wordsize = 8) (off : Nat) (note : ElfXX_Nhdr)
    (h : off + 2 ^ 33 + 4 < 2 ^ 64) :
    note_next t off note
      = off + (sizeof_Nhdr + roundup4 note.n_namesz + roundup4 note.n_descsz) := by
  have h1 := roundup4_le note.n_namesz
  have h2 := roundup4_le note.n_descsz
  unfold note_next addW
  rw [wmod_of_wordsize_8 t hw]
  unfold sizeof_Nhdr
  rw [Nat.mod_eq_of_lt (by omega : off + 12 < 2 ^ 64),
    Nat.mod_eq_of_lt (by omega : off + 12 + roundup4 note.n_namesz < 2 ^ 64),
    Nat.mod_eq_of_lt
      (by omega : off + 12 + roundup4 note.n_namesz + roundup4 note.n_descsz < 2 ^ 64)]
  omega

/-- One iteration of the loop over the notes. -/
theorem note_walk_succ (t : Target) (img : DiImage) (limit fuel off : Nat)
    (b : Option (List Nat)) :
    note_walk t img limit (fuel + 1) off b
      = if off < limit then
          match img_get_Nhdr img off with
          | none => none
          | some note =>
            match img_strcmp_c img (addW t off sizeof_Nhdr) (cstr "GNU") with
            | none => none
            | some c =>
              match (if c = 0 ∧ note.n_type = NT_GNU_BUILD_ID then
                       (desc_hex img (add64 (addW t off sizeof_Nhdr) (roundup4 note.n_namesz))
                          note.n_descsz 0).map some
                     else some b) with
              | none => none
              | some b1 => note_walk t img limit fuel (note_next t off note) b1
        else some b := by
  rfl

/-- When the offsets of the notes do not wrap around, the loop over the notes
ends after at most `ceil((limit - off) / 12)` notes. -/
theorem notes_visited_bound (t : Target) (img : DiImage) (limit : Nat) (hw : t.wordsize = 8)
    (hlim : limit + 2 ^ 33 + 4 ≤ 2 ^ 64) :
    ∀ fuel off, (limit - off + 11) / 12 < fuel →
      ∃ offs, notes_visited t img limit fuel off = some offs
        ∧ offs.length ≤ (limit - off + 11) / 12 := by
  intro fuel
  induction fuel with
  | zero => intro off h; omega
  | succ fuel ih =>
    intro off h
    unfold notes_visited
    by_cases hlt : off < limit
    · rw [if_pos hlt]
      cases hn : img_get_Nhdr img off with
      | none =>
        refine ⟨[off], rfl, ?_⟩
        simp only [List.length_singleton]
        omega
      | some note =>
        have hnext := note_next_eq t hw off note (by omega)
        have hstep : 12 ≤ sizeof_Nhdr + roundup4 note.n_namesz + roundup4 note.n_descsz := by
          unfold sizeof_Nhdr
          omega
        obtain ⟨offs, ho, hl⟩ := ih (note_next t off note) (by rw [hnext]; omega)
        refine ⟨off :: offs, ?_, ?_⟩
        · simp only [ho, Option.map_some']
        · simp only [List.length_cons]
          rw [hnext] at hl
          omega
    · rw [if_neg hlt]
      exact ⟨[], rfl, by simp⟩

/-- When the offsets of the notes do not wrap around, fuel beyond
`ceil((limit - off) / 12) + 1` is not used by the loop over the notes. -/
theorem note_walk_fuel (t : Target) (img : DiImage) (limit : Nat) (hw : t.wordsize = 8)
    (hlim : limit + 2 ^ 33 + 4 ≤ 2 ^ 64) :
    ∀ fuel off b, (limit - off + 11) / 12 < fuel → ∀ fuel1, fuel ≤ fuel1 →
      note_walk t img limit fuel1 off b = note_walk t img limit fuel off b := by
  intro fuel
  induction fuel with
  | zero => intro off b h; omega
  | succ fuel ih =>
    intro off b h fuel1 hf
    obtain ⟨f1, rfl⟩ : ∃ f1, fuel1 = f1 + 1 := ⟨fuel1 - 1, by omega⟩
    rw [note_walk_succ, note_walk_succ]
    by_cases hlt : off < limit
    · rw [if_pos hlt, if_pos hlt]
      cases hn : img_get_Nhdr img off with
      | none => rfl
      | some note =>
        have hnext := note_next_eq t hw off note (by omega)
        have hstep : 12 ≤ sizeof_Nhdr + roundup4 note.n_namesz + roundup4 note.n_descsz := by
          unfold sizeof_Nhdr
          omega
        dsimp only
        cases img_strcmp_c img (addW t off sizeof_Nhdr) (cstr "GNU") with
        | none => rfl
        | some c =>
          dsimp only
          cases (if c = 0 ∧ note.n_type = NT_GNU_BUILD_ID then
                   (desc_hex img (add64 (addW t off sizeof_Nhdr) (roundup4 note.n_namesz))
                      note.n_descsz 0).map some
                 else some b) with
          | none => rfl
          | some b1 =>
            dsimp only
            exact ih (note_next t off note) b1 (by rw [hnext]; omega) f1 (by omega)
    · rw [if_neg hlt, if_neg hlt]

/-- C40: on a 64-bit target, for every image and every segment or section of
notes at `p_offset` of `p_filesz` bytes with
`p_offset + p_filesz + 2^33 + 4 <= 2^64`, the walk over the notes ends: each
iteration increases `note_ioff` by
`sizeof(Nhdr) + roundup4(n_namesz) + roundup4(n_descsz)`, which is at least 12,
at most `ceil(p_filesz / 12)` notes are visited, and the result of the walk with
more fuel than that is its result with `ceil(p_filesz / 12) + 1`. -/
theorem C40_note_walk_terminates (t : Target) (img : DiImage) (p_offset p_filesz : Nat)
    (hw : t.wordsize = 8) (hend : p_offset + p_filesz + 2 ^ 33 + 4 ≤ 2 ^ 64) :
    addW t p_offset p_filesz = p_offset + p_filesz
    ∧ (∀ off note, off < addW t p_offset p_filesz →
        note_next t off note
            = off + (sizeof_Nhdr + roundup4 note.n_namesz + roundup4 note.n_descsz)
        ∧ 12 ≤ sizeof_Nhdr + roundup4 note.n_namesz + roundup4 note.n_descsz)
    ∧ (∃ offs, notes_visited t img (addW t p_offset p_filesz) ((p_filesz + 11) / 12 + 1)
            p_offset = some offs
        ∧ offs.length ≤ (p_filesz + 11) / 12)
    ∧ (∀ fuel b, (p_filesz + 11) / 12 + 1 ≤ fuel →
        note_walk t img (addW t p_offset p_filesz) fuel p_offset b
          = note_walk t img (addW t p_offset p_filesz) ((p_filesz + 11) / 12 + 1)
              p_offset b) := by
  have hlimit : addW t p_offset p_filesz = p_offset + p_filesz := by
    unfold addW
    rw [wmod_of_wordsize_8 t hw]
    exact Nat.mod_eq_of_lt (by omega)
  rw [hlimit]
  have hm : p_offset + p_filesz - p_offset = p_filesz := by omega
  refine ⟨rfl, ?_, ?_, ?_⟩
  · intro off note hoff
    refine ⟨note_next_eq t hw off note (by omega), ?_⟩
    unfold sizeof_Nhdr
    omega
  · have h := notes_visited_bound t img (p_offset + p_filesz) hw hend
      ((p_filesz + 11) / 12 + 1) p_offset (by rw [hm]; omega)
    rw [hm] at h
    exact h
  · intro fuel b hf
    exact note_walk_fuel t img (p_offset + p_filesz) hw hend ((p_filesz + 11) / 12 + 1)
      p_offset b (by rw [hm]; omega) fuel hf

/-- C40 (witness): on amd64 the segment of notes of the image
`debug_img [0xaa, 0xbb, 0xcc]`, 0x14 bytes at the offset 0x2800, holds one note:
the walk visits the offset 0x2800 and ends, within the bound
`ceil(0x14 / 12) = 2`. -/
theorem C40_witness :
    amd64.wordsize = 8
    ∧ notes_visited amd64 (debug_img [0xaa, 0xbb, 0xcc]) (addW amd64 0x2800 0x14)
        ((0x14 + 11) / 12 + 1) 0x2800 = some [0x2800]
    ∧ ∃ offs, notes_visited amd64 (debug_img [0xaa, 0xbb, 0xcc]) (addW amd64 0x2800 0x14)
          ((0x14 + 11) / 12 + 1) 0x2800 = some offs
        ∧ offs.length ≤ (0x14 + 11) / 12 :=
  ⟨rfl, by decide,
    (C40_note_walk_terminates amd64 (debug_img [0xaa, 0xbb, 0xcc]) 0x2800 0x14 rfl
      (by decide)).2.2.1⟩

/-- The word size of amd64 is `2^64`. -/
theorem amd64_wmod : amd64.wmod = 2 ^ 64 := wmod_of_wordsize_8 amd64 rfl

/-- The offsets `0x1000 + k * 2^33` modulo `2^64` lie more than `2^32` bytes
before the end of `wrap_img`, and are 0x1000 modulo `2^33`. -/
theorem wrap_offset_lt (k : Nat) :
    (0x1000 + k * 2 ^ 33) % 2 ^ 64 + 2 ^ 32 < 2 ^ 64 - 4
    ∧ (0x1000 + k * 2 ^ 33) % 2 ^ 64 % 2 ^ 33 = 0x1000 := by
  omega

/-- Every note header of `wrap_img` at an offset `0x1000 + k * 2^33` modulo
`2^64` can be read. -/
theorem wrap_img_nhdr (k : Nat) :
    img_get_Nhdr wrap_img ((0x1000 + k * 2 ^ 33) % 2 ^ 64)
      = some ⟨2 ^ 32 - 4, 2 ^ 32 - 8, 0⟩ := by
  have h := wrap_offset_lt k
  unfold img_get_Nhdr img_valid
  have hv : (0x1000 + k * 2 ^ 33) % 2 ^ 64 + sizeof_Nhdr ≤ wrap_img.size := by
    show (0x1000 + k * 2 ^ 33) % 2 ^ 64 + 12 ≤ 2 ^ 64 - 1
    omega
  rw [decide_eq_true hv]
  show some (if (0x1000 + k * 2 ^ 33) % 2 ^ 64 % 2 ^ 33 = 0x1000 then
      (⟨2 ^ 32 - 4, 2 ^ 32 - 8, 0⟩ : ElfXX_Nhdr) else ⟨0, 0, 0⟩) = _
  rw [if_pos h.2]

/-- In `wrap_img` the note after the one at `0x1000 + k * 2^33` modulo `2^64` is
at `0x1000 + (k + 1) * 2^33` modulo `2^64`: the step is `2^33`. -/
theorem wrap_img_next (k : Nat) :
    note_next amd64 ((0x1000 + k * 2 ^ 33) % 2 ^ 64) ⟨2 ^ 32 - 4, 2 ^ 32 - 8, 0⟩
      = (0x1000 + (k + 1) * 2 ^ 33) % 2 ^ 64 := by
  have h := (wrap_offset_lt k).1
  have r1 : roundup4 (2 ^ 32 - 4) = 2 ^ 32 - 4 := by decide
  have r2 : roundup4 (2 ^ 32 - 8) = 2 ^ 32 - 8 := by decide
  unfold note_next addW
  rw [amd64_wmod]
  dsimp only
  rw [r1, r2]
  unfold sizeof_Nhdr
  rw [Nat.mod_eq_of_lt (by omega : (0x1000 + k * 2 ^ 33) % 2 ^ 64 + 12 < 2 ^ 64),
    Nat.mod_eq_of_lt
      (by omega : (0x1000 + k * 2 ^ 33) % 2 ^ 64 + 12 + (2 ^ 32 - 4) < 2 ^ 64)]
  omega

/-- The name of every note of `wrap_img` is the empty string. -/
theorem wrap_img_strdup (k : Nat) :
    img_strdup wrap_img ((0x1000 + k * 2 ^ 33) % 2 ^ 64 + 12) = some [] := by
  have h := wrap_offset_lt k
  unfold img_strdup
  obtain ⟨n, hn⟩ : ∃ n, wrap_img.size - ((0x1000 + k * 2 ^ 33) % 2 ^ 64 + 12) = n + 1 := by
    refine ⟨2 ^ 64 - 1 - ((0x1000 + k * 2 ^ 33) % 2 ^ 64 + 12) - 1, ?_⟩
    show 2 ^ 64 - 1 - ((0x1000 + k * 2 ^ 33) % 2 ^ 64 + 12)
      = 2 ^ 64 - 1 - ((0x1000 + k * 2 ^ 33) % 2 ^ 64 + 12) - 1 + 1
    omega
  rw [hn]
  unfold img_strdup_aux img_get_UChar img_valid
  have hv : (0x1000 + k * 2 ^ 33) % 2 ^ 64 + 12 + 1 ≤ wrap_img.size := by
    show (0x1000 + k * 2 ^ 33) % 2 ^ 64 + 12 + 1 ≤ 2 ^ 64 - 1
    omega
  rw [decide_eq_true hv]
  have hb : wrap_img.byte ((0x1000 + k * 2 ^ 33) % 2 ^ 64 + 12) = 0 := by
    show (if ((0x1000 + k * 2 ^ 33) % 2 ^ 64 + 12) % 2 ^ 33 = 0x1000 then 0xFC
      else if ((0x1000 + k * 2 ^ 33) % 2 ^ 64 + 12) % 2 ^ 33 = 0x1004 then 0xF8
      else if 0x1000 < ((0x1000 + k * 2 ^ 33) % 2 ^ 64 + 12) % 2 ^ 33
          ∧ ((0x1000 + k * 2 ^ 33) % 2 ^ 64 + 12) % 2 ^ 33 < 0x1008 then 0xFF
      else 0) = 0
    have e : ((0x1000 + k * 2 ^ 33) % 2 ^ 64 + 12) % 2 ^ 33 = 0x100C := by omega
    rw [e]
    rfl
  simp only [if_true, hb]
  try rfl

/-- The loop over the notes of `wrap_img` from the offset 0x1000 visits more
notes than any number given. -/
theorem wrap_img_visited :
    ∀ fuel k, notes_visited amd64 wrap_img (2 ^ 64 - 4) fuel ((0x1000 + k * 2 ^ 33) % 2 ^ 64)
      = none := by
  intro fuel
  induction fuel with
  | zero => intro k; rfl
  | succ fuel ih =>
    intro k
    have h := (wrap_offset_lt k).1
    unfold notes_visited
    rw [if_pos (by omega), wrap_img_nhdr k]
    dsimp only
    rw [wrap_img_next k, ih (k + 1)]
    rfl

/-- The walk over the notes of `wrap_img` from the offset 0x1000 does not
end. -/
theorem wrap_img_walk :
    ∀ fuel k b, note_walk amd64 wrap_img (2 ^ 64 - 4) fuel ((0x1000 + k * 2 ^ 33) % 2 ^ 64) b
      = none := by
  intro fuel
  induction fuel with
  | zero => intro k b; rfl
  | succ fuel ih =>
    intro k b
    have h := (wrap_offset_lt k).1
    have hname : img_strcmp_c wrap_img (addW amd64 ((0x1000 + k * 2 ^ 33) % 2 ^ 64) sizeof_Nhdr)
        (cstr "GNU") = some (-1) := by
      have ha : addW amd64 ((0x1000 + k * 2 ^ 33) % 2 ^ 64) sizeof_Nhdr
          = (0x1000 + k * 2 ^ 33) % 2 ^ 64 + 12 := by
        unfold addW
        rw [amd64_wmod]
        unfold sizeof_Nhdr
        exact Nat.mod_eq_of_lt (by omega)
      unfold img_strcmp_c
      rw [ha, wrap_img_strdup k]
      rfl
    rw [note_walk_succ, if_pos (by omega), wrap_img_nhdr k]
    dsimp only
    rw [hname]
    dsimp only
    rw [if_neg (by decide)]
    dsimp only
    rw [wrap_img_next k]
    exact ih (k + 1) b

/-- The function `find_buildid` does not return when the walk over the notes of
the first program header of an image with one program header does not end. -/
theorem find_buildid_walk_none (t : Target) (img : DiImage) (rel_ok search_shdrs : Bool)
    (ehdr : ElfXX_Ehdr) (phdr : ElfXX_Phdr)
    (helf : is_elf_object_file_by_DiImage t img rel_ok = some true)
    (hehdr : img_get_Ehdr t img 0 = some ehdr) (hnum : ehdr.e_phnum = 1)
    (hphdr : img_get_Phdr t img (addW t ehdr.e_phoff (mulW t 0 ehdr.e_phentsize)) = some phdr)
    (htype : phdr.p_type = PT_NOTE)
    (hwalk : note_walk t img (addW t phdr.p_offset phdr.p_filesz) (img.size + 1)
      phdr.p_offset none = none) :
    find_buildid t img rel_ok search_shdrs = none := by
  unfold find_buildid
  rw [helf]
  dsimp only
  rw [hehdr]
  dsimp only
  rw [hnum]
  unfold forOpt
  dsimp only
  rw [hphdr]
  dsimp only
  rw [if_pos htype, hwalk]

/-- C40 (counterexample): on amd64, the segment of notes of `wrap_img` at the
offset 0x1000 with `p_filesz = 2^64 - 0x1004`, whose end offset `2^64 - 4` does
not overflow.  Every note header read at an offset `0x1000 + k * 2^33` modulo
`2^64` is inside the image, the step to the next note is `2^33` modulo `2^64`,
and after `2^31` notes the walk is back at the offset 0x1000: it visits more
notes than any number given, and `find_buildid` does not return. -/
theorem C40_counterexample :
    amd64.wordsize = 8
    ∧ wrap_phdr.p_offset + wrap_phdr.p_filesz < 2 ^ 64
    ∧ addW amd64 wrap_phdr.p_offset wrap_phdr.p_filesz = 2 ^ 64 - 4
    ∧ wrap_phdr.p_offset = 0x1000
    ∧ (∀ k, img_get_Nhdr wrap_img ((0x1000 + k * 2 ^ 33) % 2 ^ 64)
        = some ⟨2 ^ 32 - 4, 2 ^ 32 - 8, 0⟩)
    ∧ (∀ k, note_next amd64 ((0x1000 + k * 2 ^ 33) % 2 ^ 64) ⟨2 ^ 32 - 4, 2 ^ 32 - 8, 0⟩
        = (0x1000 + (k + 1) * 2 ^ 33) % 2 ^ 64)
    ∧ (0x1000 + 2 ^ 31 * 2 ^ 33) % 2 ^ 64 = 0x1000
    ∧ (∀ fuel, notes_visited amd64 wrap_img (addW amd64 wrap_phdr.p_offset wrap_phdr.p_filesz)
        fuel wrap_phdr.p_offset = none)
    ∧ (∀ fuel b, note_walk amd64 wrap_img (addW amd64 wrap_phdr.p_offset wrap_phdr.p_filesz)
        fuel wrap_phdr.p_offset b = none)
    ∧ (∀ rel_ok search_shdrs, find_buildid amd64 wrap_img rel_ok search_shdrs = none) := by
  have e : wrap_phdr.p_offset = (0x1000 + 0 * 2 ^ 33) % 2 ^ 64 := by decide
  have hl : addW amd64 wrap_phdr.p_offset wrap_phdr.p_filesz = 2 ^ 64 - 4 := by decide
  have hwalk : ∀ fuel b, note_walk amd64 wrap_img
      (addW amd64 wrap_phdr.p_offset wrap_phdr.p_filesz) fuel wrap_phdr.p_offset b = none := by
    intro fuel b
    rw [hl, e]
    exact wrap_img_walk fuel 0 b
  refine ⟨rfl, by decide, hl, rfl, wrap_img_nhdr, wrap_img_next, by decide, ?_, hwalk, ?_⟩
  · intro fuel
    rw [hl, e]
    exact wrap_img_visited fuel 0
  · intro rel_ok search_shdrs
    have helf : is_elf_object_file_by_DiImage amd64 wrap_img rel_ok = some true := by
      cases rel_ok <;> decide
    have hehdr : img_get_Ehdr amd64 wrap_img 0 = some (mkEhdr 1 2) := by
      unfold img_get_Ehdr
      rw [if_pos (by decide)]
      rfl
    have hphdr : img_get_Phdr amd64 wrap_img
        (addW amd64 (mkEhdr 1 2).e_phoff (mulW amd64 0 (mkEhdr 1 2).e_phentsize))
        = some wrap_phdr := by decide
    exact find_buildid_walk_none amd64 wrap_img rel_ok search_shdrs (mkEhdr 1 2) wrap_phdr
      helf hehdr rfl hphdr rfl (hwalk (wrap_img.size + 1) none)

/-! ### C35 -/

end Readelf
